import Mathlib

/-!
Viking `gpspoint.c`: the tagged-attribute GPS text codec.

A shallow embedding of `src/gpspoint.c` (escaper, decoder, tokenizer, tag parser,
record builder, serializer) and of `get_heading_from_trackpoint` of
`src/viktrwlayer_geotag.c`, and theorems about them.

Conventions of the embedding

* A character is its byte code, a `Nat` (`'\\'` is 92, `'"'` is 34, `'='` is 61,
  `'#'` is 35, line feed 10, carriage return 13, space 32, NUL 0).
* A `const gchar *` that points into a NUL-terminated buffer is the list of the
  bytes from the pointer up to (not including) the terminating NUL;
  `p[i]` is `cget p i`, `p + n` is `p.drop n`, and the NULL pointer is `none`.
* `guint16` arithmetic is written with an explicit `% 65536`.
* A C loop whose induction variable is changed by the body is a function that
  is recursive on a fuel argument and returns `none` when the fuel runs out.
* What comes from outside `gpspoint.c` (the `gdouble` values, the C and GLib
  library functions, the constructors of the other Viking modules) is a field
  of the environment `Env`; `sample_env` is a concrete one for sample inputs.
* The destination store is the list of the registered waypoints and the list
  of the registered tracks and routes, in registration order.
-/

namespace Gpspoint

/-! ## Characters and C strings -/

/-- The byte `str[i]` of a NUL-terminated buffer: its bytes, then the NUL. -/
def cget (str : List Nat) (i : Nat) : Nat := str.getD i 0

/-- The C library `strlen`: number of bytes before the first NUL. -/
def strlen (str : List Nat) : Nat := (str.takeWhile (fun c => c != 0)).length

/-- The content of a `g_malloc` cell that was never written (not a byte value). -/
def INDETERMINATE : Nat := 256

/-! ## The escaper `slashdup` (gpspoint.c 109-130) -/

/-- First loop of `slashdup`: one iteration,
`if ( str[i] == '\\' || str[i] == '"' ) need_bs_count++`. -/
def slashdup_count_step (str : List Nat) (need_bs_count : Nat) (i : Nat) : Nat :=
  if cget str i = 92 ∨ cget str i = 34 then need_bs_count + 1 else need_bs_count

/-- The value of `need_bs_count` after the first loop of `slashdup`. -/
def slashdup_need_bs_count (str : List Nat) : Nat :=
  (List.range (strlen str)).foldl (slashdup_count_step str) 0

/-- Second loop of `slashdup`: one iteration. `rv` holds the cells `rv[0..j)`
written so far, so that `rv[j] = c` appends `c`. -/
def slashdup_step (str : List Nat) (rv : List Nat) (i : Nat) : List Nat :=
  let rv1 := if cget str i = 92 ∨ cget str i = 34 then rv ++ [92] else rv
  if cget str i = 10 ∨ cget str i = 13 then rv1 ++ [32] else rv1 ++ [cget str i]

/-- The call `slashdup ( str )`: the escaped copy of the C string `str`. -/
def slashdup (str : List Nat) : List Nat :=
  (List.range (strlen str)).foldl (slashdup_step str) []

/-! ## The decoder `deslashndup` (gpspoint.c 132-164) -/

/-- First loop of `deslashndup`,
`for ( i = 0, bs_count = 0; i < len; i++ ) if ( str[i] == '\\' ) { bs_count++; i++; }`,
from the state `(i, bs_count)`; both are `guint16`. Returns the final
`(i, bs_count)`, or `none` when the fuel runs out. -/
def deslash_count (str : List Nat) (len : Nat) : Nat → Nat → Nat → Option (Nat × Nat)
  | 0, _, _ => none
  | fuel + 1, i, bs_count =>
    if i < len then
      if cget str i = 92 then
        deslash_count str len fuel ((i + 1 + 1) % 65536) ((bs_count + 1) % 65536)
      else
        deslash_count str len fuel ((i + 1) % 65536) bs_count
    else some (i, bs_count)

/-- Second loop of `deslashndup`,
`for ( i = 0, j = 0; i < len && j < new_len; i++ )`, from the state
`(i, backslash, rv)` where `rv` holds the cells `rv[0..j)` written so far. -/
def deslash_copy (str : List Nat) (len new_len : Nat) :
    Nat → Nat → Bool → List Nat → List Nat
  | 0, _, _, rv => rv
  | fuel + 1, i, backslash, rv =>
    if i < len ∧ rv.length < new_len then
      if cget str i = 92 ∧ backslash = false then
        deslash_copy str len new_len fuel (i + 1) true rv
      else
        deslash_copy str len new_len fuel (i + 1) false (rv ++ [cget str i])
    else rv

/-- The call `deslashndup ( str, len )`. The outer `Option` is `none` when the first
loop does not terminate (its `guint16` counter wraps around); the inner one is
`none` for the NULL result. The list is the content of `rv[0..new_len)`; a
cell the second loop did not write is `INDETERMINATE`. -/
def deslashndup (str : List Nat) (len0 : Nat) : Option (Option (List Nat)) :=
  let len := len0 % 65536
  if len < 1 then some none
  else
    match deslash_count str len (len + 1) 0 0 with
    | none => none
    | some (i, bs_count0) =>
      let bs_count :=
        if cget str (i - 1) = 92 ∧ (len = 1 ∨ cget str (i - 2) ≠ 92) then
          (bs_count0 + 65535) % 65536
        else bs_count0
      let new_len := (len + 65536 - bs_count) % 65536
      let rv := deslash_copy str len new_len (len + 1) 0 false []
      some (some (rv ++ List.replicate (new_len - rv.length) INDETERMINATE))

/-! ## Constants and the parse accumulator (gpspoint.c 62-102) -/

/-- The size of `line_buffer`: `#define VIKING_LINE_SIZE 4096`. -/
def VIKING_LINE_SIZE : Nat := 4096

def GPSPOINT_TYPE_NONE : Nat := 0
def GPSPOINT_TYPE_WAYPOINT : Nat := 1
def GPSPOINT_TYPE_TRACKPOINT : Nat := 2
def GPSPOINT_TYPE_ROUTEPOINT : Nat := 3
def GPSPOINT_TYPE_TRACK : Nat := 4
def GPSPOINT_TYPE_TRACK_END : Nat := 5
def GPSPOINT_TYPE_ROUTE : Nat := 6
def GPSPOINT_TYPE_ROUTE_END : Nat := 7

/-- The constant `WP_IMAGE_DIRECTION_REF_TRUE`, the first enumerator of
`VikWaypointImageDirectionRef`. -/
def WP_IMAGE_DIRECTION_REF_TRUE : Int := 0

/-- The `struct LatLon` over the type `D` of `gdouble` values. -/
structure LatLon (D : Type) where
  lat : D
  lon : D
  deriving DecidableEq, Repr

/-- A `VikTrackpoint`, the fields the codec reads or writes. -/
structure Trackpoint (D : Type) where
  name : Option (List Nat)
  coord : LatLon D
  newsegment : Bool
  timestamp : D
  altitude : D
  speed : D
  course : D
  nsats : Int
  fix_mode : Int
  hdop : D
  vdop : D
  pdop : D
  deriving DecidableEq, Repr

/-- A `VikWaypoint`, the fields the codec reads or writes. The coordinate is
kept as the `struct LatLon` that `vik_coord_load_from_latlon` is given and
`vik_coord_to_latlon` gives back. -/
structure Waypoint (D : Type) where
  name : Option (List Nat)
  coord : LatLon D
  visible : Bool
  altitude : D
  timestamp : D
  comment : Option (List Nat)
  description : Option (List Nat)
  source : Option (List Nat)
  type : Option (List Nat)
  image : Option (List Nat)
  image_direction : D
  image_direction_ref : Int
  symbol : Option (List Nat)
  deriving DecidableEq, Repr

/-- A `VikTrack` (track or route), the fields the codec reads or writes;
`color` is the `GdkColor` triple red, green, blue. -/
structure Track (D : Type) where
  name : Option (List Nat)
  visible : Bool
  is_route : Bool
  comment : Option (List Nat)
  description : Option (List Nat)
  source : Option (List Nat)
  type : Option (List Nat)
  has_color : Bool
  color : Nat × Nat × Nat
  draw_name_mode : Int
  max_number_dist_labels : Int
  trackpoints : List (Trackpoint D)
  deriving DecidableEq, Repr

/-- What the codec uses from outside `gpspoint.c`: the `gdouble` values with
`NAN` and `isnan`, the C and GLib library functions, and the constructors and
helpers of the other Viking modules. -/
structure Env (D : Type) where
  NAN : D
  isnan : D → Bool
  isnan_NAN : isnan NAN = true
  /-- The call `g_ascii_strtod ( value, NULL )` on the C string at `value`. -/
  g_ascii_strtod : List Nat → D
  /-- The call `atoi ( value )` on the C string at `value`. -/
  atoi : List Nat → Int
  /-- The result of `gdk_color_parse`: the colour when the text parses, `none` otherwise. -/
  gdk_color_parse : List Nat → Option (Nat × Nat × Nat)
  /-- The call `util_make_absolute_filename ( name, dirpath )` for the `dirpath` of the call. -/
  util_make_absolute_filename : List Nat → Option (List Nat)
  /-- The result of `vik_waypoint_new ()`. -/
  vik_waypoint_new : Waypoint D
  /-- The result of `vik_track_new ()`. -/
  vik_track_new : Track D
  /-- The result of `vik_trackpoint_new ()`. -/
  vik_trackpoint_new : Trackpoint D
  /-- The text that `a_coords_dtostr_buffer ( d, buffer )` leaves in the buffer. -/
  a_coords_dtostr : D → List Nat
  /-- The text made by `util_formatd ( "%.2f", d )`. -/
  util_formatd_2f : D → List Nat
  /-- The text that `fprintf` writes for `%d`. -/
  fmt_d : Int → List Nat
  /-- The text made by `g_utf8_strdown ( str, -1 )`. -/
  g_utf8_strdown : List Nat → List Nat
  /-- The relative file name that `a_gpspoint_write_waypoint` computes for an
  image: `g_strdup ( file_GetRelativeFilename ( dirpath, image ) )` when
  `a_vik_get_file_ref_format()` is `VIK_FILE_REF_FORMAT_RELATIVE` and `dirpath`
  is not NULL, `none` (NULL) otherwise. -/
  relative_image : List Nat → Option (List Nat)

/-- The file-scope `line_*` variables. -/
structure Acc (D : Type) where
  line_type : Nat
  line_latlon : LatLon D
  line_name : Option (List Nat)
  line_comment : Option (List Nat)
  line_description : Option (List Nat)
  line_source : Option (List Nat)
  line_xtype : Option (List Nat)
  line_color : Option (List Nat)
  line_name_label : Int
  line_dist_label : Int
  line_image : Option (List Nat)
  line_symbol : Option (List Nat)
  line_image_direction : D
  line_image_direction_ref : Int
  line_newsegment : Bool
  line_timestamp : D
  line_altitude : D
  line_visible : Bool
  line_extended : Bool
  line_speed : D
  line_course : D
  line_sat : Int
  line_fix : Int
  line_hdop : D
  line_vdop : D
  line_pdop : D
  deriving DecidableEq, Repr

/-- The values the `line_*` variables are set to at the end of every line
(gpspoint.c 353-395), which are also their static initialisers;
`line_latlon` is not among them and keeps its value. -/
def Acc.reset {D : Type} (env : Env D) (acc : Acc D) : Acc D :=
  { line_type := GPSPOINT_TYPE_NONE
    line_latlon := acc.line_latlon
    line_name := none
    line_comment := none
    line_description := none
    line_source := none
    line_xtype := none
    line_color := none
    line_name_label := 0
    line_dist_label := 0
    line_image := none
    line_symbol := none
    line_image_direction := env.NAN
    line_image_direction_ref := WP_IMAGE_DIRECTION_REF_TRUE
    line_newsegment := false
    line_timestamp := env.NAN
    line_altitude := env.NAN
    line_visible := true
    line_extended := false
    line_speed := env.NAN
    line_course := env.NAN
    line_sat := 0
    line_fix := 0
    line_hdop := env.NAN
    line_vdop := env.NAN
    line_pdop := env.NAN }

/-! ## C library functions on characters and strings -/

/-- The function `isspace` in the C locale: space, `\t`, `\n`, `\v`, `\f`, `\r`. -/
def isspace (c : Nat) : Bool := c = 32 || (9 ≤ c && c ≤ 13)

/-- The function `tolower` in the C locale. -/
def tolower (c : Nat) : Nat := if 65 ≤ c ∧ c ≤ 90 then c + 32 else c

/-- The test `strncasecmp ( s1, s2, n ) == 0`. -/
def strncasecmp_eq : List Nat → List Nat → Nat → Bool
  | _, _, 0 => true
  | s1, s2, n + 1 =>
    if tolower (cget s1 0) ≠ tolower (cget s2 0) then false
    else if cget s1 0 = 0 then true
    else strncasecmp_eq s1.tail s2.tail n

/-- The test `strncmp ( s1, s2, n ) == 0`. -/
def strncmp_eq : List Nat → List Nat → Nat → Bool
  | _, _, 0 => true
  | s1, s2, n + 1 =>
    if cget s1 0 ≠ cget s2 0 then false
    else if cget s1 0 = 0 then true
    else strncmp_eq s1.tail s2.tail n

/-- The call `g_strndup ( str, n )`: the first `n` bytes of the C string `str`. -/
def g_strndup (str : List Nat) (n : Nat) : List Nat :=
  (str.takeWhile (fun c => c != 0)).take n

/-- The string literal "type". -/
def STR_type : List Nat := [116, 121, 112, 101]

/-- The string literal "name". -/
def STR_name : List Nat := [110, 97, 109, 101]

/-- The string literal "comment". -/
def STR_comment : List Nat := [99, 111, 109, 109, 101, 110, 116]

/-- The string literal "description". -/
def STR_description : List Nat := [100, 101, 115, 99, 114, 105, 112, 116, 105, 111, 110]

/-- The string literal "source". -/
def STR_source : List Nat := [115, 111, 117, 114, 99, 101]

/-- The string literal "xtype". -/
def STR_xtype : List Nat := [120, 116, 121, 112, 101]

/-- The string literal "color". -/
def STR_color : List Nat := [99, 111, 108, 111, 114]

/-- The string literal "draw_name_mode". -/
def STR_draw_name_mode : List Nat := [100, 114, 97, 119, 95, 110, 97, 109, 101, 95, 109, 111, 100, 101]

/-- The string literal "number_dist_labels". -/
def STR_number_dist_labels : List Nat := [110, 117, 109, 98, 101, 114, 95, 100, 105, 115, 116, 95, 108, 97, 98, 101, 108, 115]

/-- The string literal "image". -/
def STR_image : List Nat := [105, 109, 97, 103, 101]

/-- The string literal "image_direction". -/
def STR_image_direction : List Nat := [105, 109, 97, 103, 101, 95, 100, 105, 114, 101, 99, 116, 105, 111, 110]

/-- The string literal "image_direction_ref". -/
def STR_image_direction_ref : List Nat := [105, 109, 97, 103, 101, 95, 100, 105, 114, 101, 99, 116, 105, 111, 110, 95, 114, 101, 102]

/-- The string literal "latitude". -/
def STR_latitude : List Nat := [108, 97, 116, 105, 116, 117, 100, 101]

/-- The string literal "longitude". -/
def STR_longitude : List Nat := [108, 111, 110, 103, 105, 116, 117, 100, 101]

/-- The string literal "altitude". -/
def STR_altitude : List Nat := [97, 108, 116, 105, 116, 117, 100, 101]

/-- The string literal "visible". -/
def STR_visible : List Nat := [118, 105, 115, 105, 98, 108, 101]

/-- The string literal "symbol". -/
def STR_symbol : List Nat := [115, 121, 109, 98, 111, 108]

/-- The string literal "unixtime". -/
def STR_unixtime : List Nat := [117, 110, 105, 120, 116, 105, 109, 101]

/-- The string literal "newsegment". -/
def STR_newsegment : List Nat := [110, 101, 119, 115, 101, 103, 109, 101, 110, 116]

/-- The string literal "extended". -/
def STR_extended : List Nat := [101, 120, 116, 101, 110, 100, 101, 100]

/-- The string literal "speed". -/
def STR_speed : List Nat := [115, 112, 101, 101, 100]

/-- The string literal "course". -/
def STR_course : List Nat := [99, 111, 117, 114, 115, 101]

/-- The string literal "sat". -/
def STR_sat : List Nat := [115, 97, 116]

/-- The string literal "fix". -/
def STR_fix : List Nat := [102, 105, 120]

/-- The string literal "hdop". -/
def STR_hdop : List Nat := [104, 100, 111, 112]

/-- The string literal "vdop". -/
def STR_vdop : List Nat := [118, 100, 111, 112]

/-- The string literal "pdop". -/
def STR_pdop : List Nat := [112, 100, 111, 112]

/-- The string literal "track". -/
def STR_track : List Nat := [116, 114, 97, 99, 107]

/-- The string literal "trackend". -/
def STR_trackend : List Nat := [116, 114, 97, 99, 107, 101, 110, 100]

/-- The string literal "trackpoint". -/
def STR_trackpoint : List Nat := [116, 114, 97, 99, 107, 112, 111, 105, 110, 116]

/-- The string literal "waypoint". -/
def STR_waypoint : List Nat := [119, 97, 121, 112, 111, 105, 110, 116]

/-- The string literal "route". -/
def STR_route : List Nat := [114, 111, 117, 116, 101]

/-- The string literal "routeend". -/
def STR_routeend : List Nat := [114, 111, 117, 116, 101, 101, 110, 100]

/-- The string literal "routepoint". -/
def STR_routepoint : List Nat := [114, 111, 117, 116, 101, 112, 111, 105, 110, 116]

/-- The string literal "~EndLayerData". -/
def STR_EndLayerData : List Nat := [126, 69, 110, 100, 76, 97, 121, 101, 114, 68, 97, 116, 97]

/-- The string literal "UNK". -/
def STR_UNK : List Nat := [85, 78, 75]

/-! ## The key dispatcher `gpspoint_process_key_and_value` (gpspoint.c 459-597) -/

/-- The test `key_len == n && strncasecmp( key, lit, key_len ) == 0`. -/
def key_is (key : List Nat) (key_len : Nat) (n : Nat) (lit : List Nat) : Bool :=
  key_len = n && strncasecmp_eq key lit key_len

/-- The body of the `type` branch for a non-NULL value: the new `line_type`. -/
def type_of_value (value : List Nat) (value_len : Nat) : Nat :=
  if key_is value value_len 5 STR_track then GPSPOINT_TYPE_TRACK
  else if key_is value value_len 8 STR_trackend then GPSPOINT_TYPE_TRACK_END
  else if key_is value value_len 10 STR_trackpoint then GPSPOINT_TYPE_TRACKPOINT
  else if key_is value value_len 8 STR_waypoint then GPSPOINT_TYPE_WAYPOINT
  else if key_is value value_len 5 STR_route then GPSPOINT_TYPE_ROUTE
  else if key_is value value_len 8 STR_routeend then GPSPOINT_TYPE_ROUTE_END
  else if key_is value value_len 10 STR_routepoint then GPSPOINT_TYPE_ROUTEPOINT
  else GPSPOINT_TYPE_NONE

/-- The function `gpspoint_process_key_and_value ( key, key_len, value, value_len )`
as a transformer of the `line_*` variables; `value` is `none` for NULL.
The result is `none` when a call of `deslashndup` does not return. -/
def gpspoint_process_key_and_value {D : Type} (env : Env D) (acc : Acc D) (key : List Nat)
    (key_len : Nat) (value : Option (List Nat)) (value_len : Nat) : Option (Acc D) :=
  if key_is key key_len 4 STR_type then
    match value with
    | none => some { acc with line_type := GPSPOINT_TYPE_NONE }
    | some v => some { acc with line_type := type_of_value v value_len }
  else
    match value with
    | none => some acc
    | some v =>
      if key_is key key_len 4 STR_name then
        if acc.line_name = none then
          (deslashndup v value_len).map (fun r => { acc with line_name := r })
        else some acc
      else if key_is key key_len 7 STR_comment then
        if acc.line_comment = none then
          (deslashndup v value_len).map (fun r => { acc with line_comment := r })
        else some acc
      else if key_is key key_len 11 STR_description then
        if acc.line_description = none then
          (deslashndup v value_len).map (fun r => { acc with line_description := r })
        else some acc
      else if key_is key key_len 6 STR_source then
        if acc.line_source = none then
          (deslashndup v value_len).map (fun r => { acc with line_source := r })
        else some acc
      else if key_is key key_len 5 STR_xtype then
        if acc.line_xtype = none then
          (deslashndup v value_len).map (fun r => { acc with line_xtype := r })
        else some acc
      else if key_is key key_len 5 STR_color then
        if acc.line_color = none then
          (deslashndup v value_len).map (fun r => { acc with line_color := r })
        else some acc
      else if key_is key key_len 14 STR_draw_name_mode then
        some { acc with line_name_label := env.atoi v }
      else if key_is key key_len 18 STR_number_dist_labels then
        some { acc with line_dist_label := env.atoi v }
      else if key_is key key_len 5 STR_image then
        if acc.line_image = none then
          (deslashndup v value_len).map (fun r => { acc with line_image := r })
        else some acc
      else if key_is key key_len 15 STR_image_direction then
        some { acc with line_image_direction := env.g_ascii_strtod v }
      else if key_is key key_len 19 STR_image_direction_ref then
        some { acc with line_image_direction_ref := env.atoi v }
      else if key_is key key_len 8 STR_latitude then
        some { acc with line_latlon := { acc.line_latlon with lat := env.g_ascii_strtod v } }
      else if key_is key key_len 9 STR_longitude then
        some { acc with line_latlon := { acc.line_latlon with lon := env.g_ascii_strtod v } }
      else if key_is key key_len 8 STR_altitude then
        some { acc with line_altitude := env.g_ascii_strtod v }
      else if key_is key key_len 7 STR_visible ∧ cget v 0 ≠ 121 ∧ cget v 0 ≠ 89 ∧
          cget v 0 ≠ 116 ∧ cget v 0 ≠ 84 then
        some { acc with line_visible := false }
      else if key_is key key_len 6 STR_symbol then
        some { acc with line_symbol := some (g_strndup v value_len) }
      else if key_is key key_len 8 STR_unixtime then
        some { acc with line_timestamp := env.g_ascii_strtod v }
      else if key_is key key_len 10 STR_newsegment then
        some { acc with line_newsegment := true }
      else if key_is key key_len 8 STR_extended then
        some { acc with line_extended := true }
      else if key_is key key_len 5 STR_speed then
        some { acc with line_speed := env.g_ascii_strtod v }
      else if key_is key key_len 6 STR_course then
        some { acc with line_course := env.g_ascii_strtod v }
      else if key_is key key_len 3 STR_sat then
        some { acc with line_sat := env.atoi v }
      else if key_is key key_len 3 STR_fix then
        some { acc with line_fix := env.atoi v }
      else if key_is key key_len 4 STR_hdop then
        some { acc with line_hdop := env.g_ascii_strtod v }
      else if key_is key key_len 4 STR_vdop then
        some { acc with line_vdop := env.g_ascii_strtod v }
      else if key_is key key_len 4 STR_pdop then
        some { acc with line_pdop := env.g_ascii_strtod v }
      else some acc

/-! ## The tag parser `gpspoint_process_tag` (gpspoint.c 412-454) -/

/-- The loop `while (++key_end - tag < len) if (*key_end == '=') break;` from
the offset `key_end - tag`; the result is the final offset. -/
def key_end_loop (tag : List Nat) (len : Nat) : Nat → Nat → Option Nat
  | 0, _ => none
  | fuel + 1, key_end =>
    if key_end + 1 < len then
      if cget tag (key_end + 1) = 61 then some (key_end + 1)
      else key_end_loop tag len fuel (key_end + 1)
    else some (key_end + 1)

/-- The function `gpspoint_process_tag ( tag, len )` as a transformer of the
`line_*` variables. Pointers into the token are offsets from `tag`. -/
def gpspoint_process_tag {D : Type} (env : Env D) (acc : Acc D) (tag : List Nat) (len : Nat) :
    Option (Acc D) :=
  match key_end_loop tag len (len + 1) 0 with
  | none => none
  | some key_end =>
    if key_end = len then some acc
    else if key_end = len + 1 then some acc
    else
      let value_start := key_end + 1
      if cget tag value_start = 34 then
        let value_start := value_start + 1
        if cget tag value_start = 34 then
          gpspoint_process_key_and_value env acc tag key_end none 0
        else if cget tag (len - 1) = 34 then
          let value_end := len - 1
          if value_end < value_start then some acc
          else
            gpspoint_process_key_and_value env acc tag key_end (some (tag.drop value_start))
              (value_end - value_start)
        else some acc
      else
        let value_end := len
        if value_end < value_start then some acc
        else
          gpspoint_process_key_and_value env acc tag key_end (some (tag.drop value_start))
            (value_end - value_start)

/-! ## The tokenizer loop of `a_gpspoint_read_file` (gpspoint.c 207-241) -/

/-- The loop `while (*tag_start != '\0' && isspace(*tag_start)) tag_start++;`. -/
def skip_space : List Nat → List Nat
  | [] => []
  | c :: cs => if c ≠ 0 ∧ isspace c = true then skip_space cs else c :: cs

/-- The loop `while (*tag_end != '\0' && (!isspace(*tag_end) || inside_quote))`
from the pointer `tag_end`; the result is the final `tag_end`, `inside_quote`
and `backslash`. -/
def scan_tag : List Nat → Bool → Bool → List Nat × Bool × Bool
  | [], inside_quote, backslash => ([], inside_quote, backslash)
  | c :: cs, inside_quote, backslash =>
    if c ≠ 0 ∧ (isspace c = false ∨ inside_quote = true) then
      if cget cs 0 = 92 ∧ backslash = false then scan_tag cs inside_quote true
      else if backslash = true then scan_tag cs inside_quote false
      else if cget cs 0 = 34 then scan_tag cs (!inside_quote) backslash
      else scan_tag cs inside_quote backslash
    else (c :: cs, inside_quote, backslash)

/-- The loop `for (;;)` over the tags of one line, from the pointer
`tag_start`; the result is the `line_*` variables after the last tag. -/
def tag_loop {D : Type} (env : Env D) :
    Nat → List Nat → Bool → Bool → Acc D → Option (Acc D)
  | 0, _, _, _, _ => none
  | fuel + 1, tag_start, inside_quote, backslash, acc =>
    let tag_start := skip_space tag_start
    if cget tag_start 0 = 0 then some acc
    else if cget tag_start 0 = 35 then some acc
    else
      let inside_quote := if cget tag_start 0 = 34 then !inside_quote else inside_quote
      match scan_tag tag_start inside_quote backslash with
      | (tag_end, inside_quote, backslash) =>
        let len := tag_start.length - tag_end.length
        match gpspoint_process_tag env acc tag_start len with
        | none => none
        | some acc =>
          if cget tag_end 0 = 0 then some acc
          else tag_loop env fuel (tag_end.drop 1) inside_quote backslash acc

/-! ## The record builder of `a_gpspoint_read_file` (gpspoint.c 167-402) -/

/-- The state of a read: the `line_*` variables, `current_track` (the index
of the pointed-to track in `tracks`, `none` for NULL), the waypoints and the
tracks and routes registered in the destination store, in registration order,
and `have_read_something`. -/
structure RState (D : Type) where
  acc : Acc D
  current_track : Option Nat
  waypoints : List (Waypoint D)
  tracks : List (Track D)
  have_read_something : Bool
  deriving DecidableEq, Repr

/-- Apply `f` to the element of index `k`. -/
def update_at {α : Type} (f : α → α) : Nat → List α → List α
  | _, [] => []
  | 0, x :: xs => f x :: xs
  | k + 1, x :: xs => x :: update_at f k xs

/-- The function `trackpoints_end ()` (gpspoint.c 167-174). -/
def trackpoints_end {D : Type} (st : RState D) : RState D :=
  match st.current_track with
  | none => st
  | some k =>
    match st.tracks[k]? with
    | none => st
    | some trk =>
      if trk.trackpoints.isEmpty = false then
        { st with
          tracks := update_at (fun t => { t with trackpoints := t.trackpoints.reverse }) k
            st.tracks
          current_track := none }
      else st

/-- The waypoint that the waypoint branch builds from the `line_*` variables
(gpspoint.c 250-285), field by field: `vik_waypoint_new ()`, then the
assignments of `visible`, `altitude`, `timestamp` and the coordinate, the
registration under `line_name` by `vik_trw_layer_filein_add_waypoint`, and the
setters that are called only for a non-NULL text (for a `line_image_direction`
that is not NAN). -/
def build_waypoint {D : Type} (env : Env D) (acc : Acc D) : Waypoint D :=
  { name := acc.line_name
    coord := acc.line_latlon
    visible := acc.line_visible
    altitude := acc.line_altitude
    timestamp := acc.line_timestamp
    comment := if acc.line_comment ≠ none then acc.line_comment else env.vik_waypoint_new.comment
    description :=
      if acc.line_description ≠ none then acc.line_description
      else env.vik_waypoint_new.description
    source := if acc.line_source ≠ none then acc.line_source else env.vik_waypoint_new.source
    type := if acc.line_xtype ≠ none then acc.line_xtype else env.vik_waypoint_new.type
    image :=
      match acc.line_image with
      | none => env.vik_waypoint_new.image
      | some line_image =>
        match env.util_make_absolute_filename line_image with
        | some fn => some fn
        | none => some line_image
    image_direction :=
      if env.isnan acc.line_image_direction = false then acc.line_image_direction
      else env.vik_waypoint_new.image_direction
    image_direction_ref :=
      if env.isnan acc.line_image_direction = false then acc.line_image_direction_ref
      else env.vik_waypoint_new.image_direction_ref
    symbol := if acc.line_symbol ≠ none then acc.line_symbol else env.vik_waypoint_new.symbol }

/-- The track or route that the track branch builds from the `line_*`
variables (gpspoint.c 292-324), field by field: `vik_track_new ()`, the
substitution of "UNK" for a NULL `line_name`, the assignments of `visible`,
`is_route`, the label modes and the empty point list, the setters that are
called only for a non-NULL text, the colour when `gdk_color_parse` accepts
`line_color`, and the registration under `line_name` by
`vik_trw_layer_filein_add_track`. -/
def build_track {D : Type} (env : Env D) (acc : Acc D) : Track D :=
  { name := if acc.line_name = none then some STR_UNK else acc.line_name
    visible := acc.line_visible
    is_route := decide (acc.line_type = GPSPOINT_TYPE_ROUTE)
    comment := if acc.line_comment ≠ none then acc.line_comment else env.vik_track_new.comment
    description :=
      if acc.line_description ≠ none then acc.line_description else env.vik_track_new.description
    source := if acc.line_source ≠ none then acc.line_source else env.vik_track_new.source
    type := if acc.line_xtype ≠ none then acc.line_xtype else env.vik_track_new.type
    has_color :=
      match acc.line_color with
      | none => env.vik_track_new.has_color
      | some line_color =>
        match env.gdk_color_parse line_color with
        | some _ => true
        | none => env.vik_track_new.has_color
    color :=
      match acc.line_color with
      | none => env.vik_track_new.color
      | some line_color =>
        match env.gdk_color_parse line_color with
        | some color => color
        | none => env.vik_track_new.color
    draw_name_mode := acc.line_name_label
    max_number_dist_labels := acc.line_dist_label
    trackpoints := [] }

/-- The point that the point branch builds from the `line_*` variables
(gpspoint.c 333-347), field by field: `vik_trackpoint_new ()`, the assignments
of the coordinate, `newsegment`, `timestamp`, `altitude` and the name, and
those of the extended fields when `line_extended` is set. -/
def build_trackpoint {D : Type} (env : Env D) (acc : Acc D) : Trackpoint D :=
  { name := acc.line_name
    coord := acc.line_latlon
    newsegment := acc.line_newsegment
    timestamp := acc.line_timestamp
    altitude := acc.line_altitude
    speed := if acc.line_extended = true then acc.line_speed else env.vik_trackpoint_new.speed
    course := if acc.line_extended = true then acc.line_course else env.vik_trackpoint_new.course
    nsats := if acc.line_extended = true then acc.line_sat else env.vik_trackpoint_new.nsats
    fix_mode := if acc.line_extended = true then acc.line_fix else env.vik_trackpoint_new.fix_mode
    hdop := if acc.line_extended = true then acc.line_hdop else env.vik_trackpoint_new.hdop
    vdop := if acc.line_extended = true then acc.line_vdop else env.vik_trackpoint_new.vdop
    pdop := if acc.line_extended = true then acc.line_pdop else env.vik_trackpoint_new.pdop }

/-- The statements of gpspoint.c 242-351 that follow the tokenizer loop: what
the line does to the open track and to the destination store. -/
def process_record {D : Type} (env : Env D) (st : RState D) : RState D :=
  let st :=
    if st.acc.line_type = GPSPOINT_TYPE_TRACK_END ∨ st.acc.line_type = GPSPOINT_TYPE_ROUTE_END
    then trackpoints_end st else st
  if st.acc.line_type = GPSPOINT_TYPE_WAYPOINT ∧ st.acc.line_name ≠ none then
    let st := trackpoints_end st
    { st with
      have_read_something := true
      waypoints := st.waypoints ++ [build_waypoint env st.acc] }
  else if (st.acc.line_type = GPSPOINT_TYPE_TRACK ∨ st.acc.line_type = GPSPOINT_TYPE_ROUTE) ∧
      st.acc.line_name ≠ none then
    let st := trackpoints_end st
    { st with
      have_read_something := true
      tracks := st.tracks ++ [build_track env st.acc]
      current_track := some st.tracks.length }
  else if (st.acc.line_type = GPSPOINT_TYPE_TRACKPOINT ∨
      st.acc.line_type = GPSPOINT_TYPE_ROUTEPOINT) ∧ st.current_track ≠ none then
    match st.current_track with
    | none => st
    | some k =>
      { st with
        have_read_something := true
        tracks := update_at
          (fun t => { t with trackpoints := build_trackpoint env st.acc :: t.trackpoints }) k
          st.tracks }
  else st

/-- One iteration of the `while (fgets(...))` loop after the sentinel test, on
the line left in `line_buffer`: the tokenizer loop, the record branches and the
reset of the `line_*` variables. -/
def process_line {D : Type} (env : Env D) (line : List Nat) (st : RState D) :
    Option (RState D) :=
  match tag_loop env (line.length + 1) line false false st.acc with
  | none => none
  | some acc =>
    let st := process_record env { st with acc := acc }
    some { st with acc := Acc.reset env st.acc }

/-- The successive results of `fgets(line_buffer, VIKING_LINE_SIZE, f)` on a
file with the content `input`: each holds the bytes up to and including the
next line feed, at most `VIKING_LINE_SIZE - 1` of them; `cur` is the part of
the current result read so far. -/
def fgets_chunks : List Nat → List Nat → List (List Nat)
  | [], cur => if cur = [] then [] else [cur]
  | c :: cs, cur =>
    if c = 10 ∨ cur.length + 1 = VIKING_LINE_SIZE - 1 then (cur ++ [c]) :: fgets_chunks cs []
    else fgets_chunks cs (cur ++ [c])

/-- The C string left in `line_buffer` by
`line_buffer[strlen(line_buffer)-1] = '\0'`: the string without its last
character. (For a result of `fgets` that starts with a NUL byte the source
writes in front of the buffer; the line is then taken as empty.) -/
def chop (buf : List Nat) : List Nat := (buf.takeWhile (fun c => c != 0)).dropLast

/-- The loop `while (fgets(line_buffer, VIKING_LINE_SIZE, f))` over the
successive results of `fgets`. -/
def read_lines {D : Type} (env : Env D) : List (List Nat) → RState D → Option (RState D)
  | [], st => some st
  | buf :: rest, st =>
    let line_buffer := chop buf
    if strlen line_buffer ≥ 13 ∧ strncmp_eq line_buffer STR_EndLayerData 13 = true then
      some { st with have_read_something := true }
    else
      match process_line env line_buffer st with
      | none => none
      | some st => read_lines env rest st

/-- The state at the start of `a_gpspoint_read_file`: the `line_*` variables
hold their initial values, `line_latlon` whatever an earlier read left in it;
no track is open; the destination store holds `waypoints` and `tracks`. -/
def init_state {D : Type} (env : Env D) (latlon : LatLon D) (waypoints : List (Waypoint D))
    (tracks : List (Track D)) : RState D :=
  { acc := Acc.reset env
      { line_type := 0, line_latlon := latlon, line_name := none, line_comment := none,
        line_description := none, line_source := none, line_xtype := none, line_color := none,
        line_name_label := 0, line_dist_label := 0, line_image := none, line_symbol := none,
        line_image_direction := env.NAN, line_image_direction_ref := 0,
        line_newsegment := false, line_timestamp := env.NAN, line_altitude := env.NAN,
        line_visible := true, line_extended := false, line_speed := env.NAN,
        line_course := env.NAN, line_sat := 0, line_fix := 0, line_hdop := env.NAN,
        line_vdop := env.NAN, line_pdop := env.NAN }
    current_track := none
    waypoints := waypoints
    tracks := tracks
    have_read_something := false }

/-- The function `a_gpspoint_read_file ( trw, f, dirpath )` on a file with the
content `input`: the final state, whose `have_read_something` is the returned
value; `none` when the call does not return. -/
def a_gpspoint_read_file {D : Type} (env : Env D) (latlon : LatLon D)
    (waypoints : List (Waypoint D)) (tracks : List (Track D)) (input : List Nat) :
    Option (RState D) :=
  (read_lines env (fgets_chunks input []) (init_state env latlon waypoints tracks)).map
    trackpoints_end

/-! ## A concrete environment for evaluating the codec on sample inputs -/

/-- The numeral characters `+ - . 0-9 e E`. -/
def is_numeral_char (c : Nat) : Bool :=
  (48 ≤ c && c ≤ 57) || c = 43 || c = 45 || c = 46 || c = 101 || c = 69

/-- The value of a run of decimal digits. -/
def digits_value (v : List Nat) : Int :=
  ((v.takeWhile (fun c => 48 ≤ c && c ≤ 57)).foldl (fun n c => 10 * n + (c - 48)) 0 : Nat)

/-- The decimal digits of a number below `10 ^ fuel`, most significant first. -/
def nat_digits : Nat → Nat → List Nat
  | 0, _ => []
  | fuel + 1, n => if n < 10 then [48 + n] else nat_digits fuel (n / 10) ++ [48 + n % 10]

/-- A concrete environment: a `gdouble` is represented by the numeral text it
stands for (`none` is NAN; a text that starts with no numeral character is
read as `0`, the text `nan` as NAN), `atoi` and `%d` read and write decimal
digits, no colour text parses, no file name is made absolute or relative,
lower case is that of the ASCII letters, and a new waypoint, track or point
has every optional field unset. -/
def sample_env : Env (Option (List Nat)) where
  NAN := none
  isnan := fun d => d.isNone
  isnan_NAN := rfl
  g_ascii_strtod := fun v =>
    if (v.take 3).map tolower = [110, 97, 110] then none
    else if v.takeWhile is_numeral_char = [] then some [48]
    else some (v.takeWhile is_numeral_char)
  atoi := fun v => if cget v 0 = 45 then - digits_value (v.drop 1) else digits_value v
  gdk_color_parse := fun _ => none
  util_make_absolute_filename := fun _ => none
  vik_waypoint_new :=
    { name := none, coord := { lat := none, lon := none }, visible := true, altitude := none,
      timestamp := none, comment := none, description := none, source := none, type := none,
      image := none, image_direction := none, image_direction_ref := 0, symbol := none }
  vik_track_new :=
    { name := none, visible := true, is_route := false, comment := none, description := none,
      source := none, type := none, has_color := false, color := (0, 0, 0), draw_name_mode := 0,
      max_number_dist_labels := 0, trackpoints := [] }
  vik_trackpoint_new :=
    { name := none, coord := { lat := none, lon := none }, newsegment := false,
      timestamp := none, altitude := none, speed := none, course := none, nsats := 0,
      fix_mode := 0, hdop := none, vdop := none, pdop := none }
  a_coords_dtostr := fun d => d.getD [110, 97, 110]
  util_formatd_2f := fun d => d.getD [110, 97, 110]
  fmt_d := fun n =>
    if n < 0 then 45 :: nat_digits 20 n.natAbs else nat_digits 20 n.natAbs
  g_utf8_strdown := fun s => s.map tolower
  relative_image := fun _ => none

/-! ## Reference functions used to state the properties -/

/-- The escape of one character, in the words of the serializer's contract:
a backslash before a backslash or a double quote, a space for LF and CR. -/
def esc_char (c : Nat) : List Nat :=
  if c = 92 ∨ c = 34 then [92, c] else if c = 10 ∨ c = 13 then [32] else [c]

/-- The escape of a text, character by character. -/
def escaped : List Nat → List Nat
  | [] => []
  | c :: cs => esc_char c ++ escaped cs

/-- The text with every line feed and carriage return replaced by one space. -/
def crlf_to_space (s : List Nat) : List Nat :=
  s.map (fun c => if c = 10 ∨ c = 13 then 32 else c)

/-- Number of backslashes and double quotes of a text. -/
def count_special : List Nat → Nat
  | [] => 0
  | c :: cs => (if c = 92 ∨ c = 34 then 1 else 0) + count_special cs

/-- The keys of the text fields that `gpspoint_process_key_and_value` decodes
with `deslashndup` and the writer escapes with `slashdup`. -/
def text_keys : List (List Nat) := [STR_name, STR_comment, STR_description, STR_source, STR_xtype]

/-- A character that is neither NUL, whitespace, a backslash nor a double quote. -/
def plain_char (c : Nat) : Bool := c != 0 && !isspace c && c != 92 && c != 34

/-- The rest of a line after a token: nothing, or a whitespace character
followed by anything. -/
def token_boundary (rest : List Nat) : Prop := rest = [] ∨ ∃ w r, rest = w :: r ∧ isspace w = true

/-- The tokenizer loop after a token that is followed by `rest`: it ends at
the end of the line and goes on behind the character that ended the token. -/
def tag_loop_after {D : Type} (env : Env D) (fuel : Nat) (rest : List Nat) (acc : Acc D) :
    Option (Acc D) :=
  match rest with
  | [] => some acc
  | _ :: r => tag_loop env fuel r false false acc

/-- The keys that `gpspoint_process_key_and_value` recognises, each with the
length it is tested against. -/
def key_table : List (Nat × List Nat) :=
  [(4, STR_type), (4, STR_name), (7, STR_comment), (11, STR_description), (6, STR_source),
   (5, STR_xtype), (5, STR_color), (14, STR_draw_name_mode), (18, STR_number_dist_labels),
   (5, STR_image), (15, STR_image_direction), (19, STR_image_direction_ref), (8, STR_latitude),
   (9, STR_longitude), (8, STR_altitude), (7, STR_visible), (6, STR_symbol), (8, STR_unixtime),
   (10, STR_newsegment), (8, STR_extended), (5, STR_speed), (6, STR_course), (3, STR_sat),
   (3, STR_fix), (4, STR_hdop), (4, STR_vdop), (4, STR_pdop)]

/-- The tokens of a line: the pairs `(tag_start, len)` that the tokenizer loop
hands to `gpspoint_process_tag`, in order. The recursion is that of
`tag_loop`. -/
def line_tokens : Nat → List Nat → Bool → Bool → List (List Nat × Nat)
  | 0, _, _, _ => []
  | fuel + 1, tag_start, inside_quote, backslash =>
    let tag_start := skip_space tag_start
    if cget tag_start 0 = 0 then []
    else if cget tag_start 0 = 35 then []
    else
      let inside_quote := if cget tag_start 0 = 34 then !inside_quote else inside_quote
      match scan_tag tag_start inside_quote backslash with
      | (tag_end, inside_quote, backslash) =>
        (tag_start, tag_start.length - tag_end.length) ::
          (if cget tag_end 0 = 0 then []
           else line_tokens fuel (tag_end.drop 1) inside_quote backslash)

/-- The tokens of a whole line. -/
def tokens_of_line (line : List Nat) : List (List Nat × Nat) :=
  line_tokens (line.length + 1) line false false

/-- The token `(tag, len)` has the key `lit` (of length `n`): the tag parser
finds the end of its key before the end of the token and the key dispatcher's
test for `lit` succeeds on the key. -/
def token_has_key (t : List Nat × Nat) (n : Nat) (lit : List Nat) : Bool :=
  match key_end_loop t.1 t.2 (t.2 + 1) 0 with
  | none => false
  | some key_end => key_end != t.2 && key_end != t.2 + 1 && key_is t.1 key_end n lit

/-- No token of the line has the key `lit`. -/
def line_lacks_key (line : List Nat) (n : Nat) (lit : List Nat) : Prop :=
  ∀ t ∈ tokens_of_line line, token_has_key t n lit = false

/-- The `line_*` variables after the tokenizer loop has run over `line`. -/
def line_acc {D : Type} (env : Env D) (line : List Nat) (acc : Acc D) : Option (Acc D) :=
  tag_loop env (line.length + 1) line false false acc

/-- The index in `key_table` of the first key that the dispatcher's test
accepts for `key`, from the index `i` on. -/
def find_key (key : List Nat) (key_len : Nat) : List (Nat × List Nat) → Nat → Option Nat
  | [], _ => none
  | e :: es, i => if key_is key key_len e.1 e.2 = true then some i else find_key key key_len es (i + 1)

/-- The index in `key_table` of the key of a token, if it is a recognised key. -/
def key_index (key : List Nat) (key_len : Nat) : Option Nat := find_key key key_len key_table 0

/-- What the branch of the key of index `i` in `key_table` does for a non-NULL
value: the table form of the `else if` chain of
`gpspoint_process_key_and_value`. -/
def key_action {D : Type} (env : Env D) (i : Nat) (acc : Acc D) (v : List Nat) (value_len : Nat) :
    Option (Acc D) :=
  match i with
  | 0 => some { acc with line_type := type_of_value v value_len }
  | 1 =>
    if acc.line_name = none then (deslashndup v value_len).map (fun r => { acc with line_name := r })
    else some acc
  | 2 =>
    if acc.line_comment = none then (deslashndup v value_len).map (fun r => { acc with line_comment := r })
    else some acc
  | 3 =>
    if acc.line_description = none then (deslashndup v value_len).map (fun r => { acc with line_description := r })
    else some acc
  | 4 =>
    if acc.line_source = none then (deslashndup v value_len).map (fun r => { acc with line_source := r })
    else some acc
  | 5 =>
    if acc.line_xtype = none then (deslashndup v value_len).map (fun r => { acc with line_xtype := r })
    else some acc
  | 6 =>
    if acc.line_color = none then (deslashndup v value_len).map (fun r => { acc with line_color := r })
    else some acc
  | 7 => some { acc with line_name_label := env.atoi v }
  | 8 => some { acc with line_dist_label := env.atoi v }
  | 9 =>
    if acc.line_image = none then (deslashndup v value_len).map (fun r => { acc with line_image := r })
    else some acc
  | 10 => some { acc with line_image_direction := env.g_ascii_strtod v }
  | 11 => some { acc with line_image_direction_ref := env.atoi v }
  | 12 => some { acc with line_latlon := { acc.line_latlon with lat := env.g_ascii_strtod v } }
  | 13 => some { acc with line_latlon := { acc.line_latlon with lon := env.g_ascii_strtod v } }
  | 14 => some { acc with line_altitude := env.g_ascii_strtod v }
  | 15 =>
    if cget v 0 ≠ 121 ∧ cget v 0 ≠ 89 ∧ cget v 0 ≠ 116 ∧ cget v 0 ≠ 84 then
      some { acc with line_visible := false }
    else some acc
  | 16 => some { acc with line_symbol := some (g_strndup v value_len) }
  | 17 => some { acc with line_timestamp := env.g_ascii_strtod v }
  | 18 => some { acc with line_newsegment := true }
  | 19 => some { acc with line_extended := true }
  | 20 => some { acc with line_speed := env.g_ascii_strtod v }
  | 21 => some { acc with line_course := env.g_ascii_strtod v }
  | 22 => some { acc with line_sat := env.atoi v }
  | 23 => some { acc with line_fix := env.atoi v }
  | 24 => some { acc with line_hdop := env.g_ascii_strtod v }
  | 25 => some { acc with line_vdop := env.g_ascii_strtod v }
  | 26 => some { acc with line_pdop := env.g_ascii_strtod v }
  | _ => some acc


/-- The fragment `key="value"`. -/
def quoted_field (key value : List Nat) : List Nat := key ++ 61 :: 34 :: (value ++ [34])

/-! ## The serializer (gpspoint.c 604-836) -/

/-- The string literal "waypointlist". -/
def STR_waypointlist : List Nat := [119, 97, 121, 112, 111, 105, 110, 116, 108, 105, 115, 116]

/-- The string literal "waypointlistend". -/
def STR_waypointlistend : List Nat :=
  [119, 97, 121, 112, 111, 105, 110, 116, 108, 105, 115, 116, 101, 110, 100]

/-- The string literal "yes". -/
def STR_yes : List Nat := [121, 101, 115]

/-- The string literal "n". -/
def STR_n : List Nat := [110]

/-- The text of the tokens that follow the first one on a written line: each
entry stands for one `fprintf ( f, " key=..." )` statement, `none` when the
statement's condition is false; each written token is preceded by a space. -/
def tail_text : List (Option (List Nat)) → List Nat
  | [] => []
  | none :: t => tail_text t
  | some tok :: t => 32 :: (tok ++ tail_text t)

/-- The entry of a conditional `fprintf`. -/
def opt (c : Bool) (tok : List Nat) : Option (List Nat) := if c then some tok else none

/-- The entry of `if ( text ) { tmp = slashdup(text); fprintf ( f, " key=\"%s\"", tmp ); }`. -/
def opt_text (key : List Nat) (text : Option (List Nat)) : Option (List Nat) :=
  text.map (fun t => quoted_field key (slashdup t))

/-- A hexadecimal digit, in lower case. -/
def hex_digit (n : Nat) : Nat := if n < 10 then 48 + n else 87 + n

/-- The text that `fprintf` writes for `%.2x` and the high byte `c / 256` of
a `guint16` channel `c` of a `GdkColor`. -/
def fmt_02x_high_byte (c : Nat) : List Nat :=
  [hex_digit (c % 65536 / 256 / 16), hex_digit (c % 65536 / 256 % 16)]

/-- The token `color=#%.2x%.2x%.2x` of a track header. -/
def color_token (color : Nat × Nat × Nat) : List Nat :=
  STR_color ++ 61 :: 35 ::
    (fmt_02x_high_byte color.1 ++ fmt_02x_high_byte color.2.1 ++ fmt_02x_high_byte color.2.2)

/-- The entries of the image of a waypoint (gpspoint.c 660-677): the relative
file name when there is one, the escaped image file name otherwise. -/
def image_entry {D : Type} (env : Env D) (image : Option (List Nat)) : Option (List Nat) :=
  image.map (fun img =>
    quoted_field STR_image
      (match env.relative_image img with
       | some tmp_image => tmp_image
       | none => slashdup img))

/-- The tokens that `a_gpspoint_write_waypoint` writes behind
`type="waypoint"` (gpspoint.c 623-695), one entry for each `fprintf`. -/
def waypoint_fields {D : Type} (env : Env D) (wp : Waypoint D) (name : List Nat) :
    List (Option (List Nat)) :=
  [some (quoted_field STR_latitude (env.a_coords_dtostr wp.coord.lat)),
   some (quoted_field STR_longitude (env.a_coords_dtostr wp.coord.lon)),
   some (quoted_field STR_name (slashdup name)),
   opt (!env.isnan wp.altitude) (quoted_field STR_altitude (env.a_coords_dtostr wp.altitude)),
   opt (!env.isnan wp.timestamp) (quoted_field STR_unixtime (env.a_coords_dtostr wp.timestamp)),
   opt_text STR_comment wp.comment,
   opt_text STR_description wp.description,
   opt_text STR_source wp.source,
   opt_text STR_xtype wp.type,
   image_entry env wp.image,
   opt (!env.isnan wp.image_direction)
     (quoted_field STR_image_direction (env.util_formatd_2f wp.image_direction)),
   opt (!env.isnan wp.image_direction)
     (quoted_field STR_image_direction_ref (env.fmt_d wp.image_direction_ref)),
   wp.symbol.map (fun symbol => quoted_field STR_symbol (env.g_utf8_strdown symbol)),
   opt (!wp.visible) (quoted_field STR_visible STR_n)]

/-- The function `a_gpspoint_write_waypoint ( id, wp, wc )`: the text written
to the file. -/
def a_gpspoint_write_waypoint {D : Type} (env : Env D) (wp : Waypoint D) : List Nat :=
  match wp.name with
  | none => []
  | some name =>
    quoted_field STR_type STR_waypoint ++ tail_text (waypoint_fields env wp name) ++ [10]

/-- The condition of the extended block of `a_gpspoint_write_trackpoint`:
`!isnan(tp->speed) || !isnan(tp->course) || tp->nsats > 0`. -/
def has_extended {D : Type} (env : Env D) (tp : Trackpoint D) : Bool :=
  !env.isnan tp.speed || !env.isnan tp.course || decide (tp.nsats > 0)

/-- The tokens that `a_gpspoint_write_trackpoint` writes behind the `type`
token (gpspoint.c 711-763), one entry for each `fprintf`. -/
def trackpoint_fields {D : Type} (env : Env D) (tp : Trackpoint D) : List (Option (List Nat)) :=
  [some (quoted_field STR_latitude (env.a_coords_dtostr tp.coord.lat)),
   some (quoted_field STR_longitude (env.a_coords_dtostr tp.coord.lon)),
   opt_text STR_name tp.name,
   opt (!env.isnan tp.altitude) (quoted_field STR_altitude (env.a_coords_dtostr tp.altitude)),
   opt (!env.isnan tp.timestamp) (quoted_field STR_unixtime (env.a_coords_dtostr tp.timestamp)),
   opt tp.newsegment (quoted_field STR_newsegment STR_yes),
   opt (has_extended env tp) (quoted_field STR_extended STR_yes),
   opt (has_extended env tp && !env.isnan tp.speed)
     (quoted_field STR_speed (env.a_coords_dtostr tp.speed)),
   opt (has_extended env tp && !env.isnan tp.course)
     (quoted_field STR_course (env.a_coords_dtostr tp.course)),
   opt (has_extended env tp && decide (tp.nsats > 0)) (quoted_field STR_sat (env.fmt_d tp.nsats)),
   opt (has_extended env tp && decide (tp.fix_mode > 0))
     (quoted_field STR_fix (env.fmt_d tp.fix_mode)),
   opt (has_extended env tp && !env.isnan tp.hdop)
     (quoted_field STR_hdop (env.a_coords_dtostr tp.hdop)),
   opt (has_extended env tp && !env.isnan tp.vdop)
     (quoted_field STR_vdop (env.a_coords_dtostr tp.vdop)),
   opt (has_extended env tp && !env.isnan tp.pdop)
     (quoted_field STR_pdop (env.a_coords_dtostr tp.pdop))]

/-- The function `a_gpspoint_write_trackpoint ( tp, write_info )`: the text
written to the file. -/
def a_gpspoint_write_trackpoint {D : Type} (env : Env D) (is_route : Bool) (tp : Trackpoint D) :
    List Nat :=
  quoted_field STR_type (if is_route then STR_routepoint else STR_trackpoint) ++
    tail_text (trackpoint_fields env tp) ++ [10]

/-- The tokens that `a_gpspoint_write_track` writes behind the `type` token of
the header line (gpspoint.c 777-816), one entry for each `fprintf`. -/
def track_fields {D : Type} (env : Env D) (trk : Track D) (name : List Nat) :
    List (Option (List Nat)) :=
  [some (quoted_field STR_name (slashdup name)),
   opt_text STR_comment trk.comment,
   opt_text STR_description trk.description,
   opt_text STR_source trk.source,
   opt_text STR_xtype trk.type,
   opt trk.has_color (color_token trk.color),
   opt (decide (trk.draw_name_mode > 0))
     (quoted_field STR_draw_name_mode (env.fmt_d trk.draw_name_mode)),
   opt (decide (trk.max_number_dist_labels > 0))
     (quoted_field STR_number_dist_labels (env.fmt_d trk.max_number_dist_labels)),
   opt (!trk.visible) (quoted_field STR_visible STR_n)]

/-- The header line of `a_gpspoint_write_track` (gpspoint.c 776-817). -/
def write_track_header {D : Type} (env : Env D) (trk : Track D) (name : List Nat) : List Nat :=
  quoted_field STR_type (if trk.is_route then STR_route else STR_track) ++
    tail_text (track_fields env trk name) ++ [10]

/-- The function `a_gpspoint_write_track ( id, trk, f )`: the text written to
the file. -/
def a_gpspoint_write_track {D : Type} (env : Env D) (trk : Track D) : List Nat :=
  match trk.name with
  | none => []
  | some name =>
    write_track_header env trk name ++
      (trk.trackpoints.map (a_gpspoint_write_trackpoint env trk.is_route)).flatten ++
      (quoted_field STR_type (if trk.is_route then STR_routeend else STR_trackend) ++ [10])

/-- The function `a_gpspoint_write_file ( trw, f, dirpath )`: the text written
to the file, for the waypoints, the tracks and the routes of the layer in the
order in which `g_hash_table_foreach` visits them. -/
def a_gpspoint_write_file {D : Type} (env : Env D) (waypoints : List (Waypoint D))
    (tracks routes : List (Track D)) : List Nat :=
  (quoted_field STR_type STR_waypointlist ++ [10]) ++
    (waypoints.map (a_gpspoint_write_waypoint env)).flatten ++
    (quoted_field STR_type STR_waypointlistend ++ [10]) ++
    (tracks.map (a_gpspoint_write_track env)).flatten ++
    (routes.map (a_gpspoint_write_track env)).flatten

/-! ## A reader that keeps the points of a track in input order

The record builder of the source, except that a point is put at the end of the
point list of the open track and that closing a track leaves its list as it
is. It is the reference for the order of the points. -/

/-- Closing the open track, without reordering: the counterpart of
`trackpoints_end`. -/
def trackpoints_end_in_order {D : Type} (st : RState D) : RState D :=
  match st.current_track with
  | none => st
  | some k =>
    match st.tracks[k]? with
    | none => st
    | some trk => if trk.trackpoints.isEmpty = false then { st with current_track := none } else st

/-- The counterpart of `process_record`: a point goes to the end of the list. -/
def process_record_in_order {D : Type} (env : Env D) (st : RState D) : RState D :=
  let st :=
    if st.acc.line_type = GPSPOINT_TYPE_TRACK_END ∨ st.acc.line_type = GPSPOINT_TYPE_ROUTE_END
    then trackpoints_end_in_order st else st
  if st.acc.line_type = GPSPOINT_TYPE_WAYPOINT ∧ st.acc.line_name ≠ none then
    let st := trackpoints_end_in_order st
    { st with
      have_read_something := true
      waypoints := st.waypoints ++ [build_waypoint env st.acc] }
  else if (st.acc.line_type = GPSPOINT_TYPE_TRACK ∨ st.acc.line_type = GPSPOINT_TYPE_ROUTE) ∧
      st.acc.line_name ≠ none then
    let st := trackpoints_end_in_order st
    { st with
      have_read_something := true
      tracks := st.tracks ++ [build_track env st.acc]
      current_track := some st.tracks.length }
  else if (st.acc.line_type = GPSPOINT_TYPE_TRACKPOINT ∨
      st.acc.line_type = GPSPOINT_TYPE_ROUTEPOINT) ∧ st.current_track ≠ none then
    match st.current_track with
    | none => st
    | some k =>
      { st with
        have_read_something := true
        tracks := update_at
          (fun t => { t with trackpoints := t.trackpoints ++ [build_trackpoint env st.acc] }) k
          st.tracks }
  else st

/-- The counterpart of `process_line`. -/
def process_line_in_order {D : Type} (env : Env D) (line : List Nat) (st : RState D) :
    Option (RState D) :=
  match tag_loop env (line.length + 1) line false false st.acc with
  | none => none
  | some acc =>
    let st := process_record_in_order env { st with acc := acc }
    some { st with acc := Acc.reset env st.acc }

/-- The counterpart of `read_lines`. -/
def read_lines_in_order {D : Type} (env : Env D) :
    List (List Nat) → RState D → Option (RState D)
  | [], st => some st
  | buf :: rest, st =>
    let line_buffer := chop buf
    if strlen line_buffer ≥ 13 ∧ strncmp_eq line_buffer STR_EndLayerData 13 = true then
      some { st with have_read_something := true }
    else
      match process_line_in_order env line_buffer st with
      | none => none
      | some st => read_lines_in_order env rest st

/-- The counterpart of `a_gpspoint_read_file`. -/
def read_file_in_order {D : Type} (env : Env D) (latlon : LatLon D)
    (waypoints : List (Waypoint D)) (tracks : List (Track D)) (input : List Nat) :
    Option (RState D) :=
  (read_lines_in_order env (fgets_chunks input []) (init_state env latlon waypoints tracks)).map
    trackpoints_end_in_order

/-- The track with its point list reversed. -/
def reverse_points {D : Type} (t : Track D) : Track D :=
  { t with trackpoints := t.trackpoints.reverse }

/-- The relation between a state of the source's reader and the state of the
in-order reader after the same lines: they agree except that the point list
of the open track is kept in reverse by the source. -/
def in_order_rel {D : Type} (c r : RState D) : Prop :=
  c.acc = r.acc ∧ c.current_track = r.current_track ∧ c.waypoints = r.waypoints ∧
    c.have_read_something = r.have_read_something ∧
    c.tracks =
      (match r.current_track with
       | none => r.tracks
       | some k => update_at reverse_points k r.tracks)

/-- The record type of a line: `line_type` after the tokenizer loop. -/
def line_type_of {D : Type} (env : Env D) (line : List Nat) (acc : Acc D) : Option Nat :=
  (line_acc env line acc).map (fun a => a.line_type)

/-- The name of a line: `line_name` after the tokenizer loop. -/
def line_name_of {D : Type} (env : Env D) (line : List Nat) (acc : Acc D) :
    Option (Option (List Nat)) :=
  (line_acc env line acc).map (fun a => a.line_name)

/-- The state at the start of a read into an empty store, in the concrete
environment. -/
def sample_init : RState (Option (List Nat)) := init_state sample_env ⟨none, none⟩ [] []

/-- The line `type="trackpoint" latitude="1" longitude="2"`. -/
def sample_point_line : List Nat := [116, 121, 112, 101, 61, 34, 116, 114, 97, 99, 107, 112, 111, 105, 110, 116, 34, 32, 108, 97, 116, 105, 116, 117, 100, 101, 61, 34, 49, 34, 32, 108, 111, 110, 103, 105, 116, 117, 100, 101, 61, 34, 50, 34]

/-- The line `type="waypoint" latitude="1" longitude="2"`, without a name. -/
def sample_nameless_waypoint_line : List Nat := [116, 121, 112, 101, 61, 34, 119, 97, 121, 112, 111, 105, 110, 116, 34, 32, 108, 97, 116, 105, 116, 117, 100, 101, 61, 34, 49, 34, 32, 108, 111, 110, 103, 105, 116, 117, 100, 101, 61, 34, 50, 34]

/-- The line `type="waypoint" latitude="48.0" longitude="2.0" name="A" visible="n"`. -/
def sample_waypoint_line : List Nat := [116, 121, 112, 101, 61, 34, 119, 97, 121, 112, 111, 105, 110, 116, 34, 32, 108, 97, 116, 105, 116, 117, 100, 101, 61, 34, 52, 56, 46, 48, 34, 32, 108, 111, 110, 103, 105, 116, 117, 100, 101, 61, 34, 50, 46, 48, 34, 32, 110, 97, 109, 101, 61, 34, 65, 34, 32, 118, 105, 115, 105, 98, 108, 101, 61, 34, 110, 34]

/-- The file of the one line `type="waypoint" name="\"` (the value of `name`
is a single backslash). -/
def lone_backslash_name_file : List Nat := [116, 121, 112, 101, 61, 34, 119, 97, 121, 112, 111, 105, 110, 116, 34, 32, 110, 97, 109, 101, 61, 34, 92, 34, 10]

/-- The file of the three lines `type="track" name="T"`, `type="trackend"` and
`type="trackpoint" latitude="1" longitude="2"`. -/
def point_after_trackend_file : List Nat := [116, 121, 112, 101, 61, 34, 116, 114, 97, 99, 107, 34, 32, 110, 97, 109, 101, 61, 34, 84, 34, 10, 116, 121, 112, 101, 61, 34, 116, 114, 97, 99, 107, 101, 110, 100, 34, 10, 116, 121, 112, 101, 61, 34, 116, 114, 97, 99, 107, 112, 111, 105, 110, 116, 34, 32, 108, 97, 116, 105, 116, 117, 100, 101, 61, 34, 49, 34, 32, 108, 111, 110, 103, 105, 116, 117, 100, 101, 61, 34, 50, 34, 10]

/-- The first two lines of `point_after_trackend_file`. -/
def empty_track_file : List Nat := [116, 121, 112, 101, 61, 34, 116, 114, 97, 99, 107, 34, 32, 110, 97, 109, 101, 61, 34, 84, 34, 10, 116, 121, 112, 101, 61, 34, 116, 114, 97, 99, 107, 101, 110, 100, 34, 10]

/-- A text with a space, a tab, `=`, `#`, a backslash, a double quote and a line feed. -/
def sample_text : List Nat := [97, 32, 9, 61, 35, 92, 34, 10, 98]

/-- The waypoint of the example of C10: hidden, named `A`, at the coordinate
read from `48.0` and `2.0`, with no optional field set. -/
def sample_waypoint : Waypoint (Option (List Nat)) :=
  { name := some [65], coord := { lat := some [52, 56, 46, 48], lon := some [50, 46, 48] },
    visible := false, altitude := none, timestamp := none, comment := none, description := none,
    source := none, type := none, image := none, image_direction := none,
    image_direction_ref := 0, symbol := none }

/-! ## Reading back what the serializer writes: definitions -/

/-- The tag parser applied to the tokens of `tail_text l`, one after the other;
each token is handed over with the rest of the line behind it. -/
def fold_tail {D : Type} (env : Env D) : List (Option (List Nat)) → Acc D → Option (Acc D)
  | [], acc => some acc
  | none :: t, acc => fold_tail env t acc
  | some tok :: t, acc =>
    (gpspoint_process_tag env acc (tok ++ tail_text t) tok.length).bind (fold_tail env t)

/-- A token that the tokenizer loop cuts out as it was written, whatever
follows it on the line behind a token boundary. -/
def scannable (tok : List Nat) : Prop :=
  ∀ (D : Type) (env : Env D) (acc : Acc D) (rest : List Nat) (fuel : Nat), token_boundary rest →
    tag_loop env (fuel + 1) (tok ++ rest) false false acc =
      (gpspoint_process_tag env acc (tok ++ rest) tok.length).bind (tag_loop_after env fuel rest)

/-- A text without NUL, backslash, double quote, line feed and carriage
return: it is its own escaped form. -/
def safe_body (b : List Nat) : Prop := 0 ∉ b ∧ 92 ∉ b ∧ 34 ∉ b ∧ 10 ∉ b ∧ 13 ∉ b

/-- A non-empty C string. -/
def good_text (t : List Nat) : Prop := t ≠ [] ∧ 0 ∉ t

/-- An optional text that is a non-empty C string when present. -/
def opt_good (o : Option (List Nat)) : Prop := ∀ t, o = some t → good_text t

/-- A number that the serializer writes as a non-empty text free of NUL,
backslash, double quote, LF and CR, and that the reader's `g_ascii_strtod`
reads back from that text, whatever follows the closing quote. -/
def num_ok {D : Type} (env : Env D) (d : D) : Prop :=
  safe_body (env.a_coords_dtostr d) ∧ env.a_coords_dtostr d ≠ [] ∧
    ∀ rest, env.g_ascii_strtod (env.a_coords_dtostr d ++ 34 :: rest) = d

/-- An optional number: NAN when unset, written and read back when set. -/
def opt_num_ok {D : Type} (env : Env D) (d : D) : Prop :=
  (env.isnan d = true → d = env.NAN) ∧ (env.isnan d = false → num_ok env d)

/-- An integer that `%d` writes as a non-empty text free of NUL, backslash,
double quote, LF and CR, and that the reader's `atoi` reads back. -/
def int_ok {D : Type} (env : Env D) (n : Int) : Prop :=
  safe_body (env.fmt_d n) ∧ env.fmt_d n ≠ [] ∧
    ∀ rest, env.atoi (env.fmt_d n ++ 34 :: rest) = n

/-- A text without NUL and without line feed. -/
def clean (l : List Nat) : Prop := 0 ∉ l ∧ 10 ∉ l

/-- An entry of a written line whose token, when written, is cut out by the
tokenizer as it was written and holds neither NUL nor line feed. -/
def entry_wf (e : Option (List Nat)) : Prop := ∀ tok, e = some tok → scannable tok ∧ clean tok

/-- What `vik_waypoint_new` and `vik_track_new` are assumed to return for the
round trip: entities without text fields. -/
structure new_entities_blank {D : Type} (env : Env D) : Prop where
  waypoint_comment : env.vik_waypoint_new.comment = none
  waypoint_description : env.vik_waypoint_new.description = none
  waypoint_source : env.vik_waypoint_new.source = none
  waypoint_type : env.vik_waypoint_new.type = none
  track_comment : env.vik_track_new.comment = none
  track_description : env.vik_track_new.description = none
  track_source : env.vik_track_new.source = none
  track_type : env.vik_track_new.type = none

/-- A waypoint that the serializer writes as one line that the reader reads
back: it has a name; its name and its text fields are non-empty C strings; its
numbers are written as texts that are read back to the same value (NAN when
unset); the texts written for its image, image direction and symbol hold no
NUL, backslash, double quote, LF or CR; and its line fits the line buffer. -/
structure waypoint_ok {D : Type} (env : Env D) (wp : Waypoint D) : Prop where
  name : ∃ n, wp.name = some n ∧ good_text n
  lat : num_ok env wp.coord.lat
  lon : num_ok env wp.coord.lon
  altitude : opt_num_ok env wp.altitude
  timestamp : opt_num_ok env wp.timestamp
  comment : opt_good wp.comment
  description : opt_good wp.description
  source : opt_good wp.source
  type : opt_good wp.type
  image : ∀ img, wp.image = some img →
    0 ∉ img ∧ ∀ r, env.relative_image img = some r → safe_body r
  image_direction : env.isnan wp.image_direction = false →
    safe_body (env.util_formatd_2f wp.image_direction) ∧
      safe_body (env.fmt_d wp.image_direction_ref)
  symbol : ∀ sym, wp.symbol = some sym → safe_body (env.g_utf8_strdown sym)
  fits : (a_gpspoint_write_waypoint env wp).length ≤ VIKING_LINE_SIZE - 1

/-- A point that the serializer writes as one line that the reader reads back:
its name, when present, is a non-empty C string; its numbers are written as
texts that are read back to the same value (NAN when unset); the satellite
count and the fix mode are not negative; a point without speed, course and
satellites has the extended fields of a new point; and its line fits the line
buffer. -/
structure trackpoint_ok {D : Type} (env : Env D) (tp : Trackpoint D) : Prop where
  lat : num_ok env tp.coord.lat
  lon : num_ok env tp.coord.lon
  name : opt_good tp.name
  altitude : opt_num_ok env tp.altitude
  timestamp : opt_num_ok env tp.timestamp
  speed : opt_num_ok env tp.speed
  course : opt_num_ok env tp.course
  hdop : has_extended env tp = true → opt_num_ok env tp.hdop
  vdop : has_extended env tp = true → opt_num_ok env tp.vdop
  pdop : has_extended env tp = true → opt_num_ok env tp.pdop
  nsats : 0 ≤ tp.nsats ∧ (tp.nsats > 0 → int_ok env tp.nsats)
  fix_mode : has_extended env tp = true → 0 ≤ tp.fix_mode ∧ (tp.fix_mode > 0 → int_ok env tp.fix_mode)
  plain : has_extended env tp = false →
    tp.speed = env.vik_trackpoint_new.speed ∧ tp.course = env.vik_trackpoint_new.course ∧
    tp.nsats = env.vik_trackpoint_new.nsats ∧ tp.fix_mode = env.vik_trackpoint_new.fix_mode ∧
    tp.hdop = env.vik_trackpoint_new.hdop ∧ tp.vdop = env.vik_trackpoint_new.vdop ∧
    tp.pdop = env.vik_trackpoint_new.pdop
  fits : ∀ is_route, (a_gpspoint_write_trackpoint env is_route tp).length ≤ VIKING_LINE_SIZE - 1

/-- A track or route that the serializer writes as lines that the reader
reads back: it has a name; its name and its text fields are non-empty C
strings; its label modes are not negative and are written as texts that are
read back to the same value; its header line fits the line buffer; and each of
its points is written as a line that is read back. -/
structure track_ok {D : Type} (env : Env D) (trk : Track D) : Prop where
  name : ∃ n, trk.name = some n ∧ good_text n
  comment : opt_good trk.comment
  description : opt_good trk.description
  source : opt_good trk.source
  type : opt_good trk.type
  draw_name_mode : 0 ≤ trk.draw_name_mode ∧
    (trk.draw_name_mode > 0 → int_ok env trk.draw_name_mode)
  number_dist_labels : 0 ≤ trk.max_number_dist_labels ∧
    (trk.max_number_dist_labels > 0 → int_ok env trk.max_number_dist_labels)
  fits : ∀ n, trk.name = some n → (write_track_header env trk n).length ≤ VIKING_LINE_SIZE - 1
  points : ∀ tp ∈ trk.trackpoints, trackpoint_ok env tp

/-- The fields of a waypoint that the round trip compares. -/
def waypoint_view {D : Type} (wp : Waypoint D) :
    Option (List Nat) × LatLon D × Bool × D × D × Option (List Nat) × Option (List Nat) ×
      Option (List Nat) × Option (List Nat) :=
  (wp.name, wp.coord, wp.visible, wp.altitude, wp.timestamp, wp.comment, wp.description,
    wp.source, wp.type)

/-- The fields of a track or route that the round trip compares. -/
def track_view {D : Type} (trk : Track D) :
    Option (List Nat) × Bool × Bool × Option (List Nat) × Option (List Nat) ×
      Option (List Nat) × Option (List Nat) × Int × Int × List (Trackpoint D) :=
  (trk.name, trk.visible, trk.is_route, trk.comment, trk.description, trk.source, trk.type,
    trk.draw_name_mode, trk.max_number_dist_labels, trk.trackpoints)

/-- The waypoint with CR and LF replaced by spaces in its name and text fields. -/
def normalised_waypoint {D : Type} (wp : Waypoint D) : Waypoint D :=
  { wp with
    name := wp.name.map crlf_to_space
    comment := wp.comment.map crlf_to_space
    description := wp.description.map crlf_to_space
    source := wp.source.map crlf_to_space
    type := wp.type.map crlf_to_space }

/-- The point with CR and LF replaced by spaces in its name. -/
def normalised_trackpoint {D : Type} (tp : Trackpoint D) : Trackpoint D :=
  { tp with name := tp.name.map crlf_to_space }

/-- The track with CR and LF replaced by spaces in its name, in its text
fields and in the names of its points. -/
def normalised_track {D : Type} (trk : Track D) : Track D :=
  { trk with
    name := trk.name.map crlf_to_space
    comment := trk.comment.map crlf_to_space
    description := trk.description.map crlf_to_space
    source := trk.source.map crlf_to_space
    type := trk.type.map crlf_to_space
    trackpoints := trk.trackpoints.map normalised_trackpoint }

/-- The in-order reader reads the text `text`, a sequence of whole lines at the
start of what is left of the file, from the state `st` to the state `st1`. -/
def reads_to {D : Type} (env : Env D) (text : List Nat) (st st1 : RState D) : Prop :=
  ∀ rest, read_lines_in_order env (fgets_chunks (text ++ rest) []) st =
    read_lines_in_order env (fgets_chunks rest []) st1

/-- The `line_*` variables hold their reset values (`line_latlon` apart). -/
def acc_is_reset {D : Type} (env : Env D) (st : RState D) : Prop := st.acc = Acc.reset env st.acc

/-- A waypoint named `W` at the coordinate read from `1` and `2`, with the
altitude `3` and a comment that holds a space, a backslash, a double quote and
a line feed. -/
def sample_roundtrip_waypoint : Waypoint (Option (List Nat)) :=
  { name := some [87], coord := { lat := some [49], lon := some [50] }, visible := false,
    altitude := some [51], timestamp := none, comment := some [97, 32, 92, 34, 10, 98],
    description := none, source := none, type := none, image := none, image_direction := none,
    image_direction_ref := 0, symbol := none }

/-- A point named `p` with an altitude and no extended field. -/
def sample_plain_point : Trackpoint (Option (List Nat)) :=
  { name := some [112], coord := { lat := some [49], lon := some [50] }, newsegment := true,
    timestamp := none, altitude := some [51], speed := none, course := none, nsats := 0,
    fix_mode := 0, hdop := none, vdop := none, pdop := none }

/-- A point with a speed, three satellites, a fix mode and an HDOP. -/
def sample_extended_point : Trackpoint (Option (List Nat)) :=
  { name := none, coord := { lat := some [52], lon := some [53] }, newsegment := false,
    timestamp := some [54], altitude := none, speed := some [55], course := none, nsats := 3,
    fix_mode := 2, hdop := some [56], vdop := none, pdop := none }

/-- A track named `T` with two points. -/
def sample_roundtrip_track : Track (Option (List Nat)) :=
  { name := some [84], visible := true, is_route := false, comment := some [99], description := none,
    source := none, type := none, has_color := true, color := (65535, 0, 4660),
    draw_name_mode := 1, max_number_dist_labels := 0,
    trackpoints := [sample_plain_point, sample_extended_point] }

/-- A hidden route named `R` with one point. -/
def sample_roundtrip_route : Track (Option (List Nat)) :=
  { name := some [82], visible := false, is_route := true, comment := none, description := none,
    source := none, type := none, has_color := false, color := (0, 0, 0),
    draw_name_mode := 0, max_number_dist_labels := 0, trackpoints := [sample_plain_point] }

/-- A point with an HDOP and without speed, course and satellites. -/
def hdop_only_point : Trackpoint (Option (List Nat)) :=
  { name := none, coord := { lat := some [49], lon := some [50] }, newsegment := false,
    timestamp := none, altitude := none, speed := none, course := none, nsats := 0,
    fix_mode := 0, hdop := some [51], vdop := none, pdop := none }

/-- A track named `T` whose one point is `hdop_only_point`. -/
def hdop_only_track : Track (Option (List Nat)) :=
  { name := some [84], visible := true, is_route := false, comment := none, description := none,
    source := none, type := none, has_color := false, color := (0, 0, 0),
    draw_name_mode := 0, max_number_dist_labels := 0, trackpoints := [hdop_only_point] }

/-- The line `type="track" name="T1"`. -/
def sample_track_line : List Nat := [116, 121, 112, 101, 61, 34, 116, 114, 97, 99, 107, 34, 32, 110, 97, 109, 101, 61, 34, 84, 49, 34]

/-- The line `type="trackpoint" latitude="1.0" longitude="1.0"`. -/
def sample_track_point_line : List Nat := [116, 121, 112, 101, 61, 34, 116, 114, 97, 99, 107, 112, 111, 105, 110, 116, 34, 32, 108, 97, 116, 105, 116, 117, 100, 101, 61, 34, 49, 46, 48, 34, 32, 108, 111, 110, 103, 105, 116, 117, 100, 101, 61, 34, 49, 46, 48, 34]

/-- The file of the three lines `type="track" name="T1"`,
`type="trackpoint" latitude="1.0" longitude="1.0"` and `type="trackend"`. -/
def track_example_file : List Nat := [116, 121, 112, 101, 61, 34, 116, 114, 97, 99, 107, 34, 32, 110, 97, 109, 101, 61, 34, 84, 49, 34, 10, 116, 121, 112, 101, 61, 34, 116, 114, 97, 99, 107, 112, 111, 105, 110, 116, 34, 32, 108, 97, 116, 105, 116, 117, 100, 101, 61, 34, 49, 46, 48, 34, 32, 108, 111, 110, 103, 105, 116, 117, 100, 101, 61, 34, 49, 46, 48, 34, 10, 116, 121, 112, 101, 61, 34, 116, 114, 97, 99, 107, 101, 110, 100, 34, 10]

/-- The file of the two lines `type="track"` (no name) and
`type="trackpoint" latitude="1" longitude="2"`. -/
def nameless_track_file : List Nat := [116, 121, 112, 101, 61, 34, 116, 114, 97, 99, 107, 34, 10, 116, 121, 112, 101, 61, 34, 116, 114, 97, 99, 107, 112, 111, 105, 110, 116, 34, 32, 108, 97, 116, 105, 116, 117, 100, 101, 61, 34, 49, 34, 32, 108, 111, 110, 103, 105, 116, 117, 100, 101, 61, 34, 50, 34, 10]

/-- The file of the two lines `type="waypoint" latitude="1" longitude="2" name="A"`
and `type="waypoint" name="B"`. -/
def stale_latlon_file : List Nat := [116, 121, 112, 101, 61, 34, 119, 97, 121, 112, 111, 105, 110, 116, 34, 32, 108, 97, 116, 105, 116, 117, 100, 101, 61, 34, 49, 34, 32, 108, 111, 110, 103, 105, 116, 117, 100, 101, 61, 34, 50, 34, 32, 110, 97, 109, 101, 61, 34, 65, 34, 10, 116, 121, 112, 101, 61, 34, 119, 97, 121, 112, 111, 105, 110, 116, 34, 32, 110, 97, 109, 101, 61, 34, 66, 34, 10]

/-- The number of records in the destination store: the registered waypoints,
the registered tracks and routes, and the points on them. -/
def store_size {D : Type} (st : RState D) : Nat :=
  st.waypoints.length + st.tracks.length + (st.tracks.map (fun t => t.trackpoints.length)).sum

/-- The test of gpspoint.c 201 on the line left in `line_buffer`:
`strlen(line_buffer) >= 13 && strncmp ( line_buffer, "~EndLayerData", 13 ) == 0`. -/
def is_sentinel (line_buffer : List Nat) : Prop :=
  strlen line_buffer ≥ 13 ∧ strncmp_eq line_buffer STR_EndLayerData 13 = true

instance (line_buffer : List Nat) : Decidable (is_sentinel line_buffer) := by
  unfold is_sentinel
  infer_instance

/-- The open track, when there is one, is a registered track. -/
def current_track_valid {D : Type} (st : RState D) : Prop :=
  ∀ k, st.current_track = some k → k < st.tracks.length

/-- The file of the one line `~EndLayerData`. -/
def sentinel_only_file : List Nat := [126, 69, 110, 100, 76, 97, 121, 101, 114, 68, 97, 116, 97, 10]

/-- The file of the lines ` # comment`, an empty line, `colour="red"` and
`type="trackpoint" latitude="1" longitude="2"`: a comment, a blank line, an
unknown key and a point without an open track. -/
def no_record_file : List Nat := [32, 35, 32, 99, 111, 109, 109, 101, 110, 116, 10, 10, 99, 111, 108, 111, 117, 114, 61, 34, 114, 101, 100, 34, 10, 116, 121, 112, 101, 61, 34, 116, 114, 97, 99, 107, 112, 111, 105, 110, 116, 34, 32, 108, 97, 116, 105, 116, 117, 100, 101, 61, 34, 49, 34, 32, 108, 111, 110, 103, 105, 116, 117, 100, 101, 61, 34, 50, 34, 10]

/-- The line `a\ b`: a backslash followed by a space, outside quotes. -/
def backslash_space_line : List Nat := [97, 92, 32, 98]

/-- The line `k="a\" b" z`: an escaped quote and a space inside quotes, then a
second token. -/
def escaped_quote_line : List Nat := [107, 61, 34, 97, 92, 34, 32, 98, 34, 32, 122]

/-- One step of the quote rule in the words of the format description: a
backslash escapes exactly the next character; a double quote that is not
escaped toggles the quote state. The state is `(inside quotes, next character
escaped)`. -/
def quote_step (st : Bool × Bool) (c : Nat) : Bool × Bool :=
  if st.2 = true then (st.1, false)
  else if c = 92 then (st.1, true)
  else if c = 34 then (!st.1, false)
  else (st.1, false)

/-- The state of the quote rule after the characters `s`, read from outside
quotes. -/
def quote_state (s : List Nat) : Bool × Bool := s.foldl quote_step (false, false)

/-- After the characters `s` an opening unescaped double quote has no closing
one yet. -/
def inside_quotes (s : List Nat) : Bool := (quote_state s).1

/-- The line `a="b c`: the quote that opens the value is never closed. -/
def open_quote_line : List Nat := [97, 61, 34, 98, 32, 99]

/-- The line `k="b c" "d e" f`. -/
def quoted_space_line : List Nat := [107, 61, 34, 98, 32, 99, 34, 32, 34, 100, 32, 101, 34, 32, 102]

/-- The decoding of a value in the words of the format description: each
escaping backslash is removed and the character after it kept literally; a
trailing backslash that has no following character is dropped; every other
character is kept. -/
def unescape : List Nat → List Nat
  | [] => []
  | [c] => if c = 92 then [] else [c]
  | c :: d :: ds => if c = 92 then d :: unescape ds else c :: unescape (d :: ds)

/-- The number of escaping backslashes of a value: the backslashes that are not
themselves escaped by the backslash in front of them. -/
def escaping_backslashes : List Nat → Nat
  | [] => 0
  | [c] => if c = 92 then 1 else 0
  | c :: d :: ds => if c = 92 then 1 + escaping_backslashes ds else escaping_backslashes (d :: ds)

/-- The last character of the value is an escaping backslash. -/
def dangling : List Nat → Bool
  | [] => false
  | [c] => c = 92
  | c :: d :: ds => if c = 92 then dangling ds else dangling (d :: ds)

/-- The arguments `(key_len, value, value_len)` of the call of
`gpspoint_process_key_and_value` that `gpspoint_process_tag ( tag, len )`
makes, `none` when it returns without a call. Pointers into the token are
offsets from `tag`; the value is the string from `value_start` on. -/
def tag_call (tag : List Nat) (len : Nat) : Option (Nat × Option (List Nat) × Nat) :=
  match key_end_loop tag len (len + 1) 0 with
  | none => none
  | some key_end =>
    if key_end = len then none
    else if key_end = len + 1 then none
    else
      let value_start := key_end + 1
      if cget tag value_start = 34 then
        let value_start := value_start + 1
        if cget tag value_start = 34 then some (key_end, none, 0)
        else if cget tag (len - 1) = 34 then
          let value_end := len - 1
          if value_end < value_start then none
          else some (key_end, some (tag.drop value_start), value_end - value_start)
        else none
      else
        let value_end := len
        if value_end < value_start then none
        else some (key_end, some (tag.drop value_start), value_end - value_start)

/-- The line `comment="a\\b\"c" x`: the value of the first token is `a\\b\"c`,
with an escaped backslash and an escaped quote. -/
def escaped_value_line : List Nat := [99, 111, 109, 109, 101, 110, 116, 61, 34, 97, 92, 92, 98, 92, 34, 99, 34, 32, 120]

/-- The line `k=a\ x`: the value of the first token is `a\`, with a trailing
backslash that escapes nothing. -/
def dangling_value_line : List Nat := [107, 61, 97, 92, 32, 120]

/-- The number of backslashes that stand directly at the end of a text. -/
def trailing_backslashes (l : List Nat) : Nat := (l.reverse.takeWhile (fun c => c == 92)).length

/-- The text `a\"b`, a line feed, `c`, a carriage return and `\\"`. -/
def sample_raw_text : List Nat := [97, 92, 34, 98, 10, 99, 13, 92, 92, 34]

/-- The record type that a word names, whatever the case of its letters: one of
the seven type names in full, or None. -/
def record_type_of_word (w : List Nat) : Nat :=
  if w.map tolower = STR_waypoint then GPSPOINT_TYPE_WAYPOINT
  else if w.map tolower = STR_track then GPSPOINT_TYPE_TRACK
  else if w.map tolower = STR_trackend then GPSPOINT_TYPE_TRACK_END
  else if w.map tolower = STR_trackpoint then GPSPOINT_TYPE_TRACKPOINT
  else if w.map tolower = STR_route then GPSPOINT_TYPE_ROUTE
  else if w.map tolower = STR_routeend then GPSPOINT_TYPE_ROUTE_END
  else if w.map tolower = STR_routepoint then GPSPOINT_TYPE_ROUTEPOINT
  else GPSPOINT_TYPE_NONE

/-- The record type that the keys of a token give: that of the word of its
value when its key is `type` in any case, None when that value is NULL; `none`
when the token has another key or is passed over. -/
def token_record_type (t : List Nat × Nat) : Option Nat :=
  match tag_call t.1 t.2 with
  | none => none
  | some (key_len, value, value_len) =>
    if (t.1.take key_len).map tolower = STR_type then
      match value with
      | none => some GPSPOINT_TYPE_NONE
      | some v => some (record_type_of_word (v.take value_len))
    else none

/-- The line `type="waypointlist"`. -/
def waypointlist_line : List Nat := [116, 121, 112, 101, 61, 34, 119, 97, 121, 112, 111, 105, 110, 116, 108, 105, 115, 116, 34]

/-- The line `name="x" latitude="1"`, without a type key. -/
def typeless_line : List Nat := [110, 97, 109, 101, 61, 34, 120, 34, 32, 108, 97, 116, 105, 116, 117, 100, 101, 61, 34, 49, 34]

/-- The token `TYPE="WayPoint"`. -/
def upper_case_type_token : List Nat := [84, 89, 80, 69, 61, 34, 87, 97, 121, 80, 111, 105, 110, 116, 34]

/-- The file of the lines `type="track" name="T"`,
`type="trackpoint" latitude="1" longitude="2"` and
`type="trackpoint" latitude="3" longitude="4"`: the track is left open. -/
def open_track_file : List Nat := [116, 121, 112, 101, 61, 34, 116, 114, 97, 99, 107, 34, 32, 110, 97, 109, 101, 61, 34, 84, 34, 10, 116, 121, 112, 101, 61, 34, 116, 114, 97, 99, 107, 112, 111, 105, 110, 116, 34, 32, 108, 97, 116, 105, 116, 117, 100, 101, 61, 34, 49, 34, 32, 108, 111, 110, 103, 105, 116, 117, 100, 101, 61, 34, 50, 34, 10, 116, 121, 112, 101, 61, 34, 116, 114, 97, 99, 107, 112, 111, 105, 110, 116, 34, 32, 108, 97, 116, 105, 116, 117, 100, 101, 61, 34, 51, 34, 32, 108, 111, 110, 103, 105, 116, 117, 100, 101, 61, 34, 52, 34, 10]

/-- The lines `type="trackpoint" latitude="5" longitude="6"` and
`type="waypoint" name="W"`. -/
def lines_after_sentinel : List Nat := [116, 121, 112, 101, 61, 34, 116, 114, 97, 99, 107, 112, 111, 105, 110, 116, 34, 32, 108, 97, 116, 105, 116, 117, 100, 101, 61, 34, 53, 34, 32, 108, 111, 110, 103, 105, 116, 117, 100, 101, 61, 34, 54, 34, 10, 116, 121, 112, 101, 61, 34, 119, 97, 121, 112, 111, 105, 110, 116, 34, 32, 110, 97, 109, 101, 61, 34, 87, 34, 10]

/-- The text ` key="value"`: a space and the field. -/
def field_text (key value : List Nat) : List Nat := 32 :: quoted_field key value

/-- A text that is written only when a condition holds. -/
def text_if (c : Bool) (text : List Nat) : List Nat := if c then text else []

/-- The text ` key="..."` of a text that is set, escaped; nothing for a text
that is not set. -/
def text_field_text (key : List Nat) (text : Option (List Nat)) : List Nat :=
  match text with
  | none => []
  | some t => field_text key (slashdup t)

/-- A hidden waypoint named `W"` at the coordinate read from `1` and `2`, with
the altitude `3`, no timestamp, a comment that holds a line feed, an image with
a direction, and the symbol `Pin`. -/
def sample_symbol_waypoint : Waypoint (Option (List Nat)) :=
  { name := some [87, 34], coord := { lat := some [49], lon := some [50] }, visible := false,
    altitude := some [51], timestamp := none, comment := some [99, 10, 100],
    description := none, source := none, type := none, image := some [105, 46, 106, 112, 103],
    image_direction := some [57, 48, 46, 48, 48], image_direction_ref := 1, symbol := some [80, 105, 110] }

/-- The line
`type="waypoint" latitude="1" longitude="2" name="W\"" altitude="3" comment="c d" image="i.jpg" image_direction="90.00" image_direction_ref="1" symbol="pin" visible="n"`
with its line feed. -/
def sample_symbol_waypoint_line : List Nat := [116, 121, 112, 101, 61, 34, 119, 97, 121, 112, 111, 105, 110, 116, 34, 32, 108, 97, 116, 105, 116, 117, 100, 101, 61, 34, 49, 34, 32, 108, 111, 110, 103, 105, 116, 117, 100, 101, 61, 34, 50, 34, 32, 110, 97, 109, 101, 61, 34, 87, 92, 34, 34, 32, 97, 108, 116, 105, 116, 117, 100, 101, 61, 34, 51, 34, 32, 99, 111, 109, 109, 101, 110, 116, 61, 34, 99, 32, 100, 34, 32, 105, 109, 97, 103, 101, 61, 34, 105, 46, 106, 112, 103, 34, 32, 105, 109, 97, 103, 101, 95, 100, 105, 114, 101, 99, 116, 105, 111, 110, 61, 34, 57, 48, 46, 48, 48, 34, 32, 105, 109, 97, 103, 101, 95, 100, 105, 114, 101, 99, 116, 105, 111, 110, 95, 114, 101, 102, 61, 34, 49, 34, 32, 115, 121, 109, 98, 111, 108, 61, 34, 112, 105, 110, 34, 32, 118, 105, 115, 105, 98, 108, 101, 61, 34, 110, 34, 10]

/-- The four lines that are written for `sample_roundtrip_track`:
`type="track" name="T" comment="c" color=#ff0012 draw_name_mode="1"`,
`type="trackpoint" latitude="1" longitude="2" name="p" altitude="3" newsegment="yes"`,
`type="trackpoint" latitude="4" longitude="5" unixtime="6" extended="yes" speed="7" sat="3" fix="2" hdop="8"`
and `type="trackend"`. -/
def sample_track_text : List Nat := [116, 121, 112, 101, 61, 34, 116, 114, 97, 99, 107, 34, 32, 110, 97, 109, 101, 61, 34, 84, 34, 32, 99, 111, 109, 109, 101, 110, 116, 61, 34, 99, 34, 32, 99, 111, 108, 111, 114, 61, 35, 102, 102, 48, 48, 49, 50, 32, 100, 114, 97, 119, 95, 110, 97, 109, 101, 95, 109, 111, 100, 101, 61, 34, 49, 34, 10, 116, 121, 112, 101, 61, 34, 116, 114, 97, 99, 107, 112, 111, 105, 110, 116, 34, 32, 108, 97, 116, 105, 116, 117, 100, 101, 61, 34, 49, 34, 32, 108, 111, 110, 103, 105, 116, 117, 100, 101, 61, 34, 50, 34, 32, 110, 97, 109, 101, 61, 34, 112, 34, 32, 97, 108, 116, 105, 116, 117, 100, 101, 61, 34, 51, 34, 32, 110, 101, 119, 115, 101, 103, 109, 101, 110, 116, 61, 34, 121, 101, 115, 34, 10, 116, 121, 112, 101, 61, 34, 116, 114, 97, 99, 107, 112, 111, 105, 110, 116, 34, 32, 108, 97, 116, 105, 116, 117, 100, 101, 61, 34, 52, 34, 32, 108, 111, 110, 103, 105, 116, 117, 100, 101, 61, 34, 53, 34, 32, 117, 110, 105, 120, 116, 105, 109, 101, 61, 34, 54, 34, 32, 101, 120, 116, 101, 110, 100, 101, 100, 61, 34, 121, 101, 115, 34, 32, 115, 112, 101, 101, 100, 61, 34, 55, 34, 32, 115, 97, 116, 61, 34, 51, 34, 32, 102, 105, 120, 61, 34, 50, 34, 32, 104, 100, 111, 112, 61, 34, 56, 34, 10, 116, 121, 112, 101, 61, 34, 116, 114, 97, 99, 107, 101, 110, 100, 34, 10]

/-- The three lines that are written for `sample_roundtrip_route`:
`type="route" name="R" visible="n"`,
`type="routepoint" latitude="1" longitude="2" name="p" altitude="3" newsegment="yes"`
and `type="routeend"`. -/
def sample_route_text : List Nat := [116, 121, 112, 101, 61, 34, 114, 111, 117, 116, 101, 34, 32, 110, 97, 109, 101, 61, 34, 82, 34, 32, 118, 105, 115, 105, 98, 108, 101, 61, 34, 110, 34, 10, 116, 121, 112, 101, 61, 34, 114, 111, 117, 116, 101, 112, 111, 105, 110, 116, 34, 32, 108, 97, 116, 105, 116, 117, 100, 101, 61, 34, 49, 34, 32, 108, 111, 110, 103, 105, 116, 117, 100, 101, 61, 34, 50, 34, 32, 110, 97, 109, 101, 61, 34, 112, 34, 32, 97, 108, 116, 105, 116, 117, 100, 101, 61, 34, 51, 34, 32, 110, 101, 119, 115, 101, 103, 109, 101, 110, 116, 61, 34, 121, 101, 115, 34, 10, 116, 121, 112, 101, 61, 34, 114, 111, 117, 116, 101, 101, 110, 100, 34, 10]

/-- The line `type="trackpoint" latitude="1" longitude="2"` with its line feed:
what is written for `hdop_only_point`. -/
def hdop_only_point_line : List Nat := [116, 121, 112, 101, 61, 34, 116, 114, 97, 99, 107, 112, 111, 105, 110, 116, 34, 32, 108, 97, 116, 105, 116, 117, 100, 101, 61, 34, 49, 34, 32, 108, 111, 110, 103, 105, 116, 117, 100, 101, 61, 34, 50, 34, 10]

/-- The line `type="waypointlist"` with its line feed. -/
def waypointlist_text : List Nat := [116, 121, 112, 101, 61, 34, 119, 97, 121, 112, 111, 105, 110, 116, 108, 105, 115, 116, 34, 10]

/-- The line `type="waypointlistend"` with its line feed. -/
def waypointlistend_text : List Nat := [116, 121, 112, 101, 61, 34, 119, 97, 121, 112, 111, 105, 110, 116, 108, 105, 115, 116, 101, 110, 100, 34, 10]

/-- The sixteen hexadecimal digits, in lower case. -/
def hex_chars : List Nat := [48, 49, 50, 51, 52, 53, 54, 55, 56, 57, 97, 98, 99, 100, 101, 102]

/-- The two hexadecimal digits of a byte. -/
def two_hex (byte : Nat) : List Nat := [hex_chars.getD (byte / 16) 0, hex_chars.getD (byte % 16) 0]

/-- The byte that two hexadecimal digits stand for. -/
def byte_of_hex (digits : List Nat) : Nat :=
  hex_chars.indexOf (digits.getD 0 0) * 16 + hex_chars.indexOf (digits.getD 1 0)

/-- The line
`type="trackpoint" latitude="4" longitude="5" unixtime="6" extended="yes" speed="7" sat="3" fix="2" hdop="8"`
with its line feed: what is written for `sample_extended_point`. -/
def sample_extended_point_line : List Nat := [116, 121, 112, 101, 61, 34, 116, 114, 97, 99, 107, 112, 111, 105, 110, 116, 34, 32, 108, 97, 116, 105, 116, 117, 100, 101, 61, 34, 52, 34, 32, 108, 111, 110, 103, 105, 116, 117, 100, 101, 61, 34, 53, 34, 32, 117, 110, 105, 120, 116, 105, 109, 101, 61, 34, 54, 34, 32, 101, 120, 116, 101, 110, 100, 101, 100, 61, 34, 121, 101, 115, 34, 32, 115, 112, 101, 101, 100, 61, 34, 55, 34, 32, 115, 97, 116, 61, 34, 51, 34, 32, 102, 105, 120, 61, 34, 50, 34, 32, 104, 100, 111, 112, 61, 34, 56, 34, 10]

/-- The line `type="track" name="T" comment="c" color=#ff0012 draw_name_mode="1"`
with its line feed. -/
def sample_track_header_text : List Nat := [116, 121, 112, 101, 61, 34, 116, 114, 97, 99, 107, 34, 32, 110, 97, 109, 101, 61, 34, 84, 34, 32, 99, 111, 109, 109, 101, 110, 116, 61, 34, 99, 34, 32, 99, 111, 108, 111, 114, 61, 35, 102, 102, 48, 48, 49, 50, 32, 100, 114, 97, 119, 95, 110, 97, 109, 101, 95, 109, 111, 100, 101, 61, 34, 49, 34, 10]

/-- The line `type="route" name="R" visible="n"` with its line feed. -/
def sample_route_header_text : List Nat := [116, 121, 112, 101, 61, 34, 114, 111, 117, 116, 101, 34, 32, 110, 97, 109, 101, 61, 34, 82, 34, 32, 118, 105, 115, 105, 98, 108, 101, 61, 34, 110, 34, 10]

/-- A track without a name that holds one point. -/
def nameless_track : Track (Option (List Nat)) :=
  { sample_env.vik_track_new with trackpoints := [sample_plain_point] }

/-- The token makes the tag parser call the dispatcher with the key `extended`
and a value that is not NULL. -/
def token_sets_extended (t : List Nat × Nat) : Bool :=
  match tag_call t.1 t.2 with
  | some (key_len, some _, _) => key_is t.1 key_len 8 STR_extended
  | _ => false

/-- The state in which a track named `T` without points is the open track. -/
def sample_open_track_state : RState (Option (List Nat)) :=
  { sample_init with
    tracks := [{ sample_env.vik_track_new with name := some [84] }]
    current_track := some 0 }

/-- The line `type="trackpoint" latitude="1" longitude="2" altitude="3" speed="5" sat="4" hdop="6"`,
without an `extended` key. -/
def speed_without_extended_line : List Nat := [116, 121, 112, 101, 61, 34, 116, 114, 97, 99, 107, 112, 111, 105, 110, 116, 34, 32, 108, 97, 116, 105, 116, 117, 100, 101, 61, 34, 49, 34, 32, 108, 111, 110, 103, 105, 116, 117, 100, 101, 61, 34, 50, 34, 32, 97, 108, 116, 105, 116, 117, 100, 101, 61, 34, 51, 34, 32, 115, 112, 101, 101, 100, 61, 34, 53, 34, 32, 115, 97, 116, 61, 34, 52, 34, 32, 104, 100, 111, 112, 61, 34, 54, 34]

/-- The line `type="trackpoint" latitude="1" longitude="2" altitude="3" extended="yes" speed="5" sat="4" hdop="6"`. -/
def speed_with_extended_line : List Nat := [116, 121, 112, 101, 61, 34, 116, 114, 97, 99, 107, 112, 111, 105, 110, 116, 34, 32, 108, 97, 116, 105, 116, 117, 100, 101, 61, 34, 49, 34, 32, 108, 111, 110, 103, 105, 116, 117, 100, 101, 61, 34, 50, 34, 32, 97, 108, 116, 105, 116, 117, 100, 101, 61, 34, 51, 34, 32, 101, 120, 116, 101, 110, 100, 101, 100, 61, 34, 121, 101, 115, 34, 32, 115, 112, 101, 101, 100, 61, 34, 53, 34, 32, 115, 97, 116, 61, 34, 52, 34, 32, 104, 100, 111, 112, 61, 34, 54, 34]

/-- The offsets from `tag` of the characters that the loop
`while (++key_end - tag < len) if (*key_end == '=') break;` reads, from the
offset `key_end - tag`. -/
def key_end_loop_reads (tag : List Nat) (len : Nat) : Nat → Nat → List Nat
  | 0, _ => []
  | fuel + 1, key_end =>
    if key_end + 1 < len then
      (key_end + 1) ::
        (if cget tag (key_end + 1) = 61 then [] else key_end_loop_reads tag len fuel (key_end + 1))
    else []

/-- The offsets from `str` of the characters that `deslashndup ( str, len )`
reads: `str[i]` with `i < len` in its two loops, and `str[i-1]`, `str[i-2]` in
the test between them, where `i` is what the first loop leaves. -/
def deslashndup_reads (str : List Nat) (len0 : Nat) : List Nat :=
  let len := len0 % 65536
  if len < 1 then []
  else
    match deslash_count str len (len + 1) 0 0 with
    | none => List.range len
    | some (i, _) =>
      List.range len ++ (i - 1) ::
        (if cget str (i - 1) = 92 ∧ ¬ len = 1 then [i - 2] else [])

/-- The offsets from `value` of the characters that the branch of the key with
the index `i` in `key_table` may read for a value that is not NULL:
`strncasecmp ( value, ..., value_len )` and `g_strndup ( value, value_len )`
read at most the first `value_len` characters, `g_ascii_strtod` and `atoi` the
C string at `value` up to its NUL at most, the `visible` branch `value[0]`,
`newsegment` and `extended` nothing. -/
def value_reads (i : Nat) (value : List Nat) (value_len : Nat) : List Nat :=
  if i = 0 ∨ i = 16 then List.range value_len
  else if i = 1 ∨ i = 2 ∨ i = 3 ∨ i = 4 ∨ i = 5 ∨ i = 6 ∨ i = 9 then
    deslashndup_reads value value_len
  else if i = 15 then [0]
  else if i = 18 ∨ i = 19 then []
  else List.range (strlen value + 1)

/-- The offsets from `key` of the characters that
`gpspoint_process_key_and_value ( key, key_len, value, value_len )` may read;
`value` is the offset of the value from `key`, `none` for NULL. The tests
`key_len == n && strncasecmp( key, ..., key_len ) == 0` read at most the first
`key_len` characters of the key. -/
def dispatcher_reads (key : List Nat) (key_len : Nat) (value : Option Nat) (value_len : Nat) :
    List Nat :=
  List.range key_len ++
    (match value with
     | none => []
     | some value_start =>
       match key_index key key_len with
       | none => []
       | some i => (value_reads i (key.drop value_start) value_len).map (fun p => value_start + p))

/-- The offsets from `tag` of the characters that `gpspoint_process_tag ( tag, len )`
and the functions it calls may read. -/
def tag_reads (tag : List Nat) (len : Nat) : List Nat :=
  match key_end_loop tag len (len + 1) 0 with
  | none => key_end_loop_reads tag len (len + 1) 0
  | some key_end =>
    key_end_loop_reads tag len (len + 1) 0 ++
      (if key_end = len then []
       else if key_end = len + 1 then []
       else
         let value_start := key_end + 1
         value_start ::
           (if cget tag value_start = 34 then
              let value_start := value_start + 1
              value_start ::
                (if cget tag value_start = 34 then dispatcher_reads tag key_end none 0
                 else
                   (len - 1) ::
                     (if cget tag (len - 1) = 34 then
                        let value_end := len - 1
                        if value_end < value_start then []
                        else dispatcher_reads tag key_end (some value_start)
                          (value_end - value_start)
                      else []))
            else
              let value_end := len
              if value_end < value_start then []
              else dispatcher_reads tag key_end (some value_start) (value_end - value_start)))

/-- The offsets from `tag_start` of the characters that the loop `for (;;)`
over the tags of one line reads itself: the loop that skips whitespace reads
every character it skips and the one it stops at, which the tests for NUL, `#`
and `"` read again; the loop that looks for the end of the tag reads every
character of the tag and the one behind it. The recursion is that of
`tag_loop`. -/
def tokenizer_reads : Nat → List Nat → Bool → Bool → List Nat
  | 0, _, _, _ => []
  | fuel + 1, tag_start0, inside_quote, backslash =>
    let skipped := tag_start0.length - (skip_space tag_start0).length
    let tag_start := skip_space tag_start0
    List.range (skipped + 1) ++
      (if cget tag_start 0 = 0 then []
       else if cget tag_start 0 = 35 then []
       else
         let inside_quote := if cget tag_start 0 = 34 then !inside_quote else inside_quote
         match scan_tag tag_start inside_quote backslash with
         | (tag_end, inside_quote, backslash) =>
           let len := tag_start.length - tag_end.length
           (List.range (len + 1)).map (fun p => skipped + p) ++
             (if cget tag_end 0 = 0 then []
              else
                (tokenizer_reads fuel (tag_end.drop 1) inside_quote backslash).map
                  (fun p => skipped + len + 1 + p)))

/-- The offsets from the start of the line of the characters that the
tokenizer, the tag parser, the key dispatcher and the decoder may read while
the line is processed. -/
def line_reads (line : List Nat) : List Nat :=
  tokenizer_reads (line.length + 1) line false false ++
    (tokens_of_line line).flatMap
      (fun t => (tag_reads t.1 t.2).map (fun p => line.length - t.1.length + p))

/-- The line `type="waypoint" name="A\"b" colour="red" latitude= comment=" x=`:
a name with an escaped quote, an unknown key, a key with nothing behind its
`=`, and a token whose quote is not closed. -/
def mixed_line : List Nat := [116, 121, 112, 101, 61, 34, 119, 97, 121, 112, 111, 105, 110, 116, 34, 32, 110, 97, 109, 101, 61, 34, 65, 92, 34, 98, 34, 32, 99, 111, 108, 111, 117, 114, 61, 34, 114, 101, 100, 34, 32, 108, 97, 116, 105, 116, 117, 100, 101, 61, 32, 99, 111, 109, 109, 101, 110, 116, 61, 34, 32, 120, 61]

/-- A waypoint named `W` whose symbol holds a line feed. -/
def line_feed_symbol_waypoint : Waypoint (Option (List Nat)) :=
  { name := some [87], coord := { lat := some [49], lon := some [50] }, visible := true,
    altitude := none, timestamp := none, comment := none, description := none, source := none,
    type := none, image := none, image_direction := none, image_direction_ref := 0,
    symbol := some [97, 10, 98] }

/-- A waypoint named `W` whose comment holds a line feed and a carriage return. -/
def line_feed_comment_waypoint : Waypoint (Option (List Nat)) :=
  { name := some [87], coord := { lat := some [49], lon := some [50] }, visible := true,
    altitude := none, timestamp := none, comment := some [97, 10, 13, 98], description := none,
    source := none, type := none, image := none, image_direction := none,
    image_direction_ref := 0, symbol := none }

/-- The numbers of a waypoint are written as texts without a line feed. -/
def waypoint_numbers_no_lf {D : Type} (env : Env D) (wp : Waypoint D) : Prop :=
  10 ∉ env.a_coords_dtostr wp.coord.lat ∧ 10 ∉ env.a_coords_dtostr wp.coord.lon ∧
    10 ∉ env.a_coords_dtostr wp.altitude ∧ 10 ∉ env.a_coords_dtostr wp.timestamp ∧
    10 ∉ env.util_formatd_2f wp.image_direction ∧ 10 ∉ env.fmt_d wp.image_direction_ref

/-- The label modes of a track are written as texts without a line feed. -/
def track_numbers_no_lf {D : Type} (env : Env D) (trk : Track D) : Prop :=
  10 ∉ env.fmt_d trk.draw_name_mode ∧ 10 ∉ env.fmt_d trk.max_number_dist_labels

/-- The numbers of a point are written as texts without a line feed. -/
def trackpoint_numbers_no_lf {D : Type} (env : Env D) (tp : Trackpoint D) : Prop :=
  10 ∉ env.a_coords_dtostr tp.coord.lat ∧ 10 ∉ env.a_coords_dtostr tp.coord.lon ∧
    10 ∉ env.a_coords_dtostr tp.altitude ∧ 10 ∉ env.a_coords_dtostr tp.timestamp ∧
    10 ∉ env.a_coords_dtostr tp.speed ∧ 10 ∉ env.a_coords_dtostr tp.course ∧
    10 ∉ env.fmt_d tp.nsats ∧ 10 ∉ env.fmt_d tp.fix_mode ∧
    10 ∉ env.a_coords_dtostr tp.hdop ∧ 10 ∉ env.a_coords_dtostr tp.vdop ∧
    10 ∉ env.a_coords_dtostr tp.pdop

/-- The line `name="A" type="waypoint"`: the type tag is not the first tag. -/
def name_first_waypoint_line : List Nat := [110, 97, 109, 101, 61, 34, 65, 34, 32, 116, 121, 112, 101, 61, 34, 119, 97, 121, 112, 111, 105, 110, 116, 34]

/-- The file of the one line `name="A" type="waypoint"`. -/
def name_first_waypoint_file : List Nat := [110, 97, 109, 101, 61, 34, 65, 34, 32, 116, 121, 112, 101, 61, 34, 119, 97, 121, 112, 111, 105, 110, 116, 34, 10]

/-! ## `get_heading_from_trackpoint` (viktrwlayer_geotag.c 216-232) -/

/-- A node of the `GList` of the points of a track: the `data` of the nodes in
front of it (the nearest first), its own `data`, and the `data` of the nodes
behind it. -/
structure GListNode (D : Type) where
  before : List (Trackpoint D)
  data : Trackpoint D
  after : List (Trackpoint D)
  deriving DecidableEq, Repr

/-- The pointer `node->prev`: `none` (NULL) on the first node of the list. -/
def GListNode.prev {D : Type} (node : GListNode D) : Option (GListNode D) :=
  match node.before with
  | [] => none
  | p :: ps => some { before := ps, data := p, after := node.data :: node.after }

/-- The pointer `node->next`: `none` (NULL) on the last node of the list. -/
def GListNode.next {D : Type} (node : GListNode D) : Option (GListNode D) :=
  match node.after with
  | [] => none
  | p :: ps => some { before := node.data :: node.before, data := p, after := ps }

/-- The node of index `i` of the `GList` of the points `l`. -/
def node_at {D : Type} (l : List (Trackpoint D)) (i : Nat) : Option (GListNode D) :=
  (l[i]?).map (fun p => { before := (l.take i).reverse, data := p, after := l.drop (i + 1) })

/-- The expression `VIK_TRACKPOINT(p->data)` for a node pointer `p`: `none`
when `p` is NULL, where the source dereferences the NULL pointer. -/
def node_data {D : Type} (p : Option (GListNode D)) : Option (Trackpoint D) :=
  p.map (fun node => node.data)

/-- The function `get_heading_from_trackpoint ( mytrkpt )`, statement by
statement; `vik_coord_angle` is the function of that name of `coords.c`. The
result is `none` when the call dereferences a NULL pointer. -/
def get_heading_from_trackpoint {D : Type} (env : Env D)
    (vik_coord_angle : LatLon D → LatLon D → D) (mytrkpt : GListNode D) : Option D :=
  let trkpt := mytrkpt.data
  if mytrkpt.prev.isSome then
    (node_data mytrkpt.prev).map (fun p => vik_coord_angle p.coord trkpt.coord)
  else if mytrkpt.next.isSome then
    (node_data mytrkpt.prev).map (fun p => vik_coord_angle trkpt.coord p.coord)
  else some env.NAN

/-- A stand-in for `vik_coord_angle` on sample inputs: the two latitudes, in
the order of the arguments, with `>` between them. -/
def sample_angle (a b : LatLon (Option (List Nat))) : Option (List Nat) :=
  match a.lat, b.lat with
  | some x, some y => some (x ++ 62 :: y)
  | _, _ => none

/-- A written token `key=...` whose key is a key of the table other than
`type` and `name`. -/
def other_key_token (tok : List Nat) : Prop :=
  ∃ n key body, (n, key) ∈ key_table ∧ key ≠ STR_type ∧ key ≠ STR_name ∧
    tok = key ++ 61 :: body

/-- The waypoint `sample_roundtrip_waypoint` with the empty string as its name. -/
def empty_name_waypoint : Waypoint (Option (List Nat)) :=
  { sample_roundtrip_waypoint with name := some [] }

/-- The track `sample_roundtrip_track` with the empty string as its name. -/
def empty_name_track : Track (Option (List Nat)) :=
  { sample_roundtrip_track with name := some [] }

/-- A waypoint named `W` whose comment is the empty string. -/
def empty_comment_waypoint : Waypoint (Option (List Nat)) :=
  { sample_roundtrip_waypoint with comment := some [] }

/-- The line `type="track"`, without a name. -/
def nameless_track_line : List Nat := [116, 121, 112, 101, 61, 34, 116, 114, 97, 99, 107, 34]

/-- The file of the lines `type="track" name="T"`,
`type="trackpoint" latitude="1" longitude="2"`, `type="track"` (no name) and
`type="trackpoint" latitude="3" longitude="4"`. -/
def nameless_track_between_points_file : List Nat := [116, 121, 112, 101, 61, 34, 116, 114, 97, 99, 107, 34, 32, 110, 97, 109, 101, 61, 34, 84, 34, 10, 116, 121, 112, 101, 61, 34, 116, 114, 97, 99, 107, 112, 111, 105, 110, 116, 34, 32, 108, 97, 116, 105, 116, 117, 100, 101, 61, 34, 49, 34, 32, 108, 111, 110, 103, 105, 116, 117, 100, 101, 61, 34, 50, 34, 10, 116, 121, 112, 101, 61, 34, 116, 114, 97, 99, 107, 34, 10, 116, 121, 112, 101, 61, 34, 116, 114, 97, 99, 107, 112, 111, 105, 110, 116, 34, 32, 108, 97, 116, 105, 116, 117, 100, 101, 61, 34, 51, 34, 32, 108, 111, 110, 103, 105, 116, 117, 100, 101, 61, 34, 52, 34, 10]

/-- The line `latitude="7" longitude="8"`: a coordinate and no record type. -/
def latlon_only_line : List Nat := [108, 97, 116, 105, 116, 117, 100, 101, 61, 34, 55, 34, 32, 108, 111, 110, 103, 105, 116, 117, 100, 101, 61, 34, 56, 34]

/-- The line `# note`. -/
def note_line : List Nat := [35, 32, 110, 111, 116, 101]

/-- The line `type="waypoint" name="B"`, without a coordinate. -/
def waypoint_without_latlon_line : List Nat := [116, 121, 112, 101, 61, 34, 119, 97, 121, 112, 111, 105, 110, 116, 34, 32, 110, 97, 109, 101, 61, 34, 66, 34]

/-- The file of the lines `latitude="7" longitude="8"`, `# note` and
`type="waypoint" name="B"`. -/
def latlon_then_waypoint_file : List Nat := [108, 97, 116, 105, 116, 117, 100, 101, 61, 34, 55, 34, 32, 108, 111, 110, 103, 105, 116, 117, 100, 101, 61, 34, 56, 34, 10, 35, 32, 110, 111, 116, 101, 10, 116, 121, 112, 101, 61, 34, 119, 97, 121, 112, 111, 105, 110, 116, 34, 32, 110, 97, 109, 101, 61, 34, 66, 34, 10]

/-- The file of the one line `type="waypoint" name="A"`, without a line feed
at its end. -/
def unterminated_waypoint_file : List Nat := [116, 121, 112, 101, 61, 34, 119, 97, 121, 112, 111, 105, 110, 116, 34, 32, 110, 97, 109, 101, 61, 34, 65, 34]

/-- The tag parser applied to the tokens of `tail_text l` one after the other,
when the text `behind` follows them on the line; each token is handed over
with the rest of the line behind it. -/
def fold_tail_before {D : Type} (env : Env D) :
    List (Option (List Nat)) → List Nat → Acc D → Option (Acc D)
  | [], _, acc => some acc
  | none :: t, behind, acc => fold_tail_before env t behind acc
  | some tok :: t, behind, acc =>
    (gpspoint_process_tag env acc (tok ++ (tail_text t ++ behind)) tok.length).bind
      (fold_tail_before env t behind)

/-- The line `type="waypoint" name="A" # name="B" latitude="5"`. -/
def comment_behind_tokens_line : List Nat := [116, 121, 112, 101, 61, 34, 119, 97, 121, 112, 111, 105, 110, 116, 34, 32, 110, 97, 109, 101, 61, 34, 65, 34, 32, 35, 32, 110, 97, 109, 101, 61, 34, 66, 34, 32, 108, 97, 116, 105, 116, 117, 100, 101, 61, 34, 53, 34]

/-- The line `type="waypoint" #name="A"`. -/
def hash_token_line : List Nat := [116, 121, 112, 101, 61, 34, 119, 97, 121, 112, 111, 105, 110, 116, 34, 32, 35, 110, 97, 109, 101, 61, 34, 65, 34]

/-- The table action as a total function: the `line_*` variables that
`key_action` returns when the decoder returns. -/
def key_apply {D : Type} (env : Env D) (i : Nat) (acc : Acc D) (v : List Nat) (value_len : Nat) :
    Acc D :=
  match i with
  | 0 => { acc with line_type := type_of_value v value_len }
  | 1 =>
    { acc with
      line_name :=
        if acc.line_name = none then (deslashndup v value_len).getD none else acc.line_name }
  | 2 =>
    { acc with
      line_comment :=
        if acc.line_comment = none then (deslashndup v value_len).getD none
        else acc.line_comment }
  | 3 =>
    { acc with
      line_description :=
        if acc.line_description = none then (deslashndup v value_len).getD none
        else acc.line_description }
  | 4 =>
    { acc with
      line_source :=
        if acc.line_source = none then (deslashndup v value_len).getD none else acc.line_source }
  | 5 =>
    { acc with
      line_xtype :=
        if acc.line_xtype = none then (deslashndup v value_len).getD none else acc.line_xtype }
  | 6 =>
    { acc with
      line_color :=
        if acc.line_color = none then (deslashndup v value_len).getD none else acc.line_color }
  | 7 => { acc with line_name_label := env.atoi v }
  | 8 => { acc with line_dist_label := env.atoi v }
  | 9 =>
    { acc with
      line_image :=
        if acc.line_image = none then (deslashndup v value_len).getD none else acc.line_image }
  | 10 => { acc with line_image_direction := env.g_ascii_strtod v }
  | 11 => { acc with line_image_direction_ref := env.atoi v }
  | 12 => { acc with line_latlon := { acc.line_latlon with lat := env.g_ascii_strtod v } }
  | 13 => { acc with line_latlon := { acc.line_latlon with lon := env.g_ascii_strtod v } }
  | 14 => { acc with line_altitude := env.g_ascii_strtod v }
  | 15 =>
    { acc with
      line_visible :=
        if cget v 0 ≠ 121 ∧ cget v 0 ≠ 89 ∧ cget v 0 ≠ 116 ∧ cget v 0 ≠ 84 then false
        else acc.line_visible }
  | 16 => { acc with line_symbol := some (g_strndup v value_len) }
  | 17 => { acc with line_timestamp := env.g_ascii_strtod v }
  | 18 => { acc with line_newsegment := true }
  | 19 => { acc with line_extended := true }
  | 20 => { acc with line_speed := env.g_ascii_strtod v }
  | 21 => { acc with line_course := env.g_ascii_strtod v }
  | 22 => { acc with line_sat := env.atoi v }
  | 23 => { acc with line_fix := env.atoi v }
  | 24 => { acc with line_hdop := env.g_ascii_strtod v }
  | 25 => { acc with line_vdop := env.g_ascii_strtod v }
  | 26 => { acc with line_pdop := env.g_ascii_strtod v }
  | _ => acc

/-- The `line_*` variables `a` and `b` agree on every variable, except maybe
on the one that the key of index `o` of the table sets. -/
def same_except {D : Type} (o : Nat) (a b : Acc D) : Prop :=
  (o ≠ 0 → b.line_type = a.line_type) ∧ (o ≠ 1 → b.line_name = a.line_name) ∧
    (o ≠ 2 → b.line_comment = a.line_comment) ∧
    (o ≠ 3 → b.line_description = a.line_description) ∧ (o ≠ 4 → b.line_source = a.line_source) ∧
    (o ≠ 5 → b.line_xtype = a.line_xtype) ∧ (o ≠ 6 → b.line_color = a.line_color) ∧
    (o ≠ 7 → b.line_name_label = a.line_name_label) ∧
    (o ≠ 8 → b.line_dist_label = a.line_dist_label) ∧ (o ≠ 9 → b.line_image = a.line_image) ∧
    (o ≠ 10 → b.line_image_direction = a.line_image_direction) ∧
    (o ≠ 11 → b.line_image_direction_ref = a.line_image_direction_ref) ∧
    (o ≠ 12 → b.line_latlon.lat = a.line_latlon.lat) ∧
    (o ≠ 13 → b.line_latlon.lon = a.line_latlon.lon) ∧
    (o ≠ 14 → b.line_altitude = a.line_altitude) ∧ (o ≠ 15 → b.line_visible = a.line_visible) ∧
    (o ≠ 16 → b.line_symbol = a.line_symbol) ∧ (o ≠ 17 → b.line_timestamp = a.line_timestamp) ∧
    (o ≠ 18 → b.line_newsegment = a.line_newsegment) ∧
    (o ≠ 19 → b.line_extended = a.line_extended) ∧ (o ≠ 20 → b.line_speed = a.line_speed) ∧
    (o ≠ 21 → b.line_course = a.line_course) ∧ (o ≠ 22 → b.line_sat = a.line_sat) ∧
    (o ≠ 23 → b.line_fix = a.line_fix) ∧ (o ≠ 24 → b.line_hdop = a.line_hdop) ∧
    (o ≠ 25 → b.line_vdop = a.line_vdop) ∧ (o ≠ 26 → b.line_pdop = a.line_pdop)

/-- What a token does to the `line_*` variables when the tag parser is given
the token alone: the index in `key_table` of the action and the value slice
the action is applied to, `none` when the token changes nothing. The token
`type=""`, whose value is NULL, sets the record type to None, as the action of
`type` does on an empty slice. -/
def token_action (tok : List Nat) : Option (Nat × List Nat × Nat) :=
  match tag_call tok tok.length with
  | none => none
  | some (key_len, none, _) => if key_is tok key_len 4 STR_type = true then some (0, [], 0) else none
  | some (key_len, some v, value_len) => (key_index tok key_len).map (fun i => (i, v, value_len))

/-- The `line_*` variables after a token that is handed to the tag parser
alone, as a total function. -/
def token_apply {D : Type} (env : Env D) (tok : List Nat) (acc : Acc D) : Acc D :=
  match token_action tok with
  | none => acc
  | some (i, v, value_len) => key_apply env i acc v value_len

/-- The key of a token in lower case: the characters in front of the `=` that
the tag parser finds; `none` when the tag parser passes the token over. -/
def token_key (tok : List Nat) : Option (List Nat) :=
  (tag_call tok tok.length).map (fun c => (tok.take c.1).map tolower)

/-- Two tokens do not have the same key, compared without regard to case. -/
def keys_differ (a b : List Nat) : Prop :=
  token_key a = none ∨ token_key b = none ∨ token_key a ≠ token_key b

/-- The line of the tokens `toks`, with one space between two tokens. -/
def join_tokens : List (List Nat) → List Nat
  | [] => []
  | t :: ts => t ++ tail_text (ts.map some)

/-- A token that stands for itself wherever it is on a line: the tokenizer
cuts it out as it is, whatever follows it behind a token boundary, and the tag
parser does with it what it does with the token alone. -/
def self_contained {D : Type} (env : Env D) (tok : List Nat) : Prop :=
  scannable tok ∧
    ∀ (acc : Acc D) (rest : List Nat), token_boundary rest →
      gpspoint_process_tag env acc (tok ++ rest) tok.length =
        gpspoint_process_tag env acc tok tok.length

/-- The number parsers `g_ascii_strtod` and `atoi` read no further than the
first double quote: what stands behind it does not change their result. -/
def stops_at_quote {D : Type} (env : Env D) : Prop :=
  ∀ v r1 r2 : List Nat,
    env.g_ascii_strtod (v ++ 34 :: r1) = env.g_ascii_strtod (v ++ 34 :: r2) ∧
      env.atoi (v ++ 34 :: r1) = env.atoi (v ++ 34 :: r2)

/-- The line `type="waypoint" name="A" x="b`: the quote of the last token is
not closed. -/
def open_last_token_line : List Nat := [116, 121, 112, 101, 61, 34, 119, 97, 121, 112, 111, 105, 110, 116, 34, 32, 110, 97, 109, 101, 61, 34, 65, 34, 32, 120, 61, 34, 98]

/-- The line `x="b type="waypoint" name="A"`: the tokens of
`open_last_token_line`, the last one put first. -/
def open_first_token_line : List Nat := [120, 61, 34, 98, 32, 116, 121, 112, 101, 61, 34, 119, 97, 121, 112, 111, 105, 110, 116, 34, 32, 110, 97, 109, 101, 61, 34, 65, 34]

/-- The tokens `type="waypoint"`, `name="A"`, `latitude="5"` and `visible="n"`. -/
def sample_line_tokens : List (List Nat) :=
  [[116, 121, 112, 101, 61, 34, 119, 97, 121, 112, 111, 105, 110, 116, 34],
    [110, 97, 109, 101, 61, 34, 65, 34],
    [108, 97, 116, 105, 116, 117, 100, 101, 61, 34, 53, 34],
    [118, 105, 115, 105, 98, 108, 101, 61, 34, 110, 34]]

instance (a b : List Nat) : Decidable (keys_differ a b) := by
  unfold keys_differ
  infer_instance

/-! ## Lemmas on C strings, the escaper and the decoder -/

theorem cget_append_length (pre : List Nat) (c : Nat) (cs : List Nat) :
    cget (pre ++ c :: cs) pre.length = c := by
  rw [cget, List.getD_eq_getElem?_getD, List.getElem?_append_right (le_refl _)]
  simp

theorem cget_append_add (pre l : List Nat) (k : Nat) :
    cget (pre ++ l) (pre.length + k) = cget l k := by
  rw [cget, cget, List.getD_eq_getElem?_getD, List.getD_eq_getElem?_getD,
    List.getElem?_append_right (Nat.le_add_right _ _)]
  simp

theorem cget_length (str : List Nat) : cget str str.length = 0 := by
  simp [cget, List.getD_eq_getElem?_getD]

theorem strlen_of_no_nul (s : List Nat) (h : 0 ∉ s) : strlen s = s.length := by
  unfold strlen
  congr 1
  rw [List.takeWhile_eq_self_iff]
  intro c hc
  have : c ≠ 0 := fun h0 => h (h0 ▸ hc)
  simpa using this

theorem escaped_append (a b : List Nat) : escaped (a ++ b) = escaped a ++ escaped b := by
  induction a with
  | nil => rfl
  | cons c cs ih => simp [escaped, ih]

theorem escaped_length (s : List Nat) : (escaped s).length = s.length + count_special s := by
  induction s with
  | nil => rfl
  | cons c cs ih =>
    simp only [escaped, count_special, List.length_append, ih, esc_char, List.length_cons]
    split_ifs <;> simp <;> omega

theorem slashdup_loop_eq (s pre rv : List Nat) :
    (List.range' pre.length s.length).foldl (slashdup_step (pre ++ s)) rv = rv ++ escaped s := by
  induction s generalizing pre rv with
  | nil => simp [escaped]
  | cons c cs ih =>
    have h := ih (pre ++ [c]) (slashdup_step (pre ++ c :: cs) rv pre.length)
    simp only [List.append_assoc, List.singleton_append, List.length_append, List.length_singleton]
      at h
    simp only [List.length_cons, List.range', List.foldl_cons, h]
    simp only [slashdup_step, cget_append_length, escaped, esc_char]
    split_ifs <;> first | omega | simp

theorem slashdup_eq_escaped (s : List Nat) (h : 0 ∉ s) : slashdup s = escaped s := by
  have := slashdup_loop_eq s [] []
  simpa [slashdup, strlen_of_no_nul s h, List.range_eq_range'] using this

theorem esc_char_length_pos (c : Nat) : 0 < (esc_char c).length := by
  unfold esc_char
  split_ifs <;> simp

theorem deslash_count_escaped (s : List Nat) :
    ∀ (pre post str : List Nat) (len fuel bs : Nat), str = pre ++ (escaped s ++ post) →
      pre.length + (escaped s).length ≤ len → len < 65536 → bs + count_special s < 65536 →
      deslash_count str len (fuel + s.length) pre.length bs =
        deslash_count str len fuel (pre.length + (escaped s).length) (bs + count_special s) := by
  induction s with
  | nil => intro pre post str len fuel bs _ _ _ _; simp [escaped, count_special]
  | cons c cs ih =>
    intro pre post str len fuel bs hstr hlen h16 hbs
    have hpos := esc_char_length_pos c
    simp only [escaped, List.length_append] at hlen
    simp only [count_special] at hbs
    have hfuel : fuel + (c :: cs).length = (fuel + cs.length) + 1 := by simp; omega
    rw [hfuel, deslash_count, if_pos (by omega)]
    by_cases hc : c = 92 ∨ c = 34
    · have hesc : esc_char c = [92, c] := by simp [esc_char, hc]
      have hget : cget str pre.length = 92 := by
        rw [hstr, escaped, hesc]; exact cget_append_length pre 92 _
      rw [hesc] at hlen
      simp only [List.length_cons, List.length_nil] at hlen
      have hbs1 : bs + 1 + count_special cs < 65536 := by simp [hc] at hbs; omega
      rw [if_pos hget, Nat.mod_eq_of_lt (by omega), Nat.mod_eq_of_lt (by omega)]
      have h := ih (pre ++ [92, c]) post str len fuel (bs + 1)
        (by rw [hstr, escaped, hesc]; simp) (by simp; omega) h16 (by simp [hc] at hbs; omega)
      simp only [List.length_append, List.length_cons, List.length_nil] at h
      rw [h]
      simp only [escaped, hesc, count_special, if_pos hc, List.length_append, List.length_cons,
        List.length_nil]
      congr 1 <;> omega
    · have hlen1 : (esc_char c).length = 1 := by
        unfold esc_char; rw [if_neg hc]; split_ifs <;> rfl
      obtain ⟨x, hx, hx92⟩ : ∃ x, esc_char c = [x] ∧ x ≠ 92 := by
        unfold esc_char; rw [if_neg hc]
        split_ifs
        · exact ⟨32, rfl, by decide⟩
        · exact ⟨c, rfl, fun h => hc (Or.inl h)⟩
      have hget : cget str pre.length = x := by
        rw [hstr, escaped, hx]; exact cget_append_length pre x _
      rw [hget, if_neg hx92, Nat.mod_eq_of_lt (by omega)]
      have h := ih (pre ++ [x]) post str len fuel bs
        (by rw [hstr, escaped, hx]; simp) (by simp; omega) h16 (by simp [hc] at hbs; omega)
      simp only [List.length_append, List.length_cons, List.length_nil] at h
      rw [h]
      simp only [escaped, hx, count_special, if_neg hc, List.length_append, List.length_cons,
        List.length_nil]
      congr 1 <;> omega

theorem deslash_copy_escaped (s : List Nat) :
    ∀ (pre post str rv : List Nat) (len new_len fuel : Nat), str = pre ++ (escaped s ++ post) →
      pre.length + (escaped s).length ≤ len → rv.length + s.length ≤ new_len →
      deslash_copy str len new_len (fuel + (escaped s).length) pre.length false rv =
        deslash_copy str len new_len fuel (pre.length + (escaped s).length) false
          (rv ++ crlf_to_space s) := by
  induction s with
  | nil => intro pre post str rv len new_len fuel _ _ _; simp [escaped, crlf_to_space]
  | cons c cs ih =>
    intro pre post str rv len new_len fuel hstr hlen hnew
    simp only [escaped, List.length_append] at hlen
    simp only [List.length_cons] at hnew
    by_cases hc : c = 92 ∨ c = 34
    · have hesc : esc_char c = [92, c] := by simp [esc_char, hc]
      have hget : cget str pre.length = 92 := by
        rw [hstr, escaped, hesc]; exact cget_append_length pre 92 _
      have hget1 : cget str (pre.length + 1) = c := by
        have := cget_append_length (pre ++ [92]) c (escaped cs ++ post)
        simpa [hstr, escaped, hesc] using this
      rw [hesc] at hlen
      simp only [List.length_cons, List.length_nil] at hlen
      have hfuel : fuel + (escaped (c :: cs)).length = (fuel + (escaped cs).length) + 1 + 1 := by
        simp [escaped, hesc]; omega
      have hnl : ¬ (c = 10 ∨ c = 13) := by omega
      rw [hfuel, deslash_copy, if_pos ⟨by omega, by omega⟩, if_pos ⟨hget, rfl⟩, deslash_copy,
        if_pos ⟨by omega, by omega⟩, if_neg (by simp), hget1]
      have h := ih (pre ++ [92, c]) post str (rv ++ [c]) len new_len fuel
        (by rw [hstr, escaped, hesc]; simp) (by simp; omega) (by simp; omega)
      simp only [List.length_append, List.length_cons, List.length_nil] at h
      rw [show pre.length + 1 + 1 = pre.length + (0 + 1 + 1) by omega, h]
      simp only [escaped, hesc, crlf_to_space, List.map_cons, if_neg hnl, List.length_append,
        List.length_cons, List.length_nil, List.append_assoc, List.singleton_append]
      congr 1; omega
    · obtain ⟨x, hx, hx92, hxn⟩ :
          ∃ x, esc_char c = [x] ∧ x ≠ 92 ∧ x = (if c = 10 ∨ c = 13 then 32 else c) := by
        unfold esc_char; rw [if_neg hc]
        split_ifs
        · exact ⟨32, rfl, by decide, rfl⟩
        · exact ⟨c, rfl, fun h => hc (Or.inl h), rfl⟩
      have hget : cget str pre.length = x := by
        rw [hstr, escaped, hx]; exact cget_append_length pre x _
      rw [hx] at hlen
      simp only [List.length_cons, List.length_nil] at hlen
      have hfuel : fuel + (escaped (c :: cs)).length = (fuel + (escaped cs).length) + 1 := by
        simp [escaped, hx]; omega
      rw [hfuel, deslash_copy, if_pos ⟨by omega, by omega⟩, hget, if_neg (by simp [hx92])]
      have h := ih (pre ++ [x]) post str (rv ++ [x]) len new_len fuel
        (by rw [hstr, escaped, hx]; simp) (by simp; omega) (by simp; omega)
      simp only [List.length_append, List.length_cons, List.length_nil] at h
      rw [h]
      simp only [escaped, hx, crlf_to_space, List.map_cons, ← hxn, List.length_append,
        List.length_cons, List.length_nil, List.append_assoc, List.singleton_append]
      congr 1; omega

theorem escaped_no_nul (s : List Nat) (h : 0 ∉ s) : 0 ∉ escaped s := by
  induction s with
  | nil => simp [escaped]
  | cons c cs ih =>
    simp only [List.mem_cons, not_or] at h
    simp only [escaped, List.mem_append, not_or]
    refine ⟨?_, ih h.2⟩
    unfold esc_char
    split_ifs <;> simp <;> omega

/-- The test `str[i-1] == '\\' && (len == 1 || str[i-2] != '\\')` of `deslashndup`
is false at `i = len` on an escaped text: it never ends in a lone backslash. -/
theorem escaped_last_not_dangling (s post : List Nat) (hne : s ≠ []) :
    ¬ (cget (escaped s ++ post) ((escaped s).length - 1) = 92 ∧
        ((escaped s).length = 1 ∨ cget (escaped s ++ post) ((escaped s).length - 2) ≠ 92)) := by
  obtain ⟨s1, c, rfl⟩ : ∃ s1 c, s = s1 ++ [c] :=
    ⟨s.dropLast, s.getLast hne, (List.dropLast_append_getLast hne).symm⟩
  have hE : escaped (s1 ++ [c]) = escaped s1 ++ esc_char c := by
    rw [escaped_append]; simp [escaped]
  rw [hE]
  by_cases hc : c = 92 ∨ c = 34
  · have hesc : esc_char c = [92, c] := by simp [esc_char, hc]
    rw [hesc]
    have h2 : cget (escaped s1 ++ [92, c] ++ post) ((escaped s1 ++ [92, c]).length - 2) = 92 := by
      have := cget_append_length (escaped s1) 92 (c :: post)
      simpa using this
    intro h
    rcases h.2 with h1 | h1
    · simp at h1
    · exact h1 h2
  · obtain ⟨x, hx, hx92⟩ : ∃ x, esc_char c = [x] ∧ x ≠ 92 := by
      unfold esc_char; rw [if_neg hc]
      split_ifs
      · exact ⟨32, rfl, by decide⟩
      · exact ⟨c, rfl, fun h => hc (Or.inl h)⟩
    rw [hx]
    have h1 : cget (escaped s1 ++ [x] ++ post) ((escaped s1 ++ [x]).length - 1) = x := by
      have := cget_append_length (escaped s1) x post
      simpa using this
    intro h
    exact hx92 (h1 ▸ h.1)

/-- Decoding an escaped text that is followed by anything in the buffer. -/
theorem deslashndup_escaped (s post : List Nat) (hne : s ≠ [])
    (h16 : (escaped s).length < 65536) :
    deslashndup (escaped s ++ post) (escaped s).length = some (some (crlf_to_space s)) := by
  have hpos : 0 < (escaped s).length := by
    cases s with
    | nil => exact absurd rfl hne
    | cons c cs => simp only [escaped, List.length_append]; have := esc_char_length_pos c; omega
  have hL := escaped_length s
  have hcount := deslash_count_escaped s [] post (escaped s ++ post) (escaped s).length
    ((escaped s).length + 1 - s.length) 0 rfl (by simp) h16 (by omega)
  rw [show (escaped s).length + 1 - s.length + s.length = (escaped s).length + 1 by omega] at hcount
  simp only [List.length_nil, Nat.zero_add] at hcount
  have hcount2 : deslash_count (escaped s ++ post) (escaped s).length ((escaped s).length + 1) 0 0 =
      some ((escaped s).length, count_special s) := by
    rw [hcount]
    obtain ⟨k, hk⟩ : ∃ k, (escaped s).length + 1 - s.length = k + 1 :=
      ⟨(escaped s).length - s.length, by omega⟩
    rw [hk, deslash_count]
    simp
  have hcopy := deslash_copy_escaped s [] post (escaped s ++ post) [] (escaped s).length s.length 1
    rfl (by simp) (by simp)
  have hcopy2 : deslash_copy (escaped s ++ post) (escaped s).length s.length
      ((escaped s).length + 1) 0 false [] = crlf_to_space s := by
    rw [show (escaped s).length + 1 = 1 + (escaped s).length by omega]
    simp only [List.length_nil, List.nil_append, Nat.zero_add] at hcopy
    rw [hcopy, deslash_copy]
    simp
  have hnew : ((escaped s).length + 65536 - count_special s) % 65536 = s.length := by
    rw [show (escaped s).length + 65536 - count_special s = s.length + 65536 by omega]
    rw [Nat.add_mod_right]
    exact Nat.mod_eq_of_lt (by omega)
  unfold deslashndup
  simp only [Nat.mod_eq_of_lt h16]
  rw [if_neg (by omega), hcount2]
  simp only [if_neg (escaped_last_not_dangling s post hne), hnew, hcopy2]
  simp [crlf_to_space]

theorem deslashndup_slashdup_multiple_of_65536 (n : Nat) (hn : 0 < n) (hmod : n % 65536 = 0) :
    List.replicate n 97 ≠ [] ∧ 0 ∉ List.replicate n 97 ∧
    deslashndup (slashdup (List.replicate n 97))
      (strlen (slashdup (List.replicate n 97))) = some none := by
  have h0 : 0 ∉ List.replicate n 97 := by simp [List.mem_replicate]
  have hesc : ∀ k, escaped (List.replicate k 97) = List.replicate k 97 := by
    intro k
    induction k with
    | zero => rfl
    | succ k ih => simp [List.replicate_succ, escaped, esc_char, ih]
  refine ⟨?_, h0, ?_⟩
  · intro h
    have := congrArg List.length h
    simp at this
    omega
  · rw [slashdup_eq_escaped _ h0, hesc, strlen_of_no_nul _ h0]
    simp [deslashndup, hmod]

/-! ## Lemmas on the tokenizer and the tag parser -/

theorem escaped_head_ne_quote (s tail : List Nat) : cget (escaped s ++ 34 :: tail) 0 = 34 → s = [] := by
  cases s with
  | nil => intro _; rfl
  | cons c cs =>
    intro h
    exfalso
    simp only [escaped, esc_char] at h
    split_ifs at h with h1 h2
    · simp [cget] at h
    · simp [cget] at h
    · simp [cget] at h
      exact h1 (Or.inr h)

theorem scan_tag_plain (l : List Nat) (p : Nat) (Y : List Nat) (hl : ∀ c ∈ l, plain_char c = true)
    (hp : plain_char p = true) :
    scan_tag (l ++ p :: Y) false false = scan_tag (p :: Y) false false := by
  induction l with
  | nil => rfl
  | cons a l ih =>
    have ha := hl a (List.mem_cons_self _ _)
    have hl2 : ∀ c ∈ l, plain_char c = true := fun c hc => hl c (List.mem_cons_of_mem _ hc)
    have hnext : plain_char (cget (l ++ p :: Y) 0) = true := by
      cases l with
      | nil => simpa [cget] using hp
      | cons b l2 => simpa [cget] using hl2 b (List.mem_cons_self _ _)
    simp only [plain_char, Bool.and_eq_true, bne_iff_ne, ne_eq, Bool.not_eq_true'] at ha hnext
    rw [List.cons_append, scan_tag, if_pos ⟨ha.1.1.1, Or.inl ha.1.1.2⟩, if_neg (by simp [hnext.1.2]),
      if_neg (by simp), if_neg hnext.2]
    exact ih hl2

theorem scan_tag_eq_quote (X : List Nat) :
    scan_tag (61 :: 34 :: X) false false = scan_tag (34 :: X) true false := by
  simp [scan_tag, cget, isspace]

theorem scan_tag_escaped (s : List Nat) :
    ∀ (c0 : Nat) (tail : List Nat), c0 ≠ 0 → 0 ∉ s →
      scan_tag (c0 :: (escaped s ++ 34 :: tail)) true false = scan_tag (34 :: tail) false false := by
  induction s with
  | nil =>
    intro c0 tail hc0 _
    simp [escaped, scan_tag, cget, hc0]
  | cons c cs ih =>
    intro c0 tail hc0 h0
    simp only [List.mem_cons, not_or] at h0
    have hc : c ≠ 0 := fun h => h0.1 h.symm
    by_cases hsp : c = 92 ∨ c = 34
    · have hesc : esc_char c = [92, c] := by simp [esc_char, hsp]
      simp only [escaped, hesc, List.cons_append, List.nil_append]
      rw [scan_tag, if_pos ⟨hc0, Or.inr rfl⟩, if_pos (by simp [cget]), scan_tag,
        if_pos ⟨by decide, Or.inr rfl⟩, if_neg (by simp), if_pos rfl]
      exact ih c tail hc h0.2
    · obtain ⟨x, hx, hx92, hx34, hx0⟩ : ∃ x, esc_char c = [x] ∧ x ≠ 92 ∧ x ≠ 34 ∧ x ≠ 0 := by
        unfold esc_char; rw [if_neg hsp]
        split_ifs
        · exact ⟨32, rfl, by decide, by decide, by decide⟩
        · exact ⟨c, rfl, fun h => hsp (Or.inl h), fun h => hsp (Or.inr h), hc⟩
      simp only [escaped, hx, List.cons_append, List.nil_append]
      rw [scan_tag, if_pos ⟨hc0, Or.inr rfl⟩, if_neg (by simp [cget, hx92]), if_neg (by simp),
        if_neg (by simp [cget, hx34])]
      exact ih x tail hx0 h0.2

theorem scan_tag_close (tail : List Nat) (h : token_boundary tail) :
    scan_tag (34 :: tail) false false = (tail, false, false) := by
  rcases h with rfl | ⟨w, r, rfl, hw⟩
  · simp [scan_tag, cget, isspace]
  · have hw92 : w ≠ 92 := by rintro rfl; simp [isspace] at hw
    have hw34 : w ≠ 34 := by rintro rfl; simp [isspace] at hw
    rw [scan_tag, if_pos ⟨by decide, Or.inl (by decide)⟩, if_neg (by simp [cget, hw92]),
      if_neg (by simp), if_neg (by simp [cget, hw34]), scan_tag, if_neg (by simp [hw])]

/-- The tokenizer cuts the fragment `key="E"`, `E` an escaped text, as one token. -/
theorem scan_tag_quoted_field (key s tail : List Nat) (hk : ∀ c ∈ key, plain_char c = true)
    (h0 : 0 ∉ s) (ht : token_boundary tail) :
    scan_tag (quoted_field key (escaped s) ++ tail) false false = (tail, false, false) := by
  have h1 := scan_tag_plain key 61 (34 :: (escaped s ++ 34 :: tail)) hk (by decide)
  have h2 := scan_tag_eq_quote (escaped s ++ 34 :: tail)
  have h3 := scan_tag_escaped s 34 tail (by decide) h0
  have h4 := scan_tag_close tail ht
  have e : quoted_field key (escaped s) ++ tail = key ++ 61 :: 34 :: (escaped s ++ 34 :: tail) := by
    simp [quoted_field]
  rw [e, h1, h2, h3, h4]

theorem cget_append_left (l post : List Nat) (i : Nat) (h : i < l.length) :
    cget (l ++ post) i = cget l i := by
  rw [cget, cget, List.getD_eq_getElem?_getD, List.getD_eq_getElem?_getD,
    List.getElem?_append_left h]

theorem cget_mem (l : List Nat) (i : Nat) (h : i < l.length) : cget l i ∈ l := by
  rw [cget, List.getD_eq_getElem?_getD, List.getElem?_eq_getElem h]
  exact List.getElem_mem h

theorem key_end_loop_key (key X : List Nat) (len : Nat) (hk : 61 ∉ key) (hlen : key.length < len) :
    ∀ (fuel j : Nat), j < key.length → key.length ≤ fuel + j →
      key_end_loop (key ++ 61 :: X) len fuel j = some key.length := by
  intro fuel
  induction fuel with
  | zero => intro j hj hf; omega
  | succ fuel ih =>
    intro j hj hf
    rw [key_end_loop, if_pos (by omega)]
    by_cases hlast : j + 1 = key.length
    · rw [hlast, cget_append_length, if_pos rfl]
    · have hlt : j + 1 < key.length := by omega
      have hne : cget (key ++ 61 :: X) (j + 1) ≠ 61 := by
        rw [cget_append_left _ _ _ hlt]
        intro h
        exact hk (h ▸ cget_mem key (j + 1) hlt)
      rw [if_neg hne]
      exact ih (j + 1) hlt (by omega)

/-- The tag parser splits the token `key="E"` into the key (the first
`key.length` characters of the token) and the value slice `E`. -/
theorem process_tag_quoted_field {D : Type} (env : Env D) (acc : Acc D) (key E rest : List Nat)
    (hkne : key ≠ []) (hk : 61 ∉ key) (hE : cget (E ++ 34 :: rest) 0 ≠ 34) :
    gpspoint_process_tag env acc (quoted_field key E ++ rest) (quoted_field key E).length =
      gpspoint_process_key_and_value env acc (quoted_field key E ++ rest) key.length
        (some (E ++ 34 :: rest)) E.length := by
  have hklen : 0 < key.length := List.length_pos.mpr hkne
  have hlen : (quoted_field key E).length = key.length + E.length + 3 := by
    simp [quoted_field]; omega
  have etag : quoted_field key E ++ rest = key ++ 61 :: 34 :: (E ++ 34 :: rest) := by
    simp [quoted_field]
  have hkey : key_end_loop (quoted_field key E ++ rest) (quoted_field key E).length
      ((quoted_field key E).length + 1) 0 = some key.length := by
    rw [etag]
    exact key_end_loop_key key _ _ hk (by omega) _ 0 hklen (by omega)
  have hv1 : cget (quoted_field key E ++ rest) (key.length + 1) = 34 := by
    rw [etag]
    have := cget_append_add key (61 :: 34 :: (E ++ 34 :: rest)) 1
    rw [this]; rfl
  have hv2 : cget (quoted_field key E ++ rest) (key.length + 1 + 1) ≠ 34 := by
    rw [etag]
    have := cget_append_add key (61 :: 34 :: (E ++ 34 :: rest)) 2
    rw [show key.length + 1 + 1 = key.length + 2 by omega, this]
    simpa [cget] using hE
  have hlast : cget (quoted_field key E ++ rest) ((quoted_field key E).length - 1) = 34 := by
    have e2 : quoted_field key E ++ rest = (key ++ 61 :: 34 :: E) ++ 34 :: rest := by
      simp [quoted_field]
    have hl2 : (quoted_field key E).length - 1 = (key ++ 61 :: 34 :: E).length := by
      simp; omega
    rw [hl2, e2]
    exact cget_append_length _ 34 rest
  have hdrop : (quoted_field key E ++ rest).drop (key.length + 1 + 1) = E ++ 34 :: rest := by
    have e3 : quoted_field key E ++ rest = (key ++ [61, 34]) ++ (E ++ 34 :: rest) := by
      simp [quoted_field]
    rw [e3]
    exact List.drop_left' (by simp)
  unfold gpspoint_process_tag
  rw [hkey]
  simp only [hv1, hv2, hlast, hdrop, if_true, if_false]
  rw [if_neg (by omega), if_neg (by omega), if_neg (by omega)]
  congr 1
  omega

/-- A key the tokenizer and the tag parser take as the key of a token: not
empty, made of plain characters other than `=`, and not starting with `#`. -/
theorem text_keys_wellformed :
    ∀ k ∈ text_keys, (∀ c ∈ k, plain_char c = true) ∧ 61 ∉ k ∧ k ≠ [] ∧ cget k 0 ≠ 35 := by
  decide

theorem skip_space_of_not_isspace (c : Nat) (cs : List Nat) (h : isspace c = false) :
    skip_space (c :: cs) = c :: cs := by
  simp [skip_space, h]

/-- One iteration of the tokenizer loop on a line that starts with the
fragment `key="E"`, `E` an escaped text: the fragment is the token handed to
the tag parser, and the loop goes on behind the whitespace that follows it. -/
theorem tag_loop_quoted_field {D : Type} (env : Env D) (acc : Acc D) (key s rest : List Nat)
    (fuel : Nat) (hp : ∀ c ∈ key, plain_char c = true) (hkne : key ≠ []) (h35 : cget key 0 ≠ 35)
    (h0 : 0 ∉ s) (hb : token_boundary rest) :
    tag_loop env (fuel + 1) (quoted_field key (escaped s) ++ rest) false false acc =
      (gpspoint_process_tag env acc (quoted_field key (escaped s) ++ rest)
        (quoted_field key (escaped s)).length).bind (tag_loop_after env fuel rest) := by
  obtain ⟨a, key1, rfl⟩ : ∃ a key1, key = a :: key1 := by
    cases key with
    | nil => exact absurd rfl hkne
    | cons a key1 => exact ⟨a, key1, rfl⟩
  have ha := hp a (List.mem_cons_self _ _)
  simp only [plain_char, Bool.and_eq_true, bne_iff_ne, ne_eq, Bool.not_eq_true'] at ha
  have hscan := scan_tag_quoted_field (a :: key1) s rest hp h0 hb
  have hhead : quoted_field (a :: key1) (escaped s) ++ rest =
      a :: (key1 ++ 61 :: 34 :: (escaped s ++ [34]) ++ rest) := by
    simp [quoted_field]
  have hc0 : cget (quoted_field (a :: key1) (escaped s) ++ rest) 0 = a := by
    rw [hhead]; rfl
  have hskip : skip_space (quoted_field (a :: key1) (escaped s) ++ rest) =
      quoted_field (a :: key1) (escaped s) ++ rest := by
    rw [hhead]; exact skip_space_of_not_isspace _ _ ha.1.1.2
  have h35a : a ≠ 35 := by simpa [cget] using h35
  rw [tag_loop]
  simp only [hskip, hc0, if_neg ha.1.1.1, if_neg h35a, if_neg ha.2, hscan]
  have hlen : (quoted_field (a :: key1) (escaped s) ++ rest).length - rest.length =
      (quoted_field (a :: key1) (escaped s)).length := by
    simp
  rw [hlen]
  cases gpspoint_process_tag env acc (quoted_field (a :: key1) (escaped s) ++ rest)
      (quoted_field (a :: key1) (escaped s)).length with
  | none => rfl
  | some acc1 =>
    rcases hb with rfl | ⟨w, r, rfl, hw⟩
    · simp [cget, tag_loop_after]
    · have hw0 : w ≠ 0 := by rintro rfl; simp [isspace] at hw
      simp [cget, hw0, tag_loop_after]

/-! ## Termination of the loops on a line of the line buffer -/

theorem deslash_count_terminates (str : List Nat) (len : Nat) (h : len < 65535) :
    ∀ (fuel i bs : Nat), i ≤ len + 1 → len - i + 1 ≤ fuel →
      ∃ r, deslash_count str len fuel i bs = some r := by
  intro fuel
  induction fuel with
  | zero => intro i bs _ hf; omega
  | succ fuel ih =>
    intro i bs hi hf
    rw [deslash_count]
    by_cases hlt : i < len
    · rw [if_pos hlt]
      split_ifs
      · rw [Nat.mod_eq_of_lt (by omega)]
        exact ih _ _ (by omega) (by omega)
      · rw [Nat.mod_eq_of_lt (by omega)]
        exact ih _ _ (by omega) (by omega)
    · rw [if_neg hlt]
      exact ⟨_, rfl⟩

/-- The decoder returns for every slice shorter than 65535 bytes. -/
theorem deslashndup_terminates (str : List Nat) (len0 : Nat) (h : len0 % 65536 < 65535) :
    ∃ r, deslashndup str len0 = some r := by
  unfold deslashndup
  by_cases h1 : len0 % 65536 < 1
  · simp only [if_pos h1]
    exact ⟨_, rfl⟩
  · obtain ⟨⟨i, bs⟩, hr⟩ := deslash_count_terminates str (len0 % 65536) h (len0 % 65536 + 1) 0 0
      (by omega) (by omega)
    simp only [if_neg h1, hr]
    exact ⟨_, rfl⟩

theorem key_end_loop_terminates (tag : List Nat) (len : Nat) :
    ∀ (fuel j : Nat), 1 ≤ fuel → len ≤ fuel + j →
      ∃ k, key_end_loop tag len fuel j = some k ∧ j < k ∧ k ≤ max len (j + 1) := by
  intro fuel
  induction fuel with
  | zero => intro j h1 _; omega
  | succ fuel ih =>
    intro j _ hf
    rw [key_end_loop]
    by_cases hlt : j + 1 < len
    · rw [if_pos hlt]
      by_cases heq : cget tag (j + 1) = 61
      · rw [if_pos heq]
        exact ⟨j + 1, rfl, by omega, by omega⟩
      · rw [if_neg heq]
        obtain ⟨k, hk, h1, h2⟩ := ih (j + 1) (by omega) (by omega)
        exact ⟨k, hk, by omega, by omega⟩
    · rw [if_neg hlt]
      exact ⟨j + 1, rfl, by omega, by omega⟩

/-! ## The key dispatcher as a table -/

theorem tolower_eq_zero (c : Nat) (h : tolower c = 0) : c = 0 := by
  unfold tolower at h
  split_ifs at h
  omega

theorem strncasecmp_eq_take :
    ∀ (n : Nat) (key lit : List Nat), n ≤ lit.length → 0 ∉ lit →
      strncasecmp_eq key lit n = true → (key.take n).map tolower = (lit.take n).map tolower ∧
        n ≤ key.length := by
  intro n
  induction n with
  | zero => intro key lit _ _ _; simp
  | succ n ih =>
    intro key lit hlen h0 h
    cases lit with
    | nil => simp at hlen
    | cons b lit1 =>
      simp only [List.mem_cons, not_or] at h0
      rw [strncasecmp_eq] at h
      have hb : cget (b :: lit1) 0 = b := rfl
      rw [hb] at h
      by_cases h1 : tolower (cget key 0) = tolower b
      · have hk0 : cget key 0 ≠ 0 := by
          intro hz
          rw [hz] at h1
          exact h0.1 (tolower_eq_zero b h1.symm).symm
        cases key with
        | nil => exact absurd rfl hk0
        | cons a key1 =>
          have ha : cget (a :: key1) 0 = a := rfl
          rw [ha] at h1 hk0 h
          simp only [h1, ne_eq, not_true_eq_false, if_false, hk0, List.tail_cons] at h
          obtain ⟨h2, h3⟩ := ih key1 lit1 (by simpa using hlen) h0.2 h
          simp [h1, h2, h3]
      · simp [h1] at h

theorem strncasecmp_eq_self_append :
    ∀ (lit X : List Nat), 0 ∉ lit → strncasecmp_eq (lit ++ X) lit lit.length = true := by
  intro lit
  induction lit with
  | nil => intro X _; rfl
  | cons b lit1 ih =>
    intro X h0
    simp only [List.mem_cons, not_or] at h0
    have hb : b ≠ 0 := fun h => h0.1 h.symm
    rw [List.length_cons, List.cons_append, strncasecmp_eq]
    simp only [cget, List.getD_cons_zero, ne_eq, not_true_eq_false, if_false, hb, List.tail_cons]
    exact ih X h0.2

theorem key_table_wellformed : ∀ e ∈ key_table, e.2.length = e.1 ∧ 0 ∉ e.2 := by decide

theorem key_table_distinct :
    ∀ e1 ∈ key_table, ∀ e2 ∈ key_table,
      e1.1 = e2.1 → e1.2.map tolower = e2.2.map tolower → e1 = e2 := by
  decide

/-- A key passes the dispatcher's test for at most one key of the table. -/
theorem key_is_unique (key : List Nat) (key_len : Nat) (e1 e2 : Nat × List Nat)
    (h1 : e1 ∈ key_table) (h2 : e2 ∈ key_table) (k1 : key_is key key_len e1.1 e1.2 = true)
    (k2 : key_is key key_len e2.1 e2.2 = true) : e1 = e2 := by
  obtain ⟨l1, z1⟩ := key_table_wellformed e1 h1
  obtain ⟨l2, z2⟩ := key_table_wellformed e2 h2
  simp only [key_is, Bool.and_eq_true, decide_eq_true_eq] at k1 k2
  obtain ⟨a1, b1⟩ := k1
  obtain ⟨a2, b2⟩ := k2
  have c1 := (strncasecmp_eq_take key_len key e1.2 (by omega) z1 b1).1
  have c2 := (strncasecmp_eq_take key_len key e2.2 (by omega) z2 b2).1
  rw [List.take_of_length_le (show e1.2.length ≤ key_len by omega)] at c1
  rw [List.take_of_length_le (show e2.2.length ≤ key_len by omega)] at c2
  exact key_table_distinct e1 h1 e2 h2 (by omega) (c1.symm.trans c2)

theorem find_key_of_match (key : List Nat) (key_len : Nat) :
    ∀ (l : List (Nat × List Nat)) (start i : Nat) (e : Nat × List Nat), l[i]? = some e →
      key_is key key_len e.1 e.2 = true →
      (∀ j < i, ∀ e2, l[j]? = some e2 → key_is key key_len e2.1 e2.2 = false) →
      find_key key key_len l start = some (start + i) := by
  intro l
  induction l with
  | nil => intro start i e h; simp at h
  | cons a l ih =>
    intro start i e h hk hlt
    cases i with
    | zero =>
      simp only [List.getElem?_cons_zero, Option.some.injEq] at h
      subst h
      simp [find_key, hk]
    | succ i =>
      have ha := hlt 0 (by omega) a (by simp)
      rw [find_key, ha]
      simp only [Bool.false_eq_true, if_false]
      rw [ih (start + 1) i e (by simpa using h) hk
        (fun j hj e2 he2 => hlt (j + 1) (by omega) e2 (by simpa using he2))]
      congr 1; omega

/-- The index of a key that passes the test of the table entry of index `i`. -/
theorem key_index_of_match (key : List Nat) (key_len i : Nat) (e : Nat × List Nat)
    (hi : key_table[i]? = some e) (hk : key_is key key_len e.1 e.2 = true) :
    key_index key key_len = some i := by
  have h := find_key_of_match key key_len key_table 0 i e hi hk ?_
  · simpa [key_index] using h
  · intro j hj e2 he2
    by_contra hc
    simp only [Bool.not_eq_false] at hc
    have heq := key_is_unique key key_len e2 e (List.getElem?_mem he2) (List.getElem?_mem hi)
      hc hk
    subst heq
    have hnd : key_table.Nodup := by decide
    have hj2 : j < key_table.length := by
      by_contra hge
      rw [List.getElem?_eq_none (by omega)] at he2
      exact absurd he2 (by simp)
    have hi2 : i < key_table.length := by
      by_contra hge
      rw [List.getElem?_eq_none (by omega)] at hi
      exact absurd hi (by simp)
    rw [List.getElem?_eq_getElem hj2] at he2
    rw [List.getElem?_eq_getElem hi2] at hi
    have := (List.Nodup.getElem_inj_iff hnd).mp ((Option.some.inj he2).trans (Option.some.inj hi).symm)
    omega

theorem key_index_none (key : List Nat) (key_len : Nat)
    (h : ∀ e ∈ key_table, key_is key key_len e.1 e.2 = false) : key_index key key_len = none := by
  have : ∀ (l : List (Nat × List Nat)) (start : Nat),
      (∀ e ∈ l, key_is key key_len e.1 e.2 = false) → find_key key key_len l start = none := by
    intro l
    induction l with
    | nil => intro _ _; rfl
    | cons a l ih =>
      intro start hl
      rw [find_key, hl a (List.mem_cons_self _ _)]
      simp only [Bool.false_eq_true, if_false]
      exact ih _ (fun e he => hl e (List.mem_cons_of_mem _ he))
  exact this key_table 0 h

/-- The `else if` chain of the dispatcher, for a non-NULL value, does what the
table says for the first key of the table that the key passes the test of. -/
theorem process_key_and_value_eq_table {D : Type} (env : Env D) (acc : Acc D) (key : List Nat)
    (key_len : Nat) (v : List Nat) (value_len : Nat) :
    gpspoint_process_key_and_value env acc key key_len (some v) value_len =
      match key_index key key_len with
      | none => some acc
      | some i => key_action env i acc v value_len := by
  unfold gpspoint_process_key_and_value
  by_cases h0 : key_is key key_len 4 STR_type = true
  · rw [if_pos h0, key_index_of_match key key_len 0 (4, STR_type) rfl h0]
    rfl
  rw [if_neg h0]
  dsimp only
  by_cases h1 : key_is key key_len 4 STR_name = true
  · rw [if_pos h1, key_index_of_match key key_len 1 (4, STR_name) rfl h1]
    rfl
  rw [if_neg h1]
  by_cases h2 : key_is key key_len 7 STR_comment = true
  · rw [if_pos h2, key_index_of_match key key_len 2 (7, STR_comment) rfl h2]
    rfl
  rw [if_neg h2]
  by_cases h3 : key_is key key_len 11 STR_description = true
  · rw [if_pos h3, key_index_of_match key key_len 3 (11, STR_description) rfl h3]
    rfl
  rw [if_neg h3]
  by_cases h4 : key_is key key_len 6 STR_source = true
  · rw [if_pos h4, key_index_of_match key key_len 4 (6, STR_source) rfl h4]
    rfl
  rw [if_neg h4]
  by_cases h5 : key_is key key_len 5 STR_xtype = true
  · rw [if_pos h5, key_index_of_match key key_len 5 (5, STR_xtype) rfl h5]
    rfl
  rw [if_neg h5]
  by_cases h6 : key_is key key_len 5 STR_color = true
  · rw [if_pos h6, key_index_of_match key key_len 6 (5, STR_color) rfl h6]
    rfl
  rw [if_neg h6]
  by_cases h7 : key_is key key_len 14 STR_draw_name_mode = true
  · rw [if_pos h7, key_index_of_match key key_len 7 (14, STR_draw_name_mode) rfl h7]
    rfl
  rw [if_neg h7]
  by_cases h8 : key_is key key_len 18 STR_number_dist_labels = true
  · rw [if_pos h8, key_index_of_match key key_len 8 (18, STR_number_dist_labels) rfl h8]
    rfl
  rw [if_neg h8]
  by_cases h9 : key_is key key_len 5 STR_image = true
  · rw [if_pos h9, key_index_of_match key key_len 9 (5, STR_image) rfl h9]
    rfl
  rw [if_neg h9]
  by_cases h10 : key_is key key_len 15 STR_image_direction = true
  · rw [if_pos h10, key_index_of_match key key_len 10 (15, STR_image_direction) rfl h10]
    rfl
  rw [if_neg h10]
  by_cases h11 : key_is key key_len 19 STR_image_direction_ref = true
  · rw [if_pos h11, key_index_of_match key key_len 11 (19, STR_image_direction_ref) rfl h11]
    rfl
  rw [if_neg h11]
  by_cases h12 : key_is key key_len 8 STR_latitude = true
  · rw [if_pos h12, key_index_of_match key key_len 12 (8, STR_latitude) rfl h12]
    rfl
  rw [if_neg h12]
  by_cases h13 : key_is key key_len 9 STR_longitude = true
  · rw [if_pos h13, key_index_of_match key key_len 13 (9, STR_longitude) rfl h13]
    rfl
  rw [if_neg h13]
  by_cases h14 : key_is key key_len 8 STR_altitude = true
  · rw [if_pos h14, key_index_of_match key key_len 14 (8, STR_altitude) rfl h14]
    rfl
  rw [if_neg h14]
  by_cases h15 : key_is key key_len 7 STR_visible = true
  · rw [key_index_of_match key key_len 15 (7, STR_visible) rfl h15]
    have hx : ∀ e ∈ key_table, e ≠ (7, STR_visible) → key_is key key_len e.1 e.2 = false := by
      intro e he hne
      by_contra hc
      simp only [Bool.not_eq_false] at hc
      exact hne (key_is_unique key key_len e (7, STR_visible) he (by decide) hc h15)
    by_cases hc : cget v 0 ≠ 121 ∧ cget v 0 ≠ 89 ∧ cget v 0 ≠ 116 ∧ cget v 0 ≠ 84
    · rw [if_pos ⟨h15, hc⟩]
      simp only [key_action, if_pos hc]
    · rw [if_neg (fun hh => hc hh.2)]
      rw [if_neg (by rw [hx (6, STR_symbol) (by decide) (by decide)]; simp)]
      rw [if_neg (by rw [hx (8, STR_unixtime) (by decide) (by decide)]; simp)]
      rw [if_neg (by rw [hx (10, STR_newsegment) (by decide) (by decide)]; simp)]
      rw [if_neg (by rw [hx (8, STR_extended) (by decide) (by decide)]; simp)]
      rw [if_neg (by rw [hx (5, STR_speed) (by decide) (by decide)]; simp)]
      rw [if_neg (by rw [hx (6, STR_course) (by decide) (by decide)]; simp)]
      rw [if_neg (by rw [hx (3, STR_sat) (by decide) (by decide)]; simp)]
      rw [if_neg (by rw [hx (3, STR_fix) (by decide) (by decide)]; simp)]
      rw [if_neg (by rw [hx (4, STR_hdop) (by decide) (by decide)]; simp)]
      rw [if_neg (by rw [hx (4, STR_vdop) (by decide) (by decide)]; simp)]
      rw [if_neg (by rw [hx (4, STR_pdop) (by decide) (by decide)]; simp)]
      simp only [key_action, if_neg hc]
  rw [if_neg (fun hh => h15 hh.1)]
  by_cases h16 : key_is key key_len 6 STR_symbol = true
  · rw [if_pos h16, key_index_of_match key key_len 16 (6, STR_symbol) rfl h16]
    rfl
  rw [if_neg h16]
  by_cases h17 : key_is key key_len 8 STR_unixtime = true
  · rw [if_pos h17, key_index_of_match key key_len 17 (8, STR_unixtime) rfl h17]
    rfl
  rw [if_neg h17]
  by_cases h18 : key_is key key_len 10 STR_newsegment = true
  · rw [if_pos h18, key_index_of_match key key_len 18 (10, STR_newsegment) rfl h18]
    rfl
  rw [if_neg h18]
  by_cases h19 : key_is key key_len 8 STR_extended = true
  · rw [if_pos h19, key_index_of_match key key_len 19 (8, STR_extended) rfl h19]
    rfl
  rw [if_neg h19]
  by_cases h20 : key_is key key_len 5 STR_speed = true
  · rw [if_pos h20, key_index_of_match key key_len 20 (5, STR_speed) rfl h20]
    rfl
  rw [if_neg h20]
  by_cases h21 : key_is key key_len 6 STR_course = true
  · rw [if_pos h21, key_index_of_match key key_len 21 (6, STR_course) rfl h21]
    rfl
  rw [if_neg h21]
  by_cases h22 : key_is key key_len 3 STR_sat = true
  · rw [if_pos h22, key_index_of_match key key_len 22 (3, STR_sat) rfl h22]
    rfl
  rw [if_neg h22]
  by_cases h23 : key_is key key_len 3 STR_fix = true
  · rw [if_pos h23, key_index_of_match key key_len 23 (3, STR_fix) rfl h23]
    rfl
  rw [if_neg h23]
  by_cases h24 : key_is key key_len 4 STR_hdop = true
  · rw [if_pos h24, key_index_of_match key key_len 24 (4, STR_hdop) rfl h24]
    rfl
  rw [if_neg h24]
  by_cases h25 : key_is key key_len 4 STR_vdop = true
  · rw [if_pos h25, key_index_of_match key key_len 25 (4, STR_vdop) rfl h25]
    rfl
  rw [if_neg h25]
  by_cases h26 : key_is key key_len 4 STR_pdop = true
  · rw [if_pos h26, key_index_of_match key key_len 26 (4, STR_pdop) rfl h26]
    rfl
  rw [if_neg h26]
  rw [key_index_none key key_len]
  intro e he
  simp only [key_table, List.mem_cons, List.mem_singleton, List.not_mem_nil, or_false] at he
  rcases he with rfl | rfl | rfl | rfl | rfl | rfl | rfl | rfl | rfl | rfl | rfl | rfl | rfl | rfl | rfl | rfl | rfl | rfl | rfl | rfl | rfl | rfl | rfl | rfl | rfl | rfl | rfl <;> simp [*]

theorem find_key_sound (key : List Nat) (key_len : Nat) :
    ∀ (l : List (Nat × List Nat)) (start i : Nat), find_key key key_len l start = some i →
      ∃ e, l[i - start]? = some e ∧ key_is key key_len e.1 e.2 = true ∧ start ≤ i := by
  intro l
  induction l with
  | nil => intro start i h; simp [find_key] at h
  | cons a l ih =>
    intro start i h
    rw [find_key] at h
    by_cases ha : key_is key key_len a.1 a.2 = true
    · rw [if_pos ha] at h
      simp only [Option.some.injEq] at h
      subst h
      exact ⟨a, by simp, ha, le_refl _⟩
    · rw [if_neg ha] at h
      obtain ⟨e, he, hk, hle⟩ := ih (start + 1) i h
      refine ⟨e, ?_, hk, by omega⟩
      rw [show i - start = (i - (start + 1)) + 1 by omega]
      simpa using he

theorem key_index_sound (key : List Nat) (key_len i : Nat) (h : key_index key key_len = some i) :
    ∃ e, key_table[i]? = some e ∧ key_is key key_len e.1 e.2 = true := by
  obtain ⟨e, he, hk, _⟩ := find_key_sound key key_len key_table 0 i h
  exact ⟨e, by simpa using he, hk⟩

/-- The dispatcher for a NULL value: only the `type` branch does not test
`value != NULL`. -/
theorem process_key_and_value_null {D : Type} (env : Env D) (acc : Acc D) (key : List Nat)
    (key_len value_len : Nat) :
    gpspoint_process_key_and_value env acc key key_len none value_len =
      if key_is key key_len 4 STR_type = true then
        some { acc with line_type := GPSPOINT_TYPE_NONE }
      else some acc := by
  by_cases h : key_is key key_len 4 STR_type = true
  · rw [if_pos h]
    unfold gpspoint_process_key_and_value
    rw [if_pos h]
  · rw [if_neg h]
    unfold gpspoint_process_key_and_value
    rw [if_neg h]

theorem key_action_terminates {D : Type} (env : Env D) (i : Nat) (acc : Acc D) (v : List Nat)
    (value_len : Nat) (h : value_len < 65535) :
    ∃ r, key_action env i acc v value_len = some r := by
  obtain ⟨r, hr⟩ := deslashndup_terminates v value_len
    (by rw [Nat.mod_eq_of_lt (by omega)]; exact h)
  unfold key_action
  split <;> first
    | exact ⟨_, rfl⟩
    | (split_ifs <;> first | exact ⟨_, rfl⟩ | (rw [hr]; exact ⟨_, rfl⟩))

theorem process_key_and_value_terminates {D : Type} (env : Env D) (acc : Acc D) (key : List Nat)
    (key_len : Nat) (value : Option (List Nat)) (value_len : Nat) (h : value_len < 65535) :
    ∃ r, gpspoint_process_key_and_value env acc key key_len value value_len = some r := by
  cases value with
  | none =>
    rw [process_key_and_value_null]
    split_ifs <;> exact ⟨_, rfl⟩
  | some v =>
    rw [process_key_and_value_eq_table]
    cases key_index key key_len with
    | none => exact ⟨_, rfl⟩
    | some i => exact key_action_terminates env i acc v value_len h

theorem process_tag_terminates {D : Type} (env : Env D) (acc : Acc D) (tag : List Nat)
    (len : Nat) (h : len < 65535) :
    ∃ r, gpspoint_process_tag env acc tag len = some r := by
  obtain ⟨k, hk, _, _⟩ := key_end_loop_terminates tag len (len + 1) 0 (by omega) (by omega)
  unfold gpspoint_process_tag
  simp only [hk]
  split_ifs
  all_goals first
    | exact ⟨_, rfl⟩
    | exact process_key_and_value_terminates env acc tag k _ _ (by omega)

theorem skip_space_length_le (l : List Nat) : (skip_space l).length ≤ l.length := by
  induction l with
  | nil => simp [skip_space]
  | cons c cs ih =>
    rw [skip_space]
    split_ifs
    · simp only [List.length_cons]; omega
    · exact le_refl _

theorem scan_tag_length_le (l : List Nat) :
    ∀ (iq bs : Bool), (scan_tag l iq bs).1.length ≤ l.length := by
  induction l with
  | nil => intro iq bs; simp [scan_tag]
  | cons c cs ih =>
    intro iq bs
    rw [scan_tag]
    split_ifs
    all_goals first
      | exact le_refl _
      | (simp only [List.length_cons]; exact Nat.le_succ_of_le (ih _ _))

theorem drop_one_length_lt (l : List Nat) (h : cget l 0 ≠ 0) : (l.drop 1).length < l.length := by
  cases l with
  | nil => exact absurd rfl h
  | cons c cs => simp

/-- The tokenizer loop is the tag parser folded over the tokens of the line. -/
theorem tag_loop_eq_fold {D : Type} (env : Env D) :
    ∀ (fuel : Nat) (ts : List Nat) (iq bs : Bool) (acc : Acc D), ts.length < fuel →
      tag_loop env fuel ts iq bs acc =
        (line_tokens fuel ts iq bs).foldlM (fun a t => gpspoint_process_tag env a t.1 t.2) acc := by
  intro fuel
  induction fuel with
  | zero => intro ts iq bs acc h; omega
  | succ fuel ih =>
    intro ts iq bs acc hlen
    rw [tag_loop, line_tokens]
    have h1 := skip_space_length_le ts
    by_cases hz : cget (skip_space ts) 0 = 0
    · simp only [hz, if_true]; rfl
    · by_cases hh : cget (skip_space ts) 0 = 35
      · simp only [hz, hh, if_true, if_false]; rfl
      · simp only [hz, hh, if_false]
        have h2 := scan_tag_length_le (skip_space ts)
          (if cget (skip_space ts) 0 = 34 then !iq else iq) bs
        rcases hs : scan_tag (skip_space ts) (if cget (skip_space ts) 0 = 34 then !iq else iq) bs
          with ⟨te, iq2, bs2⟩
        rw [hs] at h2
        simp only at h2 ⊢
        rw [List.foldlM_cons]
        cases gpspoint_process_tag env acc (skip_space ts) ((skip_space ts).length - te.length) with
        | none => rfl
        | some acc1 =>
          simp only [Option.some_bind, Option.bind_eq_bind]
          by_cases he : cget te 0 = 0
          · simp only [he, if_true]; rfl
          · simp only [he, if_false]
            have h3 := drop_one_length_lt te he
            exact ih _ _ _ _ (by omega)

theorem line_acc_eq_fold {D : Type} (env : Env D) (line : List Nat) (acc : Acc D) :
    line_acc env line acc =
      (tokens_of_line line).foldlM (fun a t => gpspoint_process_tag env a t.1 t.2) acc :=
  tag_loop_eq_fold env _ _ _ _ _ (Nat.lt_succ_self _)

theorem line_tokens_len_le :
    ∀ (fuel : Nat) (ts : List Nat) (iq bs : Bool), ∀ t ∈ line_tokens fuel ts iq bs,
      t.2 ≤ ts.length := by
  intro fuel
  induction fuel with
  | zero => intro ts iq bs t ht; simp [line_tokens] at ht
  | succ fuel ih =>
    intro ts iq bs t ht
    rw [line_tokens] at ht
    have h1 := skip_space_length_le ts
    by_cases hz : cget (skip_space ts) 0 = 0
    · simp [hz] at ht
    · by_cases hh : cget (skip_space ts) 0 = 35
      · simp [hz, hh] at ht
      · simp only [hz, hh, if_false] at ht
        have h2 := scan_tag_length_le (skip_space ts)
          (if cget (skip_space ts) 0 = 34 then !iq else iq) bs
        rcases hs : scan_tag (skip_space ts) (if cget (skip_space ts) 0 = 34 then !iq else iq) bs
          with ⟨te, iq2, bs2⟩
        rw [hs] at h2 ht
        simp only at h2 ht
        rcases List.mem_cons.mp ht with rfl | ht2
        · simp only; omega
        · by_cases he : cget te 0 = 0
          · simp [he] at ht2
          · simp only [he, if_false] at ht2
            have := ih _ _ _ t ht2
            have h3 := drop_one_length_lt te he
            omega

theorem fold_process_tag_terminates {D : Type} (env : Env D) :
    ∀ (toks : List (List Nat × Nat)) (acc : Acc D), (∀ t ∈ toks, t.2 < 65535) →
      ∃ r, toks.foldlM (fun a t => gpspoint_process_tag env a t.1 t.2) acc = some r := by
  intro toks
  induction toks with
  | nil => intro acc _; exact ⟨acc, rfl⟩
  | cons t toks ih =>
    intro acc h
    obtain ⟨a1, h1⟩ := process_tag_terminates env acc t.1 t.2 (h t (List.mem_cons_self _ _))
    rw [List.foldlM_cons, h1]
    exact ih a1 (fun t2 ht2 => h t2 (List.mem_cons_of_mem _ ht2))

/-- The tokenizer loop returns on every line of the line buffer. -/
theorem line_acc_terminates {D : Type} (env : Env D) (line : List Nat) (acc : Acc D)
    (h : line.length < VIKING_LINE_SIZE) : ∃ r, line_acc env line acc = some r := by
  rw [line_acc_eq_fold]
  apply fold_process_tag_terminates
  intro t ht
  have := line_tokens_len_le _ _ _ _ t ht
  simp only [VIKING_LINE_SIZE] at h
  omega

/-! ## Lemmas on the record builder -/

theorem update_at_length {α : Type} (f : α → α) :
    ∀ (k : Nat) (l : List α), (update_at f k l).length = l.length := by
  intro k l
  induction l generalizing k with
  | nil => cases k <;> rfl
  | cons x xs ih =>
    cases k with
    | zero => rfl
    | succ k => simp [update_at, ih]

theorem getElem?_update_at {α : Type} (f : α → α) :
    ∀ (k : Nat) (l : List α) (j : Nat),
      (update_at f k l)[j]? = if j = k then l[j]?.map f else l[j]? := by
  intro k l
  induction l generalizing k with
  | nil => intro j; cases k <;> simp [update_at]
  | cons x xs ih =>
    intro j
    cases k with
    | zero =>
      cases j with
      | zero => simp [update_at]
      | succ j => simp [update_at]
    | succ k =>
      cases j with
      | zero => simp [update_at]
      | succ j => simp [update_at, ih]

theorem update_at_update_at {α : Type} (f g : α → α) :
    ∀ (k : Nat) (l : List α), update_at f k (update_at g k l) = update_at (fun x => f (g x)) k l := by
  intro k l
  induction l generalizing k with
  | nil => cases k <;> rfl
  | cons x xs ih =>
    cases k with
    | zero => rfl
    | succ k => simp [update_at, ih]

theorem update_at_eq_self {α : Type} (f : α → α) :
    ∀ (k : Nat) (l : List α), (∀ x, l[k]? = some x → f x = x) → update_at f k l = l := by
  intro k l
  induction l generalizing k with
  | nil => intro _; cases k <;> rfl
  | cons x xs ih =>
    intro h
    cases k with
    | zero => simp [update_at, h x (by simp)]
    | succ k =>
      simp only [update_at, List.cons.injEq, true_and]
      exact ih k (fun y hy => h y (by simpa using hy))

theorem update_at_congr {α : Type} (f g : α → α) :
    ∀ (k : Nat) (l : List α), (∀ x, l[k]? = some x → f x = g x) →
      update_at f k l = update_at g k l := by
  intro k l
  induction l generalizing k with
  | nil => intro _; cases k <;> rfl
  | cons x xs ih =>
    intro h
    cases k with
    | zero => simp [update_at, h x (by simp)]
    | succ k =>
      simp only [update_at, List.cons.injEq, true_and]
      exact ih k (fun y hy => h y (by simpa using hy))

theorem update_at_append_singleton {α : Type} (f : α → α) (l : List α) (a : α) (h : f a = a) :
    ∀ (k : Nat), update_at f k (l ++ [a]) = update_at f k l ++ [a] := by
  induction l with
  | nil =>
    intro k
    cases k with
    | zero => simp [update_at, h]
    | succ k => simp [update_at]
  | cons x xs ih =>
    intro k
    cases k with
    | zero => simp [update_at]
    | succ k => simp [update_at, ih]

theorem reverse_points_reverse_points {D : Type} (t : Track D) :
    reverse_points (reverse_points t) = t := by
  cases t
  simp [reverse_points]

theorem isEmpty_reverse {α : Type} (l : List α) : l.reverse.isEmpty = l.isEmpty := by
  cases l <;> simp

theorem in_order_rel_trackpoints_end {D : Type} (c r : RState D) (h : in_order_rel c r) :
    in_order_rel (trackpoints_end c) (trackpoints_end_in_order r) := by
  obtain ⟨acc, cur, wps, trks, hrs⟩ := c
  obtain ⟨acc2, cur2, wps2, trks2, hrs2⟩ := r
  obtain ⟨h1, h2, h3, h4, h5⟩ := h
  simp only at h1 h2 h3 h4 h5
  subst h1 h2 h3 h4
  cases cur with
  | none =>
    simp only at h5
    subst h5
    simp [trackpoints_end, trackpoints_end_in_order, in_order_rel]
  | some k =>
    simp only at h5
    subst h5
    unfold trackpoints_end trackpoints_end_in_order
    simp only [getElem?_update_at, if_true]
    cases hk : trks2[k]? with
    | none => simp [in_order_rel]
    | some trk =>
      simp only [Option.map_some', reverse_points, isEmpty_reverse]
      by_cases he : trk.trackpoints.isEmpty = false
      · simp only [he, if_true, in_order_rel, true_and]
        rw [update_at_update_at]
        exact update_at_eq_self _ _ _ (fun x _ => reverse_points_reverse_points x)
      · simp only [he, if_false, in_order_rel, true_and]
        trivial

theorem tracks_eq_after_end {D : Type} (c r : RState D) (h : in_order_rel c r) :
    (trackpoints_end c).tracks = (trackpoints_end_in_order r).tracks := by
  obtain ⟨acc, cur, wps, trks, hrs⟩ := c
  obtain ⟨acc2, cur2, wps2, trks2, hrs2⟩ := r
  obtain ⟨h1, h2, h3, h4, h5⟩ := h
  simp only at h1 h2 h3 h4 h5
  subst h1 h2 h3 h4
  cases cur with
  | none =>
    simp only at h5
    subst h5
    simp [trackpoints_end, trackpoints_end_in_order]
  | some k =>
    simp only at h5
    subst h5
    unfold trackpoints_end trackpoints_end_in_order
    simp only [getElem?_update_at, if_true]
    cases hk : trks2[k]? with
    | none =>
      simp only [Option.map_none']
      exact update_at_eq_self _ _ _ (fun x hx => by rw [hk] at hx; exact absurd hx (by simp))
    | some trk =>
      simp only [Option.map_some', reverse_points, isEmpty_reverse]
      by_cases he : trk.trackpoints.isEmpty = false
      · simp only [he, if_true]
        rw [update_at_update_at]
        exact update_at_eq_self _ _ _ (fun x _ => reverse_points_reverse_points x)
      · simp only [he, if_false]
        apply update_at_eq_self
        intro x hx
        rw [hk] at hx
        simp only [Option.some.injEq] at hx
        subst hx
        have : trk.trackpoints = [] := by
          cases hp : trk.trackpoints with
          | nil => rfl
          | cons a l => rw [hp] at he; simp at he
        cases trk
        simp only at this
        subst this
        rfl

theorem in_order_rel_process_record {D : Type} (env : Env D) (c r : RState D)
    (h : in_order_rel c r) :
    in_order_rel (process_record env c) (process_record_in_order env r) := by
  have hacc : c.acc = r.acc := h.1
  unfold process_record process_record_in_order
  have h1 : in_order_rel
      (if c.acc.line_type = GPSPOINT_TYPE_TRACK_END ∨ c.acc.line_type = GPSPOINT_TYPE_ROUTE_END
        then trackpoints_end c else c)
      (if r.acc.line_type = GPSPOINT_TYPE_TRACK_END ∨ r.acc.line_type = GPSPOINT_TYPE_ROUTE_END
        then trackpoints_end_in_order r else r) := by
    rw [hacc]
    split_ifs
    · exact in_order_rel_trackpoints_end c r h
    · exact h
  dsimp only
  generalize (if c.acc.line_type = GPSPOINT_TYPE_TRACK_END ∨
    c.acc.line_type = GPSPOINT_TYPE_ROUTE_END then trackpoints_end c else c) = c1 at h1 ⊢
  generalize (if r.acc.line_type = GPSPOINT_TYPE_TRACK_END ∨
    r.acc.line_type = GPSPOINT_TYPE_ROUTE_END then trackpoints_end_in_order r else r) = r1 at h1 ⊢
  clear h hacc c r
  have hacc : c1.acc = r1.acc := h1.1
  have hcur : c1.current_track = r1.current_track := h1.2.1
  have he := in_order_rel_trackpoints_end c1 r1 h1
  have ht := tracks_eq_after_end c1 r1 h1
  have hea : (trackpoints_end c1).acc = c1.acc := by
    unfold trackpoints_end; split <;> [rfl; (split <;> [rfl; (split_ifs <;> rfl)])]
  have hea2 : (trackpoints_end_in_order r1).acc = r1.acc := by
    unfold trackpoints_end_in_order; split <;> [rfl; (split <;> [rfl; (split_ifs <;> rfl)])]
  rw [hacc, hcur]
  by_cases hw : r1.acc.line_type = GPSPOINT_TYPE_WAYPOINT ∧ r1.acc.line_name ≠ none
  · rw [if_pos hw, if_pos hw]
    obtain ⟨e1, e2, e3, e4, e5⟩ := he
    refine ⟨?_, e2, ?_, rfl, ?_⟩
    · simp only [e1]
    · simp only [e3, e1]
    · exact e5
  · rw [if_neg hw, if_neg hw]
    by_cases htk : (r1.acc.line_type = GPSPOINT_TYPE_TRACK ∨
        r1.acc.line_type = GPSPOINT_TYPE_ROUTE) ∧ r1.acc.line_name ≠ none
    · rw [if_pos htk, if_pos htk]
      obtain ⟨e1, e2, e3, e4, e5⟩ := he
      refine ⟨e1, ?_, e3, rfl, ?_⟩
      · simp only [ht]
      · simp only [ht, e1]
        rw [update_at_append_singleton _ _ _ (by simp [reverse_points, build_track])]
        rw [update_at_eq_self]
        intro x hx
        rw [List.getElem?_eq_none (le_refl _)] at hx
        exact absurd hx (by simp)
    · rw [if_neg htk, if_neg htk]
      by_cases hp : (r1.acc.line_type = GPSPOINT_TYPE_TRACKPOINT ∨
          r1.acc.line_type = GPSPOINT_TYPE_ROUTEPOINT) ∧ r1.current_track ≠ none
      · rw [if_pos hp, if_pos hp]
        obtain ⟨e1, e2, e3, e4, e5⟩ := h1
        cases hk : r1.current_track with
        | none => exact absurd hk hp.2
        | some k =>
          rw [hk] at e5
          simp only at e5
          dsimp only
          refine ⟨rfl, rfl, e3, rfl, ?_⟩
          dsimp only
          rw [e5, update_at_update_at, update_at_update_at]
          apply update_at_congr
          intro x _
          simp [reverse_points]
      · rw [if_neg hp, if_neg hp]
        exact h1


theorem process_line_eq_map {D : Type} (env : Env D) (line : List Nat) (st : RState D) :
    process_line env line st =
      (line_acc env line st.acc).map (fun acc =>
        { process_record env { st with acc := acc } with
          acc := Acc.reset env (process_record env { st with acc := acc }).acc }) := by
  unfold process_line line_acc
  cases tag_loop env (line.length + 1) line false false st.acc <;> rfl

theorem process_line_in_order_eq_map {D : Type} (env : Env D) (line : List Nat) (st : RState D) :
    process_line_in_order env line st =
      (line_acc env line st.acc).map (fun acc =>
        { process_record_in_order env { st with acc := acc } with
          acc := Acc.reset env (process_record_in_order env { st with acc := acc }).acc }) := by
  unfold process_line_in_order line_acc
  cases tag_loop env (line.length + 1) line false false st.acc <;> rfl

/-- One line of the line buffer is always processed to the end. -/
theorem process_line_terminates {D : Type} (env : Env D) (line : List Nat) (st : RState D)
    (h : line.length < VIKING_LINE_SIZE) : ∃ st1, process_line env line st = some st1 := by
  obtain ⟨acc, hacc⟩ := line_acc_terminates env line st.acc h
  rw [process_line_eq_map, hacc]
  exact ⟨_, rfl⟩

theorem in_order_rel_process_line {D : Type} (env : Env D) (line : List Nat) (c r c1 : RState D)
    (h : in_order_rel c r) (hc : process_line env line c = some c1) :
    ∃ r1, process_line_in_order env line r = some r1 ∧ in_order_rel c1 r1 := by
  rw [process_line_eq_map] at hc
  rw [process_line_in_order_eq_map, ← h.1]
  cases hl : line_acc env line c.acc with
  | none => rw [hl] at hc; simp at hc
  | some acc =>
    rw [hl] at hc
    simp only [Option.map_some', Option.some.injEq] at hc
    subst hc
    refine ⟨_, rfl, ?_⟩
    have h2 : in_order_rel { c with acc := acc } { r with acc := acc } :=
      ⟨rfl, h.2.1, h.2.2.1, h.2.2.2.1, h.2.2.2.2⟩
    obtain ⟨e1, e2, e3, e4, e5⟩ := in_order_rel_process_record env _ _ h2
    exact ⟨by simp only [e1], e2, e3, e4, e5⟩

theorem chop_length_lt (buf : List Nat) (h : buf.length ≤ VIKING_LINE_SIZE - 1) :
    (chop buf).length < VIKING_LINE_SIZE := by
  unfold chop
  have h1 : (buf.takeWhile (fun c => c != 0)).length ≤ buf.length :=
    (List.takeWhile_sublist _).length_le
  simp only [List.length_dropLast, VIKING_LINE_SIZE] at h ⊢
  omega

theorem fgets_chunks_length_le :
    ∀ (input cur : List Nat), cur.length < VIKING_LINE_SIZE - 1 →
      ∀ b ∈ fgets_chunks input cur, b.length ≤ VIKING_LINE_SIZE - 1 := by
  intro input
  induction input with
  | nil =>
    intro cur hcur b hb
    rw [fgets_chunks] at hb
    split_ifs at hb
    · simp at hb
    · simp only [List.mem_singleton] at hb
      subst hb
      omega
  | cons c cs ih =>
    intro cur hcur b hb
    rw [fgets_chunks] at hb
    split_ifs at hb with hcond
    · rcases List.mem_cons.mp hb with rfl | hb2
      · simp only [List.length_append, List.length_singleton]; omega
      · exact ih [] (by simp [VIKING_LINE_SIZE]) b hb2
    · refine ih (cur ++ [c]) ?_ b hb
      simp only [List.length_append, List.length_singleton]
      simp only [not_or] at hcond
      omega

theorem read_lines_terminates {D : Type} (env : Env D) :
    ∀ (chunks : List (List Nat)) (st : RState D),
      (∀ b ∈ chunks, b.length ≤ VIKING_LINE_SIZE - 1) → ∃ st1, read_lines env chunks st = some st1 := by
  intro chunks
  induction chunks with
  | nil => intro st _; exact ⟨st, rfl⟩
  | cons b rest ih =>
    intro st h
    rw [read_lines]
    split_ifs
    · exact ⟨_, rfl⟩
    · obtain ⟨st1, h1⟩ := process_line_terminates env (chop b) st
        (chop_length_lt b (h b (List.mem_cons_self _ _)))
      rw [h1]
      exact ih st1 (fun b2 hb2 => h b2 (List.mem_cons_of_mem _ hb2))

/-- The reader returns on every input. -/
theorem a_gpspoint_read_file_terminates {D : Type} (env : Env D) (latlon : LatLon D)
    (waypoints : List (Waypoint D)) (tracks : List (Track D)) (input : List Nat) :
    ∃ st, a_gpspoint_read_file env latlon waypoints tracks input = some st := by
  obtain ⟨st1, h1⟩ := read_lines_terminates env (fgets_chunks input [])
    (init_state env latlon waypoints tracks)
    (fgets_chunks_length_le input [] (by simp [VIKING_LINE_SIZE]))
  unfold a_gpspoint_read_file
  rw [h1]
  exact ⟨_, rfl⟩

theorem in_order_rel_read_lines {D : Type} (env : Env D) :
    ∀ (chunks : List (List Nat)) (c r c1 : RState D), in_order_rel c r →
      read_lines env chunks c = some c1 →
      ∃ r1, read_lines_in_order env chunks r = some r1 ∧ in_order_rel c1 r1 := by
  intro chunks
  induction chunks with
  | nil =>
    intro c r c1 h hc
    simp only [read_lines, Option.some.injEq] at hc
    subst hc
    exact ⟨r, rfl, h⟩
  | cons b rest ih =>
    intro c r c1 h hc
    rw [read_lines] at hc
    rw [read_lines_in_order]
    by_cases hs : strlen (chop b) ≥ 13 ∧ strncmp_eq (chop b) STR_EndLayerData 13 = true
    · rw [if_pos hs] at hc
      rw [if_pos hs]
      simp only [Option.some.injEq] at hc
      subst hc
      exact ⟨_, rfl, h.1, h.2.1, h.2.2.1, rfl, h.2.2.2.2⟩
    · rw [if_neg hs] at hc
      rw [if_neg hs]
      cases hp : process_line env (chop b) c with
      | none => rw [hp] at hc; simp at hc
      | some c2 =>
        rw [hp] at hc
        obtain ⟨r2, hr2, h2⟩ := in_order_rel_process_line env (chop b) c r c2 h hp
        rw [hr2]
        exact ih c2 r2 c1 h2 hc

/-! ## Frame lemmas: a key changes only its own `line_*` variable -/

/-- A projection of the `line_*` variables that only the table action of
index `idx` can change is kept by the dispatcher for every other key. -/
theorem process_key_and_value_frame {D β : Type} (env : Env D) (proj : Acc D → β)
    (idx n : Nat) (lit : List Nat) (hidx : key_table[idx]? = some (n, lit))
    (hact : ∀ (i : Nat) (acc : Acc D) (v : List Nat) (vl : Nat) (acc1 : Acc D), i ≠ idx →
      key_action env i acc v vl = some acc1 → proj acc1 = proj acc)
    (htype : ∀ (acc : Acc D) (ty : Nat), proj { acc with line_type := ty } = proj acc)
    (acc acc1 : Acc D) (key : List Nat) (key_len : Nat) (value : Option (List Nat))
    (value_len : Nat) (hkey : key_is key key_len n lit = false)
    (h : gpspoint_process_key_and_value env acc key key_len value value_len = some acc1) :
    proj acc1 = proj acc := by
  cases value with
  | none =>
    rw [process_key_and_value_null] at h
    split_ifs at h
    · simp only [Option.some.injEq] at h
      subst h
      exact htype acc _
    · simp only [Option.some.injEq] at h
      subst h
      rfl
  | some v =>
    rw [process_key_and_value_eq_table] at h
    cases hi : key_index key key_len with
    | none =>
      rw [hi] at h
      simp only [Option.some.injEq] at h
      subst h
      rfl
    | some i =>
      rw [hi] at h
      simp only at h
      refine hact i acc v value_len acc1 ?_ h
      rintro rfl
      obtain ⟨e, he, hk⟩ := key_index_sound key key_len i hi
      rw [hidx] at he
      simp only [Option.some.injEq] at he
      subst he
      rw [hkey] at hk
      exact absurd hk (by simp)

theorem process_tag_frame {D β : Type} (env : Env D) (proj : Acc D → β)
    (idx n : Nat) (lit : List Nat) (hidx : key_table[idx]? = some (n, lit))
    (hact : ∀ (i : Nat) (acc : Acc D) (v : List Nat) (vl : Nat) (acc1 : Acc D), i ≠ idx →
      key_action env i acc v vl = some acc1 → proj acc1 = proj acc)
    (htype : ∀ (acc : Acc D) (ty : Nat), proj { acc with line_type := ty } = proj acc)
    (acc acc1 : Acc D) (t : List Nat × Nat) (hkey : token_has_key t n lit = false)
    (h : gpspoint_process_tag env acc t.1 t.2 = some acc1) : proj acc1 = proj acc := by
  unfold gpspoint_process_tag at h
  unfold token_has_key at hkey
  cases hk : key_end_loop t.1 t.2 (t.2 + 1) 0 with
  | none => rw [hk] at h; simp at h
  | some ke =>
    rw [hk] at h hkey
    simp only at h hkey
    have hfr : ∀ value vl, ke ≠ t.2 → ke ≠ t.2 + 1 →
        gpspoint_process_key_and_value env acc t.1 ke value vl = some acc1 →
        proj acc1 = proj acc := by
      intro value vl h1 h2 hp
      refine process_key_and_value_frame env proj idx n lit hidx hact htype acc acc1 t.1 ke value
        vl ?_ hp
      simpa [h1, h2] using hkey
    have hsame : some acc = some acc1 → proj acc1 = proj acc := by
      intro hs
      simp only [Option.some.injEq] at hs
      subst hs
      rfl
    split_ifs at h with c1 c2
    all_goals first
      | exact hsame h
      | exact hfr _ _ c1 c2 h

theorem fold_process_tag_frame {D β : Type} (env : Env D) (proj : Acc D → β)
    (idx n : Nat) (lit : List Nat) (hidx : key_table[idx]? = some (n, lit))
    (hact : ∀ (i : Nat) (acc : Acc D) (v : List Nat) (vl : Nat) (acc1 : Acc D), i ≠ idx →
      key_action env i acc v vl = some acc1 → proj acc1 = proj acc)
    (htype : ∀ (acc : Acc D) (ty : Nat), proj { acc with line_type := ty } = proj acc) :
    ∀ (toks : List (List Nat × Nat)) (acc acc1 : Acc D),
      (∀ t ∈ toks, token_has_key t n lit = false) →
      toks.foldlM (fun a t => gpspoint_process_tag env a t.1 t.2) acc = some acc1 →
      proj acc1 = proj acc := by
  intro toks
  induction toks with
  | nil =>
    intro acc acc1 _ h
    simp only [List.foldlM_nil] at h
    cases h
    rfl
  | cons t toks ih =>
    intro acc acc1 hl h
    rw [List.foldlM_cons] at h
    cases hp : gpspoint_process_tag env acc t.1 t.2 with
    | none => rw [hp] at h; simp at h
    | some acc2 =>
      rw [hp] at h
      have h1 := process_tag_frame env proj idx n lit hidx hact htype acc acc2 t
        (hl t (List.mem_cons_self _ _)) hp
      have h2 := ih acc2 acc1 (fun t2 ht2 => hl t2 (List.mem_cons_of_mem _ ht2)) h
      rw [h2, h1]

/-- A line without the key of index `idx` leaves unchanged what only that
key's action can change. -/
theorem line_acc_frame {D β : Type} (env : Env D) (proj : Acc D → β)
    (idx n : Nat) (lit : List Nat) (hidx : key_table[idx]? = some (n, lit))
    (hact : ∀ (i : Nat) (acc : Acc D) (v : List Nat) (vl : Nat) (acc1 : Acc D), i ≠ idx →
      key_action env i acc v vl = some acc1 → proj acc1 = proj acc)
    (htype : ∀ (acc : Acc D) (ty : Nat), proj { acc with line_type := ty } = proj acc)
    (line : List Nat) (acc acc1 : Acc D) (hl : line_lacks_key line n lit)
    (h : line_acc env line acc = some acc1) : proj acc1 = proj acc := by
  rw [line_acc_eq_fold] at h
  exact fold_process_tag_frame env proj idx n lit hidx hact htype _ acc acc1 hl h

theorem key_action_frame_line_name {D : Type} (env : Env D) (i : Nat) (acc : Acc D) (v : List Nat)
    (vl : Nat) (acc1 : Acc D) (hi : i ≠ 1) (h : key_action env i acc v vl = some acc1) :
    acc1.line_name = acc.line_name := by
  unfold key_action at h
  split at h
  all_goals first
    | exact absurd rfl hi
    | (simp only [Option.some.injEq] at h; subst h; rfl)
    | (split_ifs at h <;> first
        | (simp only [Option.some.injEq] at h; subst h; rfl)
        | (simp only [Option.map_eq_some'] at h; obtain ⟨r, _, rfl⟩ := h; rfl))

theorem key_action_frame_line_comment {D : Type} (env : Env D) (i : Nat) (acc : Acc D) (v : List Nat)
    (vl : Nat) (acc1 : Acc D) (hi : i ≠ 2) (h : key_action env i acc v vl = some acc1) :
    acc1.line_comment = acc.line_comment := by
  unfold key_action at h
  split at h
  all_goals first
    | exact absurd rfl hi
    | (simp only [Option.some.injEq] at h; subst h; rfl)
    | (split_ifs at h <;> first
        | (simp only [Option.some.injEq] at h; subst h; rfl)
        | (simp only [Option.map_eq_some'] at h; obtain ⟨r, _, rfl⟩ := h; rfl))

theorem key_action_frame_line_description {D : Type} (env : Env D) (i : Nat) (acc : Acc D) (v : List Nat)
    (vl : Nat) (acc1 : Acc D) (hi : i ≠ 3) (h : key_action env i acc v vl = some acc1) :
    acc1.line_description = acc.line_description := by
  unfold key_action at h
  split at h
  all_goals first
    | exact absurd rfl hi
    | (simp only [Option.some.injEq] at h; subst h; rfl)
    | (split_ifs at h <;> first
        | (simp only [Option.some.injEq] at h; subst h; rfl)
        | (simp only [Option.map_eq_some'] at h; obtain ⟨r, _, rfl⟩ := h; rfl))

theorem key_action_frame_line_source {D : Type} (env : Env D) (i : Nat) (acc : Acc D) (v : List Nat)
    (vl : Nat) (acc1 : Acc D) (hi : i ≠ 4) (h : key_action env i acc v vl = some acc1) :
    acc1.line_source = acc.line_source := by
  unfold key_action at h
  split at h
  all_goals first
    | exact absurd rfl hi
    | (simp only [Option.some.injEq] at h; subst h; rfl)
    | (split_ifs at h <;> first
        | (simp only [Option.some.injEq] at h; subst h; rfl)
        | (simp only [Option.map_eq_some'] at h; obtain ⟨r, _, rfl⟩ := h; rfl))

theorem key_action_frame_line_xtype {D : Type} (env : Env D) (i : Nat) (acc : Acc D) (v : List Nat)
    (vl : Nat) (acc1 : Acc D) (hi : i ≠ 5) (h : key_action env i acc v vl = some acc1) :
    acc1.line_xtype = acc.line_xtype := by
  unfold key_action at h
  split at h
  all_goals first
    | exact absurd rfl hi
    | (simp only [Option.some.injEq] at h; subst h; rfl)
    | (split_ifs at h <;> first
        | (simp only [Option.some.injEq] at h; subst h; rfl)
        | (simp only [Option.map_eq_some'] at h; obtain ⟨r, _, rfl⟩ := h; rfl))

theorem key_action_frame_line_image {D : Type} (env : Env D) (i : Nat) (acc : Acc D) (v : List Nat)
    (vl : Nat) (acc1 : Acc D) (hi : i ≠ 9) (h : key_action env i acc v vl = some acc1) :
    acc1.line_image = acc.line_image := by
  unfold key_action at h
  split at h
  all_goals first
    | exact absurd rfl hi
    | (simp only [Option.some.injEq] at h; subst h; rfl)
    | (split_ifs at h <;> first
        | (simp only [Option.some.injEq] at h; subst h; rfl)
        | (simp only [Option.map_eq_some'] at h; obtain ⟨r, _, rfl⟩ := h; rfl))

theorem key_action_frame_line_altitude {D : Type} (env : Env D) (i : Nat) (acc : Acc D) (v : List Nat)
    (vl : Nat) (acc1 : Acc D) (hi : i ≠ 14) (h : key_action env i acc v vl = some acc1) :
    acc1.line_altitude = acc.line_altitude := by
  unfold key_action at h
  split at h
  all_goals first
    | exact absurd rfl hi
    | (simp only [Option.some.injEq] at h; subst h; rfl)
    | (split_ifs at h <;> first
        | (simp only [Option.some.injEq] at h; subst h; rfl)
        | (simp only [Option.map_eq_some'] at h; obtain ⟨r, _, rfl⟩ := h; rfl))

theorem key_action_frame_line_visible {D : Type} (env : Env D) (i : Nat) (acc : Acc D) (v : List Nat)
    (vl : Nat) (acc1 : Acc D) (hi : i ≠ 15) (h : key_action env i acc v vl = some acc1) :
    acc1.line_visible = acc.line_visible := by
  unfold key_action at h
  split at h
  all_goals first
    | exact absurd rfl hi
    | (simp only [Option.some.injEq] at h; subst h; rfl)
    | (split_ifs at h <;> first
        | (simp only [Option.some.injEq] at h; subst h; rfl)
        | (simp only [Option.map_eq_some'] at h; obtain ⟨r, _, rfl⟩ := h; rfl))

theorem key_action_frame_line_symbol {D : Type} (env : Env D) (i : Nat) (acc : Acc D) (v : List Nat)
    (vl : Nat) (acc1 : Acc D) (hi : i ≠ 16) (h : key_action env i acc v vl = some acc1) :
    acc1.line_symbol = acc.line_symbol := by
  unfold key_action at h
  split at h
  all_goals first
    | exact absurd rfl hi
    | (simp only [Option.some.injEq] at h; subst h; rfl)
    | (split_ifs at h <;> first
        | (simp only [Option.some.injEq] at h; subst h; rfl)
        | (simp only [Option.map_eq_some'] at h; obtain ⟨r, _, rfl⟩ := h; rfl))

theorem key_action_frame_line_timestamp {D : Type} (env : Env D) (i : Nat) (acc : Acc D) (v : List Nat)
    (vl : Nat) (acc1 : Acc D) (hi : i ≠ 17) (h : key_action env i acc v vl = some acc1) :
    acc1.line_timestamp = acc.line_timestamp := by
  unfold key_action at h
  split at h
  all_goals first
    | exact absurd rfl hi
    | (simp only [Option.some.injEq] at h; subst h; rfl)
    | (split_ifs at h <;> first
        | (simp only [Option.some.injEq] at h; subst h; rfl)
        | (simp only [Option.map_eq_some'] at h; obtain ⟨r, _, rfl⟩ := h; rfl))

theorem key_action_frame_line_image_direction {D : Type} (env : Env D) (i : Nat) (acc : Acc D) (v : List Nat)
    (vl : Nat) (acc1 : Acc D) (hi : i ≠ 10) (h : key_action env i acc v vl = some acc1) :
    acc1.line_image_direction = acc.line_image_direction := by
  unfold key_action at h
  split at h
  all_goals first
    | exact absurd rfl hi
    | (simp only [Option.some.injEq] at h; subst h; rfl)
    | (split_ifs at h <;> first
        | (simp only [Option.some.injEq] at h; subst h; rfl)
        | (simp only [Option.map_eq_some'] at h; obtain ⟨r, _, rfl⟩ := h; rfl))

theorem trackpoints_end_acc {D : Type} (st : RState D) : (trackpoints_end st).acc = st.acc := by
  unfold trackpoints_end
  split
  · rfl
  · split
    · rfl
    · split_ifs <;> rfl

theorem trackpoints_end_waypoints {D : Type} (st : RState D) :
    (trackpoints_end st).waypoints = st.waypoints := by
  unfold trackpoints_end
  split
  · rfl
  · split
    · rfl
    · split_ifs <;> rfl

theorem trackpoints_end_have_read {D : Type} (st : RState D) :
    (trackpoints_end st).have_read_something = st.have_read_something := by
  unfold trackpoints_end
  split
  · rfl
  · split
    · rfl
    · split_ifs <;> rfl

theorem trackpoints_end_of_none {D : Type} (st : RState D) (h : st.current_track = none) :
    trackpoints_end st = st := by
  unfold trackpoints_end
  rw [h]

/-- A point record with no open track changes nothing. -/
theorem process_record_point_no_track {D : Type} (env : Env D) (st : RState D)
    (htype : st.acc.line_type = GPSPOINT_TYPE_TRACKPOINT ∨
      st.acc.line_type = GPSPOINT_TYPE_ROUTEPOINT)
    (hcur : st.current_track = none) : process_record env st = st := by
  unfold process_record
  have h1 : ¬ (st.acc.line_type = GPSPOINT_TYPE_TRACK_END ∨
      st.acc.line_type = GPSPOINT_TYPE_ROUTE_END) := by
    simp only [GPSPOINT_TYPE_TRACKPOINT, GPSPOINT_TYPE_ROUTEPOINT, GPSPOINT_TYPE_TRACK_END,
      GPSPOINT_TYPE_ROUTE_END] at htype ⊢
    omega
  have h2 : ¬ (st.acc.line_type = GPSPOINT_TYPE_WAYPOINT ∧ st.acc.line_name ≠ none) := by
    simp only [GPSPOINT_TYPE_TRACKPOINT, GPSPOINT_TYPE_ROUTEPOINT, GPSPOINT_TYPE_WAYPOINT] at htype ⊢
    omega
  have h3 : ¬ ((st.acc.line_type = GPSPOINT_TYPE_TRACK ∨ st.acc.line_type = GPSPOINT_TYPE_ROUTE) ∧
      st.acc.line_name ≠ none) := by
    simp only [GPSPOINT_TYPE_TRACKPOINT, GPSPOINT_TYPE_ROUTEPOINT, GPSPOINT_TYPE_TRACK,
      GPSPOINT_TYPE_ROUTE] at htype ⊢
    omega
  have h4 : ¬ ((st.acc.line_type = GPSPOINT_TYPE_TRACKPOINT ∨
      st.acc.line_type = GPSPOINT_TYPE_ROUTEPOINT) ∧ st.current_track ≠ none) :=
    fun h => h.2 hcur
  simp only [if_neg h1, if_neg h2, if_neg h3, if_neg h4]

/-- Without a name in `line_name` the record branches add no waypoint and no
track, and set `have_read_something` only for a point put on the open track. -/
theorem process_record_no_name {D : Type} (env : Env D) (st : RState D)
    (hname : st.acc.line_name = none) :
    (process_record env st).waypoints = st.waypoints ∧
      (process_record env st).tracks.length = st.tracks.length := by
  unfold process_record
  dsimp only
  have hte : ∀ s : RState D, (trackpoints_end s).tracks.length = s.tracks.length := by
    intro s
    unfold trackpoints_end
    split
    · rfl
    · split
      · rfl
      · split_ifs
        · exact update_at_length _ _ _
        · rfl
  generalize hg : (if st.acc.line_type = GPSPOINT_TYPE_TRACK_END ∨
    st.acc.line_type = GPSPOINT_TYPE_ROUTE_END then trackpoints_end st else st) = s1
  have ha : s1.acc = st.acc := by
    rw [← hg]; split_ifs
    · exact trackpoints_end_acc st
    · rfl
  have hw : s1.waypoints = st.waypoints := by
    rw [← hg]; split_ifs
    · exact trackpoints_end_waypoints st
    · rfl
  have hl : s1.tracks.length = st.tracks.length := by
    rw [← hg]; split_ifs
    · exact hte st
    · rfl
  have hn : s1.acc.line_name = none := by rw [ha]; exact hname
  rw [if_neg (fun h => h.2 hn), if_neg (fun h => h.2 hn)]
  split_ifs with hp
  · cases hk : s1.current_track with
    | none => exact ⟨hw, hl⟩
    | some k =>
      dsimp only
      exact ⟨hw, by rw [update_at_length]; exact hl⟩
  · exact ⟨hw, hl⟩

/-- The waypoint branch: the open track is closed and one waypoint, built from
the `line_*` variables, is added to the store. -/
theorem process_record_waypoint {D : Type} (env : Env D) (st : RState D)
    (htype : st.acc.line_type = GPSPOINT_TYPE_WAYPOINT) (hname : st.acc.line_name ≠ none) :
    process_record env st =
      { trackpoints_end st with
        have_read_something := true
        waypoints := st.waypoints ++ [build_waypoint env st.acc] } := by
  unfold process_record
  have h1 : ¬ (st.acc.line_type = GPSPOINT_TYPE_TRACK_END ∨
      st.acc.line_type = GPSPOINT_TYPE_ROUTE_END) := by
    simp only [GPSPOINT_TYPE_WAYPOINT, GPSPOINT_TYPE_TRACK_END, GPSPOINT_TYPE_ROUTE_END] at htype ⊢
    omega
  simp only [if_neg h1, if_pos (And.intro htype hname), trackpoints_end_acc,
    trackpoints_end_waypoints]

/-- The `visible` branch of the dispatcher. -/
theorem process_key_and_value_visible {D : Type} (env : Env D) (acc : Acc D) (key : List Nat)
    (key_len : Nat) (v : List Nat) (value_len : Nat)
    (hkey : key_is key key_len 7 STR_visible = true) :
    gpspoint_process_key_and_value env acc key key_len (some v) value_len =
      if cget v 0 ≠ 121 ∧ cget v 0 ≠ 89 ∧ cget v 0 ≠ 116 ∧ cget v 0 ≠ 84 then
        some { acc with line_visible := false }
      else some acc := by
  rw [process_key_and_value_eq_table, key_index_of_match key key_len 15 (7, STR_visible) rfl hkey]
  rfl

theorem key_action_keeps_hidden {D : Type} (env : Env D) (i : Nat) (acc : Acc D) (v : List Nat)
    (vl : Nat) (acc1 : Acc D) (hv : acc.line_visible = false)
    (h : key_action env i acc v vl = some acc1) : acc1.line_visible = false := by
  unfold key_action at h
  split at h
  all_goals first
    | (simp only [Option.some.injEq] at h; subst h; exact hv)
    | (split_ifs at h <;> first
        | (simp only [Option.some.injEq] at h; subst h; first | exact hv | rfl)
        | (simp only [Option.map_eq_some'] at h; obtain ⟨r, _, rfl⟩ := h; exact hv))

theorem process_key_and_value_keeps_hidden {D : Type} (env : Env D) (acc acc1 : Acc D)
    (key : List Nat) (key_len : Nat) (value : Option (List Nat)) (value_len : Nat)
    (hv : acc.line_visible = false)
    (h : gpspoint_process_key_and_value env acc key key_len value value_len = some acc1) :
    acc1.line_visible = false := by
  cases value with
  | none =>
    rw [process_key_and_value_null] at h
    split_ifs at h <;> (simp only [Option.some.injEq] at h; subst h; exact hv)
  | some v =>
    rw [process_key_and_value_eq_table] at h
    cases hi : key_index key key_len with
    | none =>
      rw [hi] at h
      simp only [Option.some.injEq] at h
      subst h
      exact hv
    | some i =>
      rw [hi] at h
      exact key_action_keeps_hidden env i acc v value_len acc1 hv h

/-- A property of the `line_*` variables that every call of the dispatcher
keeps is kept by the tokenizer loop. -/
theorem line_acc_invariant {D : Type} (env : Env D) (P : Acc D → Prop)
    (hP : ∀ (acc acc1 : Acc D) (key : List Nat) (key_len : Nat) (value : Option (List Nat))
      (value_len : Nat), P acc →
      gpspoint_process_key_and_value env acc key key_len value value_len = some acc1 → P acc1)
    (line : List Nat) (acc acc1 : Acc D) (h0 : P acc) (h : line_acc env line acc = some acc1) :
    P acc1 := by
  rw [line_acc_eq_fold] at h
  have htag : ∀ (a a1 : Acc D) (t : List Nat × Nat), P a →
      gpspoint_process_tag env a t.1 t.2 = some a1 → P a1 := by
    intro a a1 t ha ht
    unfold gpspoint_process_tag at ht
    cases hk : key_end_loop t.1 t.2 (t.2 + 1) 0 with
    | none => rw [hk] at ht; simp at ht
    | some ke =>
      rw [hk] at ht
      simp only at ht
      have hsame : some a = some a1 → P a1 := by
        intro hs
        simp only [Option.some.injEq] at hs
        subst hs
        exact ha
      split_ifs at ht
      all_goals first
        | exact hsame ht
        | exact hP a a1 _ _ _ _ ha ht
  generalize tokens_of_line line = toks at h
  induction toks generalizing acc with
  | nil =>
    simp only [List.foldlM_nil] at h
    cases h
    exact h0
  | cons t toks ih =>
    rw [List.foldlM_cons] at h
    cases hp : gpspoint_process_tag env acc t.1 t.2 with
    | none => rw [hp] at h; simp at h
    | some acc2 =>
      rw [hp] at h
      exact ih acc2 (htag acc acc2 t h0 hp) h

/-! ## Reading back what the serializer writes -/

theorem tail_text_boundary (l : List (Option (List Nat))) : token_boundary (tail_text l) := by
  induction l with
  | nil => exact Or.inl rfl
  | cons o t ih =>
    cases o with
    | none => exact ih
    | some tok => exact Or.inr ⟨32, tok ++ tail_text t, rfl, by decide⟩

theorem tail_text_some_length (tok : List Nat) (t : List (Option (List Nat))) :
    (tail_text (some tok :: t)).length = 1 + tok.length + (tail_text t).length := by
  simp [tail_text]; omega

/-- The tokenizer loop behind the first token of a written line is the tag
parser applied to the written tokens in turn. -/
theorem tag_loop_after_tail_text {D : Type} (env : Env D) :
    ∀ (l : List (Option (List Nat))) (acc : Acc D) (fuel : Nat),
      (∀ tok, some tok ∈ l → scannable tok) → (tail_text l).length < fuel + 1 →
      tag_loop_after env fuel (tail_text l) acc = fold_tail env l acc := by
  intro l
  induction l with
  | nil => intro acc fuel _ _; rfl
  | cons o t ih =>
    intro acc fuel hs hlen
    cases o with
    | none =>
      exact ih acc fuel (fun tok h => hs tok (List.mem_cons_of_mem _ h)) hlen
    | some tok =>
      rw [tail_text_some_length] at hlen
      obtain ⟨fuel1, rfl⟩ : ∃ f, fuel = f + 1 := ⟨fuel - 1, by omega⟩
      have hsc := hs tok (List.mem_cons_self _ _)
      show tag_loop env (fuel1 + 1) (tok ++ tail_text t) false false acc = _
      rw [hsc D env acc (tail_text t) fuel1 (tail_text_boundary t), fold_tail]
      congr 1
      funext a
      exact ih a fuel1 (fun tok2 h => hs tok2 (List.mem_cons_of_mem _ h)) (by omega)

theorem escaped_of_safe_body (b : List Nat) (h : safe_body b) : escaped b = b := by
  induction b with
  | nil => rfl
  | cons c cs ih =>
    obtain ⟨h0, h92, h34, h10, h13⟩ := h
    simp only [List.mem_cons, not_or] at h0 h92 h34 h10 h13
    have hc : esc_char c = [c] := by
      unfold esc_char
      rw [if_neg (by omega), if_neg (by omega)]
    rw [escaped, hc, ih ⟨h0.2, h92.2, h34.2, h10.2, h13.2⟩]
    rfl

theorem crlf_to_space_of_safe_body (b : List Nat) (h : safe_body b) : crlf_to_space b = b := by
  induction b with
  | nil => rfl
  | cons c cs ih =>
    obtain ⟨h0, h92, h34, h10, h13⟩ := h
    simp only [List.mem_cons, not_or] at h0 h92 h34 h10 h13
    have := ih ⟨h0.2, h92.2, h34.2, h10.2, h13.2⟩
    unfold crlf_to_space at this ⊢
    rw [List.map_cons, this, if_neg (by omega)]

/-- A key of the table, as the key of a written token. -/
theorem key_table_keys_plain :
    ∀ e ∈ key_table, (∀ c ∈ e.2, plain_char c = true) ∧ 61 ∉ e.2 ∧ e.2 ≠ [] ∧ cget e.2 0 ≠ 35 := by
  decide

/-- The token `key="E"`, `E` an escaped text, with a key of the table is cut
out as it was written. -/
theorem scannable_quoted_field (key s : List Nat) (n : Nat) (hk : (n, key) ∈ key_table)
    (h0 : 0 ∉ s) : scannable (quoted_field key (escaped s)) := by
  intro D env acc rest fuel hb
  obtain ⟨hp, _, hne, h35⟩ := key_table_keys_plain (n, key) hk
  exact tag_loop_quoted_field env acc key s rest fuel hp hne h35 h0 hb

/-- The tag parser on the token `key=""`: the value is NULL. -/
theorem process_tag_empty_quoted_field {D : Type} (env : Env D) (acc : Acc D)
    (key rest : List Nat) (hkne : key ≠ []) (hk : 61 ∉ key) :
    gpspoint_process_tag env acc (quoted_field key [] ++ rest) (quoted_field key []).length =
      gpspoint_process_key_and_value env acc (quoted_field key [] ++ rest) key.length none 0 := by
  have hklen : 0 < key.length := List.length_pos.mpr hkne
  have hlen : (quoted_field key []).length = key.length + 3 := by
    simp [quoted_field]
  have etag : quoted_field key [] ++ rest = key ++ 61 :: 34 :: 34 :: rest := by
    simp [quoted_field]
  have hkey : key_end_loop (quoted_field key [] ++ rest) (quoted_field key []).length
      ((quoted_field key []).length + 1) 0 = some key.length := by
    rw [etag]
    exact key_end_loop_key key _ _ hk (by omega) _ 0 hklen (by omega)
  have hv1 : cget (quoted_field key [] ++ rest) (key.length + 1) = 34 := by
    rw [etag]
    have := cget_append_add key (61 :: 34 :: 34 :: rest) 1
    rw [this]; rfl
  have hv2 : cget (quoted_field key [] ++ rest) (key.length + 1 + 1) = 34 := by
    rw [etag]
    have := cget_append_add key (61 :: 34 :: 34 :: rest) 2
    rw [show key.length + 1 + 1 = key.length + 2 by omega, this]; rfl
  unfold gpspoint_process_tag
  rw [hkey]
  simp only [hv1, hv2, if_true]
  rw [if_neg (by omega), if_neg (by omega)]

theorem key_is_self_append (key X : List Nat) (n : Nat) (hk : (n, key) ∈ key_table) :
    key_is (key ++ X) key.length n key = true := by
  obtain ⟨hl, h0⟩ := key_table_wellformed (n, key) hk
  simp only at hl h0
  simp only [key_is, Bool.and_eq_true, decide_eq_true_eq]
  exact ⟨hl, strncasecmp_eq_self_append key X h0⟩

/-- The tag parser on a written token `key="E"` whose key is the key of index
`i` of the table and whose value `E` is a non-empty escaped text: the action
of the key on the value slice. -/
theorem process_tag_table_field {D : Type} (env : Env D) (acc : Acc D) (i n : Nat)
    (key s rest : List Nat) (hi : key_table[i]? = some (n, key)) (hne : s ≠ []) :
    gpspoint_process_tag env acc (quoted_field key (escaped s) ++ rest)
        (quoted_field key (escaped s)).length =
      key_action env i acc (escaped s ++ 34 :: rest) (escaped s).length := by
  have hmem : (n, key) ∈ key_table := List.getElem?_mem hi
  obtain ⟨_, h61, hkne, _⟩ := key_table_keys_plain (n, key) hmem
  have hE : cget (escaped s ++ 34 :: rest) 0 ≠ 34 := fun h => hne (escaped_head_ne_quote s rest h)
  rw [process_tag_quoted_field env acc key (escaped s) rest hkne h61 hE,
    process_key_and_value_eq_table]
  have hkis : key_is (quoted_field key (escaped s) ++ rest) key.length n key = true := by
    have := key_is_self_append key (61 :: 34 :: (escaped s ++ [34]) ++ rest) n hmem
    simpa [quoted_field] using this
  rw [key_index_of_match _ _ i (n, key) hi hkis]

/-- The tag parser on a written token `key=""` with a key of the table other
than `type`: nothing changes. -/
theorem process_tag_table_field_empty {D : Type} (env : Env D) (acc : Acc D) (i n : Nat)
    (key rest : List Nat) (hi : key_table[i]? = some (n, key)) (h0 : i ≠ 0) :
    gpspoint_process_tag env acc (quoted_field key [] ++ rest) (quoted_field key []).length =
      some acc := by
  have hmem : (n, key) ∈ key_table := List.getElem?_mem hi
  obtain ⟨_, h61, hkne, _⟩ := key_table_keys_plain (n, key) hmem
  rw [process_tag_empty_quoted_field env acc key rest hkne h61, process_key_and_value_null]
  have hkis : key_is (quoted_field key [] ++ rest) key.length n key = true := by
    have := key_is_self_append key (61 :: 34 :: ([] ++ [34]) ++ rest) n hmem
    simpa [quoted_field] using this
  have hnot : key_is (quoted_field key [] ++ rest) key.length 4 STR_type = false := by
    by_contra hc
    simp only [Bool.not_eq_false] at hc
    have := key_is_unique _ _ (4, STR_type) (n, key) (by decide) hmem hc hkis
    rw [← this] at hi
    have h00 : key_table[0]? = some (4, STR_type) := rfl
    have hnd : key_table.Nodup := by decide
    have hi2 : i < key_table.length := by
      by_contra hge
      rw [List.getElem?_eq_none (by omega)] at hi
      exact absurd hi (by simp)
    rw [List.getElem?_eq_getElem hi2] at hi
    rw [List.getElem?_eq_getElem (by decide)] at h00
    have := (List.Nodup.getElem_inj_iff hnd).mp ((Option.some.inj hi).trans (Option.some.inj h00).symm)
    exact h0 this
  rw [hnot]
  rfl

/-! ### The effect of each written token on the `line_*` variables -/

theorem fold_tail_latitude {D : Type} (env : Env D) (c : Bool) (d : D)
    (t : List (Option (List Nat)))
    (ty : Nat) (la : D) (lo : D) (nm : Option (List Nat)) (cm : Option (List Nat))
    (ds : Option (List Nat)) (so : Option (List Nat)) (xt : Option (List Nat))
    (co : Option (List Nat)) (nl : Int) (dl : Int) (im : Option (List Nat))
    (sy : Option (List Nat)) (imd : D) (imr : Int) (ns : Bool) (ts : D) (al : D) (vi : Bool)
    (ex : Bool) (sp : D) (cr : D) (sa : Int) (fx : Int) (hd : D) (vd : D) (pd : D)
    (hok : c = true → num_ok env d) :
    fold_tail env (opt c (quoted_field STR_latitude (env.a_coords_dtostr d)) :: t)
        (Acc.mk ty ⟨la, lo⟩ nm cm ds so xt co nl dl im sy imd imr ns ts al vi ex sp cr sa fx hd vd pd) =
      fold_tail env t
        (Acc.mk ty ⟨if c = true then d else la, lo⟩ nm cm ds so xt co nl dl im sy imd imr ns ts al vi ex sp cr sa fx hd vd pd) := by
  cases c with
  | false => rfl
  | true =>
    obtain ⟨hs, hne, hr⟩ := hok rfl
    have hp := process_tag_table_field env
      (Acc.mk ty ⟨la, lo⟩ nm cm ds so xt co nl dl im sy imd imr ns ts al vi ex sp cr sa fx hd vd pd)
      12 8 STR_latitude (env.a_coords_dtostr d) (tail_text t) rfl hne
    rw [escaped_of_safe_body _ hs] at hp
    show (gpspoint_process_tag env _ (quoted_field STR_latitude (env.a_coords_dtostr d) ++ tail_text t)
      _).bind _ = _
    rw [hp]
    show (some (Acc.mk ty ⟨env.g_ascii_strtod (env.a_coords_dtostr d ++ 34 :: tail_text t), lo⟩ nm cm ds so xt co nl dl im sy imd imr ns ts al vi ex sp cr sa fx hd vd pd)).bind
      _ = _
    rw [hr]
    rfl

theorem fold_tail_longitude {D : Type} (env : Env D) (c : Bool) (d : D)
    (t : List (Option (List Nat)))
    (ty : Nat) (la : D) (lo : D) (nm : Option (List Nat)) (cm : Option (List Nat))
    (ds : Option (List Nat)) (so : Option (List Nat)) (xt : Option (List Nat))
    (co : Option (List Nat)) (nl : Int) (dl : Int) (im : Option (List Nat))
    (sy : Option (List Nat)) (imd : D) (imr : Int) (ns : Bool) (ts : D) (al : D) (vi : Bool)
    (ex : Bool) (sp : D) (cr : D) (sa : Int) (fx : Int) (hd : D) (vd : D) (pd : D)
    (hok : c = true → num_ok env d) :
    fold_tail env (opt c (quoted_field STR_longitude (env.a_coords_dtostr d)) :: t)
        (Acc.mk ty ⟨la, lo⟩ nm cm ds so xt co nl dl im sy imd imr ns ts al vi ex sp cr sa fx hd vd pd) =
      fold_tail env t
        (Acc.mk ty ⟨la, if c = true then d else lo⟩ nm cm ds so xt co nl dl im sy imd imr ns ts al vi ex sp cr sa fx hd vd pd) := by
  cases c with
  | false => rfl
  | true =>
    obtain ⟨hs, hne, hr⟩ := hok rfl
    have hp := process_tag_table_field env
      (Acc.mk ty ⟨la, lo⟩ nm cm ds so xt co nl dl im sy imd imr ns ts al vi ex sp cr sa fx hd vd pd)
      13 9 STR_longitude (env.a_coords_dtostr d) (tail_text t) rfl hne
    rw [escaped_of_safe_body _ hs] at hp
    show (gpspoint_process_tag env _ (quoted_field STR_longitude (env.a_coords_dtostr d) ++ tail_text t)
      _).bind _ = _
    rw [hp]
    show (some (Acc.mk ty ⟨la, env.g_ascii_strtod (env.a_coords_dtostr d ++ 34 :: tail_text t)⟩ nm cm ds so xt co nl dl im sy imd imr ns ts al vi ex sp cr sa fx hd vd pd)).bind
      _ = _
    rw [hr]
    rfl

theorem fold_tail_altitude {D : Type} (env : Env D) (c : Bool) (d : D)
    (t : List (Option (List Nat)))
    (ty : Nat) (la : D) (lo : D) (nm : Option (List Nat)) (cm : Option (List Nat))
    (ds : Option (List Nat)) (so : Option (List Nat)) (xt : Option (List Nat))
    (co : Option (List Nat)) (nl : Int) (dl : Int) (im : Option (List Nat))
    (sy : Option (List Nat)) (imd : D) (imr : Int) (ns : Bool) (ts : D) (al : D) (vi : Bool)
    (ex : Bool) (sp : D) (cr : D) (sa : Int) (fx : Int) (hd : D) (vd : D) (pd : D)
    (hok : c = true → num_ok env d) :
    fold_tail env (opt c (quoted_field STR_altitude (env.a_coords_dtostr d)) :: t)
        (Acc.mk ty ⟨la, lo⟩ nm cm ds so xt co nl dl im sy imd imr ns ts al vi ex sp cr sa fx hd vd pd) =
      fold_tail env t
        (Acc.mk ty ⟨la, lo⟩ nm cm ds so xt co nl dl im sy imd imr ns ts (if c = true then d else al) vi ex sp cr sa fx hd vd pd) := by
  cases c with
  | false => rfl
  | true =>
    obtain ⟨hs, hne, hr⟩ := hok rfl
    have hp := process_tag_table_field env
      (Acc.mk ty ⟨la, lo⟩ nm cm ds so xt co nl dl im sy imd imr ns ts al vi ex sp cr sa fx hd vd pd)
      14 8 STR_altitude (env.a_coords_dtostr d) (tail_text t) rfl hne
    rw [escaped_of_safe_body _ hs] at hp
    show (gpspoint_process_tag env _ (quoted_field STR_altitude (env.a_coords_dtostr d) ++ tail_text t)
      _).bind _ = _
    rw [hp]
    show (some (Acc.mk ty ⟨la, lo⟩ nm cm ds so xt co nl dl im sy imd imr ns ts (env.g_ascii_strtod (env.a_coords_dtostr d ++ 34 :: tail_text t)) vi ex sp cr sa fx hd vd pd)).bind
      _ = _
    rw [hr]
    rfl

theorem fold_tail_unixtime {D : Type} (env : Env D) (c : Bool) (d : D)
    (t : List (Option (List Nat)))
    (ty : Nat) (la : D) (lo : D) (nm : Option (List Nat)) (cm : Option (List Nat))
    (ds : Option (List Nat)) (so : Option (List Nat)) (xt : Option (List Nat))
    (co : Option (List Nat)) (nl : Int) (dl : Int) (im : Option (List Nat))
    (sy : Option (List Nat)) (imd : D) (imr : Int) (ns : Bool) (ts : D) (al : D) (vi : Bool)
    (ex : Bool) (sp : D) (cr : D) (sa : Int) (fx : Int) (hd : D) (vd : D) (pd : D)
    (hok : c = true → num_ok env d) :
    fold_tail env (opt c (quoted_field STR_unixtime (env.a_coords_dtostr d)) :: t)
        (Acc.mk ty ⟨la, lo⟩ nm cm ds so xt co nl dl im sy imd imr ns ts al vi ex sp cr sa fx hd vd pd) =
      fold_tail env t
        (Acc.mk ty ⟨la, lo⟩ nm cm ds so xt co nl dl im sy imd imr ns (if c = true then d else ts) al vi ex sp cr sa fx hd vd pd) := by
  cases c with
  | false => rfl
  | true =>
    obtain ⟨hs, hne, hr⟩ := hok rfl
    have hp := process_tag_table_field env
      (Acc.mk ty ⟨la, lo⟩ nm cm ds so xt co nl dl im sy imd imr ns ts al vi ex sp cr sa fx hd vd pd)
      17 8 STR_unixtime (env.a_coords_dtostr d) (tail_text t) rfl hne
    rw [escaped_of_safe_body _ hs] at hp
    show (gpspoint_process_tag env _ (quoted_field STR_unixtime (env.a_coords_dtostr d) ++ tail_text t)
      _).bind _ = _
    rw [hp]
    show (some (Acc.mk ty ⟨la, lo⟩ nm cm ds so xt co nl dl im sy imd imr ns (env.g_ascii_strtod (env.a_coords_dtostr d ++ 34 :: tail_text t)) al vi ex sp cr sa fx hd vd pd)).bind
      _ = _
    rw [hr]
    rfl

theorem fold_tail_speed {D : Type} (env : Env D) (c : Bool) (d : D)
    (t : List (Option (List Nat)))
    (ty : Nat) (la : D) (lo : D) (nm : Option (List Nat)) (cm : Option (List Nat))
    (ds : Option (List Nat)) (so : Option (List Nat)) (xt : Option (List Nat))
    (co : Option (List Nat)) (nl : Int) (dl : Int) (im : Option (List Nat))
    (sy : Option (List Nat)) (imd : D) (imr : Int) (ns : Bool) (ts : D) (al : D) (vi : Bool)
    (ex : Bool) (sp : D) (cr : D) (sa : Int) (fx : Int) (hd : D) (vd : D) (pd : D)
    (hok : c = true → num_ok env d) :
    fold_tail env (opt c (quoted_field STR_speed (env.a_coords_dtostr d)) :: t)
        (Acc.mk ty ⟨la, lo⟩ nm cm ds so xt co nl dl im sy imd imr ns ts al vi ex sp cr sa fx hd vd pd) =
      fold_tail env t
        (Acc.mk ty ⟨la, lo⟩ nm cm ds so xt co nl dl im sy imd imr ns ts al vi ex (if c = true then d else sp) cr sa fx hd vd pd) := by
  cases c with
  | false => rfl
  | true =>
    obtain ⟨hs, hne, hr⟩ := hok rfl
    have hp := process_tag_table_field env
      (Acc.mk ty ⟨la, lo⟩ nm cm ds so xt co nl dl im sy imd imr ns ts al vi ex sp cr sa fx hd vd pd)
      20 5 STR_speed (env.a_coords_dtostr d) (tail_text t) rfl hne
    rw [escaped_of_safe_body _ hs] at hp
    show (gpspoint_process_tag env _ (quoted_field STR_speed (env.a_coords_dtostr d) ++ tail_text t)
      _).bind _ = _
    rw [hp]
    show (some (Acc.mk ty ⟨la, lo⟩ nm cm ds so xt co nl dl im sy imd imr ns ts al vi ex (env.g_ascii_strtod (env.a_coords_dtostr d ++ 34 :: tail_text t)) cr sa fx hd vd pd)).bind
      _ = _
    rw [hr]
    rfl

theorem fold_tail_course {D : Type} (env : Env D) (c : Bool) (d : D)
    (t : List (Option (List Nat)))
    (ty : Nat) (la : D) (lo : D) (nm : Option (List Nat)) (cm : Option (List Nat))
    (ds : Option (List Nat)) (so : Option (List Nat)) (xt : Option (List Nat))
    (co : Option (List Nat)) (nl : Int) (dl : Int) (im : Option (List Nat))
    (sy : Option (List Nat)) (imd : D) (imr : Int) (ns : Bool) (ts : D) (al : D) (vi : Bool)
    (ex : Bool) (sp : D) (cr : D) (sa : Int) (fx : Int) (hd : D) (vd : D) (pd : D)
    (hok : c = true → num_ok env d) :
    fold_tail env (opt c (quoted_field STR_course (env.a_coords_dtostr d)) :: t)
        (Acc.mk ty ⟨la, lo⟩ nm cm ds so xt co nl dl im sy imd imr ns ts al vi ex sp cr sa fx hd vd pd) =
      fold_tail env t
        (Acc.mk ty ⟨la, lo⟩ nm cm ds so xt co nl dl im sy imd imr ns ts al vi ex sp (if c = true then d else cr) sa fx hd vd pd) := by
  cases c with
  | false => rfl
  | true =>
    obtain ⟨hs, hne, hr⟩ := hok rfl
    have hp := process_tag_table_field env
      (Acc.mk ty ⟨la, lo⟩ nm cm ds so xt co nl dl im sy imd imr ns ts al vi ex sp cr sa fx hd vd pd)
      21 6 STR_course (env.a_coords_dtostr d) (tail_text t) rfl hne
    rw [escaped_of_safe_body _ hs] at hp
    show (gpspoint_process_tag env _ (quoted_field STR_course (env.a_coords_dtostr d) ++ tail_text t)
      _).bind _ = _
    rw [hp]
    show (some (Acc.mk ty ⟨la, lo⟩ nm cm ds so xt co nl dl im sy imd imr ns ts al vi ex sp (env.g_ascii_strtod (env.a_coords_dtostr d ++ 34 :: tail_text t)) sa fx hd vd pd)).bind
      _ = _
    rw [hr]
    rfl

theorem fold_tail_hdop {D : Type} (env : Env D) (c : Bool) (d : D)
    (t : List (Option (List Nat)))
    (ty : Nat) (la : D) (lo : D) (nm : Option (List Nat)) (cm : Option (List Nat))
    (ds : Option (List Nat)) (so : Option (List Nat)) (xt : Option (List Nat))
    (co : Option (List Nat)) (nl : Int) (dl : Int) (im : Option (List Nat))
    (sy : Option (List Nat)) (imd : D) (imr : Int) (ns : Bool) (ts : D) (al : D) (vi : Bool)
    (ex : Bool) (sp : D) (cr : D) (sa : Int) (fx : Int) (hd : D) (vd : D) (pd : D)
    (hok : c = true → num_ok env d) :
    fold_tail env (opt c (quoted_field STR_hdop (env.a_coords_dtostr d)) :: t)
        (Acc.mk ty ⟨la, lo⟩ nm cm ds so xt co nl dl im sy imd imr ns ts al vi ex sp cr sa fx hd vd pd) =
      fold_tail env t
        (Acc.mk ty ⟨la, lo⟩ nm cm ds so xt co nl dl im sy imd imr ns ts al vi ex sp cr sa fx (if c = true then d else hd) vd pd) := by
  cases c with
  | false => rfl
  | true =>
    obtain ⟨hs, hne, hr⟩ := hok rfl
    have hp := process_tag_table_field env
      (Acc.mk ty ⟨la, lo⟩ nm cm ds so xt co nl dl im sy imd imr ns ts al vi ex sp cr sa fx hd vd pd)
      24 4 STR_hdop (env.a_coords_dtostr d) (tail_text t) rfl hne
    rw [escaped_of_safe_body _ hs] at hp
    show (gpspoint_process_tag env _ (quoted_field STR_hdop (env.a_coords_dtostr d) ++ tail_text t)
      _).bind _ = _
    rw [hp]
    show (some (Acc.mk ty ⟨la, lo⟩ nm cm ds so xt co nl dl im sy imd imr ns ts al vi ex sp cr sa fx (env.g_ascii_strtod (env.a_coords_dtostr d ++ 34 :: tail_text t)) vd pd)).bind
      _ = _
    rw [hr]
    rfl

theorem fold_tail_vdop {D : Type} (env : Env D) (c : Bool) (d : D)
    (t : List (Option (List Nat)))
    (ty : Nat) (la : D) (lo : D) (nm : Option (List Nat)) (cm : Option (List Nat))
    (ds : Option (List Nat)) (so : Option (List Nat)) (xt : Option (List Nat))
    (co : Option (List Nat)) (nl : Int) (dl : Int) (im : Option (List Nat))
    (sy : Option (List Nat)) (imd : D) (imr : Int) (ns : Bool) (ts : D) (al : D) (vi : Bool)
    (ex : Bool) (sp : D) (cr : D) (sa : Int) (fx : Int) (hd : D) (vd : D) (pd : D)
    (hok : c = true → num_ok env d) :
    fold_tail env (opt c (quoted_field STR_vdop (env.a_coords_dtostr d)) :: t)
        (Acc.mk ty ⟨la, lo⟩ nm cm ds so xt co nl dl im sy imd imr ns ts al vi ex sp cr sa fx hd vd pd) =
      fold_tail env t
        (Acc.mk ty ⟨la, lo⟩ nm cm ds so xt co nl dl im sy imd imr ns ts al vi ex sp cr sa fx hd (if c = true then d else vd) pd) := by
  cases c with
  | false => rfl
  | true =>
    obtain ⟨hs, hne, hr⟩ := hok rfl
    have hp := process_tag_table_field env
      (Acc.mk ty ⟨la, lo⟩ nm cm ds so xt co nl dl im sy imd imr ns ts al vi ex sp cr sa fx hd vd pd)
      25 4 STR_vdop (env.a_coords_dtostr d) (tail_text t) rfl hne
    rw [escaped_of_safe_body _ hs] at hp
    show (gpspoint_process_tag env _ (quoted_field STR_vdop (env.a_coords_dtostr d) ++ tail_text t)
      _).bind _ = _
    rw [hp]
    show (some (Acc.mk ty ⟨la, lo⟩ nm cm ds so xt co nl dl im sy imd imr ns ts al vi ex sp cr sa fx hd (env.g_ascii_strtod (env.a_coords_dtostr d ++ 34 :: tail_text t)) pd)).bind
      _ = _
    rw [hr]
    rfl

theorem fold_tail_pdop {D : Type} (env : Env D) (c : Bool) (d : D)
    (t : List (Option (List Nat)))
    (ty : Nat) (la : D) (lo : D) (nm : Option (List Nat)) (cm : Option (List Nat))
    (ds : Option (List Nat)) (so : Option (List Nat)) (xt : Option (List Nat))
    (co : Option (List Nat)) (nl : Int) (dl : Int) (im : Option (List Nat))
    (sy : Option (List Nat)) (imd : D) (imr : Int) (ns : Bool) (ts : D) (al : D) (vi : Bool)
    (ex : Bool) (sp : D) (cr : D) (sa : Int) (fx : Int) (hd : D) (vd : D) (pd : D)
    (hok : c = true → num_ok env d) :
    fold_tail env (opt c (quoted_field STR_pdop (env.a_coords_dtostr d)) :: t)
        (Acc.mk ty ⟨la, lo⟩ nm cm ds so xt co nl dl im sy imd imr ns ts al vi ex sp cr sa fx hd vd pd) =
      fold_tail env t
        (Acc.mk ty ⟨la, lo⟩ nm cm ds so xt co nl dl im sy imd imr ns ts al vi ex sp cr sa fx hd vd (if c = true then d else pd)) := by
  cases c with
  | false => rfl
  | true =>
    obtain ⟨hs, hne, hr⟩ := hok rfl
    have hp := process_tag_table_field env
      (Acc.mk ty ⟨la, lo⟩ nm cm ds so xt co nl dl im sy imd imr ns ts al vi ex sp cr sa fx hd vd pd)
      26 4 STR_pdop (env.a_coords_dtostr d) (tail_text t) rfl hne
    rw [escaped_of_safe_body _ hs] at hp
    show (gpspoint_process_tag env _ (quoted_field STR_pdop (env.a_coords_dtostr d) ++ tail_text t)
      _).bind _ = _
    rw [hp]
    show (some (Acc.mk ty ⟨la, lo⟩ nm cm ds so xt co nl dl im sy imd imr ns ts al vi ex sp cr sa fx hd vd (env.g_ascii_strtod (env.a_coords_dtostr d ++ 34 :: tail_text t)))).bind
      _ = _
    rw [hr]
    rfl

theorem fold_tail_sat {D : Type} (env : Env D) (c : Bool) (n : Int)
    (t : List (Option (List Nat)))
    (ty : Nat) (la : D) (lo : D) (nm : Option (List Nat)) (cm : Option (List Nat))
    (ds : Option (List Nat)) (so : Option (List Nat)) (xt : Option (List Nat))
    (co : Option (List Nat)) (nl : Int) (dl : Int) (im : Option (List Nat))
    (sy : Option (List Nat)) (imd : D) (imr : Int) (ns : Bool) (ts : D) (al : D) (vi : Bool)
    (ex : Bool) (sp : D) (cr : D) (sa : Int) (fx : Int) (hd : D) (vd : D) (pd : D)
    (hok : c = true → int_ok env n) :
    fold_tail env (opt c (quoted_field STR_sat (env.fmt_d n)) :: t)
        (Acc.mk ty ⟨la, lo⟩ nm cm ds so xt co nl dl im sy imd imr ns ts al vi ex sp cr sa fx hd vd pd) =
      fold_tail env t
        (Acc.mk ty ⟨la, lo⟩ nm cm ds so xt co nl dl im sy imd imr ns ts al vi ex sp cr (if c = true then n else sa) fx hd vd pd) := by
  cases c with
  | false => rfl
  | true =>
    obtain ⟨hs, hne, hr⟩ := hok rfl
    have hp := process_tag_table_field env
      (Acc.mk ty ⟨la, lo⟩ nm cm ds so xt co nl dl im sy imd imr ns ts al vi ex sp cr sa fx hd vd pd)
      22 3 STR_sat (env.fmt_d n) (tail_text t) rfl hne
    rw [escaped_of_safe_body _ hs] at hp
    show (gpspoint_process_tag env _ (quoted_field STR_sat (env.fmt_d n) ++ tail_text t)
      _).bind _ = _
    rw [hp]
    show (some (Acc.mk ty ⟨la, lo⟩ nm cm ds so xt co nl dl im sy imd imr ns ts al vi ex sp cr (env.atoi (env.fmt_d n ++ 34 :: tail_text t)) fx hd vd pd)).bind
      _ = _
    rw [hr]
    rfl

theorem fold_tail_fix {D : Type} (env : Env D) (c : Bool) (n : Int)
    (t : List (Option (List Nat)))
    (ty : Nat) (la : D) (lo : D) (nm : Option (List Nat)) (cm : Option (List Nat))
    (ds : Option (List Nat)) (so : Option (List Nat)) (xt : Option (List Nat))
    (co : Option (List Nat)) (nl : Int) (dl : Int) (im : Option (List Nat))
    (sy : Option (List Nat)) (imd : D) (imr : Int) (ns : Bool) (ts : D) (al : D) (vi : Bool)
    (ex : Bool) (sp : D) (cr : D) (sa : Int) (fx : Int) (hd : D) (vd : D) (pd : D)
    (hok : c = true → int_ok env n) :
    fold_tail env (opt c (quoted_field STR_fix (env.fmt_d n)) :: t)
        (Acc.mk ty ⟨la, lo⟩ nm cm ds so xt co nl dl im sy imd imr ns ts al vi ex sp cr sa fx hd vd pd) =
      fold_tail env t
        (Acc.mk ty ⟨la, lo⟩ nm cm ds so xt co nl dl im sy imd imr ns ts al vi ex sp cr sa (if c = true then n else fx) hd vd pd) := by
  cases c with
  | false => rfl
  | true =>
    obtain ⟨hs, hne, hr⟩ := hok rfl
    have hp := process_tag_table_field env
      (Acc.mk ty ⟨la, lo⟩ nm cm ds so xt co nl dl im sy imd imr ns ts al vi ex sp cr sa fx hd vd pd)
      23 3 STR_fix (env.fmt_d n) (tail_text t) rfl hne
    rw [escaped_of_safe_body _ hs] at hp
    show (gpspoint_process_tag env _ (quoted_field STR_fix (env.fmt_d n) ++ tail_text t)
      _).bind _ = _
    rw [hp]
    show (some (Acc.mk ty ⟨la, lo⟩ nm cm ds so xt co nl dl im sy imd imr ns ts al vi ex sp cr sa (env.atoi (env.fmt_d n ++ 34 :: tail_text t)) hd vd pd)).bind
      _ = _
    rw [hr]
    rfl

theorem fold_tail_name {D : Type} (env : Env D) (o : Option (List Nat))
    (t : List (Option (List Nat)))
    (ty : Nat) (la : D) (lo : D) (cm : Option (List Nat)) (ds : Option (List Nat))
    (so : Option (List Nat)) (xt : Option (List Nat)) (co : Option (List Nat)) (nl : Int)
    (dl : Int) (im : Option (List Nat)) (sy : Option (List Nat)) (imd : D) (imr : Int) (ns : Bool)
    (ts : D) (al : D) (vi : Bool) (ex : Bool) (sp : D) (cr : D) (sa : Int) (fx : Int) (hd : D)
    (vd : D) (pd : D)
    (hg : opt_good o) (hl : ∀ x, o = some x → (escaped x).length < 65536) :
    fold_tail env (opt_text STR_name o :: t)
        (Acc.mk ty ⟨la, lo⟩ none cm ds so xt co nl dl im sy imd imr ns ts al vi ex sp cr sa fx hd vd pd) =
      fold_tail env t
        (Acc.mk ty ⟨la, lo⟩ (o.map crlf_to_space) cm ds so xt co nl dl im sy imd imr ns ts al vi ex sp cr sa fx hd vd pd) := by
  cases o with
  | none => rfl
  | some x =>
    obtain ⟨hne, h0⟩ := hg x rfl
    have hp := process_tag_table_field env
      (Acc.mk ty ⟨la, lo⟩ none cm ds so xt co nl dl im sy imd imr ns ts al vi ex sp cr sa fx hd vd pd)
      1 4 STR_name x (tail_text t) rfl hne
    show (gpspoint_process_tag env _ (quoted_field STR_name (slashdup x) ++ tail_text t)
      (quoted_field STR_name (slashdup x)).length).bind _ = _
    rw [slashdup_eq_escaped x h0, hp]
    show ((deslashndup (escaped x ++ 34 :: tail_text t) (escaped x).length).map _).bind _ = _
    rw [deslashndup_escaped x (34 :: tail_text t) hne (hl x rfl)]
    rfl

theorem fold_tail_comment {D : Type} (env : Env D) (o : Option (List Nat))
    (t : List (Option (List Nat)))
    (ty : Nat) (la : D) (lo : D) (nm : Option (List Nat)) (ds : Option (List Nat))
    (so : Option (List Nat)) (xt : Option (List Nat)) (co : Option (List Nat)) (nl : Int)
    (dl : Int) (im : Option (List Nat)) (sy : Option (List Nat)) (imd : D) (imr : Int) (ns : Bool)
    (ts : D) (al : D) (vi : Bool) (ex : Bool) (sp : D) (cr : D) (sa : Int) (fx : Int) (hd : D)
    (vd : D) (pd : D)
    (hg : opt_good o) (hl : ∀ x, o = some x → (escaped x).length < 65536) :
    fold_tail env (opt_text STR_comment o :: t)
        (Acc.mk ty ⟨la, lo⟩ nm none ds so xt co nl dl im sy imd imr ns ts al vi ex sp cr sa fx hd vd pd) =
      fold_tail env t
        (Acc.mk ty ⟨la, lo⟩ nm (o.map crlf_to_space) ds so xt co nl dl im sy imd imr ns ts al vi ex sp cr sa fx hd vd pd) := by
  cases o with
  | none => rfl
  | some x =>
    obtain ⟨hne, h0⟩ := hg x rfl
    have hp := process_tag_table_field env
      (Acc.mk ty ⟨la, lo⟩ nm none ds so xt co nl dl im sy imd imr ns ts al vi ex sp cr sa fx hd vd pd)
      2 7 STR_comment x (tail_text t) rfl hne
    show (gpspoint_process_tag env _ (quoted_field STR_comment (slashdup x) ++ tail_text t)
      (quoted_field STR_comment (slashdup x)).length).bind _ = _
    rw [slashdup_eq_escaped x h0, hp]
    show ((deslashndup (escaped x ++ 34 :: tail_text t) (escaped x).length).map _).bind _ = _
    rw [deslashndup_escaped x (34 :: tail_text t) hne (hl x rfl)]
    rfl

theorem fold_tail_description {D : Type} (env : Env D) (o : Option (List Nat))
    (t : List (Option (List Nat)))
    (ty : Nat) (la : D) (lo : D) (nm : Option (List Nat)) (cm : Option (List Nat))
    (so : Option (List Nat)) (xt : Option (List Nat)) (co : Option (List Nat)) (nl : Int)
    (dl : Int) (im : Option (List Nat)) (sy : Option (List Nat)) (imd : D) (imr : Int) (ns : Bool)
    (ts : D) (al : D) (vi : Bool) (ex : Bool) (sp : D) (cr : D) (sa : Int) (fx : Int) (hd : D)
    (vd : D) (pd : D)
    (hg : opt_good o) (hl : ∀ x, o = some x → (escaped x).length < 65536) :
    fold_tail env (opt_text STR_description o :: t)
        (Acc.mk ty ⟨la, lo⟩ nm cm none so xt co nl dl im sy imd imr ns ts al vi ex sp cr sa fx hd vd pd) =
      fold_tail env t
        (Acc.mk ty ⟨la, lo⟩ nm cm (o.map crlf_to_space) so xt co nl dl im sy imd imr ns ts al vi ex sp cr sa fx hd vd pd) := by
  cases o with
  | none => rfl
  | some x =>
    obtain ⟨hne, h0⟩ := hg x rfl
    have hp := process_tag_table_field env
      (Acc.mk ty ⟨la, lo⟩ nm cm none so xt co nl dl im sy imd imr ns ts al vi ex sp cr sa fx hd vd pd)
      3 11 STR_description x (tail_text t) rfl hne
    show (gpspoint_process_tag env _ (quoted_field STR_description (slashdup x) ++ tail_text t)
      (quoted_field STR_description (slashdup x)).length).bind _ = _
    rw [slashdup_eq_escaped x h0, hp]
    show ((deslashndup (escaped x ++ 34 :: tail_text t) (escaped x).length).map _).bind _ = _
    rw [deslashndup_escaped x (34 :: tail_text t) hne (hl x rfl)]
    rfl

theorem fold_tail_source {D : Type} (env : Env D) (o : Option (List Nat))
    (t : List (Option (List Nat)))
    (ty : Nat) (la : D) (lo : D) (nm : Option (List Nat)) (cm : Option (List Nat))
    (ds : Option (List Nat)) (xt : Option (List Nat)) (co : Option (List Nat)) (nl : Int)
    (dl : Int) (im : Option (List Nat)) (sy : Option (List Nat)) (imd : D) (imr : Int) (ns : Bool)
    (ts : D) (al : D) (vi : Bool) (ex : Bool) (sp : D) (cr : D) (sa : Int) (fx : Int) (hd : D)
    (vd : D) (pd : D)
    (hg : opt_good o) (hl : ∀ x, o = some x → (escaped x).length < 65536) :
    fold_tail env (opt_text STR_source o :: t)
        (Acc.mk ty ⟨la, lo⟩ nm cm ds none xt co nl dl im sy imd imr ns ts al vi ex sp cr sa fx hd vd pd) =
      fold_tail env t
        (Acc.mk ty ⟨la, lo⟩ nm cm ds (o.map crlf_to_space) xt co nl dl im sy imd imr ns ts al vi ex sp cr sa fx hd vd pd) := by
  cases o with
  | none => rfl
  | some x =>
    obtain ⟨hne, h0⟩ := hg x rfl
    have hp := process_tag_table_field env
      (Acc.mk ty ⟨la, lo⟩ nm cm ds none xt co nl dl im sy imd imr ns ts al vi ex sp cr sa fx hd vd pd)
      4 6 STR_source x (tail_text t) rfl hne
    show (gpspoint_process_tag env _ (quoted_field STR_source (slashdup x) ++ tail_text t)
      (quoted_field STR_source (slashdup x)).length).bind _ = _
    rw [slashdup_eq_escaped x h0, hp]
    show ((deslashndup (escaped x ++ 34 :: tail_text t) (escaped x).length).map _).bind _ = _
    rw [deslashndup_escaped x (34 :: tail_text t) hne (hl x rfl)]
    rfl

theorem fold_tail_xtype {D : Type} (env : Env D) (o : Option (List Nat))
    (t : List (Option (List Nat)))
    (ty : Nat) (la : D) (lo : D) (nm : Option (List Nat)) (cm : Option (List Nat))
    (ds : Option (List Nat)) (so : Option (List Nat)) (co : Option (List Nat)) (nl : Int)
    (dl : Int) (im : Option (List Nat)) (sy : Option (List Nat)) (imd : D) (imr : Int) (ns : Bool)
    (ts : D) (al : D) (vi : Bool) (ex : Bool) (sp : D) (cr : D) (sa : Int) (fx : Int) (hd : D)
    (vd : D) (pd : D)
    (hg : opt_good o) (hl : ∀ x, o = some x → (escaped x).length < 65536) :
    fold_tail env (opt_text STR_xtype o :: t)
        (Acc.mk ty ⟨la, lo⟩ nm cm ds so none co nl dl im sy imd imr ns ts al vi ex sp cr sa fx hd vd pd) =
      fold_tail env t
        (Acc.mk ty ⟨la, lo⟩ nm cm ds so (o.map crlf_to_space) co nl dl im sy imd imr ns ts al vi ex sp cr sa fx hd vd pd) := by
  cases o with
  | none => rfl
  | some x =>
    obtain ⟨hne, h0⟩ := hg x rfl
    have hp := process_tag_table_field env
      (Acc.mk ty ⟨la, lo⟩ nm cm ds so none co nl dl im sy imd imr ns ts al vi ex sp cr sa fx hd vd pd)
      5 5 STR_xtype x (tail_text t) rfl hne
    show (gpspoint_process_tag env _ (quoted_field STR_xtype (slashdup x) ++ tail_text t)
      (quoted_field STR_xtype (slashdup x)).length).bind _ = _
    rw [slashdup_eq_escaped x h0, hp]
    show ((deslashndup (escaped x ++ 34 :: tail_text t) (escaped x).length).map _).bind _ = _
    rw [deslashndup_escaped x (34 :: tail_text t) hne (hl x rfl)]
    rfl

theorem fold_tail_visible {D : Type} (env : Env D) (c : Bool)
    (t : List (Option (List Nat)))
    (ty : Nat) (la : D) (lo : D) (nm : Option (List Nat)) (cm : Option (List Nat))
    (ds : Option (List Nat)) (so : Option (List Nat)) (xt : Option (List Nat))
    (co : Option (List Nat)) (nl : Int) (dl : Int) (im : Option (List Nat))
    (sy : Option (List Nat)) (imd : D) (imr : Int) (ns : Bool) (ts : D) (al : D) (vi : Bool)
    (ex : Bool) (sp : D) (cr : D) (sa : Int) (fx : Int) (hd : D) (vd : D) (pd : D) :
    fold_tail env (opt c (quoted_field STR_visible STR_n) :: t)
        (Acc.mk ty ⟨la, lo⟩ nm cm ds so xt co nl dl im sy imd imr ns ts al vi ex sp cr sa fx hd vd pd) =
      fold_tail env t
        (Acc.mk ty ⟨la, lo⟩ nm cm ds so xt co nl dl im sy imd imr ns ts al (if c = true then false else vi) ex sp cr sa fx hd vd pd) := by
  cases c with
  | false => rfl
  | true =>
    have hp := process_tag_table_field env
      (Acc.mk ty ⟨la, lo⟩ nm cm ds so xt co nl dl im sy imd imr ns ts al vi ex sp cr sa fx hd vd pd)
      15 7 STR_visible STR_n (tail_text t) rfl (by decide)
    rw [show escaped STR_n = STR_n by decide] at hp
    show (gpspoint_process_tag env _ (quoted_field STR_visible STR_n ++ tail_text t) _).bind _ = _
    rw [hp]
    rfl

theorem fold_tail_newsegment {D : Type} (env : Env D) (c : Bool)
    (t : List (Option (List Nat)))
    (ty : Nat) (la : D) (lo : D) (nm : Option (List Nat)) (cm : Option (List Nat))
    (ds : Option (List Nat)) (so : Option (List Nat)) (xt : Option (List Nat))
    (co : Option (List Nat)) (nl : Int) (dl : Int) (im : Option (List Nat))
    (sy : Option (List Nat)) (imd : D) (imr : Int) (ns : Bool) (ts : D) (al : D) (vi : Bool)
    (ex : Bool) (sp : D) (cr : D) (sa : Int) (fx : Int) (hd : D) (vd : D) (pd : D) :
    fold_tail env (opt c (quoted_field STR_newsegment STR_yes) :: t)
        (Acc.mk ty ⟨la, lo⟩ nm cm ds so xt co nl dl im sy imd imr ns ts al vi ex sp cr sa fx hd vd pd) =
      fold_tail env t
        (Acc.mk ty ⟨la, lo⟩ nm cm ds so xt co nl dl im sy imd imr (if c = true then true else ns) ts al vi ex sp cr sa fx hd vd pd) := by
  cases c with
  | false => rfl
  | true =>
    have hp := process_tag_table_field env
      (Acc.mk ty ⟨la, lo⟩ nm cm ds so xt co nl dl im sy imd imr ns ts al vi ex sp cr sa fx hd vd pd)
      18 10 STR_newsegment STR_yes (tail_text t) rfl (by decide)
    rw [show escaped STR_yes = STR_yes by decide] at hp
    show (gpspoint_process_tag env _ (quoted_field STR_newsegment STR_yes ++ tail_text t) _).bind _ = _
    rw [hp]
    rfl

theorem fold_tail_extended {D : Type} (env : Env D) (c : Bool)
    (t : List (Option (List Nat)))
    (ty : Nat) (la : D) (lo : D) (nm : Option (List Nat)) (cm : Option (List Nat))
    (ds : Option (List Nat)) (so : Option (List Nat)) (xt : Option (List Nat))
    (co : Option (List Nat)) (nl : Int) (dl : Int) (im : Option (List Nat))
    (sy : Option (List Nat)) (imd : D) (imr : Int) (ns : Bool) (ts : D) (al : D) (vi : Bool)
    (ex : Bool) (sp : D) (cr : D) (sa : Int) (fx : Int) (hd : D) (vd : D) (pd : D) :
    fold_tail env (opt c (quoted_field STR_extended STR_yes) :: t)
        (Acc.mk ty ⟨la, lo⟩ nm cm ds so xt co nl dl im sy imd imr ns ts al vi ex sp cr sa fx hd vd pd) =
      fold_tail env t
        (Acc.mk ty ⟨la, lo⟩ nm cm ds so xt co nl dl im sy imd imr ns ts al vi (if c = true then true else ex) sp cr sa fx hd vd pd) := by
  cases c with
  | false => rfl
  | true =>
    have hp := process_tag_table_field env
      (Acc.mk ty ⟨la, lo⟩ nm cm ds so xt co nl dl im sy imd imr ns ts al vi ex sp cr sa fx hd vd pd)
      19 8 STR_extended STR_yes (tail_text t) rfl (by decide)
    rw [show escaped STR_yes = STR_yes by decide] at hp
    show (gpspoint_process_tag env _ (quoted_field STR_extended STR_yes ++ tail_text t) _).bind _ = _
    rw [hp]
    rfl

theorem fold_tail_image_direction {D : Type} (env : Env D) (e : Option (List Nat)) (b : List Nat)
    (t : List (Option (List Nat)))
    (ty : Nat) (la : D) (lo : D) (nm : Option (List Nat)) (cm : Option (List Nat))
    (ds : Option (List Nat)) (so : Option (List Nat)) (xt : Option (List Nat))
    (co : Option (List Nat)) (nl : Int) (dl : Int) (im : Option (List Nat))
    (sy : Option (List Nat)) (imd : D) (imr : Int) (ns : Bool) (ts : D) (al : D) (vi : Bool)
    (ex : Bool) (sp : D) (cr : D) (sa : Int) (fx : Int) (hd : D) (vd : D) (pd : D)
    (he : e = none ∨ e = some (quoted_field STR_image_direction b)) (hs : safe_body b) :
    ∃ r, fold_tail env (e :: t)
        (Acc.mk ty ⟨la, lo⟩ nm cm ds so xt co nl dl im sy imd imr ns ts al vi ex sp cr sa fx hd vd pd) =
      fold_tail env t
        (Acc.mk ty ⟨la, lo⟩ nm cm ds so xt co nl dl im sy r imr ns ts al vi ex sp cr sa fx hd vd pd) := by
  rcases he with rfl | rfl
  · exact ⟨imd, rfl⟩
  · by_cases hb : b = []
    · subst hb
      refine ⟨imd, ?_⟩
      show (gpspoint_process_tag env _ (quoted_field STR_image_direction [] ++ tail_text t) _).bind _ = _
      rw [process_tag_table_field_empty env _ 10 15 STR_image_direction (tail_text t) rfl (by decide)]
      rfl
    · have hp := process_tag_table_field env
        (Acc.mk ty ⟨la, lo⟩ nm cm ds so xt co nl dl im sy imd imr ns ts al vi ex sp cr sa fx hd vd pd)
        10 15 STR_image_direction b (tail_text t) rfl hb
      rw [escaped_of_safe_body _ hs] at hp
      refine ⟨env.g_ascii_strtod (b ++ 34 :: tail_text t), ?_⟩
      show (gpspoint_process_tag env _ (quoted_field STR_image_direction b ++ tail_text t) _).bind _ = _
      rw [hp]
      rfl

theorem fold_tail_image_direction_ref {D : Type} (env : Env D) (e : Option (List Nat)) (b : List Nat)
    (t : List (Option (List Nat)))
    (ty : Nat) (la : D) (lo : D) (nm : Option (List Nat)) (cm : Option (List Nat))
    (ds : Option (List Nat)) (so : Option (List Nat)) (xt : Option (List Nat))
    (co : Option (List Nat)) (nl : Int) (dl : Int) (im : Option (List Nat))
    (sy : Option (List Nat)) (imd : D) (imr : Int) (ns : Bool) (ts : D) (al : D) (vi : Bool)
    (ex : Bool) (sp : D) (cr : D) (sa : Int) (fx : Int) (hd : D) (vd : D) (pd : D)
    (he : e = none ∨ e = some (quoted_field STR_image_direction_ref b)) (hs : safe_body b) :
    ∃ r, fold_tail env (e :: t)
        (Acc.mk ty ⟨la, lo⟩ nm cm ds so xt co nl dl im sy imd imr ns ts al vi ex sp cr sa fx hd vd pd) =
      fold_tail env t
        (Acc.mk ty ⟨la, lo⟩ nm cm ds so xt co nl dl im sy imd r ns ts al vi ex sp cr sa fx hd vd pd) := by
  rcases he with rfl | rfl
  · exact ⟨imr, rfl⟩
  · by_cases hb : b = []
    · subst hb
      refine ⟨imr, ?_⟩
      show (gpspoint_process_tag env _ (quoted_field STR_image_direction_ref [] ++ tail_text t) _).bind _ = _
      rw [process_tag_table_field_empty env _ 11 19 STR_image_direction_ref (tail_text t) rfl (by decide)]
      rfl
    · have hp := process_tag_table_field env
        (Acc.mk ty ⟨la, lo⟩ nm cm ds so xt co nl dl im sy imd imr ns ts al vi ex sp cr sa fx hd vd pd)
        11 19 STR_image_direction_ref b (tail_text t) rfl hb
      rw [escaped_of_safe_body _ hs] at hp
      refine ⟨env.atoi (b ++ 34 :: tail_text t), ?_⟩
      show (gpspoint_process_tag env _ (quoted_field STR_image_direction_ref b ++ tail_text t) _).bind _ = _
      rw [hp]
      rfl

theorem fold_tail_symbol {D : Type} (env : Env D) (e : Option (List Nat)) (b : List Nat)
    (t : List (Option (List Nat)))
    (ty : Nat) (la : D) (lo : D) (nm : Option (List Nat)) (cm : Option (List Nat))
    (ds : Option (List Nat)) (so : Option (List Nat)) (xt : Option (List Nat))
    (co : Option (List Nat)) (nl : Int) (dl : Int) (im : Option (List Nat))
    (sy : Option (List Nat)) (imd : D) (imr : Int) (ns : Bool) (ts : D) (al : D) (vi : Bool)
    (ex : Bool) (sp : D) (cr : D) (sa : Int) (fx : Int) (hd : D) (vd : D) (pd : D)
    (he : e = none ∨ e = some (quoted_field STR_symbol b)) (hs : safe_body b) :
    ∃ r, fold_tail env (e :: t)
        (Acc.mk ty ⟨la, lo⟩ nm cm ds so xt co nl dl im sy imd imr ns ts al vi ex sp cr sa fx hd vd pd) =
      fold_tail env t
        (Acc.mk ty ⟨la, lo⟩ nm cm ds so xt co nl dl im r imd imr ns ts al vi ex sp cr sa fx hd vd pd) := by
  rcases he with rfl | rfl
  · exact ⟨sy, rfl⟩
  · by_cases hb : b = []
    · subst hb
      refine ⟨sy, ?_⟩
      show (gpspoint_process_tag env _ (quoted_field STR_symbol [] ++ tail_text t) _).bind _ = _
      rw [process_tag_table_field_empty env _ 16 6 STR_symbol (tail_text t) rfl (by decide)]
      rfl
    · have hp := process_tag_table_field env
        (Acc.mk ty ⟨la, lo⟩ nm cm ds so xt co nl dl im sy imd imr ns ts al vi ex sp cr sa fx hd vd pd)
        16 6 STR_symbol b (tail_text t) rfl hb
      rw [escaped_of_safe_body _ hs] at hp
      refine ⟨some (g_strndup (b ++ 34 :: tail_text t) b.length), ?_⟩
      show (gpspoint_process_tag env _ (quoted_field STR_symbol b ++ tail_text t) _).bind _ = _
      rw [hp]
      rfl

theorem fold_tail_draw_name_mode {D : Type} (env : Env D) (c : Bool) (n : Int)
    (t : List (Option (List Nat)))
    (ty : Nat) (la : D) (lo : D) (nm : Option (List Nat)) (cm : Option (List Nat))
    (ds : Option (List Nat)) (so : Option (List Nat)) (xt : Option (List Nat))
    (co : Option (List Nat)) (nl : Int) (dl : Int) (im : Option (List Nat))
    (sy : Option (List Nat)) (imd : D) (imr : Int) (ns : Bool) (ts : D) (al : D) (vi : Bool)
    (ex : Bool) (sp : D) (cr : D) (sa : Int) (fx : Int) (hd : D) (vd : D) (pd : D)
    (hok : c = true → int_ok env n) :
    fold_tail env (opt c (quoted_field STR_draw_name_mode (env.fmt_d n)) :: t)
        (Acc.mk ty ⟨la, lo⟩ nm cm ds so xt co nl dl im sy imd imr ns ts al vi ex sp cr sa fx hd vd pd) =
      fold_tail env t
        (Acc.mk ty ⟨la, lo⟩ nm cm ds so xt co (if c = true then n else nl) dl im sy imd imr ns ts al vi ex sp cr sa fx hd vd pd) := by
  cases c with
  | false => rfl
  | true =>
    obtain ⟨hs, hne, hr⟩ := hok rfl
    have hp := process_tag_table_field env
      (Acc.mk ty ⟨la, lo⟩ nm cm ds so xt co nl dl im sy imd imr ns ts al vi ex sp cr sa fx hd vd pd)
      7 14 STR_draw_name_mode (env.fmt_d n) (tail_text t) rfl hne
    rw [escaped_of_safe_body _ hs] at hp
    show (gpspoint_process_tag env _ (quoted_field STR_draw_name_mode (env.fmt_d n) ++ tail_text t)
      _).bind _ = _
    rw [hp]
    show (some (Acc.mk ty ⟨la, lo⟩ nm cm ds so xt co (env.atoi (env.fmt_d n ++ 34 :: tail_text t)) dl im sy imd imr ns ts al vi ex sp cr sa fx hd vd pd)).bind
      _ = _
    rw [hr]
    rfl

theorem fold_tail_number_dist_labels {D : Type} (env : Env D) (c : Bool) (n : Int)
    (t : List (Option (List Nat)))
    (ty : Nat) (la : D) (lo : D) (nm : Option (List Nat)) (cm : Option (List Nat))
    (ds : Option (List Nat)) (so : Option (List Nat)) (xt : Option (List Nat))
    (co : Option (List Nat)) (nl : Int) (dl : Int) (im : Option (List Nat))
    (sy : Option (List Nat)) (imd : D) (imr : Int) (ns : Bool) (ts : D) (al : D) (vi : Bool)
    (ex : Bool) (sp : D) (cr : D) (sa : Int) (fx : Int) (hd : D) (vd : D) (pd : D)
    (hok : c = true → int_ok env n) :
    fold_tail env (opt c (quoted_field STR_number_dist_labels (env.fmt_d n)) :: t)
        (Acc.mk ty ⟨la, lo⟩ nm cm ds so xt co nl dl im sy imd imr ns ts al vi ex sp cr sa fx hd vd pd) =
      fold_tail env t
        (Acc.mk ty ⟨la, lo⟩ nm cm ds so xt co nl (if c = true then n else dl) im sy imd imr ns ts al vi ex sp cr sa fx hd vd pd) := by
  cases c with
  | false => rfl
  | true =>
    obtain ⟨hs, hne, hr⟩ := hok rfl
    have hp := process_tag_table_field env
      (Acc.mk ty ⟨la, lo⟩ nm cm ds so xt co nl dl im sy imd imr ns ts al vi ex sp cr sa fx hd vd pd)
      8 18 STR_number_dist_labels (env.fmt_d n) (tail_text t) rfl hne
    rw [escaped_of_safe_body _ hs] at hp
    show (gpspoint_process_tag env _ (quoted_field STR_number_dist_labels (env.fmt_d n) ++ tail_text t)
      _).bind _ = _
    rw [hp]
    show (some (Acc.mk ty ⟨la, lo⟩ nm cm ds so xt co nl (env.atoi (env.fmt_d n ++ 34 :: tail_text t)) im sy imd imr ns ts al vi ex sp cr sa fx hd vd pd)).bind
      _ = _
    rw [hr]
    rfl

theorem fold_tail_image {D : Type} (env : Env D) (e : Option (List Nat)) (x : List Nat)
    (t : List (Option (List Nat)))
    (ty : Nat) (la : D) (lo : D) (nm : Option (List Nat)) (cm : Option (List Nat))
    (ds : Option (List Nat)) (so : Option (List Nat)) (xt : Option (List Nat))
    (co : Option (List Nat)) (nl : Int) (dl : Int) (im : Option (List Nat))
    (sy : Option (List Nat)) (imd : D) (imr : Int) (ns : Bool) (ts : D) (al : D) (vi : Bool)
    (ex : Bool) (sp : D) (cr : D) (sa : Int) (fx : Int) (hd : D) (vd : D) (pd : D)
    (he : e = none ∨ e = some (quoted_field STR_image (escaped x))) (h0 : 0 ∉ x)
    (hl : (escaped x).length < 65535) :
    ∃ r, fold_tail env (e :: t)
        (Acc.mk ty ⟨la, lo⟩ nm cm ds so xt co nl dl im sy imd imr ns ts al vi ex sp cr sa fx hd vd pd) =
      fold_tail env t
        (Acc.mk ty ⟨la, lo⟩ nm cm ds so xt co nl dl r sy imd imr ns ts al vi ex sp cr sa fx hd vd pd) := by
  rcases he with rfl | rfl
  · exact ⟨im, rfl⟩
  · by_cases hb : x = []
    · subst hb
      refine ⟨im, ?_⟩
      show (gpspoint_process_tag env _ (quoted_field STR_image [] ++ tail_text t)
        (quoted_field STR_image []).length).bind _ = _
      rw [process_tag_table_field_empty env _ 9 5 STR_image (tail_text t) rfl (by decide)]
      rfl
    · obtain ⟨r, hr⟩ := deslashndup_terminates (escaped x ++ 34 :: tail_text t) (escaped x).length
        (by rw [Nat.mod_eq_of_lt (by omega)]; exact hl)
      cases im with
      | none =>
        refine ⟨r, ?_⟩
        show (gpspoint_process_tag env _ (quoted_field STR_image (escaped x) ++ tail_text t)
          (quoted_field STR_image (escaped x)).length).bind _ = _
        rw [process_tag_table_field env _ 9 5 STR_image x (tail_text t) rfl hb]
        show ((deslashndup (escaped x ++ 34 :: tail_text t) (escaped x).length).map _).bind _ = _
        rw [hr]
        rfl
      | some i0 =>
        refine ⟨some i0, ?_⟩
        show (gpspoint_process_tag env _ (quoted_field STR_image (escaped x) ++ tail_text t)
          (quoted_field STR_image (escaped x)).length).bind _ = _
        rw [process_tag_table_field env _ 9 5 STR_image x (tail_text t) rfl hb]
        rfl

/-- A token made of plain characters is cut out as it was written. -/
theorem scan_tag_plain_token (tok rest : List Nat) (hne : tok ≠ [])
    (hp : ∀ c ∈ tok, plain_char c = true) (hb : token_boundary rest) :
    scan_tag (tok ++ rest) false false = (rest, false, false) := by
  obtain ⟨l, p, rfl⟩ : ∃ l p, tok = l ++ [p] :=
    ⟨tok.dropLast, tok.getLast hne, (List.dropLast_append_getLast hne).symm⟩
  have hpp : plain_char p = true := hp p (by simp)
  have h1 := scan_tag_plain l p rest (fun c hc => hp c (by simp [hc])) hpp
  rw [List.append_assoc, List.singleton_append, h1]
  simp only [plain_char, Bool.and_eq_true, bne_iff_ne, ne_eq, Bool.not_eq_true'] at hpp
  rcases hb with rfl | ⟨w, r, rfl, hw⟩
  · rw [scan_tag, if_pos ⟨hpp.1.1.1, Or.inl hpp.1.1.2⟩]
    simp [cget, scan_tag]
  · have hw92 : w ≠ 92 := by rintro rfl; simp [isspace] at hw
    have hw34 : w ≠ 34 := by rintro rfl; simp [isspace] at hw
    rw [scan_tag, if_pos ⟨hpp.1.1.1, Or.inl hpp.1.1.2⟩, if_neg (by simp [cget, hw92]),
      if_neg (by simp), if_neg (by simp [cget, hw34]), scan_tag, if_neg (by simp [hw])]

theorem scannable_plain_token (tok : List Nat) (hne : tok ≠ [])
    (hp : ∀ c ∈ tok, plain_char c = true) (h35 : cget tok 0 ≠ 35) : scannable tok := by
  intro D env acc rest fuel hb
  obtain ⟨a, tok1, rfl⟩ : ∃ a tok1, tok = a :: tok1 := by
    cases tok with
    | nil => exact absurd rfl hne
    | cons a tok1 => exact ⟨a, tok1, rfl⟩
  have ha := hp a (List.mem_cons_self _ _)
  simp only [plain_char, Bool.and_eq_true, bne_iff_ne, ne_eq, Bool.not_eq_true'] at ha
  have hscan := scan_tag_plain_token (a :: tok1) rest hne hp hb
  have hc0 : cget (a :: tok1 ++ rest) 0 = a := rfl
  have hskip : skip_space (a :: tok1 ++ rest) = a :: tok1 ++ rest :=
    skip_space_of_not_isspace _ _ ha.1.1.2
  have h35a : a ≠ 35 := by simpa [cget] using h35
  rw [tag_loop]
  simp only [hskip, hc0, if_neg ha.1.1.1, if_neg h35a, if_neg ha.2, hscan]
  have hlen : (a :: tok1 ++ rest).length - rest.length = (a :: tok1).length := by
    simp; omega
  rw [hlen]
  cases gpspoint_process_tag env acc (a :: tok1 ++ rest) (a :: tok1).length with
  | none => rfl
  | some acc1 =>
    rcases hb with rfl | ⟨w, r, rfl, hw⟩
    · simp [cget, tag_loop_after]
    · have hw0 : w ≠ 0 := by rintro rfl; simp [isspace] at hw
      simp [cget, hw0, tag_loop_after]

theorem hex_digit_plain (n : Nat) (h : n < 16) :
    plain_char (hex_digit n) = true ∧ hex_digit n ≠ 61 ∧ hex_digit n ≠ 0 ∧ hex_digit n ≠ 10 := by
  have : ∀ m, m < 16 → plain_char (hex_digit m) = true ∧ hex_digit m ≠ 61 ∧ hex_digit m ≠ 0 ∧
      hex_digit m ≠ 10 := by decide
  exact this n h

theorem color_token_eq (color : Nat × Nat × Nat) :
    ∃ h1 h2 h3 h4 h5 h6, color_token color = STR_color ++ 61 :: [35, h1, h2, h3, h4, h5, h6] ∧
      (∀ c ∈ [35, h1, h2, h3, h4, h5, h6], plain_char c = true ∧ c ≠ 0 ∧ c ≠ 10) := by
  refine ⟨_, _, _, _, _, _, rfl, ?_⟩
  have hd : ∀ n, plain_char (hex_digit (n % 16)) = true ∧ hex_digit (n % 16) ≠ 0 ∧
      hex_digit (n % 16) ≠ 10 := fun n =>
    ⟨(hex_digit_plain _ (Nat.mod_lt _ (by decide))).1,
      (hex_digit_plain _ (Nat.mod_lt _ (by decide))).2.2.1,
      (hex_digit_plain _ (Nat.mod_lt _ (by decide))).2.2.2⟩
  have hq : ∀ c : Nat, plain_char (hex_digit (c % 65536 / 256 / 16)) = true ∧
      hex_digit (c % 65536 / 256 / 16) ≠ 0 ∧ hex_digit (c % 65536 / 256 / 16) ≠ 10 := fun c =>
    have hlt : c % 65536 / 256 / 16 < 16 := by omega
    ⟨(hex_digit_plain _ hlt).1, (hex_digit_plain _ hlt).2.2.1, (hex_digit_plain _ hlt).2.2.2⟩
  intro c hc
  simp only [List.mem_cons, List.mem_singleton, List.not_mem_nil, or_false] at hc
  rcases hc with rfl | rfl | rfl | rfl | rfl | rfl | rfl
  · decide
  · exact hq _
  · exact hd _
  · exact hq _
  · exact hd _
  · exact hq _
  · exact hd _

theorem scannable_color_token (color : Nat × Nat × Nat) : scannable (color_token color) := by
  obtain ⟨h1, h2, h3, h4, h5, h6, he, hp⟩ := color_token_eq color
  rw [he]
  apply scannable_plain_token
  · simp
  · intro c hc
    simp only [List.mem_append, List.mem_cons] at hc
    rcases hc with hc | rfl | hc
    · revert c; decide
    · decide
    · exact (hp c (by simpa using hc)).1
  · simp [STR_color, cget]

theorem fold_tail_color {D : Type} (env : Env D) (c : Bool) (color : Nat × Nat × Nat)
    (t : List (Option (List Nat)))
    (ty : Nat) (la : D) (lo : D) (nm : Option (List Nat)) (cm : Option (List Nat))
    (ds : Option (List Nat)) (so : Option (List Nat)) (xt : Option (List Nat))
    (co : Option (List Nat)) (nl : Int) (dl : Int) (im : Option (List Nat))
    (sy : Option (List Nat)) (imd : D) (imr : Int) (ns : Bool) (ts : D) (al : D) (vi : Bool)
    (ex : Bool) (sp : D) (cr : D) (sa : Int) (fx : Int) (hd : D) (vd : D) (pd : D) :
    ∃ r, fold_tail env (opt c (color_token color) :: t)
        (Acc.mk ty ⟨la, lo⟩ nm cm ds so xt co nl dl im sy imd imr ns ts al vi ex sp cr sa fx hd vd pd) =
      fold_tail env t
        (Acc.mk ty ⟨la, lo⟩ nm cm ds so xt r nl dl im sy imd imr ns ts al vi ex sp cr sa fx hd vd pd) := by
  cases c with
  | false => exact ⟨co, rfl⟩
  | true =>
    obtain ⟨h1, h2, h3, h4, h5, h6, he, hp⟩ := color_token_eq color
    have h34 : h1 ≠ 34 := by
      have := (hp h1 (by simp)).1
      intro h; rw [h] at this; simp [plain_char] at this
    have hkey : key_end_loop (color_token color ++ tail_text t) (color_token color).length
        ((color_token color).length + 1) 0 = some 5 := by
      rw [he]
      have := key_end_loop_key STR_color ([35, h1, h2, h3, h4, h5, h6] ++ tail_text t) 13
        (by decide) (by decide) 14 0 (by decide) (by decide)
      simpa [STR_color] using this
    have hv : cget (color_token color ++ tail_text t) 6 = 35 := by rw [he]; rfl
    have hdrop : (color_token color ++ tail_text t).drop 6 =
        [35, h1, h2, h3, h4, h5, h6] ++ tail_text t := by rw [he]; rfl
    have hlen : (color_token color).length = 13 := by rw [he]; rfl
    have hkis : key_is (color_token color ++ tail_text t) 5 5 STR_color = true := by
      rw [he]; rfl
    obtain ⟨r, hr⟩ := deslashndup_terminates ([35, h1, h2, h3, h4, h5, h6] ++ tail_text t) 7
      (by decide)
    have hpt : ∀ acc : Acc D, gpspoint_process_tag env acc (color_token color ++ tail_text t)
        (color_token color).length =
        key_action env 6 acc ([35, h1, h2, h3, h4, h5, h6] ++ tail_text t) 7 := by
      intro acc
      unfold gpspoint_process_tag
      rw [hkey, hlen]
      simp only [hv, hdrop]
      rw [if_neg (by decide), if_neg (by decide), if_neg (by decide), if_neg (by decide),
        process_key_and_value_eq_table, key_index_of_match _ _ 6 (5, STR_color) rfl hkis]
    cases co with
    | none =>
      refine ⟨r, ?_⟩
      show (gpspoint_process_tag env _ (color_token color ++ tail_text t)
        (color_token color).length).bind _ = _
      rw [hpt]
      show ((deslashndup ([35, h1, h2, h3, h4, h5, h6] ++ tail_text t) 7).map _).bind _ = _
      rw [hr]
      rfl
    | some c0 =>
      refine ⟨some c0, ?_⟩
      show (gpspoint_process_tag env _ (color_token color ++ tail_text t)
        (color_token color).length).bind _ = _
      rw [hpt]
      rfl

/-- The tokenizer loop on a written line: the first token sets the record
type, the tag parser is then applied to the other tokens in turn. -/
theorem line_acc_written_line {D : Type} (env : Env D) (lit : List Nat) (code : Nat)
    (l : List (Option (List Nat)))
    (ty : Nat) (la : D) (lo : D) (nm : Option (List Nat)) (cm : Option (List Nat))
    (ds : Option (List Nat)) (so : Option (List Nat)) (xt : Option (List Nat))
    (co : Option (List Nat)) (nl : Int) (dl : Int) (im : Option (List Nat))
    (sy : Option (List Nat)) (imd : D) (imr : Int) (ns : Bool) (ts : D) (al : D) (vi : Bool)
    (ex : Bool) (sp : D) (cr : D) (sa : Int) (fx : Int) (hd : D) (vd : D) (pd : D)
    (hlit : lit ≠ [] ∧ escaped lit = lit ∧ 0 ∉ lit)
    (hcode : ∀ rest, type_of_value (lit ++ 34 :: rest) lit.length = code)
    (hs : ∀ tok, some tok ∈ l → scannable tok) :
    line_acc env (quoted_field STR_type lit ++ tail_text l)
        (Acc.mk ty ⟨la, lo⟩ nm cm ds so xt co nl dl im sy imd imr ns ts al vi ex sp cr sa fx hd vd pd) =
      fold_tail env l
        (Acc.mk code ⟨la, lo⟩ nm cm ds so xt co nl dl im sy imd imr ns ts al vi ex sp cr sa fx hd vd pd) := by
  obtain ⟨hne, hesc, h0⟩ := hlit
  unfold line_acc
  have hsc := scannable_quoted_field STR_type lit 4 (by decide) h0
  rw [hesc] at hsc
  rw [hsc D env _ (tail_text l) _ (tail_text_boundary l)]
  have hp := process_tag_table_field env
    (Acc.mk ty ⟨la, lo⟩ nm cm ds so xt co nl dl im sy imd imr ns ts al vi ex sp cr sa fx hd vd pd)
    0 4 STR_type lit (tail_text l) rfl hne
  rw [hesc] at hp
  rw [hp]
  show (some (Acc.mk (type_of_value (lit ++ 34 :: tail_text l) lit.length) ⟨la, lo⟩ nm cm ds so xt co nl dl im sy imd imr ns ts al vi ex sp cr sa fx hd vd pd)).bind
    _ = _
  rw [hcode]
  show tag_loop_after env _ (tail_text l) _ = _
  exact tag_loop_after_tail_text env l _ _ hs (by simp; omega)

/-! ### Written lines: tokens, line feeds and the line buffer -/

theorem clean_escaped (x : List Nat) (h0 : 0 ∉ x) : clean (escaped x) := by
  refine ⟨escaped_no_nul x h0, ?_⟩
  induction x with
  | nil => simp [escaped]
  | cons c cs ih =>
    simp only [List.mem_cons, not_or] at h0
    simp only [escaped, List.mem_append, not_or]
    refine ⟨?_, ih h0.2⟩
    unfold esc_char
    split_ifs <;> simp <;> omega

theorem clean_of_safe_body (b : List Nat) (h : safe_body b) : clean b := ⟨h.1, h.2.2.2.1⟩

theorem clean_append (a b : List Nat) (ha : clean a) (hb : clean b) : clean (a ++ b) := by
  unfold clean at *
  simp only [List.mem_append, not_or]
  exact ⟨⟨ha.1, hb.1⟩, ⟨ha.2, hb.2⟩⟩

theorem clean_quoted_field (key body : List Nat) (hk : clean key) (hb : clean body) :
    clean (quoted_field key body) := by
  unfold clean quoted_field at *
  simp only [List.mem_append, List.mem_cons, List.mem_singleton, not_or, List.not_mem_nil,
    or_false]
  refine ⟨⟨hk.1, by decide, by decide, hb.1, by decide⟩, ⟨hk.2, by decide, by decide, hb.2, by decide⟩⟩

theorem key_table_keys_clean : ∀ e ∈ key_table, 0 ∉ e.2 ∧ 10 ∉ e.2 := by decide

theorem wf_quoted_escaped (key x : List Nat) (n : Nat) (hk : (n, key) ∈ key_table) (h0 : 0 ∉ x) :
    scannable (quoted_field key (escaped x)) ∧ clean (quoted_field key (escaped x)) :=
  ⟨scannable_quoted_field key x n hk h0,
    clean_quoted_field key _ (key_table_keys_clean (n, key) hk) (clean_escaped x h0)⟩

theorem wf_quoted_safe (key b : List Nat) (n : Nat) (hk : (n, key) ∈ key_table)
    (hs : safe_body b) : scannable (quoted_field key b) ∧ clean (quoted_field key b) := by
  have := wf_quoted_escaped key b n hk hs.1
  rwa [escaped_of_safe_body b hs] at this

theorem entry_wf_some (tok : List Nat) (h : scannable tok ∧ clean tok) : entry_wf (some tok) := by
  intro t ht
  cases ht
  exact h

theorem entry_wf_opt (c : Bool) (tok : List Nat) (h : c = true → scannable tok ∧ clean tok) :
    entry_wf (opt c tok) := by
  intro t ht
  cases c with
  | false => simp [opt] at ht
  | true =>
    simp only [opt, if_true, Option.some.injEq] at ht
    subst ht
    exact h rfl

theorem entry_wf_opt_text (key : List Nat) (n : Nat) (o : Option (List Nat))
    (hk : (n, key) ∈ key_table) (hg : opt_good o) : entry_wf (opt_text key o) := by
  intro t ht
  cases o with
  | none => simp [opt_text] at ht
  | some x =>
    simp only [opt_text, Option.map_some', Option.some.injEq] at ht
    subst ht
    rw [slashdup_eq_escaped x (hg x rfl).2]
    exact wf_quoted_escaped key x n hk (hg x rfl).2

theorem tail_text_clean (l : List (Option (List Nat))) (h : ∀ e ∈ l, entry_wf e) :
    clean (tail_text l) := by
  induction l with
  | nil => exact ⟨by simp [tail_text], by simp [tail_text]⟩
  | cons e t ih =>
    have ht := ih (fun e2 h2 => h e2 (List.mem_cons_of_mem _ h2))
    cases e with
    | none => exact ht
    | some tok =>
      have htok := (h (some tok) (List.mem_cons_self _ _) tok rfl).2
      unfold clean at *
      simp only [tail_text, List.mem_cons, List.mem_append, not_or]
      exact ⟨⟨by decide, htok.1, ht.1⟩, ⟨by decide, htok.2, ht.2⟩⟩

theorem scannable_of_entry_wf (l : List (Option (List Nat))) (h : ∀ e ∈ l, entry_wf e) :
    ∀ tok, some tok ∈ l → scannable tok :=
  fun tok ht => (h (some tok) ht tok rfl).1

theorem fgets_chunks_line (l rest : List Nat) (h10 : 10 ∉ l) :
    ∀ cur : List Nat, cur.length + l.length + 1 ≤ VIKING_LINE_SIZE - 1 →
      fgets_chunks (l ++ 10 :: rest) cur = (cur ++ l ++ [10]) :: fgets_chunks rest [] := by
  induction l with
  | nil =>
    intro cur _
    simp [fgets_chunks]
  | cons c cs ih =>
    intro cur hlen
    simp only [List.mem_cons, not_or] at h10
    simp only [List.length_cons] at hlen
    rw [List.cons_append, fgets_chunks, if_neg]
    · rw [ih h10.2 (cur ++ [c]) (by simp; omega)]
      simp
    · simp only [not_or]
      exact ⟨fun h => h10.1 h.symm, by omega⟩

theorem chop_line (l : List Nat) (h : clean l) : chop (l ++ [10]) = l := by
  unfold chop
  have : (l ++ [10]).takeWhile (fun c => c != 0) = l ++ [10] := by
    rw [List.takeWhile_eq_self_iff]
    intro c hc
    simp only [List.mem_append, List.mem_singleton] at hc
    rcases hc with hc | rfl
    · have : c ≠ 0 := fun h0 => h.1 (h0 ▸ hc)
      simpa using this
    · decide
  rw [this]
  simp

/-- A line that starts with a `type` token is not the `~EndLayerData` sentinel. -/
theorem not_sentinel_of_type (lit rest : List Nat) :
    ¬ (strlen (quoted_field STR_type lit ++ rest) ≥ 13 ∧
      strncmp_eq (quoted_field STR_type lit ++ rest) STR_EndLayerData 13 = true) := by
  intro h
  have := h.2
  simp [quoted_field, STR_type, STR_EndLayerData, strncmp_eq, cget] at this

/-! ### The lines of the serializer read back by the tokenizer loop -/

theorem tail_text_entry_length (l : List (Option (List Nat))) (tok : List Nat)
    (h : some tok ∈ l) : tok.length < (tail_text l).length := by
  induction l with
  | nil => simp at h
  | cons e t ih =>
    cases e with
    | none =>
      simp only [List.mem_cons] at h
      rcases h with h | h
      · cases h
      · exact ih h
    | some x =>
      rw [tail_text_some_length]
      simp only [List.mem_cons, Option.some.injEq] at h
      rcases h with rfl | h
      · omega
      · have := ih h
        omega

theorem quoted_field_length (key body : List Nat) :
    (quoted_field key body).length = key.length + body.length + 3 := by
  simp [quoted_field]
  omega

theorem written_body_short (l : List (Option (List Nat))) (key body : List Nat)
    (hmem : some (quoted_field key body) ∈ l) (hfit : (tail_text l).length ≤ 4095) :
    body.length < 4095 := by
  have := tail_text_entry_length l _ hmem
  rw [quoted_field_length] at this
  omega

theorem written_text_short (l : List (Option (List Nat))) (key : List Nat)
    (o : Option (List Nat)) (hmem : opt_text key o ∈ l) (hfit : (tail_text l).length ≤ 4095)
    (hg : opt_good o) : ∀ x, o = some x → (escaped x).length < 65536 := by
  intro x hx
  subst hx
  have := written_body_short l key (slashdup x) hmem hfit
  rw [slashdup_eq_escaped x (hg x rfl).2] at this
  omega

theorem safe_body_nil : safe_body [] := by simp [safe_body]

theorem opt_entry_cases (c : Bool) (key b : List Nat) (hs : c = true → safe_body b) :
    ∃ b2, (opt c (quoted_field key b) = none ∨
      opt c (quoted_field key b) = some (quoted_field key b2)) ∧ safe_body b2 := by
  cases c with
  | false => exact ⟨[], Or.inl rfl, safe_body_nil⟩
  | true => exact ⟨b, Or.inr rfl, hs rfl⟩

theorem map_entry_cases (o : Option (List Nat)) (f : List Nat → List Nat) (key : List Nat)
    (hs : ∀ s, o = some s → safe_body (f s)) :
    ∃ b2, (o.map (fun s => quoted_field key (f s)) = none ∨
      o.map (fun s => quoted_field key (f s)) = some (quoted_field key b2)) ∧ safe_body b2 := by
  cases o with
  | none => exact ⟨[], Or.inl rfl, safe_body_nil⟩
  | some s => exact ⟨f s, Or.inr rfl, hs s rfl⟩

theorem image_entry_cases {D : Type} (env : Env D) (image : Option (List Nat))
    (l : List (Option (List Nat))) (hmem : image_entry env image ∈ l)
    (hfit : (tail_text l).length ≤ 4095)
    (h : ∀ img, image = some img → 0 ∉ img ∧ ∀ r, env.relative_image img = some r → safe_body r) :
    ∃ x, (image_entry env image = none ∨
      image_entry env image = some (quoted_field STR_image (escaped x))) ∧ 0 ∉ x ∧
      (escaped x).length < 65535 := by
  cases image with
  | none => exact ⟨[], Or.inl rfl, by simp, by simp [escaped]⟩
  | some img =>
    obtain ⟨h0, hr⟩ := h img rfl
    cases hrel : env.relative_image img with
    | none =>
      have he : image_entry env (some img) = some (quoted_field STR_image (escaped img)) := by
        simp only [image_entry, Option.map_some', hrel]
        rw [slashdup_eq_escaped img h0]
      rw [he] at hmem
      have := written_body_short l _ _ hmem hfit
      exact ⟨img, Or.inr he, h0, by omega⟩
    | some r =>
      have he : image_entry env (some img) = some (quoted_field STR_image (escaped r)) := by
        simp only [image_entry, Option.map_some', hrel]
        rw [escaped_of_safe_body r (hr r hrel)]
      rw [he] at hmem
      have := written_body_short l _ _ hmem hfit
      exact ⟨r, Or.inr he, (hr r hrel).1, by omega⟩

theorem opt_num_read {D : Type} (env : Env D) (d : D) (h : opt_num_ok env d) :
    (if (!env.isnan d) = true then d else env.NAN) = d := by
  cases hc : env.isnan d with
  | false => simp
  | true =>
    simp only [Bool.not_true, Bool.false_eq_true, if_false]
    exact (h.1 hc).symm

theorem opt_num_written {D : Type} (env : Env D) (d : D) (h : opt_num_ok env d) :
    (!env.isnan d) = true → num_ok env d := by
  intro hc
  exact h.2 (by simpa using hc)

theorem visible_read (v : Bool) : (if (!v) = true then false else true) = v := by
  cases v <;> rfl

theorem waypoint_fields_fit {D : Type} (env : Env D) (wp : Waypoint D) (n : List Nat)
    (hn : wp.name = some n) (h : waypoint_ok env wp) :
    (quoted_field STR_type STR_waypoint ++ tail_text (waypoint_fields env wp n)).length + 1 ≤
      VIKING_LINE_SIZE - 1 := by
  have := h.fits
  simp only [a_gpspoint_write_waypoint, hn, List.length_append, List.length_singleton] at this
  simpa only [List.length_append] using this

theorem waypoint_fields_wf {D : Type} (env : Env D) (wp : Waypoint D) (n : List Nat)
    (hn : wp.name = some n) (h : waypoint_ok env wp) :
    ∀ e ∈ waypoint_fields env wp n, entry_wf e := by
  have hfit : (tail_text (waypoint_fields env wp n)).length ≤ 4095 := by
    have := waypoint_fields_fit env wp n hn h
    simp only [List.length_append, VIKING_LINE_SIZE] at this
    omega
  obtain ⟨n2, hn2, hgn⟩ := h.name
  have hnn : n2 = n := by
    rw [hn] at hn2
    exact (Option.some.inj hn2).symm
  subst hnn
  obtain ⟨x, hx, hx0, -⟩ := image_entry_cases env wp.image (waypoint_fields env wp n2)
    (List.mem_cons_of_mem _ (List.mem_cons_of_mem _ (List.mem_cons_of_mem _ (List.mem_cons_of_mem _ (List.mem_cons_of_mem _ (List.mem_cons_of_mem _ (List.mem_cons_of_mem _ (List.mem_cons_of_mem _ (List.mem_cons_of_mem _ (List.mem_cons_self _ _)))))))))) hfit h.image
  intro e he
  simp only [waypoint_fields, List.mem_cons, List.mem_singleton, List.not_mem_nil, or_false] at he
  rcases he with rfl | rfl | rfl | rfl | rfl | rfl | rfl | rfl | rfl | rfl | rfl | rfl | rfl | rfl
  · exact entry_wf_some _ (wf_quoted_safe _ _ 8 (by decide) h.lat.1)
  · exact entry_wf_some _ (wf_quoted_safe _ _ 9 (by decide) h.lon.1)
  · exact entry_wf_opt_text STR_name 4 (some n2) (by decide) (fun t ht => by cases ht; exact hgn)
  · exact entry_wf_opt _ _ (fun hc => wf_quoted_safe _ _ 8 (by decide)
      (opt_num_written env _ h.altitude hc).1)
  · exact entry_wf_opt _ _ (fun hc => wf_quoted_safe _ _ 8 (by decide)
      (opt_num_written env _ h.timestamp hc).1)
  · exact entry_wf_opt_text STR_comment 7 _ (by decide) h.comment
  · exact entry_wf_opt_text STR_description 11 _ (by decide) h.description
  · exact entry_wf_opt_text STR_source 6 _ (by decide) h.source
  · exact entry_wf_opt_text STR_xtype 5 _ (by decide) h.type
  · rcases hx with hx | hx
    · rw [hx]
      intro t ht
      cases ht
    · rw [hx]
      exact entry_wf_some _ (wf_quoted_escaped STR_image x 5 (by decide) hx0)
  · exact entry_wf_opt _ _ (fun hc => wf_quoted_safe _ _ 15 (by decide)
      (h.image_direction (by simpa using hc)).1)
  · exact entry_wf_opt _ _ (fun hc => wf_quoted_safe _ _ 19 (by decide)
      (h.image_direction (by simpa using hc)).2)
  · cases hs : wp.symbol with
    | none =>
      intro t ht
      cases ht
    | some sym => exact entry_wf_some _ (wf_quoted_safe _ _ 6 (by decide) (h.symbol sym hs))
  · exact entry_wf_opt _ _ (fun _ => wf_quoted_safe _ _ 7 (by decide) (by simp [safe_body, STR_n]))

/-- The `line_*` variables after the tokenizer loop on a written waypoint line. -/
theorem waypoint_line_acc {D : Type} (env : Env D) (wp : Waypoint D) (n : List Nat)
    (hn : wp.name = some n) (h : waypoint_ok env wp) (a : Acc D) :
    ∃ im sy imd imr,
      line_acc env (quoted_field STR_type STR_waypoint ++ tail_text (waypoint_fields env wp n))
          (Acc.reset env a) =
        some (Acc.mk GPSPOINT_TYPE_WAYPOINT wp.coord (some (crlf_to_space n))
          (wp.comment.map crlf_to_space) (wp.description.map crlf_to_space)
          (wp.source.map crlf_to_space) (wp.type.map crlf_to_space) none 0 0 im sy imd imr false
          wp.timestamp wp.altitude wp.visible false env.NAN env.NAN 0 0 env.NAN env.NAN
          env.NAN) := by
  have hwf := waypoint_fields_wf env wp n hn h
  have hfit : (tail_text (waypoint_fields env wp n)).length ≤ 4095 := by
    have := waypoint_fields_fit env wp n hn h
    simp only [List.length_append, VIKING_LINE_SIZE] at this
    omega
  obtain ⟨n2, hn2, hgn⟩ := h.name
  have hnn : n2 = n := by
    rw [hn] at hn2
    exact (Option.some.inj hn2).symm
  subst hnn
  have hname : opt_good (some n2) := fun t ht => by cases ht; exact hgn
  have hcomment := h.comment
  have hdescription := h.description
  have hsource := h.source
  have hxtype := h.type
  have hlname := written_text_short _ STR_name (some n2) (show opt_text STR_name (some n2) ∈
    waypoint_fields env wp n2 from List.mem_cons_of_mem _ (List.mem_cons_of_mem _ (List.mem_cons_self _ _))) hfit hname
  have hlcomment := written_text_short _ STR_comment wp.comment (show opt_text STR_comment
    wp.comment ∈ waypoint_fields env wp n2 from List.mem_cons_of_mem _ (List.mem_cons_of_mem _ (List.mem_cons_of_mem _ (List.mem_cons_of_mem _ (List.mem_cons_of_mem _ (List.mem_cons_self _ _)))))) hfit hcomment
  have hldescription := written_text_short _ STR_description wp.description (show
    opt_text STR_description wp.description ∈ waypoint_fields env wp n2 from
    List.mem_cons_of_mem _ (List.mem_cons_of_mem _ (List.mem_cons_of_mem _ (List.mem_cons_of_mem _ (List.mem_cons_of_mem _ (List.mem_cons_of_mem _ (List.mem_cons_self _ _))))))) hfit hdescription
  have hlsource := written_text_short _ STR_source wp.source (show opt_text STR_source
    wp.source ∈ waypoint_fields env wp n2 from List.mem_cons_of_mem _ (List.mem_cons_of_mem _ (List.mem_cons_of_mem _ (List.mem_cons_of_mem _ (List.mem_cons_of_mem _ (List.mem_cons_of_mem _ (List.mem_cons_of_mem _ (List.mem_cons_self _ _)))))))) hfit hsource
  have hlxtype := written_text_short _ STR_xtype wp.type (show opt_text STR_xtype
    wp.type ∈ waypoint_fields env wp n2 from List.mem_cons_of_mem _ (List.mem_cons_of_mem _ (List.mem_cons_of_mem _ (List.mem_cons_of_mem _ (List.mem_cons_of_mem _ (List.mem_cons_of_mem _ (List.mem_cons_of_mem _ (List.mem_cons_of_mem _ (List.mem_cons_self _ _))))))))) hfit hxtype
  obtain ⟨x, hx, hx0, hxl⟩ := image_entry_cases env wp.image (waypoint_fields env wp n2)
    (List.mem_cons_of_mem _ (List.mem_cons_of_mem _ (List.mem_cons_of_mem _ (List.mem_cons_of_mem _ (List.mem_cons_of_mem _ (List.mem_cons_of_mem _ (List.mem_cons_of_mem _ (List.mem_cons_of_mem _ (List.mem_cons_of_mem _ (List.mem_cons_self _ _)))))))))) hfit h.image
  obtain ⟨b10, hb10, hs10⟩ := opt_entry_cases (!env.isnan wp.image_direction) STR_image_direction
    (env.util_formatd_2f wp.image_direction) (fun hc => (h.image_direction (by simpa using hc)).1)
  obtain ⟨b11, hb11, hs11⟩ := opt_entry_cases (!env.isnan wp.image_direction)
    STR_image_direction_ref (env.fmt_d wp.image_direction_ref)
    (fun hc => (h.image_direction (by simpa using hc)).2)
  obtain ⟨b12, hb12, hs12⟩ := map_entry_cases wp.symbol env.g_utf8_strdown STR_symbol h.symbol
  obtain ⟨r9, hr9⟩ := fold_tail_image env (image_entry env wp.image) x [opt (!env.isnan wp.image_direction) (quoted_field STR_image_direction (env.util_formatd_2f wp.image_direction)), opt (!env.isnan wp.image_direction) (quoted_field STR_image_direction_ref (env.fmt_d wp.image_direction_ref)), wp.symbol.map (fun symbol => quoted_field STR_symbol (env.g_utf8_strdown symbol)), opt (!wp.visible) (quoted_field STR_visible STR_n)]
    GPSPOINT_TYPE_WAYPOINT (if true = true then wp.coord.lat else a.line_latlon.lat) (if true = true then wp.coord.lon else a.line_latlon.lon) (Option.map crlf_to_space (some n2)) (Option.map crlf_to_space wp.comment) (Option.map crlf_to_space wp.description) (Option.map crlf_to_space wp.source) (Option.map crlf_to_space wp.type) none 0 0 none none env.NAN WP_IMAGE_DIRECTION_REF_TRUE false (if (!env.isnan wp.timestamp) = true then wp.timestamp else env.NAN) (if (!env.isnan wp.altitude) = true then wp.altitude else env.NAN) true false env.NAN env.NAN 0 0 env.NAN env.NAN env.NAN hx hx0 hxl
  obtain ⟨r10, hr10⟩ := fold_tail_image_direction env (opt (!env.isnan wp.image_direction) (quoted_field STR_image_direction (env.util_formatd_2f wp.image_direction))) b10 [opt (!env.isnan wp.image_direction) (quoted_field STR_image_direction_ref (env.fmt_d wp.image_direction_ref)), wp.symbol.map (fun symbol => quoted_field STR_symbol (env.g_utf8_strdown symbol)), opt (!wp.visible) (quoted_field STR_visible STR_n)]
    GPSPOINT_TYPE_WAYPOINT (if true = true then wp.coord.lat else a.line_latlon.lat) (if true = true then wp.coord.lon else a.line_latlon.lon) (Option.map crlf_to_space (some n2)) (Option.map crlf_to_space wp.comment) (Option.map crlf_to_space wp.description) (Option.map crlf_to_space wp.source) (Option.map crlf_to_space wp.type) none 0 0 r9 none env.NAN WP_IMAGE_DIRECTION_REF_TRUE false (if (!env.isnan wp.timestamp) = true then wp.timestamp else env.NAN) (if (!env.isnan wp.altitude) = true then wp.altitude else env.NAN) true false env.NAN env.NAN 0 0 env.NAN env.NAN env.NAN hb10 hs10
  obtain ⟨r11, hr11⟩ := fold_tail_image_direction_ref env (opt (!env.isnan wp.image_direction) (quoted_field STR_image_direction_ref (env.fmt_d wp.image_direction_ref))) b11 [wp.symbol.map (fun symbol => quoted_field STR_symbol (env.g_utf8_strdown symbol)), opt (!wp.visible) (quoted_field STR_visible STR_n)]
    GPSPOINT_TYPE_WAYPOINT (if true = true then wp.coord.lat else a.line_latlon.lat) (if true = true then wp.coord.lon else a.line_latlon.lon) (Option.map crlf_to_space (some n2)) (Option.map crlf_to_space wp.comment) (Option.map crlf_to_space wp.description) (Option.map crlf_to_space wp.source) (Option.map crlf_to_space wp.type) none 0 0 r9 none r10 WP_IMAGE_DIRECTION_REF_TRUE false (if (!env.isnan wp.timestamp) = true then wp.timestamp else env.NAN) (if (!env.isnan wp.altitude) = true then wp.altitude else env.NAN) true false env.NAN env.NAN 0 0 env.NAN env.NAN env.NAN hb11 hs11
  obtain ⟨r12, hr12⟩ := fold_tail_symbol env (wp.symbol.map (fun symbol => quoted_field STR_symbol (env.g_utf8_strdown symbol))) b12 [opt (!wp.visible) (quoted_field STR_visible STR_n)]
    GPSPOINT_TYPE_WAYPOINT (if true = true then wp.coord.lat else a.line_latlon.lat) (if true = true then wp.coord.lon else a.line_latlon.lon) (Option.map crlf_to_space (some n2)) (Option.map crlf_to_space wp.comment) (Option.map crlf_to_space wp.description) (Option.map crlf_to_space wp.source) (Option.map crlf_to_space wp.type) none 0 0 r9 none r10 r11 false (if (!env.isnan wp.timestamp) = true then wp.timestamp else env.NAN) (if (!env.isnan wp.altitude) = true then wp.altitude else env.NAN) true false env.NAN env.NAN 0 0 env.NAN env.NAN env.NAN hb12 hs12
  refine ⟨r9, r12, r10, r11, ?_⟩
  refine (line_acc_written_line env STR_waypoint GPSPOINT_TYPE_WAYPOINT (waypoint_fields env wp n2)
    0 a.line_latlon.lat a.line_latlon.lon none none none none none none 0 0 none none env.NAN WP_IMAGE_DIRECTION_REF_TRUE false env.NAN env.NAN true false env.NAN env.NAN 0 0 env.NAN env.NAN env.NAN
    (by decide) (fun _ => rfl) (scannable_of_entry_wf _ hwf)).trans ?_
  refine (fold_tail_latitude env true wp.coord.lat _ _ _ _ _ _ _ _ _ _ _ _ _ _ _ _ _ _ _ _ _ _ _ _ _ _ _ _ (fun _ => h.lat)).trans ?_
  refine (fold_tail_longitude env true wp.coord.lon _ _ _ _ _ _ _ _ _ _ _ _ _ _ _ _ _ _ _ _ _ _ _ _ _ _ _ _ (fun _ => h.lon)).trans ?_
  refine (fold_tail_name env (some n2) _ _ _ _ _ _ _ _ _ _ _ _ _ _ _ _ _ _ _ _ _ _ _ _ _ _ _ hname hlname).trans ?_
  refine (fold_tail_altitude env (!env.isnan wp.altitude) wp.altitude _ _ _ _ _ _ _ _ _ _ _ _ _ _ _ _ _ _ _ _ _ _ _ _ _ _ _ _ (opt_num_written env _ h.altitude)).trans ?_
  refine (fold_tail_unixtime env (!env.isnan wp.timestamp) wp.timestamp _ _ _ _ _ _ _ _ _ _ _ _ _ _ _ _ _ _ _ _ _ _ _ _ _ _ _ _ (opt_num_written env _ h.timestamp)).trans ?_
  refine (fold_tail_comment env wp.comment _ _ _ _ _ _ _ _ _ _ _ _ _ _ _ _ _ _ _ _ _ _ _ _ _ _ _ hcomment hlcomment).trans ?_
  refine (fold_tail_description env wp.description _ _ _ _ _ _ _ _ _ _ _ _ _ _ _ _ _ _ _ _ _ _ _ _ _ _ _ hdescription hldescription).trans ?_
  refine (fold_tail_source env wp.source _ _ _ _ _ _ _ _ _ _ _ _ _ _ _ _ _ _ _ _ _ _ _ _ _ _ _ hsource hlsource).trans ?_
  refine (fold_tail_xtype env wp.type _ _ _ _ _ _ _ _ _ _ _ _ _ _ _ _ _ _ _ _ _ _ _ _ _ _ _ hxtype hlxtype).trans ?_
  refine hr9.trans ?_
  refine hr10.trans ?_
  refine hr11.trans ?_
  refine hr12.trans ?_
  refine (fold_tail_visible env (!wp.visible) _ _ _ _ _ _ _ _ _ _ _ _ _ _ _ _ _ _ _ _ _ _ _ _ _ _ _ _).trans ?_
  rw [opt_num_read env _ h.altitude, opt_num_read env _ h.timestamp, visible_read]
  rfl
theorem bool_read (b : Bool) : (if b = true then true else false) = b := by
  cases b <;> rfl

theorem ext_num_written {D : Type} (env : Env D) (e : Bool) (d : D)
    (h : e = true → opt_num_ok env d) : (e && !env.isnan d) = true → num_ok env d := by
  intro hc
  simp only [Bool.and_eq_true, Bool.not_eq_true'] at hc
  exact (h hc.1).2 hc.2

theorem ext_int_written {D : Type} (env : Env D) (e : Bool) (n : Int)
    (h : e = true → n > 0 → int_ok env n) : (e && decide (n > 0)) = true → int_ok env n := by
  intro hc
  simp only [Bool.and_eq_true, decide_eq_true_eq] at hc
  exact h hc.1 hc.2

theorem ext_num_read {D : Type} (env : Env D) (d : D) (h : opt_num_ok env d) :
    (if (true && !env.isnan d) = true then d else env.NAN) = d := by
  rw [Bool.true_and]
  exact opt_num_read env d h

theorem ext_int_read (n : Int) (h : 0 ≤ n) :
    (if (true && decide (n > 0)) = true then n else 0) = n := by
  by_cases hn : n > 0
  · simp [hn]
  · simp only [Bool.true_and, decide_eq_true_eq, hn, if_false]
    omega

theorem trackpoint_fields_fit {D : Type} (env : Env D) (tp : Trackpoint D) (is_route : Bool)
    (h : trackpoint_ok env tp) :
    (quoted_field STR_type (if is_route then STR_routepoint else STR_trackpoint) ++
      tail_text (trackpoint_fields env tp)).length + 1 ≤ VIKING_LINE_SIZE - 1 := by
  have := h.fits is_route
  simp only [a_gpspoint_write_trackpoint, List.length_append, List.length_singleton] at this
  simpa only [List.length_append] using this

theorem trackpoint_fields_short {D : Type} (env : Env D) (tp : Trackpoint D)
    (h : trackpoint_ok env tp) : (tail_text (trackpoint_fields env tp)).length ≤ 4095 := by
  have := trackpoint_fields_fit env tp false h
  simp only [List.length_append, VIKING_LINE_SIZE] at this
  omega

theorem trackpoint_fields_wf {D : Type} (env : Env D) (tp : Trackpoint D)
    (h : trackpoint_ok env tp) : ∀ e ∈ trackpoint_fields env tp, entry_wf e := by
  intro e he
  simp only [trackpoint_fields, List.mem_cons, List.mem_singleton, List.not_mem_nil, or_false]
    at he
  rcases he with rfl | rfl | rfl | rfl | rfl | rfl | rfl | rfl | rfl | rfl | rfl | rfl | rfl | rfl
  · exact entry_wf_some _ (wf_quoted_safe _ _ 8 (by decide) h.lat.1)
  · exact entry_wf_some _ (wf_quoted_safe _ _ 9 (by decide) h.lon.1)
  · exact entry_wf_opt_text STR_name 4 _ (by decide) h.name
  · exact entry_wf_opt _ _ (fun hc => wf_quoted_safe _ _ 8 (by decide)
      (opt_num_written env _ h.altitude hc).1)
  · exact entry_wf_opt _ _ (fun hc => wf_quoted_safe _ _ 8 (by decide)
      (opt_num_written env _ h.timestamp hc).1)
  · exact entry_wf_opt _ _ (fun _ => wf_quoted_safe _ _ 10 (by decide)
      (by simp [safe_body, STR_yes]))
  · exact entry_wf_opt _ _ (fun _ => wf_quoted_safe _ _ 8 (by decide)
      (by simp [safe_body, STR_yes]))
  · exact entry_wf_opt _ _ (fun hc => wf_quoted_safe _ _ 5 (by decide)
      (ext_num_written env _ _ (fun _ => h.speed) hc).1)
  · exact entry_wf_opt _ _ (fun hc => wf_quoted_safe _ _ 6 (by decide)
      (ext_num_written env _ _ (fun _ => h.course) hc).1)
  · exact entry_wf_opt _ _ (fun hc => wf_quoted_safe _ _ 3 (by decide)
      (ext_int_written env _ _ (fun _ => h.nsats.2) hc).1)
  · exact entry_wf_opt _ _ (fun hc => wf_quoted_safe _ _ 3 (by decide)
      (ext_int_written env _ _ (fun he => (h.fix_mode he).2) hc).1)
  · exact entry_wf_opt _ _ (fun hc => wf_quoted_safe _ _ 4 (by decide)
      (ext_num_written env _ _ h.hdop hc).1)
  · exact entry_wf_opt _ _ (fun hc => wf_quoted_safe _ _ 4 (by decide)
      (ext_num_written env _ _ h.vdop hc).1)
  · exact entry_wf_opt _ _ (fun hc => wf_quoted_safe _ _ 4 (by decide)
      (ext_num_written env _ _ h.pdop hc).1)

/-- The `line_*` variables after the tokenizer loop on a written point line. -/
theorem trackpoint_line_acc {D : Type} (env : Env D) (lit : List Nat) (code : Nat)
    (hlit : lit ≠ [] ∧ escaped lit = lit ∧ 0 ∉ lit)
    (hcode : ∀ rest, type_of_value (lit ++ 34 :: rest) lit.length = code)
    (tp : Trackpoint D) (h : trackpoint_ok env tp) (a : Acc D) :
    line_acc env (quoted_field STR_type lit ++ tail_text (trackpoint_fields env tp))
        (Acc.reset env a) =
      some
        (Acc.mk code tp.coord (Option.map crlf_to_space tp.name) none none none none none 0 0
          none none env.NAN WP_IMAGE_DIRECTION_REF_TRUE tp.newsegment tp.timestamp tp.altitude
          true (has_extended env tp) (if (has_extended env tp && !env.isnan tp.speed) = true
          then tp.speed else env.NAN) (if (has_extended env tp && !env.isnan tp.course) = true
          then tp.course else env.NAN) (if (has_extended env tp && decide (tp.nsats > 0)) = true
          then tp.nsats else 0) (if (has_extended env tp && decide (tp.fix_mode > 0)) = true
          then tp.fix_mode else 0) (if (has_extended env tp && !env.isnan tp.hdop) = true then
          tp.hdop else env.NAN) (if (has_extended env tp && !env.isnan tp.vdop) = true then
          tp.vdop else env.NAN) (if (has_extended env tp && !env.isnan tp.pdop) = true then
          tp.pdop else env.NAN)) := by
  have hwf := trackpoint_fields_wf env tp h
  have hfit := trackpoint_fields_short env tp h
  have hname := h.name
  have hlname := written_text_short _ STR_name tp.name (show opt_text STR_name tp.name ∈
    trackpoint_fields env tp from List.mem_cons_of_mem _ (List.mem_cons_of_mem _ (List.mem_cons_self _ _))) hfit hname
  refine (line_acc_written_line env lit code (trackpoint_fields env tp)
    0 a.line_latlon.lat a.line_latlon.lon none none none none none none 0 0 none none env.NAN WP_IMAGE_DIRECTION_REF_TRUE false env.NAN env.NAN true false env.NAN env.NAN 0 0 env.NAN env.NAN env.NAN
    hlit hcode (scannable_of_entry_wf _ hwf)).trans ?_
  refine (fold_tail_latitude env true tp.coord.lat _ _ _ _ _ _ _ _ _ _ _ _ _ _ _ _ _ _ _ _ _ _ _ _ _ _ _ _ (fun _ => h.lat)).trans ?_
  refine (fold_tail_longitude env true tp.coord.lon _ _ _ _ _ _ _ _ _ _ _ _ _ _ _ _ _ _ _ _ _ _ _ _ _ _ _ _ (fun _ => h.lon)).trans ?_
  refine (fold_tail_name env tp.name _ _ _ _ _ _ _ _ _ _ _ _ _ _ _ _ _ _ _ _ _ _ _ _ _ _ _ hname hlname).trans ?_
  refine (fold_tail_altitude env (!env.isnan tp.altitude) tp.altitude _ _ _ _ _ _ _ _ _ _ _ _ _ _ _ _ _ _ _ _ _ _ _ _ _ _ _ _ (opt_num_written env _ h.altitude)).trans ?_
  refine (fold_tail_unixtime env (!env.isnan tp.timestamp) tp.timestamp _ _ _ _ _ _ _ _ _ _ _ _ _ _ _ _ _ _ _ _ _ _ _ _ _ _ _ _ (opt_num_written env _ h.timestamp)).trans ?_
  refine (fold_tail_newsegment env tp.newsegment _ _ _ _ _ _ _ _ _ _ _ _ _ _ _ _ _ _ _ _ _ _ _ _ _ _ _ _).trans ?_
  refine (fold_tail_extended env (has_extended env tp) _ _ _ _ _ _ _ _ _ _ _ _ _ _ _ _ _ _ _ _ _ _ _ _ _ _ _ _).trans ?_
  refine (fold_tail_speed env (has_extended env tp && !env.isnan tp.speed) tp.speed _ _ _ _ _ _ _ _ _ _ _ _ _ _ _ _ _ _ _ _ _ _ _ _ _ _ _ _ (ext_num_written env _ _ (fun _ => h.speed))).trans ?_
  refine (fold_tail_course env (has_extended env tp && !env.isnan tp.course) tp.course _ _ _ _ _ _ _ _ _ _ _ _ _ _ _ _ _ _ _ _ _ _ _ _ _ _ _ _ (ext_num_written env _ _ (fun _ => h.course))).trans ?_
  refine (fold_tail_sat env (has_extended env tp && decide (tp.nsats > 0)) tp.nsats _ _ _ _ _ _ _ _ _ _ _ _ _ _ _ _ _ _ _ _ _ _ _ _ _ _ _ _ (ext_int_written env _ _ (fun _ => h.nsats.2))).trans ?_
  refine (fold_tail_fix env (has_extended env tp && decide (tp.fix_mode > 0)) tp.fix_mode _ _ _ _ _ _ _ _ _ _ _ _ _ _ _ _ _ _ _ _ _ _ _ _ _ _ _ _ (ext_int_written env _ _ (fun he => (h.fix_mode he).2))).trans ?_
  refine (fold_tail_hdop env (has_extended env tp && !env.isnan tp.hdop) tp.hdop _ _ _ _ _ _ _ _ _ _ _ _ _ _ _ _ _ _ _ _ _ _ _ _ _ _ _ _ (ext_num_written env _ _ h.hdop)).trans ?_
  refine (fold_tail_vdop env (has_extended env tp && !env.isnan tp.vdop) tp.vdop _ _ _ _ _ _ _ _ _ _ _ _ _ _ _ _ _ _ _ _ _ _ _ _ _ _ _ _ (ext_num_written env _ _ h.vdop)).trans ?_
  refine (fold_tail_pdop env (has_extended env tp && !env.isnan tp.pdop) tp.pdop _ _ _ _ _ _ _ _ _ _ _ _ _ _ _ _ _ _ _ _ _ _ _ _ _ _ _ _ (ext_num_written env _ _ h.pdop)).trans ?_
  rw [opt_num_read env _ h.altitude, opt_num_read env _ h.timestamp, bool_read, bool_read]
  rfl

/-- The point built from the `line_*` variables of a written point line is
the written point, with CR and LF replaced in its name. -/
theorem build_trackpoint_written {D : Type} (env : Env D) (code : Nat) (tp : Trackpoint D)
    (h : trackpoint_ok env tp) :
    build_trackpoint env
        (Acc.mk code tp.coord (Option.map crlf_to_space tp.name) none none none none none 0 0
          none none env.NAN WP_IMAGE_DIRECTION_REF_TRUE tp.newsegment tp.timestamp tp.altitude
          true (has_extended env tp) (if (has_extended env tp && !env.isnan tp.speed) = true
          then tp.speed else env.NAN) (if (has_extended env tp && !env.isnan tp.course) = true
          then tp.course else env.NAN) (if (has_extended env tp && decide (tp.nsats > 0)) = true
          then tp.nsats else 0) (if (has_extended env tp && decide (tp.fix_mode > 0)) = true
          then tp.fix_mode else 0) (if (has_extended env tp && !env.isnan tp.hdop) = true then
          tp.hdop else env.NAN) (if (has_extended env tp && !env.isnan tp.vdop) = true then
          tp.vdop else env.NAN) (if (has_extended env tp && !env.isnan tp.pdop) = true then
          tp.pdop else env.NAN)) =
      normalised_trackpoint tp := by
  cases hext : has_extended env tp with
  | false =>
    obtain ⟨p1, p2, p3, p4, p5, p6, p7⟩ := h.plain hext
    simp only [build_trackpoint, normalised_trackpoint, Bool.false_eq_true, if_false]
    rw [← p1, ← p2, ← p3, ← p4, ← p5, ← p6, ← p7]
  | true =>
    simp only [build_trackpoint, normalised_trackpoint, if_true]
    rw [ext_num_read env _ h.speed, ext_num_read env _ h.course, ext_num_read env _ (h.hdop hext),
      ext_num_read env _ (h.vdop hext), ext_num_read env _ (h.pdop hext),
      ext_int_read _ h.nsats.1, ext_int_read _ (h.fix_mode hext).1]

theorem track_fields_fit {D : Type} (env : Env D) (trk : Track D) (n : List Nat)
    (hn : trk.name = some n) (h : track_ok env trk) :
    (quoted_field STR_type (if trk.is_route then STR_route else STR_track) ++
      tail_text (track_fields env trk n)).length + 1 ≤ VIKING_LINE_SIZE - 1 := by
  have := h.fits n hn
  simp only [write_track_header, List.length_append, List.length_singleton] at this
  simpa only [List.length_append] using this

theorem track_fields_short {D : Type} (env : Env D) (trk : Track D) (n : List Nat)
    (hn : trk.name = some n) (h : track_ok env trk) :
    (tail_text (track_fields env trk n)).length ≤ 4095 := by
  have := track_fields_fit env trk n hn h
  simp only [List.length_append, VIKING_LINE_SIZE] at this
  omega

theorem label_mode_read (n : Int) (h : 0 ≤ n) :
    (if decide (n > 0) = true then n else 0) = n := by
  by_cases hn : n > 0
  · simp [hn]
  · simp only [decide_eq_true_eq, hn, if_false]
    omega

theorem clean_color_token (color : Nat × Nat × Nat) : clean (color_token color) := by
  obtain ⟨h1, h2, h3, h4, h5, h6, he, hp⟩ := color_token_eq color
  rw [he]
  have hk : (0 : Nat) ∉ STR_color ∧ (10 : Nat) ∉ STR_color := by decide
  refine ⟨?_, ?_⟩
  · intro hc
    rcases List.mem_append.1 hc with hc | hc
    · exact hk.1 hc
    · rcases List.mem_cons.1 hc with hc | hc
      · exact absurd hc (by decide)
      · exact (hp 0 hc).2.1 rfl
  · intro hc
    rcases List.mem_append.1 hc with hc | hc
    · exact hk.2 hc
    · rcases List.mem_cons.1 hc with hc | hc
      · exact absurd hc (by decide)
      · exact (hp 10 hc).2.2 rfl

theorem track_fields_wf {D : Type} (env : Env D) (trk : Track D) (n : List Nat)
    (hn : trk.name = some n) (h : track_ok env trk) :
    ∀ e ∈ track_fields env trk n, entry_wf e := by
  obtain ⟨n2, hn2, hgn⟩ := h.name
  have hnn : n2 = n := by
    rw [hn] at hn2
    exact (Option.some.inj hn2).symm
  subst hnn
  intro e he
  simp only [track_fields, List.mem_cons, List.mem_singleton, List.not_mem_nil, or_false] at he
  rcases he with rfl | rfl | rfl | rfl | rfl | rfl | rfl | rfl | rfl
  · exact entry_wf_opt_text STR_name 4 (some n2) (by decide) (fun t ht => by cases ht; exact hgn)
  · exact entry_wf_opt_text STR_comment 7 _ (by decide) h.comment
  · exact entry_wf_opt_text STR_description 11 _ (by decide) h.description
  · exact entry_wf_opt_text STR_source 6 _ (by decide) h.source
  · exact entry_wf_opt_text STR_xtype 5 _ (by decide) h.type
  · exact entry_wf_opt _ _ (fun _ => ⟨scannable_color_token _, clean_color_token _⟩)
  · exact entry_wf_opt _ _ (fun hc => wf_quoted_safe _ _ 14 (by decide)
      (h.draw_name_mode.2 (by simpa using hc)).1)
  · exact entry_wf_opt _ _ (fun hc => wf_quoted_safe _ _ 18 (by decide)
      (h.number_dist_labels.2 (by simpa using hc)).1)
  · exact entry_wf_opt _ _ (fun _ => wf_quoted_safe _ _ 7 (by decide) (by simp [safe_body, STR_n]))

/-- The `line_*` variables after the tokenizer loop on a written track or
route header line. -/
theorem track_line_acc {D : Type} (env : Env D) (lit : List Nat) (code : Nat)
    (hlit : lit ≠ [] ∧ escaped lit = lit ∧ 0 ∉ lit)
    (hcode : ∀ rest, type_of_value (lit ++ 34 :: rest) lit.length = code)
    (trk : Track D) (n : List Nat) (hn : trk.name = some n) (h : track_ok env trk) (a : Acc D) :
    ∃ co,
      line_acc env (quoted_field STR_type lit ++ tail_text (track_fields env trk n))
          (Acc.reset env a) =
        some (Acc.mk code a.line_latlon (some (crlf_to_space n))
          (trk.comment.map crlf_to_space) (trk.description.map crlf_to_space)
          (trk.source.map crlf_to_space) (trk.type.map crlf_to_space) co trk.draw_name_mode
          trk.max_number_dist_labels none none env.NAN
          WP_IMAGE_DIRECTION_REF_TRUE false env.NAN env.NAN trk.visible false env.NAN env.NAN 0 0
          env.NAN env.NAN env.NAN) := by
  have hwf := track_fields_wf env trk n hn h
  have hfit := track_fields_short env trk n hn h
  obtain ⟨n2, hn2, hgn⟩ := h.name
  have hnn : n2 = n := by
    rw [hn] at hn2
    exact (Option.some.inj hn2).symm
  subst hnn
  have hname : opt_good (some n2) := fun t ht => by cases ht; exact hgn
  have hcomment := h.comment
  have hdescription := h.description
  have hsource := h.source
  have hxtype := h.type
  have hlname := written_text_short _ STR_name (some n2) (show opt_text STR_name (some n2) ∈
    track_fields env trk n2 from List.mem_cons_self _ _) hfit hname
  have hlcomment := written_text_short _ STR_comment trk.comment (show opt_text STR_comment
    trk.comment ∈ track_fields env trk n2 from List.mem_cons_of_mem _ (List.mem_cons_self _ _)) hfit hcomment
  have hldescription := written_text_short _ STR_description trk.description (show
    opt_text STR_description trk.description ∈ track_fields env trk n2 from
    List.mem_cons_of_mem _ (List.mem_cons_of_mem _ (List.mem_cons_self _ _))) hfit hdescription
  have hlsource := written_text_short _ STR_source trk.source (show opt_text STR_source
    trk.source ∈ track_fields env trk n2 from List.mem_cons_of_mem _ (List.mem_cons_of_mem _ (List.mem_cons_of_mem _ (List.mem_cons_self _ _)))) hfit hsource
  have hlxtype := written_text_short _ STR_xtype trk.type (show opt_text STR_xtype
    trk.type ∈ track_fields env trk n2 from List.mem_cons_of_mem _ (List.mem_cons_of_mem _ (List.mem_cons_of_mem _ (List.mem_cons_of_mem _ (List.mem_cons_self _ _))))) hfit hxtype
  obtain ⟨r5, hr5⟩ := fold_tail_color env trk.has_color trk.color [opt (decide (trk.draw_name_mode > 0)) (quoted_field STR_draw_name_mode (env.fmt_d trk.draw_name_mode)), opt (decide (trk.max_number_dist_labels > 0)) (quoted_field STR_number_dist_labels (env.fmt_d trk.max_number_dist_labels)), opt (!trk.visible) (quoted_field STR_visible STR_n)]
    code a.line_latlon.lat a.line_latlon.lon (Option.map crlf_to_space (some n2)) (Option.map crlf_to_space trk.comment) (Option.map crlf_to_space trk.description) (Option.map crlf_to_space trk.source) (Option.map crlf_to_space trk.type) none 0 0 none none env.NAN WP_IMAGE_DIRECTION_REF_TRUE false env.NAN env.NAN true false env.NAN env.NAN 0 0 env.NAN env.NAN env.NAN
  refine ⟨r5, ?_⟩
  refine (line_acc_written_line env lit code (track_fields env trk n2)
    0 a.line_latlon.lat a.line_latlon.lon none none none none none none 0 0 none none env.NAN WP_IMAGE_DIRECTION_REF_TRUE false env.NAN env.NAN true false env.NAN env.NAN 0 0 env.NAN env.NAN env.NAN
    hlit hcode (scannable_of_entry_wf _ hwf)).trans ?_
  refine (fold_tail_name env (some n2) _ _ _ _ _ _ _ _ _ _ _ _ _ _ _ _ _ _ _ _ _ _ _ _ _ _ _ hname hlname).trans ?_
  refine (fold_tail_comment env trk.comment _ _ _ _ _ _ _ _ _ _ _ _ _ _ _ _ _ _ _ _ _ _ _ _ _ _ _ hcomment hlcomment).trans ?_
  refine (fold_tail_description env trk.description _ _ _ _ _ _ _ _ _ _ _ _ _ _ _ _ _ _ _ _ _ _ _ _ _ _ _ hdescription hldescription).trans ?_
  refine (fold_tail_source env trk.source _ _ _ _ _ _ _ _ _ _ _ _ _ _ _ _ _ _ _ _ _ _ _ _ _ _ _ hsource hlsource).trans ?_
  refine (fold_tail_xtype env trk.type _ _ _ _ _ _ _ _ _ _ _ _ _ _ _ _ _ _ _ _ _ _ _ _ _ _ _ hxtype hlxtype).trans ?_
  refine hr5.trans ?_
  refine (fold_tail_draw_name_mode env (decide (trk.draw_name_mode > 0)) trk.draw_name_mode _ _ _ _ _ _ _ _ _ _ _ _ _ _ _ _ _ _ _ _ _ _ _ _ _ _ _ _ (fun hc => h.draw_name_mode.2 (by simpa using hc))).trans ?_
  refine (fold_tail_number_dist_labels env (decide (trk.max_number_dist_labels > 0)) trk.max_number_dist_labels _ _ _ _ _ _ _ _ _ _ _ _ _ _ _ _ _ _ _ _ _ _ _ _ _ _ _ _ (fun hc => h.number_dist_labels.2 (by simpa using hc))).trans ?_
  refine (fold_tail_visible env (!trk.visible) _ _ _ _ _ _ _ _ _ _ _ _ _ _ _ _ _ _ _ _ _ _ _ _ _ _ _ _).trans ?_
  rw [visible_read, label_mode_read _ h.draw_name_mode.1,
    label_mode_read _ h.number_dist_labels.1]
  rfl

/-- The `line_*` variables after the tokenizer loop on a written line that
holds nothing but its `type` token. -/
theorem bare_line_acc {D : Type} (env : Env D) (lit : List Nat) (code : Nat)
    (hlit : lit ≠ [] ∧ escaped lit = lit ∧ 0 ∉ lit)
    (hcode : ∀ rest, type_of_value (lit ++ 34 :: rest) lit.length = code) (a : Acc D) :
    line_acc env (quoted_field STR_type lit) (Acc.reset env a) =
      some { Acc.reset env a with line_type := code } := by
  have h := line_acc_written_line env lit code []
    0 a.line_latlon.lat a.line_latlon.lon none none none none none none 0 0 none none env.NAN WP_IMAGE_DIRECTION_REF_TRUE false env.NAN env.NAN true false env.NAN env.NAN 0 0 env.NAN env.NAN env.NAN
    hlit hcode (fun tok ht => by cases ht)
  simp only [tail_text, List.append_nil] at h
  exact h

/-! ### The records of the written lines in the in-order reader -/

theorem trackpoints_end_in_order_eq {D : Type} (st : RState D) :
    ∃ c, trackpoints_end_in_order st = { st with current_track := c } := by
  unfold trackpoints_end_in_order
  split
  · exact ⟨st.current_track, rfl⟩
  · split
    · exact ⟨st.current_track, rfl⟩
    · split_ifs
      · exact ⟨none, rfl⟩
      · exact ⟨st.current_track, rfl⟩

theorem process_record_in_order_none {D : Type} (env : Env D) (s : RState D)
    (htype : s.acc.line_type = GPSPOINT_TYPE_NONE) : process_record_in_order env s = s := by
  unfold process_record_in_order
  have h1 : ¬ (s.acc.line_type = GPSPOINT_TYPE_TRACK_END ∨
      s.acc.line_type = GPSPOINT_TYPE_ROUTE_END) := by
    simp only [GPSPOINT_TYPE_NONE, GPSPOINT_TYPE_TRACK_END, GPSPOINT_TYPE_ROUTE_END] at htype ⊢
    omega
  have h2 : ¬ (s.acc.line_type = GPSPOINT_TYPE_WAYPOINT ∧ s.acc.line_name ≠ none) := by
    simp only [GPSPOINT_TYPE_NONE, GPSPOINT_TYPE_WAYPOINT] at htype ⊢
    omega
  have h3 : ¬ ((s.acc.line_type = GPSPOINT_TYPE_TRACK ∨ s.acc.line_type = GPSPOINT_TYPE_ROUTE) ∧
      s.acc.line_name ≠ none) := by
    simp only [GPSPOINT_TYPE_NONE, GPSPOINT_TYPE_TRACK, GPSPOINT_TYPE_ROUTE] at htype ⊢
    omega
  have h4 : ¬ ((s.acc.line_type = GPSPOINT_TYPE_TRACKPOINT ∨
      s.acc.line_type = GPSPOINT_TYPE_ROUTEPOINT) ∧ s.current_track ≠ none) := by
    simp only [GPSPOINT_TYPE_NONE, GPSPOINT_TYPE_TRACKPOINT, GPSPOINT_TYPE_ROUTEPOINT] at htype ⊢
    omega
  simp only [if_neg h1, if_neg h2, if_neg h3, if_neg h4]

theorem process_record_in_order_waypoint {D : Type} (env : Env D) (s : RState D)
    (htype : s.acc.line_type = GPSPOINT_TYPE_WAYPOINT) (hname : s.acc.line_name ≠ none) :
    ∃ c, process_record_in_order env s =
      { s with
        current_track := c
        have_read_something := true
        waypoints := s.waypoints ++ [build_waypoint env s.acc] } := by
  unfold process_record_in_order
  have h1 : ¬ (s.acc.line_type = GPSPOINT_TYPE_TRACK_END ∨
      s.acc.line_type = GPSPOINT_TYPE_ROUTE_END) := by
    simp only [GPSPOINT_TYPE_WAYPOINT, GPSPOINT_TYPE_TRACK_END, GPSPOINT_TYPE_ROUTE_END] at htype ⊢
    omega
  have h2 : s.acc.line_type = GPSPOINT_TYPE_WAYPOINT ∧ s.acc.line_name ≠ none := ⟨htype, hname⟩
  simp only [if_neg h1, if_pos h2]
  obtain ⟨c, hc⟩ := trackpoints_end_in_order_eq s
  rw [hc]
  exact ⟨c, rfl⟩

theorem process_record_in_order_track {D : Type} (env : Env D) (s : RState D)
    (htype : s.acc.line_type = GPSPOINT_TYPE_TRACK ∨ s.acc.line_type = GPSPOINT_TYPE_ROUTE)
    (hname : s.acc.line_name ≠ none) :
    process_record_in_order env s =
      { s with
        have_read_something := true
        tracks := s.tracks ++ [build_track env s.acc]
        current_track := some s.tracks.length } := by
  unfold process_record_in_order
  have h1 : ¬ (s.acc.line_type = GPSPOINT_TYPE_TRACK_END ∨
      s.acc.line_type = GPSPOINT_TYPE_ROUTE_END) := by
    simp only [GPSPOINT_TYPE_TRACK, GPSPOINT_TYPE_ROUTE, GPSPOINT_TYPE_TRACK_END,
      GPSPOINT_TYPE_ROUTE_END] at htype ⊢
    omega
  have h2 : ¬ (s.acc.line_type = GPSPOINT_TYPE_WAYPOINT ∧ s.acc.line_name ≠ none) := by
    simp only [GPSPOINT_TYPE_TRACK, GPSPOINT_TYPE_ROUTE, GPSPOINT_TYPE_WAYPOINT] at htype ⊢
    omega
  have h3 : (s.acc.line_type = GPSPOINT_TYPE_TRACK ∨ s.acc.line_type = GPSPOINT_TYPE_ROUTE) ∧
      s.acc.line_name ≠ none := ⟨htype, hname⟩
  simp only [if_neg h1, if_neg h2, if_pos h3]
  obtain ⟨c, hc⟩ := trackpoints_end_in_order_eq s
  rw [hc]

theorem process_record_in_order_point {D : Type} (env : Env D) (s : RState D) (k : Nat)
    (htype : s.acc.line_type = GPSPOINT_TYPE_TRACKPOINT ∨
      s.acc.line_type = GPSPOINT_TYPE_ROUTEPOINT)
    (hcur : s.current_track = some k) :
    process_record_in_order env s =
      { s with
        have_read_something := true
        tracks := update_at
          (fun t => { t with trackpoints := t.trackpoints ++ [build_trackpoint env s.acc] }) k
          s.tracks } := by
  unfold process_record_in_order
  have h1 : ¬ (s.acc.line_type = GPSPOINT_TYPE_TRACK_END ∨
      s.acc.line_type = GPSPOINT_TYPE_ROUTE_END) := by
    simp only [GPSPOINT_TYPE_TRACKPOINT, GPSPOINT_TYPE_ROUTEPOINT, GPSPOINT_TYPE_TRACK_END,
      GPSPOINT_TYPE_ROUTE_END] at htype ⊢
    omega
  have h2 : ¬ (s.acc.line_type = GPSPOINT_TYPE_WAYPOINT ∧ s.acc.line_name ≠ none) := by
    simp only [GPSPOINT_TYPE_TRACKPOINT, GPSPOINT_TYPE_ROUTEPOINT, GPSPOINT_TYPE_WAYPOINT] at htype ⊢
    omega
  have h3 : ¬ ((s.acc.line_type = GPSPOINT_TYPE_TRACK ∨ s.acc.line_type = GPSPOINT_TYPE_ROUTE) ∧
      s.acc.line_name ≠ none) := by
    simp only [GPSPOINT_TYPE_TRACKPOINT, GPSPOINT_TYPE_ROUTEPOINT, GPSPOINT_TYPE_TRACK,
      GPSPOINT_TYPE_ROUTE] at htype ⊢
    omega
  have h4 : (s.acc.line_type = GPSPOINT_TYPE_TRACKPOINT ∨
      s.acc.line_type = GPSPOINT_TYPE_ROUTEPOINT) ∧ s.current_track ≠ none :=
    ⟨htype, by rw [hcur]; exact Option.some_ne_none k⟩
  simp only [if_neg h1, if_neg h2, if_neg h3, if_pos h4]
  rw [hcur]

theorem process_record_in_order_end {D : Type} (env : Env D) (s : RState D)
    (htype : s.acc.line_type = GPSPOINT_TYPE_TRACK_END ∨
      s.acc.line_type = GPSPOINT_TYPE_ROUTE_END) :
    ∃ c, process_record_in_order env s = { s with current_track := c } := by
  unfold process_record_in_order
  have h2 : ¬ (s.acc.line_type = GPSPOINT_TYPE_WAYPOINT ∧ s.acc.line_name ≠ none) := by
    simp only [GPSPOINT_TYPE_TRACK_END, GPSPOINT_TYPE_ROUTE_END, GPSPOINT_TYPE_WAYPOINT] at htype ⊢
    omega
  have h3 : ¬ ((s.acc.line_type = GPSPOINT_TYPE_TRACK ∨ s.acc.line_type = GPSPOINT_TYPE_ROUTE) ∧
      s.acc.line_name ≠ none) := by
    simp only [GPSPOINT_TYPE_TRACK_END, GPSPOINT_TYPE_ROUTE_END, GPSPOINT_TYPE_TRACK,
      GPSPOINT_TYPE_ROUTE] at htype ⊢
    omega
  have h4 : ∀ c : Option Nat, ¬ ((s.acc.line_type = GPSPOINT_TYPE_TRACKPOINT ∨
      s.acc.line_type = GPSPOINT_TYPE_ROUTEPOINT) ∧ c ≠ none) := by
    intro c
    simp only [GPSPOINT_TYPE_TRACK_END, GPSPOINT_TYPE_ROUTE_END, GPSPOINT_TYPE_TRACKPOINT,
      GPSPOINT_TYPE_ROUTEPOINT] at htype ⊢
    omega
  obtain ⟨c, hc⟩ := trackpoints_end_in_order_eq s
  simp only [if_pos htype, hc, if_neg h2, if_neg h3, if_neg (h4 c)]
  exact ⟨c, rfl⟩

theorem process_line_in_order_of_acc {D : Type} (env : Env D) (line : List Nat) (st : RState D)
    (acc1 : Acc D) (hacc : line_acc env line st.acc = some acc1) :
    process_line_in_order env line st =
      some { process_record_in_order env { st with acc := acc1 } with
        acc := Acc.reset env (process_record_in_order env { st with acc := acc1 }).acc } := by
  rw [process_line_in_order_eq_map, hacc]
  rfl

theorem process_line_in_order_none {D : Type} (env : Env D) (line : List Nat) (st : RState D)
    (acc1 : Acc D) (hacc : line_acc env line st.acc = some acc1)
    (htype : acc1.line_type = GPSPOINT_TYPE_NONE) :
    process_line_in_order env line st = some { st with acc := Acc.reset env acc1 } := by
  rw [process_line_in_order_of_acc env line st acc1 hacc,
    process_record_in_order_none env { st with acc := acc1 } htype]

theorem process_line_in_order_waypoint {D : Type} (env : Env D) (line : List Nat)
    (st : RState D) (acc1 : Acc D) (hacc : line_acc env line st.acc = some acc1)
    (htype : acc1.line_type = GPSPOINT_TYPE_WAYPOINT) (hname : acc1.line_name ≠ none) :
    ∃ c, process_line_in_order env line st =
      some { acc := Acc.reset env acc1, current_track := c,
             waypoints := st.waypoints ++ [build_waypoint env acc1], tracks := st.tracks,
             have_read_something := true } := by
  obtain ⟨c, hc⟩ := process_record_in_order_waypoint env { st with acc := acc1 } htype hname
  rw [process_line_in_order_of_acc env line st acc1 hacc, hc]
  exact ⟨c, rfl⟩

theorem process_line_in_order_track {D : Type} (env : Env D) (line : List Nat)
    (st : RState D) (acc1 : Acc D) (hacc : line_acc env line st.acc = some acc1)
    (htype : acc1.line_type = GPSPOINT_TYPE_TRACK ∨ acc1.line_type = GPSPOINT_TYPE_ROUTE)
    (hname : acc1.line_name ≠ none) :
    process_line_in_order env line st =
      some { acc := Acc.reset env acc1, current_track := some st.tracks.length,
             waypoints := st.waypoints, tracks := st.tracks ++ [build_track env acc1],
             have_read_something := true } := by
  rw [process_line_in_order_of_acc env line st acc1 hacc,
    process_record_in_order_track env { st with acc := acc1 } htype hname]

theorem process_line_in_order_point {D : Type} (env : Env D) (line : List Nat)
    (st : RState D) (acc1 : Acc D) (k : Nat) (hacc : line_acc env line st.acc = some acc1)
    (htype : acc1.line_type = GPSPOINT_TYPE_TRACKPOINT ∨
      acc1.line_type = GPSPOINT_TYPE_ROUTEPOINT)
    (hcur : st.current_track = some k) :
    process_line_in_order env line st =
      some { acc := Acc.reset env acc1, current_track := some k, waypoints := st.waypoints,
             tracks := update_at
               (fun t => { t with trackpoints := t.trackpoints ++ [build_trackpoint env acc1] })
               k st.tracks,
             have_read_something := true } := by
  rw [process_line_in_order_of_acc env line st acc1 hacc,
    process_record_in_order_point env { st with acc := acc1 } k htype hcur]
  simp only [hcur]

theorem process_line_in_order_end {D : Type} (env : Env D) (line : List Nat)
    (st : RState D) (acc1 : Acc D) (hacc : line_acc env line st.acc = some acc1)
    (htype : acc1.line_type = GPSPOINT_TYPE_TRACK_END ∨
      acc1.line_type = GPSPOINT_TYPE_ROUTE_END) :
    ∃ c, process_line_in_order env line st =
      some { st with acc := Acc.reset env acc1, current_track := c } := by
  obtain ⟨c, hc⟩ := process_record_in_order_end env { st with acc := acc1 } htype
  rw [process_line_in_order_of_acc env line st acc1 hacc, hc]
  exact ⟨c, rfl⟩

/-! ### The written lines, one after the other -/

theorem text_field_read (o new : Option (List Nat)) (hnew : new = none) :
    (if o ≠ none then o else new) = o := by
  subst hnew
  cases o <;> simp

theorem update_at_length_append {α : Type} (f : α → α) (a : α) :
    ∀ l : List α, update_at f l.length (l ++ [a]) = l ++ [f a] := by
  intro l
  induction l with
  | nil => rfl
  | cons x xs ih =>
    exact congrArg (fun t => x :: t) ih

theorem reads_to_nil {D : Type} (env : Env D) (st : RState D) : reads_to env [] st st :=
  fun _ => rfl

theorem reads_to_append {D : Type} (env : Env D) (t1 t2 : List Nat) (a b c : RState D)
    (h1 : reads_to env t1 a b) (h2 : reads_to env t2 b c) : reads_to env (t1 ++ t2) a c := by
  intro rest
  rw [List.append_assoc, h1, h2]

/-- A written line is read as one line of the line buffer. -/
theorem reads_to_written_line {D : Type} (env : Env D) (lit : List Nat)
    (fields : List (Option (List Nat))) (st st1 : RState D) (hlit : clean lit)
    (hwf : ∀ e ∈ fields, entry_wf e)
    (hfit : (quoted_field STR_type lit ++ tail_text fields).length + 1 ≤ VIKING_LINE_SIZE - 1)
    (h : process_line_in_order env (quoted_field STR_type lit ++ tail_text fields) st =
      some st1) :
    reads_to env (quoted_field STR_type lit ++ tail_text fields ++ [10]) st st1 := by
  intro rest
  have hclean : clean (quoted_field STR_type lit ++ tail_text fields) :=
    clean_append _ _ (clean_quoted_field _ _ ⟨by decide, by decide⟩ hlit)
      (tail_text_clean fields hwf)
  rw [show quoted_field STR_type lit ++ tail_text fields ++ [10] ++ rest =
    (quoted_field STR_type lit ++ tail_text fields) ++ 10 :: rest by simp]
  rw [fgets_chunks_line _ rest hclean.2 [] (by simpa using hfit)]
  rw [read_lines_in_order]
  simp only [List.nil_append, chop_line _ hclean]
  rw [if_neg (not_sentinel_of_type lit _), h]

theorem clean_of_literal (lit : List Nat) (h : lit ≠ [] ∧ escaped lit = lit ∧ 0 ∉ lit) :
    clean lit := by
  have := clean_escaped lit h.2.2
  rwa [h.2.1] at this

/-- A written line with nothing but a `type` that is no record type changes
nothing. -/
theorem reads_to_bare_line {D : Type} (env : Env D) (lit : List Nat)
    (hlit : lit ≠ [] ∧ escaped lit = lit ∧ 0 ∉ lit)
    (hcode : ∀ rest, type_of_value (lit ++ 34 :: rest) lit.length = GPSPOINT_TYPE_NONE)
    (hlen : lit.length ≤ 4000) (st : RState D) (hinv : acc_is_reset env st) :
    reads_to env (quoted_field STR_type lit ++ [10]) st st := by
  have hacc := bare_line_acc env lit _ hlit hcode st.acc
  rw [← hinv] at hacc
  have hp := process_line_in_order_none env _ st _ hacc rfl
  have hst : ({ st with acc := Acc.reset env { st.acc with line_type := GPSPOINT_TYPE_NONE } } :
      RState D) = st := by
    have : Acc.reset env { st.acc with line_type := GPSPOINT_TYPE_NONE } = st.acc := hinv.symm
    rw [this]
  rw [hst] at hp
  have := reads_to_written_line env lit [] st st (clean_of_literal lit hlit)
    (fun e he => by cases he)
    (by simp only [tail_text, List.append_nil, quoted_field_length, VIKING_LINE_SIZE, STR_type,
          List.length_cons, List.length_nil]; omega)
    (by simpa only [tail_text, List.append_nil] using hp)
  simpa only [tail_text, List.append_nil] using this

/-- A written end line closes the track and changes nothing else. -/
theorem reads_to_end_line {D : Type} (env : Env D) (lit : List Nat)
    (hlit : lit ≠ [] ∧ escaped lit = lit ∧ 0 ∉ lit)
    (hcode : (∀ rest, type_of_value (lit ++ 34 :: rest) lit.length = GPSPOINT_TYPE_TRACK_END) ∨
      (∀ rest, type_of_value (lit ++ 34 :: rest) lit.length = GPSPOINT_TYPE_ROUTE_END))
    (hlen : lit.length ≤ 4000) (st : RState D) (hinv : acc_is_reset env st) :
    ∃ st1, reads_to env (quoted_field STR_type lit ++ [10]) st st1 ∧ acc_is_reset env st1 ∧
      st1.waypoints = st.waypoints ∧ st1.tracks = st.tracks := by
  have key : ∀ code, (∀ rest, type_of_value (lit ++ 34 :: rest) lit.length = code) →
      (code = GPSPOINT_TYPE_TRACK_END ∨ code = GPSPOINT_TYPE_ROUTE_END) →
      ∃ st1, reads_to env (quoted_field STR_type lit ++ [10]) st st1 ∧ acc_is_reset env st1 ∧
        st1.waypoints = st.waypoints ∧ st1.tracks = st.tracks := by
    intro code hc hcd
    have hacc := bare_line_acc env lit code hlit hc st.acc
    rw [← hinv] at hacc
    obtain ⟨c, hp⟩ := process_line_in_order_end env _ st _ hacc hcd
    have := reads_to_written_line env lit [] st _ (clean_of_literal lit hlit)
      (fun e he => by cases he)
      (by simp only [tail_text, List.append_nil, quoted_field_length, VIKING_LINE_SIZE, STR_type,
            List.length_cons, List.length_nil]; omega)
      (by simpa only [tail_text, List.append_nil] using hp)
    simp only [tail_text, List.append_nil] at this
    exact ⟨_, this, rfl, rfl, rfl⟩
  rcases hcode with hc | hc
  · exact key _ hc (Or.inl rfl)
  · exact key _ hc (Or.inr rfl)

/-- A written waypoint line adds the written waypoint to the store. -/
theorem reads_to_waypoint {D : Type} (env : Env D) (hb : new_entities_blank env)
    (wp : Waypoint D) (h : waypoint_ok env wp) (st : RState D) (hinv : acc_is_reset env st) :
    ∃ st1 w, reads_to env (a_gpspoint_write_waypoint env wp) st st1 ∧ acc_is_reset env st1 ∧
      st1.waypoints = st.waypoints ++ [w] ∧ st1.tracks = st.tracks ∧
      waypoint_view w = waypoint_view (normalised_waypoint wp) := by
  obtain ⟨n, hn, -⟩ := h.name
  obtain ⟨im, sy, imd, imr, hacc⟩ := waypoint_line_acc env wp n hn h st.acc
  rw [← hinv] at hacc
  obtain ⟨c, hp⟩ := process_line_in_order_waypoint env _ st _ hacc rfl (Option.some_ne_none _)
  have hr := reads_to_written_line env STR_waypoint (waypoint_fields env wp n) st _
    ⟨by decide, by decide⟩ (waypoint_fields_wf env wp n hn h) (waypoint_fields_fit env wp n hn h)
    hp
  have hw : a_gpspoint_write_waypoint env wp =
      quoted_field STR_type STR_waypoint ++ tail_text (waypoint_fields env wp n) ++ [10] := by
    simp only [a_gpspoint_write_waypoint, hn]
  rw [hw]
  refine ⟨_, _, hr, rfl, rfl, rfl, ?_⟩
  simp only [waypoint_view, build_waypoint, normalised_waypoint, hn, Option.map_some',
    text_field_read _ _ hb.waypoint_comment, text_field_read _ _ hb.waypoint_description,
    text_field_read _ _ hb.waypoint_source, text_field_read _ _ hb.waypoint_type]

/-- A written point line puts the written point at the end of the open track. -/
theorem reads_to_trackpoint {D : Type} (env : Env D) (is_route : Bool) (tp : Trackpoint D)
    (h : trackpoint_ok env tp) (st : RState D) (k : Nat) (hinv : acc_is_reset env st)
    (hcur : st.current_track = some k) :
    ∃ st1, reads_to env (a_gpspoint_write_trackpoint env is_route tp) st st1 ∧
      acc_is_reset env st1 ∧ st1.current_track = some k ∧ st1.waypoints = st.waypoints ∧
      st1.tracks = update_at
        (fun t => { t with trackpoints := t.trackpoints ++ [normalised_trackpoint tp] }) k
        st.tracks := by
  have key : ∀ lit code, (lit ≠ [] ∧ escaped lit = lit ∧ 0 ∉ lit) →
      (∀ rest, type_of_value (lit ++ 34 :: rest) lit.length = code) →
      (code = GPSPOINT_TYPE_TRACKPOINT ∨ code = GPSPOINT_TYPE_ROUTEPOINT) →
      (quoted_field STR_type lit ++ tail_text (trackpoint_fields env tp)).length + 1 ≤
        VIKING_LINE_SIZE - 1 →
      ∃ st1, reads_to env (quoted_field STR_type lit ++ tail_text (trackpoint_fields env tp) ++
          [10]) st st1 ∧
        acc_is_reset env st1 ∧ st1.current_track = some k ∧ st1.waypoints = st.waypoints ∧
        st1.tracks = update_at
          (fun t => { t with trackpoints := t.trackpoints ++ [normalised_trackpoint tp] }) k
          st.tracks := by
    intro lit code hlit hc hcd hfit
    have hacc := trackpoint_line_acc env lit code hlit hc tp h st.acc
    rw [← hinv] at hacc
    have hp := process_line_in_order_point env _ st _ k hacc hcd hcur
    rw [build_trackpoint_written env code tp h] at hp
    have hr := reads_to_written_line env lit (trackpoint_fields env tp) st _
      (clean_of_literal lit hlit) (trackpoint_fields_wf env tp h) hfit hp
    exact ⟨_, hr, rfl, rfl, rfl, rfl⟩
  have hfit := trackpoint_fields_fit env tp is_route h
  unfold a_gpspoint_write_trackpoint
  cases is_route with
  | false => exact key STR_trackpoint _ (by decide) (fun _ => rfl) (Or.inl rfl) hfit
  | true => exact key STR_routepoint _ (by decide) (fun _ => rfl) (Or.inr rfl) hfit

/-- A written header line registers the written track or route, without points,
and opens it. -/
theorem reads_to_track_header {D : Type} (env : Env D) (hb : new_entities_blank env)
    (trk : Track D) (n : List Nat) (hn : trk.name = some n) (h : track_ok env trk)
    (st : RState D) (hinv : acc_is_reset env st) :
    ∃ st1 bt, reads_to env (write_track_header env trk n) st st1 ∧ acc_is_reset env st1 ∧
      st1.current_track = some st.tracks.length ∧ st1.waypoints = st.waypoints ∧
      st1.tracks = st.tracks ++ [bt] ∧
      track_view bt = track_view { normalised_track trk with trackpoints := [] } := by
  have key : ∀ lit code, (lit ≠ [] ∧ escaped lit = lit ∧ 0 ∉ lit) →
      (∀ rest, type_of_value (lit ++ 34 :: rest) lit.length = code) →
      ((code = GPSPOINT_TYPE_TRACK ∧ trk.is_route = false) ∨
        (code = GPSPOINT_TYPE_ROUTE ∧ trk.is_route = true)) →
      (quoted_field STR_type lit ++ tail_text (track_fields env trk n)).length + 1 ≤
        VIKING_LINE_SIZE - 1 →
      ∃ st1 bt, reads_to env (quoted_field STR_type lit ++ tail_text (track_fields env trk n) ++
          [10]) st st1 ∧
        acc_is_reset env st1 ∧
        st1.current_track = some st.tracks.length ∧ st1.waypoints = st.waypoints ∧
        st1.tracks = st.tracks ++ [bt] ∧
        track_view bt = track_view { normalised_track trk with trackpoints := [] } := by
    intro lit code hlit hc hcd hfit
    obtain ⟨co, hacc⟩ := track_line_acc env lit code hlit hc trk n hn h st.acc
    rw [← hinv] at hacc
    have hp := process_line_in_order_track env _ st _ hacc
      (hcd.elim (fun x => Or.inl x.1) (fun x => Or.inr x.1)) (Option.some_ne_none _)
    have hr := reads_to_written_line env lit (track_fields env trk n) st _
      (clean_of_literal lit hlit) (track_fields_wf env trk n hn h) hfit hp
    refine ⟨_, _, hr, rfl, rfl, rfl, rfl, ?_⟩
    clear hr hp hacc
    simp only [track_view, build_track, normalised_track,
      text_field_read _ _ hb.track_comment, text_field_read _ _ hb.track_description,
      text_field_read _ _ hb.track_source, text_field_read _ _ hb.track_type]
    rcases hcd with ⟨rfl, hroute⟩ | ⟨rfl, hroute⟩
    · simp [hn, hroute, GPSPOINT_TYPE_TRACK, GPSPOINT_TYPE_ROUTE]
    · simp [hn, hroute]
  have hfit := track_fields_fit env trk n hn h
  unfold write_track_header
  rcases Bool.eq_false_or_eq_true trk.is_route with hroute | hroute
  · have hl : (if trk.is_route = true then STR_route else STR_track) = STR_route := by
      rw [hroute]
      rfl
    rw [hl] at hfit ⊢
    exact key STR_route _ (by decide) (fun _ => rfl) (Or.inr ⟨rfl, hroute⟩) hfit
  · have hl : (if trk.is_route = true then STR_route else STR_track) = STR_track := by
      rw [hroute]
      rfl
    rw [hl] at hfit ⊢
    exact key STR_track _ (by decide) (fun _ => rfl) (Or.inl ⟨rfl, hroute⟩) hfit

/-- The written point lines of a track put the written points at the end of
the open track, in their order. -/
theorem reads_to_trackpoints {D : Type} (env : Env D) (is_route : Bool) :
    ∀ (pts : List (Trackpoint D)), (∀ tp ∈ pts, trackpoint_ok env tp) →
      ∀ (st : RState D) (k : Nat), acc_is_reset env st → st.current_track = some k →
      ∃ st1, reads_to env ((pts.map (a_gpspoint_write_trackpoint env is_route)).flatten) st st1 ∧
        acc_is_reset env st1 ∧ st1.current_track = some k ∧ st1.waypoints = st.waypoints ∧
        st1.tracks = update_at
          (fun t => { t with trackpoints := t.trackpoints ++ pts.map normalised_trackpoint }) k
          st.tracks := by
  intro pts
  induction pts with
  | nil =>
    intro _ st k hinv hcur
    refine ⟨st, reads_to_nil env st, hinv, hcur, rfl, ?_⟩
    exact (update_at_eq_self _ _ _ (fun x _ => by simp)).symm
  | cons p ps ih =>
    intro hall st k hinv hcur
    obtain ⟨s1, h1, i1, c1, w1, t1⟩ := reads_to_trackpoint env is_route p
      (hall p (List.mem_cons_self _ _)) st k hinv hcur
    obtain ⟨s2, h2, i2, c2, w2, t2⟩ := ih (fun tp htp => hall tp (List.mem_cons_of_mem _ htp))
      s1 k i1 c1
    refine ⟨s2, reads_to_append env _ _ st s1 s2 h1 h2, i2, c2, w2.trans w1, ?_⟩
    rw [t2, t1, update_at_update_at]
    apply update_at_congr
    intro x _
    simp

/-- The written lines of a track or route register the written track with its
points in their order. -/
theorem reads_to_track {D : Type} (env : Env D) (hb : new_entities_blank env) (trk : Track D)
    (h : track_ok env trk) (st : RState D) (hinv : acc_is_reset env st) :
    ∃ st1 t, reads_to env (a_gpspoint_write_track env trk) st st1 ∧ acc_is_reset env st1 ∧
      st1.waypoints = st.waypoints ∧ st1.tracks = st.tracks ++ [t] ∧
      track_view t = track_view (normalised_track trk) := by
  obtain ⟨n, hn, -⟩ := h.name
  obtain ⟨s1, bt, h1, i1, c1, w1, t1, v1⟩ := reads_to_track_header env hb trk n hn h st hinv
  obtain ⟨s2, h2, i2, c2, w2, t2⟩ := reads_to_trackpoints env trk.is_route trk.trackpoints
    h.points s1 st.tracks.length i1 c1
  have hend : ∃ s3, reads_to env
      (quoted_field STR_type (if trk.is_route then STR_routeend else STR_trackend) ++ [10])
      s2 s3 ∧ acc_is_reset env s3 ∧ s3.waypoints = s2.waypoints ∧ s3.tracks = s2.tracks := by
    rcases Bool.eq_false_or_eq_true trk.is_route with hroute | hroute
    · rw [hroute]
      exact reads_to_end_line env STR_routeend (by decide) (Or.inr (fun _ => rfl)) (by decide) s2
        i2
    · rw [hroute]
      exact reads_to_end_line env STR_trackend (by decide) (Or.inl (fun _ => rfl)) (by decide) s2
        i2
  obtain ⟨s3, h3, i3, w3, t3⟩ := hend
  have hw : a_gpspoint_write_track env trk =
      write_track_header env trk n ++
        (trk.trackpoints.map (a_gpspoint_write_trackpoint env trk.is_route)).flatten ++
        (quoted_field STR_type (if trk.is_route then STR_routeend else STR_trackend) ++ [10]) := by
    simp only [a_gpspoint_write_track, hn]
  rw [hw]
  refine ⟨s3, { bt with
      trackpoints := bt.trackpoints ++ trk.trackpoints.map normalised_trackpoint },
    reads_to_append env _ _ st s2 s3 (reads_to_append env _ _ st s1 s2 h1 h2) h3, i3,
    (w3.trans w2).trans w1, ?_, ?_⟩
  · rw [t3, t2, t1, update_at_length_append]
  · simp only [track_view, normalised_track, Prod.mk.injEq] at v1 ⊢
    obtain ⟨e1, e2, e3, e4, e5, e6, e7, e8, e9, e10⟩ := v1
    exact ⟨e1, e2, e3, e4, e5, e6, e7, e8, e9, by rw [e10]; rfl⟩

/-- The written lines of a list of tracks or routes register them in their
order. -/
theorem reads_to_tracks {D : Type} (env : Env D) (hb : new_entities_blank env) :
    ∀ (trks : List (Track D)), (∀ t ∈ trks, track_ok env t) →
      ∀ (st : RState D), acc_is_reset env st →
      ∃ st1 ts, reads_to env ((trks.map (a_gpspoint_write_track env)).flatten) st st1 ∧
        acc_is_reset env st1 ∧ st1.waypoints = st.waypoints ∧ st1.tracks = st.tracks ++ ts ∧
        ts.map track_view = trks.map (fun t => track_view (normalised_track t)) := by
  intro trks
  induction trks with
  | nil =>
    intro _ st hinv
    exact ⟨st, [], reads_to_nil env st, hinv, rfl, by simp, rfl⟩
  | cons t ts ih =>
    intro hall st hinv
    obtain ⟨s1, t1, h1, i1, w1, e1, v1⟩ := reads_to_track env hb t
      (hall t (List.mem_cons_self _ _)) st hinv
    obtain ⟨s2, ts2, h2, i2, w2, e2, v2⟩ := ih (fun x hx => hall x (List.mem_cons_of_mem _ hx))
      s1 i1
    refine ⟨s2, t1 :: ts2, reads_to_append env _ _ st s1 s2 h1 h2, i2, w2.trans w1, ?_, ?_⟩
    · rw [e2, e1, List.append_assoc]
      rfl
    · simp only [List.map_cons, v1, v2]

/-- The written lines of a list of waypoints register them in their order. -/
theorem reads_to_waypoints {D : Type} (env : Env D) (hb : new_entities_blank env) :
    ∀ (wps : List (Waypoint D)), (∀ wp ∈ wps, waypoint_ok env wp) →
      ∀ (st : RState D), acc_is_reset env st →
      ∃ st1 ws, reads_to env ((wps.map (a_gpspoint_write_waypoint env)).flatten) st st1 ∧
        acc_is_reset env st1 ∧ st1.waypoints = st.waypoints ++ ws ∧ st1.tracks = st.tracks ∧
        ws.map waypoint_view = wps.map (fun wp => waypoint_view (normalised_waypoint wp)) := by
  intro wps
  induction wps with
  | nil =>
    intro _ st hinv
    exact ⟨st, [], reads_to_nil env st, hinv, by simp, rfl, rfl⟩
  | cons w ws ih =>
    intro hall st hinv
    obtain ⟨s1, w1, h1, i1, e1, t1, v1⟩ := reads_to_waypoint env hb w
      (hall w (List.mem_cons_self _ _)) st hinv
    obtain ⟨s2, ws2, h2, i2, e2, t2, v2⟩ := ih (fun x hx => hall x (List.mem_cons_of_mem _ hx))
      s1 i1
    refine ⟨s2, w1 :: ws2, reads_to_append env _ _ st s1 s2 h1 h2, i2, ?_, t2.trans t1, ?_⟩
    · rw [e2, e1, List.append_assoc]
      rfl
    · simp only [List.map_cons, v1, v2]

/-- The in-order reader on a written file: the store holds the written
waypoints, tracks and routes. -/
theorem read_lines_in_order_written_file {D : Type} (env : Env D)
    (hb : new_entities_blank env) (latlon : LatLon D) (waypoints : List (Waypoint D))
    (tracks routes : List (Track D)) (hw : ∀ wp ∈ waypoints, waypoint_ok env wp)
    (ht : ∀ t ∈ tracks, track_ok env t) (hr : ∀ t ∈ routes, track_ok env t) :
    ∃ st, read_lines_in_order env
        (fgets_chunks (a_gpspoint_write_file env waypoints tracks routes) [])
        (init_state env latlon [] []) = some st ∧
      st.waypoints.map waypoint_view =
        waypoints.map (fun wp => waypoint_view (normalised_waypoint wp)) ∧
      st.tracks.map track_view =
        (tracks ++ routes).map (fun t => track_view (normalised_track t)) := by
  have i0 : acc_is_reset env (init_state env latlon [] []) := rfl
  have h0 := reads_to_bare_line env STR_waypointlist (by decide) (fun _ => rfl) (by decide)
    (init_state env latlon [] []) i0
  obtain ⟨s1, ws, h1, i1, e1, t1, v1⟩ := reads_to_waypoints env hb waypoints hw _ i0
  have h2 := reads_to_bare_line env STR_waypointlistend (by decide) (fun _ => rfl) (by decide)
    s1 i1
  obtain ⟨s3, ts, h3, i3, e3, t3, v3⟩ := reads_to_tracks env hb tracks ht s1 i1
  obtain ⟨s4, rs, h4, i4, e4, t4, v4⟩ := reads_to_tracks env hb routes hr s3 i3
  have hall := reads_to_append env _ _ _ _ _ (reads_to_append env _ _ _ _ _
    (reads_to_append env _ _ _ _ _ (reads_to_append env _ _ _ _ _ h0 h1) h2) h3) h4
  have hfile := hall []
  rw [List.append_nil] at hfile
  refine ⟨s4, ?_, ?_, ?_⟩
  · unfold a_gpspoint_write_file
    rw [hfile]
    rfl
  · rw [e4, e3, e1]
    simpa using v1
  · rw [t4, t3, t1]
    simp only [init_state, List.nil_append, List.map_append, v3, v4]

/-! ### The sample collection in the concrete environment -/

theorem sample_digit_num_ok (c : Nat) (h : 48 ≤ c ∧ c ≤ 57) : num_ok sample_env (some [c]) := by
  refine ⟨?_, ?_, ?_⟩
  · simp only [safe_body, sample_env, Option.getD_some, List.mem_singleton]
    omega
  · simp [sample_env]
  · intro rest
    have h1 : tolower c ≠ 110 := by
      unfold tolower
      split_ifs <;> omega
    have h2 : is_numeral_char c = true := by
      simp [is_numeral_char]
      omega
    have h3 : is_numeral_char 34 = false := by decide
    have ht : ([c] ++ 34 :: rest).takeWhile is_numeral_char = [c] := by
      simp [List.takeWhile, h2, h3]
    have hn : ¬ ((([c] ++ 34 :: rest).take 3).map tolower = [110, 97, 110]) := by
      simp [h1]
    show (if (([c] ++ 34 :: rest).take 3).map tolower = [110, 97, 110] then none
      else if ([c] ++ 34 :: rest).takeWhile is_numeral_char = [] then some [48]
      else some (([c] ++ 34 :: rest).takeWhile is_numeral_char)) = some [c]
    rw [if_neg hn, ht, if_neg (by simp)]

theorem sample_unset_num_ok : opt_num_ok sample_env none :=
  ⟨fun _ => rfl, fun h => absurd h (by decide)⟩

theorem sample_set_num_ok (c : Nat) (h : 48 ≤ c ∧ c ≤ 57) : opt_num_ok sample_env (some [c]) :=
  ⟨fun h0 => by simp [sample_env] at h0, fun _ => sample_digit_num_ok c h⟩

theorem sample_small_int_ok (n : Nat) (h : n < 10) : int_ok sample_env (n : Int) := by
  have hf : sample_env.fmt_d (n : Int) = [48 + n] := by
    simp [sample_env, nat_digits, h]
  rw [int_ok, hf]
  refine ⟨?_, by simp, ?_⟩
  · simp only [safe_body, List.mem_singleton]
    omega
  · intro rest
    have h1 : cget ([48 + n] ++ 34 :: rest) 0 = 48 + n := rfl
    have ht : ([48 + n] ++ 34 :: rest).takeWhile (fun c => decide (48 ≤ c) && decide (c ≤ 57)) =
        [48 + n] := by
      have hd : decide (48 + n ≤ 57) = true := decide_eq_true (by omega)
      simp [List.takeWhile, hd]
    show (if cget ([48 + n] ++ 34 :: rest) 0 = 45 then
        - digits_value (([48 + n] ++ 34 :: rest).drop 1)
      else digits_value ([48 + n] ++ 34 :: rest)) = (n : Int)
    rw [if_neg (by rw [h1]; omega)]
    unfold digits_value
    rw [ht]
    simp

theorem opt_good_none : opt_good none := fun _ h => by cases h

theorem opt_good_some (t : List Nat) (h : t ≠ [] ∧ 0 ∉ t) : opt_good (some t) := by
  intro x hx
  cases hx
  exact h

theorem sample_roundtrip_waypoint_ok : waypoint_ok sample_env sample_roundtrip_waypoint where
  name := ⟨[87], rfl, by decide, by decide⟩
  lat := sample_digit_num_ok 49 (by decide)
  lon := sample_digit_num_ok 50 (by decide)
  altitude := sample_set_num_ok 51 (by decide)
  timestamp := sample_unset_num_ok
  comment := opt_good_some _ (by decide)
  description := opt_good_none
  source := opt_good_none
  type := opt_good_none
  image := fun _ h => by cases h
  image_direction := fun h => absurd h (by decide)
  symbol := fun _ h => by cases h
  fits := by decide

theorem sample_plain_point_ok : trackpoint_ok sample_env sample_plain_point where
  lat := sample_digit_num_ok 49 (by decide)
  lon := sample_digit_num_ok 50 (by decide)
  name := opt_good_some _ (by decide)
  altitude := sample_set_num_ok 51 (by decide)
  timestamp := sample_unset_num_ok
  speed := sample_unset_num_ok
  course := sample_unset_num_ok
  hdop := fun _ => sample_unset_num_ok
  vdop := fun _ => sample_unset_num_ok
  pdop := fun _ => sample_unset_num_ok
  nsats := ⟨by decide, fun h => absurd h (by decide)⟩
  fix_mode := fun _ => ⟨by decide, fun h => absurd h (by decide)⟩
  plain := fun _ => ⟨rfl, rfl, rfl, rfl, rfl, rfl, rfl⟩
  fits := fun r => by cases r <;> decide

theorem sample_extended_point_ok : trackpoint_ok sample_env sample_extended_point where
  lat := sample_digit_num_ok 52 (by decide)
  lon := sample_digit_num_ok 53 (by decide)
  name := opt_good_none
  altitude := sample_unset_num_ok
  timestamp := sample_set_num_ok 54 (by decide)
  speed := sample_set_num_ok 55 (by decide)
  course := sample_unset_num_ok
  hdop := fun _ => sample_set_num_ok 56 (by decide)
  vdop := fun _ => sample_unset_num_ok
  pdop := fun _ => sample_unset_num_ok
  nsats := ⟨by decide, fun _ => sample_small_int_ok 3 (by decide)⟩
  fix_mode := fun _ => ⟨by decide, fun _ => sample_small_int_ok 2 (by decide)⟩
  plain := fun h => absurd h (by decide)
  fits := fun r => by cases r <;> decide

theorem sample_roundtrip_track_ok : track_ok sample_env sample_roundtrip_track where
  name := ⟨[84], rfl, by decide, by decide⟩
  comment := opt_good_some _ (by decide)
  description := opt_good_none
  source := opt_good_none
  type := opt_good_none
  draw_name_mode := ⟨by decide, fun _ => sample_small_int_ok 1 (by decide)⟩
  number_dist_labels := ⟨by decide, fun h => absurd h (by decide)⟩
  fits := fun n hn => by
    have h : [84] = n := Option.some.inj hn
    subst h
    decide
  points := fun tp htp => by
    have h : tp = sample_plain_point ∨ tp = sample_extended_point := by
      simpa [sample_roundtrip_track] using htp
    rcases h with rfl | rfl
    · exact sample_plain_point_ok
    · exact sample_extended_point_ok

theorem sample_roundtrip_route_ok : track_ok sample_env sample_roundtrip_route where
  name := ⟨[82], rfl, by decide, by decide⟩
  comment := opt_good_none
  description := opt_good_none
  source := opt_good_none
  type := opt_good_none
  draw_name_mode := ⟨by decide, fun h => absurd h (by decide)⟩
  number_dist_labels := ⟨by decide, fun h => absurd h (by decide)⟩
  fits := fun n hn => by
    have h : [82] = n := Option.some.inj hn
    subst h
    decide
  points := fun tp htp => by
    have h : tp = sample_plain_point := by
      simpa [sample_roundtrip_route] using htp
    rw [h]
    exact sample_plain_point_ok

theorem sample_env_blank : new_entities_blank sample_env :=
  ⟨rfl, rfl, rfl, rfl, rfl, rfl, rfl, rfl⟩

/-! ## Lines without tokens, and tokens without effect -/

theorem isspace_ne_zero (c : Nat) (h : isspace c = true) : c ≠ 0 := by
  intro h0
  subst h0
  simp [isspace] at h

theorem skip_space_append_spaces (ws l : List Nat) (hws : ∀ c ∈ ws, isspace c = true) :
    skip_space (ws ++ l) = skip_space l := by
  induction ws with
  | nil => rfl
  | cons c cs ih =>
    have hc := hws c (List.mem_cons_self _ _)
    rw [List.cons_append, skip_space, if_pos ⟨isspace_ne_zero c hc, hc⟩]
    exact ih (fun x hx => hws x (List.mem_cons_of_mem _ hx))

/-- With enough fuel the tokens do not depend on the fuel. -/
theorem line_tokens_fuel :
    ∀ (f1 f2 : Nat) (ts : List Nat) (iq bs : Bool), ts.length < f1 → ts.length < f2 →
      line_tokens f1 ts iq bs = line_tokens f2 ts iq bs := by
  intro f1
  induction f1 with
  | zero => intro f2 ts iq bs h; omega
  | succ f1 ih =>
    intro f2 ts iq bs h1 h2
    cases f2 with
    | zero => omega
    | succ f2 =>
      rw [line_tokens, line_tokens]
      have hs := skip_space_length_le ts
      by_cases hz : cget (skip_space ts) 0 = 0
      · simp only [hz, if_true]
      · by_cases hh : cget (skip_space ts) 0 = 35
        · simp only [hz, hh, if_true, if_false]
        · simp only [hz, hh, if_false]
          have h3 := scan_tag_length_le (skip_space ts)
            (if cget (skip_space ts) 0 = 34 then !iq else iq) bs
          rcases hsc : scan_tag (skip_space ts)
            (if cget (skip_space ts) 0 = 34 then !iq else iq) bs with ⟨te, iq2, bs2⟩
          rw [hsc] at h3
          simp only at h3 ⊢
          by_cases he : cget te 0 = 0
          · simp only [he, if_true]
          · simp only [he, if_false]
            have h4 := drop_one_length_lt te he
            rw [ih f2 _ _ _ (by omega) (by omega)]

/-- The tokens of a line from a tokenizer state, with fuel for the whole line. -/
theorem line_tokens_skip_spaces (ws l : List Nat) (hws : ∀ c ∈ ws, isspace c = true)
    (f1 f2 : Nat) (iq bs : Bool) (h1 : (ws ++ l).length < f1) (h2 : l.length < f2) :
    line_tokens f1 (ws ++ l) iq bs = line_tokens f2 l iq bs := by
  cases f1 with
  | zero => omega
  | succ f1 =>
    have h3 : l.length < f1 + 1 := by
      simp only [List.length_append] at h1
      omega
    rw [← line_tokens_fuel (f1 + 1) f2 l iq bs h3 h2]
    rw [line_tokens, line_tokens, skip_space_append_spaces ws l hws]

theorem tokens_of_line_skip_spaces (ws l : List Nat) (hws : ∀ c ∈ ws, isspace c = true) :
    tokens_of_line (ws ++ l) = tokens_of_line l :=
  line_tokens_skip_spaces ws l hws _ _ false false (Nat.lt_succ_self _) (Nat.lt_succ_self _)

theorem line_acc_skip_spaces {D : Type} (env : Env D) (ws l : List Nat)
    (hws : ∀ c ∈ ws, isspace c = true) (acc : Acc D) :
    line_acc env (ws ++ l) acc = line_acc env l acc := by
  rw [line_acc_eq_fold, line_acc_eq_fold, tokens_of_line_skip_spaces ws l hws]

theorem tokens_of_line_nil : tokens_of_line [] = [] := rfl

theorem tokens_of_line_comment (r : List Nat) : tokens_of_line (35 :: r) = [] := by
  unfold tokens_of_line
  rw [line_tokens, skip_space_of_not_isspace 35 r (by decide)]
  rfl

/-- A line whose record type is None leaves the store and the open track alone. -/
theorem process_record_none {D : Type} (env : Env D) (s : RState D)
    (htype : s.acc.line_type = GPSPOINT_TYPE_NONE) : process_record env s = s := by
  unfold process_record
  have h1 : ¬ (s.acc.line_type = GPSPOINT_TYPE_TRACK_END ∨
      s.acc.line_type = GPSPOINT_TYPE_ROUTE_END) := by
    simp only [GPSPOINT_TYPE_NONE, GPSPOINT_TYPE_TRACK_END, GPSPOINT_TYPE_ROUTE_END] at htype ⊢
    omega
  have h2 : ¬ (s.acc.line_type = GPSPOINT_TYPE_WAYPOINT ∧ s.acc.line_name ≠ none) := by
    simp only [GPSPOINT_TYPE_NONE, GPSPOINT_TYPE_WAYPOINT] at htype ⊢
    omega
  have h3 : ¬ ((s.acc.line_type = GPSPOINT_TYPE_TRACK ∨ s.acc.line_type = GPSPOINT_TYPE_ROUTE) ∧
      s.acc.line_name ≠ none) := by
    simp only [GPSPOINT_TYPE_NONE, GPSPOINT_TYPE_TRACK, GPSPOINT_TYPE_ROUTE] at htype ⊢
    omega
  have h4 : ¬ ((s.acc.line_type = GPSPOINT_TYPE_TRACKPOINT ∨
      s.acc.line_type = GPSPOINT_TYPE_ROUTEPOINT) ∧ s.current_track ≠ none) := by
    simp only [GPSPOINT_TYPE_NONE, GPSPOINT_TYPE_TRACKPOINT, GPSPOINT_TYPE_ROUTEPOINT] at htype ⊢
    omega
  simp only [if_neg h1, if_neg h2, if_neg h3, if_neg h4]

/-- A line that leaves the `line_*` variables at their reset values changes
nothing. -/
theorem process_line_of_acc_unchanged {D : Type} (env : Env D) (line : List Nat) (st : RState D)
    (hreset : st.acc = Acc.reset env st.acc) (hacc : line_acc env line st.acc = some st.acc) :
    process_line env line st = some st := by
  have htype : st.acc.line_type = GPSPOINT_TYPE_NONE := by
    rw [hreset]
    rfl
  rw [process_line_eq_map, hacc]
  have hst : ({ st with acc := st.acc } : RState D) = st := rfl
  simp only [Option.map_some', hst, process_record_none env st htype]
  rw [← hreset]

/-- What the search for the end of the key finds: the first `=` behind the
first character of the token, or the end of the token. -/
theorem key_end_loop_spec (tag : List Nat) (len : Nat) :
    ∀ (fuel j : Nat), 1 ≤ fuel → len ≤ fuel + j →
      ∃ k, key_end_loop tag len fuel j = some k ∧ j < k ∧ (k < len → cget tag k = 61) ∧
        (∀ i, j < i → i < k → cget tag i ≠ 61) ∧ (len ≤ k → k = max len (j + 1)) := by
  intro fuel
  induction fuel with
  | zero => intro j h; omega
  | succ fuel ih =>
    intro j _ hlen
    rw [key_end_loop]
    by_cases h1 : j + 1 < len
    · rw [if_pos h1]
      by_cases h2 : cget tag (j + 1) = 61
      · rw [if_pos h2]
        exact ⟨j + 1, rfl, by omega, fun _ => h2, fun i hi1 hi2 => by omega, fun h => by omega⟩
      · rw [if_neg h2]
        obtain ⟨k, hk, hjk, hk61, hno, hend⟩ := ih (j + 1) (by omega) (by omega)
        refine ⟨k, hk, by omega, hk61, ?_, ?_⟩
        · intro i hi1 hi2
          by_cases hij : i = j + 1
          · rw [hij]
            exact h2
          · exact hno i (by omega) hi2
        · intro h
          have := hend h
          omega
    · rw [if_neg h1]
      exact ⟨j + 1, rfl, by omega, fun h => by omega, fun i hi1 hi2 => by omega,
        fun _ => by omega⟩

/-- A key that no test of the dispatcher accepts: nothing changes. -/
theorem process_key_and_value_no_key {D : Type} (env : Env D) (acc : Acc D) (key : List Nat)
    (key_len : Nat) (value : Option (List Nat)) (value_len : Nat)
    (h : ∀ e ∈ key_table, key_is key key_len e.1 e.2 = false) :
    gpspoint_process_key_and_value env acc key key_len value value_len = some acc := by
  cases value with
  | none =>
    rw [process_key_and_value_null, if_neg]
    rw [h (4, STR_type) (by decide)]
    exact Bool.false_ne_true
  | some v => rw [process_key_and_value_eq_table, key_index_none key key_len h]

theorem key_table_first_chars :
    ∀ e ∈ key_table, e.1 ≠ 0 ∧ tolower (cget e.2 0) ≠ 61 := by decide

/-- A key that starts with `=` is no key of the dispatcher. -/
theorem key_is_of_leading_equals (key : List Nat) (key_len : Nat) (h : cget key 0 = 61) :
    ∀ e ∈ key_table, key_is key key_len e.1 e.2 = false := by
  intro e he
  obtain ⟨hn, hc⟩ := key_table_first_chars e he
  unfold key_is
  by_cases hk : key_len = e.1
  · obtain ⟨m, hm⟩ : ∃ m, key_len = m + 1 := ⟨key_len - 1, by omega⟩
    rw [hm, strncasecmp_eq, if_pos]
    · simp
    · rw [h]
      exact fun hh => hc hh.symm
  · simp [hk]

/-- A token without `=` behind its first character is dropped. -/
theorem process_tag_no_equals {D : Type} (env : Env D) (acc : Acc D) (tag : List Nat) (len : Nat)
    (h : ∀ i, 1 ≤ i → i < len → cget tag i ≠ 61) :
    gpspoint_process_tag env acc tag len = some acc := by
  obtain ⟨k, hk, hjk, hk61, _, hend⟩ := key_end_loop_spec tag len (len + 1) 0 (by omega) (by omega)
  have hge : len ≤ k := by
    by_contra hlt
    exact h k (by omega) (by omega) (hk61 (by omega))
  have hmax := hend hge
  unfold gpspoint_process_tag
  rw [hk]
  by_cases h1 : k = len
  · simp only [if_pos h1]
  · have h2 : k = len + 1 := by omega
    simp only [if_neg h1, if_pos h2]

/-- A token whose value opens with a double quote that is not followed by a
second one, and whose last character is not a double quote or is the opening
quote itself, is dropped. -/
theorem process_tag_open_quote {D : Type} (env : Env D) (acc : Acc D) (tag : List Nat)
    (len e : Nat) (he : e < len) (h61 : cget tag e = 61) (hfirst : ∀ i, i < e → cget tag i ≠ 61)
    (hq : cget tag (e + 1) = 34) (hq2 : cget tag (e + 2) ≠ 34)
    (hlast : cget tag (len - 1) ≠ 34 ∨ len = e + 2) :
    gpspoint_process_tag env acc tag len = some acc := by
  obtain ⟨k, hk, hjk, hk61, hno, hend⟩ :=
    key_end_loop_spec tag len (len + 1) 0 (by omega) (by omega)
  unfold gpspoint_process_tag
  rw [hk]
  by_cases h0 : e = 0
  · subst h0
    have hnk := key_is_of_leading_equals tag k h61
    simp only [process_key_and_value_no_key env acc tag k _ _ hnk]
    split_ifs <;> rfl
  · have hke : k = e := by
      by_contra hne
      by_cases hlt : k < e
      · exact hfirst k hlt (hk61 (by omega))
      · exact hno e (by omega) (by omega) h61
    subst hke
    simp only [if_neg (show ¬ k = len by omega), if_neg (show ¬ k = len + 1 by omega), hq,
      if_true, if_neg hq2]
    rcases hlast with hl | hl
    · rw [if_neg hl]
    · have hl1 : len - 1 = k + 1 := by omega
      rw [hl1, if_pos hq, if_pos (by omega)]

/-- A token `key=` with nothing behind the `=`: the value is present, with
length 0, and starts behind the token. -/
theorem process_tag_bare_equals {D : Type} (env : Env D) (acc : Acc D) (key rest : List Nat)
    (hkne : key ≠ []) (hk : 61 ∉ key) (hrest : cget rest 0 ≠ 34) :
    gpspoint_process_tag env acc (key ++ 61 :: rest) (key.length + 1) =
      gpspoint_process_key_and_value env acc (key ++ 61 :: rest) key.length (some rest) 0 := by
  have hklen : 0 < key.length := List.length_pos.mpr hkne
  have hkey : key_end_loop (key ++ 61 :: rest) (key.length + 1) (key.length + 1 + 1) 0 =
      some key.length := key_end_loop_key key _ _ hk (by omega) _ 0 hklen (by omega)
  have hv1 : cget (key ++ 61 :: rest) (key.length + 1) ≠ 34 := by
    rw [cget_append_add key (61 :: rest) 1]
    simpa [cget] using hrest
  have hdrop : (key ++ 61 :: rest).drop (key.length + 1) = rest := by
    have e3 : key ++ 61 :: rest = (key ++ [61]) ++ rest := by simp
    rw [e3]
    exact List.drop_left' (by simp)
  unfold gpspoint_process_tag
  rw [hkey]
  simp only [hv1, hdrop, if_false]
  rw [if_neg (by omega), if_neg (by omega), if_neg (by omega)]
  congr 1
  omega

theorem token_boundary_head (rest : List Nat) (h : token_boundary rest) :
    cget rest 0 = 0 ∨ isspace (cget rest 0) = true := by
  rcases h with rfl | ⟨w, r, rfl, hw⟩
  · exact Or.inl rfl
  · exact Or.inr hw

theorem token_boundary_head_ne (rest : List Nat) (h : token_boundary rest) :
    cget rest 0 ≠ 34 ∧ cget rest 0 ≠ 121 ∧ cget rest 0 ≠ 89 ∧ cget rest 0 ≠ 116 ∧
      cget rest 0 ≠ 84 := by
  have key : ∀ c : Nat, c = 0 ∨ isspace c = true →
      c ≠ 34 ∧ c ≠ 121 ∧ c ≠ 89 ∧ c ≠ 116 ∧ c ≠ 84 := by
    intro c hc
    rcases hc with rfl | hc
    · decide
    · simp only [isspace, Bool.or_eq_true, decide_eq_true_eq, Bool.and_eq_true] at hc
      omega
  exact key _ (token_boundary_head rest h)

/-- The tag parser on the token `key=` of a key of the dispatcher's table. -/
theorem process_tag_bare_equals_table {D : Type} (env : Env D) (acc : Acc D) (i n : Nat)
    (key rest : List Nat) (hi : key_table[i]? = some (n, key)) (hrest : cget rest 0 ≠ 34) :
    gpspoint_process_tag env acc (key ++ 61 :: rest) (key.length + 1) =
      key_action env i acc rest 0 := by
  have hmem : (n, key) ∈ key_table := List.getElem?_mem hi
  obtain ⟨_, h61, hkne, _⟩ := key_table_keys_plain (n, key) hmem
  rw [process_tag_bare_equals env acc key rest hkne h61 hrest, process_key_and_value_eq_table,
    key_index_of_match _ _ i (n, key) hi (key_is_self_append key (61 :: rest) n hmem)]

theorem acc_set_name_none {D : Type} (acc : Acc D) (h : acc.line_name = none) :
    ({ acc with line_name := none } : Acc D) = acc := by
  cases acc
  simp only at h
  subst h
  rfl

/-! ## The record type of a line, and the track and point branches -/

theorem key_action_frame_line_type {D : Type} (env : Env D) (i : Nat) (acc : Acc D) (v : List Nat)
    (vl : Nat) (acc1 : Acc D) (hi : i ≠ 0) (h : key_action env i acc v vl = some acc1) :
    acc1.line_type = acc.line_type := by
  unfold key_action at h
  split at h
  all_goals first
    | exact absurd rfl hi
    | (simp only [Option.some.injEq] at h; subst h; rfl)
    | (split_ifs at h <;> first
        | (simp only [Option.some.injEq] at h; subst h; rfl)
        | (simp only [Option.map_eq_some'] at h; obtain ⟨r, _, rfl⟩ := h; rfl))

/-- The record type after a call of the dispatcher depends on the `line_*`
variables only through the record type before it. -/
theorem process_key_and_value_type_congr {D : Type} (env : Env D) (a b a1 b1 : Acc D)
    (key : List Nat) (key_len : Nat) (value : Option (List Nat)) (value_len : Nat)
    (hab : a.line_type = b.line_type)
    (ha : gpspoint_process_key_and_value env a key key_len value value_len = some a1)
    (hb : gpspoint_process_key_and_value env b key key_len value value_len = some b1) :
    a1.line_type = b1.line_type := by
  cases value with
  | none =>
    rw [process_key_and_value_null] at ha hb
    split_ifs at ha hb
    · simp only [Option.some.injEq] at ha hb
      subst ha hb
      rfl
    · simp only [Option.some.injEq] at ha hb
      subst ha hb
      exact hab
  | some v =>
    rw [process_key_and_value_eq_table] at ha hb
    cases hi : key_index key key_len with
    | none =>
      rw [hi] at ha hb
      simp only [Option.some.injEq] at ha hb
      subst ha hb
      exact hab
    | some i =>
      rw [hi] at ha hb
      simp only at ha hb
      by_cases h0 : i = 0
      · subst h0
        simp only [key_action, Option.some.injEq] at ha hb
        subst ha hb
        rfl
      · rw [key_action_frame_line_type env i a v value_len a1 h0 ha,
          key_action_frame_line_type env i b v value_len b1 h0 hb]
        exact hab

theorem process_tag_type_congr {D : Type} (env : Env D) (a b a1 b1 : Acc D) (tag : List Nat)
    (len : Nat) (hab : a.line_type = b.line_type)
    (ha : gpspoint_process_tag env a tag len = some a1)
    (hb : gpspoint_process_tag env b tag len = some b1) : a1.line_type = b1.line_type := by
  unfold gpspoint_process_tag at ha hb
  cases hk : key_end_loop tag len (len + 1) 0 with
  | none => rw [hk] at ha; simp at ha
  | some ke =>
    rw [hk] at ha hb
    simp only at ha hb
    have hsame : some a = some a1 → some b = some b1 → a1.line_type = b1.line_type := by
      intro h1 h2
      simp only [Option.some.injEq] at h1 h2
      subst h1 h2
      exact hab
    split_ifs at ha hb
    all_goals first
      | exact hsame ha hb
      | exact process_key_and_value_type_congr env a b a1 b1 _ _ _ _ hab ha hb

/-- The record type of a line depends on the `line_*` variables at its start
only through the record type. -/
theorem line_type_of_congr {D : Type} (env : Env D) (line : List Nat) (a b : Acc D)
    (hfit : line.length < VIKING_LINE_SIZE) (hab : a.line_type = b.line_type) :
    line_type_of env line a = line_type_of env line b := by
  unfold line_type_of
  obtain ⟨a1, ha⟩ := line_acc_terminates env line a hfit
  obtain ⟨b1, hb⟩ := line_acc_terminates env line b hfit
  rw [ha, hb]
  simp only [Option.map_some', Option.some.injEq]
  rw [line_acc_eq_fold] at ha hb
  generalize tokens_of_line line = toks at ha hb
  induction toks generalizing a b with
  | nil =>
    simp only [List.foldlM_nil] at ha hb
    cases ha
    cases hb
    exact hab
  | cons t toks ih =>
    rw [List.foldlM_cons] at ha hb
    cases hpa : gpspoint_process_tag env a t.1 t.2 with
    | none => rw [hpa] at ha; simp at ha
    | some a2 =>
      cases hpb : gpspoint_process_tag env b t.1 t.2 with
      | none => rw [hpb] at hb; simp at hb
      | some b2 =>
        rw [hpa] at ha
        rw [hpb] at hb
        exact ih a2 b2 (process_tag_type_congr env a b a2 b2 t.1 t.2 hab hpa hpb) ha hb

theorem trackpoints_end_tracks_length {D : Type} (st : RState D) :
    (trackpoints_end st).tracks.length = st.tracks.length := by
  unfold trackpoints_end
  split
  · rfl
  · split
    · rfl
    · split_ifs
      · exact update_at_length _ _ _
      · rfl

/-- The track branch: the open track is closed, a track without points built
from the `line_*` variables is added to the store and becomes the open track. -/
theorem process_record_track {D : Type} (env : Env D) (st : RState D)
    (htype : st.acc.line_type = GPSPOINT_TYPE_TRACK ∨ st.acc.line_type = GPSPOINT_TYPE_ROUTE)
    (hname : st.acc.line_name ≠ none) :
    process_record env st =
      { trackpoints_end st with
        have_read_something := true
        tracks := (trackpoints_end st).tracks ++ [build_track env st.acc]
        current_track := some (trackpoints_end st).tracks.length } := by
  unfold process_record
  have h1 : ¬ (st.acc.line_type = GPSPOINT_TYPE_TRACK_END ∨
      st.acc.line_type = GPSPOINT_TYPE_ROUTE_END) := by
    simp only [GPSPOINT_TYPE_TRACK, GPSPOINT_TYPE_ROUTE, GPSPOINT_TYPE_TRACK_END,
      GPSPOINT_TYPE_ROUTE_END] at htype ⊢
    omega
  have h2 : ¬ (st.acc.line_type = GPSPOINT_TYPE_WAYPOINT ∧ st.acc.line_name ≠ none) := by
    simp only [GPSPOINT_TYPE_TRACK, GPSPOINT_TYPE_ROUTE, GPSPOINT_TYPE_WAYPOINT] at htype ⊢
    omega
  simp only [if_neg h1, if_neg h2, if_pos (And.intro htype hname), trackpoints_end_acc]

/-- The point branch: a point built from the `line_*` variables is put in
front of the point list of the open track; no other track changes. -/
theorem process_record_point {D : Type} (env : Env D) (st : RState D) (k : Nat)
    (htype : st.acc.line_type = GPSPOINT_TYPE_TRACKPOINT ∨
      st.acc.line_type = GPSPOINT_TYPE_ROUTEPOINT)
    (hcur : st.current_track = some k) :
    process_record env st =
      { st with
        have_read_something := true
        tracks := update_at
          (fun t => { t with trackpoints := build_trackpoint env st.acc :: t.trackpoints }) k
          st.tracks } := by
  unfold process_record
  have h1 : ¬ (st.acc.line_type = GPSPOINT_TYPE_TRACK_END ∨
      st.acc.line_type = GPSPOINT_TYPE_ROUTE_END) := by
    simp only [GPSPOINT_TYPE_TRACKPOINT, GPSPOINT_TYPE_ROUTEPOINT, GPSPOINT_TYPE_TRACK_END,
      GPSPOINT_TYPE_ROUTE_END] at htype ⊢
    omega
  have h2 : ¬ (st.acc.line_type = GPSPOINT_TYPE_WAYPOINT ∧ st.acc.line_name ≠ none) := by
    simp only [GPSPOINT_TYPE_TRACKPOINT, GPSPOINT_TYPE_ROUTEPOINT, GPSPOINT_TYPE_WAYPOINT] at htype ⊢
    omega
  have h3 : ¬ ((st.acc.line_type = GPSPOINT_TYPE_TRACK ∨ st.acc.line_type = GPSPOINT_TYPE_ROUTE) ∧
      st.acc.line_name ≠ none) := by
    simp only [GPSPOINT_TYPE_TRACKPOINT, GPSPOINT_TYPE_ROUTEPOINT, GPSPOINT_TYPE_TRACK,
      GPSPOINT_TYPE_ROUTE] at htype ⊢
    omega
  have h4 : (st.acc.line_type = GPSPOINT_TYPE_TRACKPOINT ∨
      st.acc.line_type = GPSPOINT_TYPE_ROUTEPOINT) ∧ st.current_track ≠ none :=
    ⟨htype, by rw [hcur]; exact Option.some_ne_none k⟩
  simp only [if_neg h1, if_neg h2, if_neg h3, if_pos h4]
  rw [hcur]

/-- A line whose record type is a point type, read while the track of index
`k` is open. -/
theorem process_line_point {D : Type} (env : Env D) (line : List Nat) (st : RState D)
    (acc1 : Acc D) (k : Nat) (hacc : line_acc env line st.acc = some acc1)
    (htype : acc1.line_type = GPSPOINT_TYPE_TRACKPOINT ∨
      acc1.line_type = GPSPOINT_TYPE_ROUTEPOINT)
    (hcur : st.current_track = some k) :
    process_line env line st =
      some { acc := Acc.reset env acc1, current_track := some k, waypoints := st.waypoints,
             tracks := update_at
               (fun t => { t with trackpoints := build_trackpoint env acc1 :: t.trackpoints })
               k st.tracks,
             have_read_something := true } := by
  rw [process_line_eq_map, hacc]
  simp only [Option.map_some']
  rw [process_record_point env { st with acc := acc1 } k htype hcur]
  simp only [hcur]

/-- A line whose record type is track or route and that has a name. -/
theorem process_line_track {D : Type} (env : Env D) (line : List Nat) (st : RState D)
    (acc1 : Acc D) (hacc : line_acc env line st.acc = some acc1)
    (htype : acc1.line_type = GPSPOINT_TYPE_TRACK ∨ acc1.line_type = GPSPOINT_TYPE_ROUTE)
    (hname : acc1.line_name ≠ none) :
    process_line env line st =
      some { acc := Acc.reset env acc1, current_track := some st.tracks.length,
             waypoints := st.waypoints,
             tracks := (trackpoints_end st).tracks ++ [build_track env acc1],
             have_read_something := true } := by
  rw [process_line_eq_map, hacc]
  simp only [Option.map_some']
  rw [process_record_track env { st with acc := acc1 } htype hname]
  have hte : ∀ s : RState D, (trackpoints_end { s with acc := acc1 }).tracks =
      (trackpoints_end s).tracks ∧
      (trackpoints_end { s with acc := acc1 }).waypoints = s.waypoints := by
    intro s
    unfold trackpoints_end
    dsimp only
    split
    · exact ⟨rfl, rfl⟩
    · split
      · exact ⟨rfl, rfl⟩
      · split_ifs <;> exact ⟨rfl, rfl⟩
  have hl := trackpoints_end_tracks_length st
  simp only [(hte st).1, (hte st).2, hl, trackpoints_end_acc]

/-- Point lines read while the last registered track is the open track: each
puts one point on that track and changes no other track. -/
theorem point_lines_fold {D : Type} (env : Env D) (a0 : Acc D)
    (ha0 : a0.line_type = GPSPOINT_TYPE_NONE) (pre : List (Track D)) (w : List (Waypoint D)) :
    ∀ (points : List (List Nat)),
      (∀ l ∈ points, l.length < VIKING_LINE_SIZE ∧
        (line_type_of env l a0 = some GPSPOINT_TYPE_TRACKPOINT ∨
          line_type_of env l a0 = some GPSPOINT_TYPE_ROUTEPOINT)) →
      ∀ (s : RState D) (trk : Track D), s.acc = Acc.reset env s.acc →
        s.current_track = some pre.length → s.tracks = pre ++ [trk] → s.waypoints = w →
        ∃ s2 pts, points.foldlM (fun s l => process_line env l s) s = some s2 ∧
          pts.length = points.length ∧
          s2.tracks = pre ++ [{ trk with trackpoints := pts ++ trk.trackpoints }] ∧
          s2.current_track = some pre.length ∧ s2.waypoints = w := by
  intro points
  induction points with
  | nil =>
    intro _ s trk _ hcur htr hw
    exact ⟨s, [], rfl, rfl, htr, hcur, hw⟩
  | cons l ls ih =>
    intro hall s trk hreset hcur htr hw
    obtain ⟨hfit, hty⟩ := hall l (List.mem_cons_self _ _)
    have hs0 : s.acc.line_type = a0.line_type := by
      rw [hreset, ha0]
      rfl
    rw [← line_type_of_congr env l s.acc a0 hfit hs0] at hty
    obtain ⟨acc1, hacc⟩ := line_acc_terminates env l s.acc hfit
    have hty1 : acc1.line_type = GPSPOINT_TYPE_TRACKPOINT ∨
        acc1.line_type = GPSPOINT_TYPE_ROUTEPOINT := by
      unfold line_type_of at hty
      rw [hacc] at hty
      simpa using hty
    have hpl := process_line_point env l s acc1 pre.length hacc hty1 hcur
    rw [htr, update_at_length_append] at hpl
    obtain ⟨s2, pts, hf, hlen, ht2, hc2, hw2⟩ := ih
      (fun x hx => hall x (List.mem_cons_of_mem _ hx))
      { acc := Acc.reset env acc1, current_track := some pre.length, waypoints := s.waypoints,
        tracks := pre ++ [{ trk with
          trackpoints := build_trackpoint env acc1 :: trk.trackpoints }],
        have_read_something := true }
      { trk with trackpoints := build_trackpoint env acc1 :: trk.trackpoints } rfl rfl rfl hw
    refine ⟨s2, pts ++ [build_trackpoint env acc1], ?_, ?_, ?_, hc2, hw2⟩
    · rw [List.foldlM_cons, hpl]
      exact hf
    · simp [hlen]
    · rw [ht2]
      simp

/-! ## The result of a read and the records in the store -/

theorem sum_map_update_at_same {α : Type} (g : α → Nat) (f : α → α) (h : ∀ x, g (f x) = g x) :
    ∀ (k : Nat) (l : List α), ((update_at f k l).map g).sum = (l.map g).sum := by
  intro k l
  induction l generalizing k with
  | nil => cases k <;> rfl
  | cons x xs ih =>
    cases k with
    | zero => simp [update_at, h]
    | succ k => simp [update_at, ih k]

theorem sum_map_update_at_succ {α : Type} (g : α → Nat) (f : α → α)
    (h : ∀ x, g (f x) = g x + 1) :
    ∀ (k : Nat) (l : List α), k < l.length →
      ((update_at f k l).map g).sum = (l.map g).sum + 1 := by
  intro k l
  induction l generalizing k with
  | nil => intro hk; simp at hk
  | cons x xs ih =>
    intro hk
    cases k with
    | zero =>
      simp only [update_at, List.map_cons, List.sum_cons, h]
      omega
    | succ k =>
      simp only [List.length_cons] at hk
      simp only [update_at, List.map_cons, List.sum_cons, ih k (by omega)]
      omega

/-- Closing the open track changes neither the number of records nor the
result, and leaves the open track a registered one. -/
theorem trackpoints_end_size {D : Type} (st : RState D) (hv : current_track_valid st) :
    store_size (trackpoints_end st) = store_size st ∧
      (trackpoints_end st).have_read_something = st.have_read_something ∧
      current_track_valid (trackpoints_end st) := by
  refine ⟨?_, trackpoints_end_have_read st, ?_⟩
  · unfold store_size
    rw [trackpoints_end_waypoints, trackpoints_end_tracks_length]
    have : ((trackpoints_end st).tracks.map (fun t => t.trackpoints.length)).sum =
        (st.tracks.map (fun t => t.trackpoints.length)).sum := by
      unfold trackpoints_end
      split
      · rfl
      · split
        · rfl
        · split_ifs
          · exact sum_map_update_at_same _ _ (fun x => by simp) _ _
          · rfl
    rw [this]
  · intro k hk
    rw [trackpoints_end_tracks_length]
    apply hv
    revert hk
    unfold trackpoints_end
    split
    · exact id
    · split
      · exact id
      · split_ifs
        · intro hk
          simp at hk
        · exact id

/-- The record branches: either one record is added and `have_read_something`
is set, or neither changes. -/
theorem process_record_size {D : Type} (env : Env D) (st : RState D)
    (hv : current_track_valid st) :
    current_track_valid (process_record env st) ∧
      ((store_size (process_record env st) = store_size st + 1 ∧
          (process_record env st).have_read_something = true) ∨
        (store_size (process_record env st) = store_size st ∧
          (process_record env st).have_read_something = st.have_read_something)) := by
  obtain ⟨he1, he2, he3⟩ := trackpoints_end_size st hv
  by_cases hw : st.acc.line_type = GPSPOINT_TYPE_WAYPOINT ∧ st.acc.line_name ≠ none
  · rw [process_record_waypoint env st hw.1 hw.2]
    refine ⟨?_, Or.inl ⟨?_, rfl⟩⟩
    · intro k hk
      exact he3 k hk
    · unfold store_size at he1 ⊢
      simp only [List.length_append, List.length_singleton]
      rw [trackpoints_end_waypoints] at he1
      omega
  · by_cases ht : (st.acc.line_type = GPSPOINT_TYPE_TRACK ∨
        st.acc.line_type = GPSPOINT_TYPE_ROUTE) ∧ st.acc.line_name ≠ none
    · rw [process_record_track env st ht.1 ht.2]
      refine ⟨?_, Or.inl ⟨?_, rfl⟩⟩
      · intro k hk
        simp only [Option.some.injEq] at hk
        simp only [List.length_append, List.length_singleton]
        omega
      · unfold store_size at he1 ⊢
        simp only [List.length_append, List.length_singleton, List.map_append, List.sum_append,
          List.map_cons, List.map_nil, List.sum_cons, List.sum_nil, build_track,
          List.length_nil]
        omega
    · by_cases hp : (st.acc.line_type = GPSPOINT_TYPE_TRACKPOINT ∨
          st.acc.line_type = GPSPOINT_TYPE_ROUTEPOINT) ∧ st.current_track ≠ none
      · obtain ⟨k, hk⟩ := Option.ne_none_iff_exists'.mp hp.2
        rw [process_record_point env st k hp.1 hk]
        have hkl := hv k hk
        refine ⟨?_, Or.inl ⟨?_, rfl⟩⟩
        · intro j hj
          simp only [update_at_length]
          exact hv j hj
        · unfold store_size
          simp only [update_at_length]
          rw [sum_map_update_at_succ _ _ (fun x => by simp) k st.tracks hkl]
          omega
      · have hnone : process_record env st =
            (if st.acc.line_type = GPSPOINT_TYPE_TRACK_END ∨
              st.acc.line_type = GPSPOINT_TYPE_ROUTE_END then trackpoints_end st else st) := by
          unfold process_record
          by_cases h1 : st.acc.line_type = GPSPOINT_TYPE_TRACK_END ∨
              st.acc.line_type = GPSPOINT_TYPE_ROUTE_END
          · have hw2 : ¬ ((trackpoints_end st).acc.line_type = GPSPOINT_TYPE_WAYPOINT ∧
                (trackpoints_end st).acc.line_name ≠ none) := by
              rw [trackpoints_end_acc]
              exact hw
            have ht2 : ¬ (((trackpoints_end st).acc.line_type = GPSPOINT_TYPE_TRACK ∨
                (trackpoints_end st).acc.line_type = GPSPOINT_TYPE_ROUTE) ∧
                (trackpoints_end st).acc.line_name ≠ none) := by
              rw [trackpoints_end_acc]
              exact ht
            have hp2 : ¬ (((trackpoints_end st).acc.line_type = GPSPOINT_TYPE_TRACKPOINT ∨
                (trackpoints_end st).acc.line_type = GPSPOINT_TYPE_ROUTEPOINT) ∧
                (trackpoints_end st).current_track ≠ none) := by
              rw [trackpoints_end_acc]
              intro hh
              simp only [GPSPOINT_TYPE_TRACK_END, GPSPOINT_TYPE_ROUTE_END,
                GPSPOINT_TYPE_TRACKPOINT, GPSPOINT_TYPE_ROUTEPOINT] at h1 hh
              omega
            simp only [if_pos h1, if_neg hw2, if_neg ht2, if_neg hp2]
          · simp only [if_neg h1, if_neg hw, if_neg ht, if_neg hp]
        rw [hnone]
        split_ifs
        · exact ⟨he3, Or.inr ⟨he1, he2⟩⟩
        · exact ⟨hv, Or.inr ⟨rfl, rfl⟩⟩

theorem process_line_size {D : Type} (env : Env D) (line : List Nat) (st st1 : RState D)
    (hv : current_track_valid st) (h : process_line env line st = some st1) :
    current_track_valid st1 ∧
      ((store_size st1 = store_size st + 1 ∧ st1.have_read_something = true) ∨
        (store_size st1 = store_size st ∧
          st1.have_read_something = st.have_read_something)) := by
  rw [process_line_eq_map] at h
  cases hl : line_acc env line st.acc with
  | none => rw [hl] at h; simp at h
  | some acc =>
    rw [hl] at h
    simp only [Option.map_some', Option.some.injEq] at h
    subst h
    exact process_record_size env { st with acc := acc } hv

/-- The loop over the lines: the result is set exactly when the store has grown
or a line passed the sentinel test. -/
theorem read_lines_size {D : Type} (env : Env D) (n0 : Nat) :
    ∀ (chunks : List (List Nat)) (st : RState D),
      (∀ b ∈ chunks, b.length ≤ VIKING_LINE_SIZE - 1) → current_track_valid st →
      n0 ≤ store_size st → (st.have_read_something = true ↔ n0 < store_size st) →
      ∃ st1, read_lines env chunks st = some st1 ∧ current_track_valid st1 ∧
        n0 ≤ store_size st1 ∧
        (st1.have_read_something = true ↔
          (n0 < store_size st1 ∨ ∃ b ∈ chunks, is_sentinel (chop b))) := by
  intro chunks
  induction chunks with
  | nil =>
    intro st _ hv hn hiff
    refine ⟨st, rfl, hv, hn, ?_⟩
    rw [hiff]
    simp
  | cons b rest ih =>
    intro st hlen hv hn hiff
    rw [read_lines]
    by_cases hs : strlen (chop b) ≥ 13 ∧ strncmp_eq (chop b) STR_EndLayerData 13 = true
    · rw [if_pos hs]
      refine ⟨_, rfl, hv, hn, ?_⟩
      constructor
      · intro _
        exact Or.inr ⟨b, List.mem_cons_self _ _, hs⟩
      · intro _
        rfl
    · rw [if_neg hs]
      obtain ⟨st1, h1⟩ := process_line_terminates env (chop b) st
        (chop_length_lt b (hlen b (List.mem_cons_self _ _)))
      rw [h1]
      obtain ⟨hv1, hsz⟩ := process_line_size env (chop b) st st1 hv h1
      have hn1 : n0 ≤ store_size st1 := by
        rcases hsz with ⟨e, _⟩ | ⟨e, _⟩ <;> omega
      have hiff1 : st1.have_read_something = true ↔ n0 < store_size st1 := by
        rcases hsz with ⟨e, e2⟩ | ⟨e, e2⟩
        · rw [e2, e]
          simp only [true_iff]
          omega
        · rw [e2, e]
          exact hiff
      obtain ⟨st2, h2, hv2, hn2, hiff2⟩ :=
        ih st1 (fun b2 hb2 => hlen b2 (List.mem_cons_of_mem _ hb2)) hv1 hn1 hiff1
      refine ⟨st2, h2, hv2, hn2, ?_⟩
      rw [hiff2]
      constructor
      · rintro (h | ⟨b2, hb2, hs2⟩)
        · exact Or.inl h
        · exact Or.inr ⟨b2, List.mem_cons_of_mem _ hb2, hs2⟩
      · rintro (h | ⟨b2, hb2, hs2⟩)
        · exact Or.inl h
        · rcases List.mem_cons.mp hb2 with rfl | hb3
          · exact absurd hs2 hs
          · exact Or.inr ⟨b2, hb3, hs2⟩

theorem strncmp_eq_iff_starts_with :
    ∀ (p l : List Nat), 0 ∉ p → (strncmp_eq l p p.length = true ↔ p <+: l) := by
  intro p
  induction p with
  | nil => intro l _; simp [strncmp_eq]
  | cons a p ih =>
    intro l hp
    have ha : a ≠ 0 := fun h => hp (by simp [h])
    have hp2 : 0 ∉ p := fun h => hp (List.mem_cons_of_mem _ h)
    cases l with
    | nil =>
      simp only [List.length_cons, strncmp_eq, cget, List.getD_nil, List.getD_cons_zero]
      simp [Ne.symm ha]
    | cons c l =>
      simp only [List.length_cons, strncmp_eq, cget, List.getD_cons_zero, List.tail_cons]
      rw [List.cons_prefix_cons]
      by_cases hc : c = a
      · subst hc
        simp only [ne_eq, not_true_eq_false, if_false, if_neg ha, true_and]
        exact ih l hp2
      · have hc2 : ¬ a = c := fun h => hc h.symm
        simp [hc, hc2]

/-- The sentinel test holds exactly for the lines that start with
`~EndLayerData`. -/
theorem is_sentinel_iff_starts_with (line_buffer : List Nat) :
    is_sentinel line_buffer ↔ STR_EndLayerData <+: line_buffer := by
  have h := strncmp_eq_iff_starts_with STR_EndLayerData line_buffer (by decide)
  have hlen : STR_EndLayerData.length = 13 := rfl
  rw [hlen] at h
  unfold is_sentinel
  constructor
  · intro hs
    exact h.mp hs.2
  · intro hp
    refine ⟨?_, h.mpr hp⟩
    obtain ⟨t, rfl⟩ := hp
    unfold strlen
    rw [List.takeWhile_append_of_pos (by decide)]
    simp only [List.length_append]
    have : STR_EndLayerData.length = 13 := rfl
    omega

/-- The empty input, and an input of a comment, a blank line, an unknown key and
a point without an open track, give the result false. -/
theorem read_result_false_samples :
    (a_gpspoint_read_file sample_env ⟨none, none⟩ [] [] []).map
        (fun st => st.have_read_something) = some false ∧
      (a_gpspoint_read_file sample_env ⟨none, none⟩ [] [] no_record_file).map
        (fun st => (st.have_read_something, st.waypoints.length, st.tracks.length)) =
        some (false, 0, 0) := by
  constructor <;> decide

/-! ## The tokens of a line and the quote rule -/

theorem isspace_cget_skip_space (l : List Nat) : isspace (cget (skip_space l) 0) = false := by
  induction l with
  | nil => rfl
  | cons c cs ih =>
    rw [skip_space]
    split_ifs with h
    · exact ih
    · simp only [cget, List.getD_cons_zero]
      by_cases h0 : c = 0
      · subst h0; rfl
      · cases hs : isspace c with
        | false => rfl
        | true => exact absurd ⟨h0, hs⟩ h

/-- The scan stops in front of its input's tail: the token and the rest. -/
theorem scan_tag_suffix (l : List Nat) :
    ∀ (iq bs : Bool), ∃ tok, l = tok ++ (scan_tag l iq bs).1 := by
  induction l with
  | nil => intro iq bs; exact ⟨[], by simp [scan_tag]⟩
  | cons c cs ih =>
    intro iq bs
    rw [scan_tag]
    split_ifs
    · obtain ⟨tok, h⟩ := ih iq true
      exact ⟨c :: tok, by rw [List.cons_append, ← h]⟩
    · obtain ⟨tok, h⟩ := ih iq false
      exact ⟨c :: tok, by rw [List.cons_append, ← h]⟩
    · obtain ⟨tok, h⟩ := ih (!iq) bs
      exact ⟨c :: tok, by rw [List.cons_append, ← h]⟩
    · obtain ⟨tok, h⟩ := ih iq bs
      exact ⟨c :: tok, by rw [List.cons_append, ← h]⟩
    · exact ⟨[], rfl⟩

/-- Where the scan stops: at the end of the string, or at a whitespace
character outside quotes, with the escape flag clear. -/
theorem scan_tag_exit (l : List Nat) :
    ∀ (iq bs : Bool), (bs = true → cget l 0 = 92) →
      cget (scan_tag l iq bs).1 0 = 0 ∨
        (isspace (cget (scan_tag l iq bs).1 0) = true ∧ (scan_tag l iq bs).2.1 = false ∧
          (scan_tag l iq bs).2.2 = false) := by
  induction l with
  | nil => intro iq bs _; left; simp [scan_tag, cget]
  | cons c cs ih =>
    intro iq bs hbs
    rw [scan_tag]
    split_ifs with h1 h2 h3 h4
    · exact ih iq true (fun _ => h2.1)
    · exact ih iq false (fun h => by simp at h)
    · exact ih (!iq) bs (fun h => absurd h h3)
    · exact ih iq bs (fun h => absurd h h3)
    · by_cases h0 : c = 0
      · left; simp [cget, h0]
      · right
        have hsp : isspace c = true ∧ iq = false := by
          cases hs : isspace c <;> cases iq <;> simp_all
        refine ⟨by simpa [cget] using hsp.1, hsp.2, ?_⟩
        cases bs with
        | false => rfl
        | true =>
          have h92 := hbs rfl
          simp only [cget, List.getD_cons_zero] at h92
          rw [h92] at hsp
          exact absurd hsp.1 (by decide)

/-- A first character that is neither NUL nor whitespace is part of the token. -/
theorem scan_tag_first (c : Nat) (cs : List Nat) (iq bs : Bool) (h0 : c ≠ 0)
    (hs : isspace c = false) : (scan_tag (c :: cs) iq bs).1.length ≤ cs.length := by
  rw [scan_tag, if_pos ⟨h0, Or.inl hs⟩]
  split_ifs <;> exact scan_tag_length_le _ _ _

theorem quote_state_append_one (pre : List Nat) (c : Nat) :
    quote_state (pre ++ [c]) = quote_step (quote_state pre) c := by
  simp [quote_state, List.foldl_append]

/-- A whitespace character leaves the quote state as it is. -/
theorem inside_quotes_append_space (pre : List Nat) (c : Nat) (h : isspace c = true) :
    inside_quotes (pre ++ [c]) = inside_quotes pre := by
  unfold inside_quotes
  rw [quote_state_append_one]
  have h92 : c ≠ 92 := by rintro rfl; exact absurd h (by decide)
  have h34 : c ≠ 34 := by rintro rfl; exact absurd h (by decide)
  unfold quote_step
  split_ifs <;> rfl

/-- The flags of the scan follow the quote rule: when the scan is at `c` with
the state the quote rule has after `pre ++ [c]`, every whitespace character of
the token lies inside quotes, and the scan stops at the end of the string or at
a whitespace character outside quotes. -/
theorem scan_tag_quote_rule : ∀ (l pre : List Nat) (c : Nat),
    ∃ tok, c :: l =
        tok ++ (scan_tag (c :: l) (quote_state (pre ++ [c])).1 (quote_state (pre ++ [c])).2).1 ∧
      (∀ p, p < tok.length → isspace (cget tok p) = true →
        inside_quotes (pre ++ tok.take p) = true) ∧
      (cget (scan_tag (c :: l) (quote_state (pre ++ [c])).1 (quote_state (pre ++ [c])).2).1 0 = 0 ∨
        (isspace (cget (scan_tag (c :: l) (quote_state (pre ++ [c])).1
            (quote_state (pre ++ [c])).2).1 0) = true ∧
          inside_quotes (pre ++ tok) = false)) := by
  intro l
  induction l with
  | nil =>
    intro pre c
    rw [scan_tag]
    by_cases hcond : c ≠ 0 ∧ (isspace c = false ∨ (quote_state (pre ++ [c])).1 = true)
    · rw [if_pos hcond]
      refine ⟨[c], ?_, ?_, ?_⟩
      · split_ifs <;> simp [scan_tag]
      · intro p hp hsp
        have hp0 : p = 0 := by simpa using hp
        subst hp0
        simp only [cget, List.getD_cons_zero] at hsp
        rcases hcond.2 with h | h
        · rw [h] at hsp; exact absurd hsp (by decide)
        · simp only [List.take_zero, List.append_nil]
          rw [← inside_quotes_append_space pre c hsp]
          exact h
      · left
        split_ifs <;> simp [scan_tag, cget]
    · rw [if_neg hcond]
      refine ⟨[], rfl, ?_, ?_⟩
      · intro p hp; simp at hp
      · by_cases h0 : c = 0
        · left; simp [cget, h0]
        · right
          have hsp : isspace c = true ∧ (quote_state (pre ++ [c])).1 = false := by
            cases hs : isspace c <;> cases hq : (quote_state (pre ++ [c])).1 <;> simp_all
          refine ⟨by simpa [cget] using hsp.1, ?_⟩
          simp only [List.append_nil]
          rw [← inside_quotes_append_space pre c hsp.1]
          exact hsp.2
  | cons x l ih =>
    intro pre c
    rw [scan_tag]
    by_cases hcond : c ≠ 0 ∧ (isspace c = false ∨ (quote_state (pre ++ [c])).1 = true)
    · rw [if_pos hcond]
      have hstep : (if cget (x :: l) 0 = 92 ∧ (quote_state (pre ++ [c])).2 = false then
            scan_tag (x :: l) (quote_state (pre ++ [c])).1 true
          else if (quote_state (pre ++ [c])).2 = true then
            scan_tag (x :: l) (quote_state (pre ++ [c])).1 false
          else if cget (x :: l) 0 = 34 then
            scan_tag (x :: l) (!(quote_state (pre ++ [c])).1) (quote_state (pre ++ [c])).2
          else scan_tag (x :: l) (quote_state (pre ++ [c])).1 (quote_state (pre ++ [c])).2) =
          scan_tag (x :: l) (quote_state ((pre ++ [c]) ++ [x])).1
            (quote_state ((pre ++ [c]) ++ [x])).2 := by
        rw [quote_state_append_one (pre ++ [c]) x]
        simp only [cget, List.getD_cons_zero]
        unfold quote_step
        cases h2 : (quote_state (pre ++ [c])).2 <;> by_cases h92 : x = 92 <;>
          by_cases h34 : x = 34 <;> simp_all
      rw [hstep]
      obtain ⟨tok, h1, h2, h3⟩ := ih (pre ++ [c]) x
      refine ⟨c :: tok, ?_, ?_, ?_⟩
      · rw [List.cons_append, ← h1]
      · intro p hp hsp
        cases p with
        | zero =>
          simp only [cget, List.getD_cons_zero] at hsp
          rcases hcond.2 with h | h
          · rw [h] at hsp; exact absurd hsp (by decide)
          · simp only [List.take_zero, List.append_nil]
            rw [← inside_quotes_append_space pre c hsp]
            exact h
        | succ p =>
          simp only [List.length_cons] at hp
          have := h2 p (by omega) (by simpa [cget] using hsp)
          simpa using this
      · rcases h3 with h | ⟨h, h4⟩
        · exact Or.inl h
        · exact Or.inr ⟨h, by simpa using h4⟩
    · rw [if_neg hcond]
      refine ⟨[], rfl, ?_, ?_⟩
      · intro p hp; simp at hp
      · by_cases h0 : c = 0
        · left; simp [cget, h0]
        · right
          have hsp : isspace c = true ∧ (quote_state (pre ++ [c])).1 = false := by
            cases hs : isspace c <;> cases hq : (quote_state (pre ++ [c])).1 <;> simp_all
          refine ⟨by simpa [cget] using hsp.1, ?_⟩
          simp only [List.append_nil]
          rw [← inside_quotes_append_space pre c hsp.1]
          exact hsp.2

/-- Every token of a line starts, behind skipped whitespace, at a character
that is neither NUL nor whitespace, with the flags clear: a property that holds
for the scan from each such start holds for every token. -/
theorem line_tokens_forall (P : List Nat × Nat → Prop) (n : Nat)
    (h : ∀ (c : Nat) (cs : List Nat), (c :: cs).length ≤ n → c ≠ 0 → isspace c = false →
      P (c :: cs, (c :: cs).length -
        (scan_tag (c :: cs) (if c = 34 then true else false) false).1.length)) :
    ∀ (fuel : Nat) (l : List Nat), l.length ≤ n → ∀ t ∈ line_tokens fuel l false false, P t := by
  intro fuel
  induction fuel with
  | zero => intro l _ t ht; simp [line_tokens] at ht
  | succ fuel ih =>
    intro l hl t ht
    rw [line_tokens] at ht
    have hsl := skip_space_length_le l
    have hsp := isspace_cget_skip_space l
    cases hss : skip_space l with
    | nil =>
      rw [hss] at ht
      simp [cget] at ht
    | cons c cs =>
      rw [hss] at ht hsl hsp
      simp only [cget, List.getD_cons_zero] at ht hsp
      by_cases h0 : c = 0
      · simp [h0] at ht
      · by_cases h35 : c = 35
        · simp [h35] at ht
        · simp only [if_neg h0, if_neg h35, Bool.not_false] at ht
          have hex := scan_tag_exit (c :: cs) (if c = 34 then true else false) false
            (fun hh => by simp at hh)
          rcases List.mem_cons.mp ht with rfl | ht2
          · exact h c cs (by omega) h0 hsp
          · by_cases hend :
                ((scan_tag (c :: cs) (if c = 34 then true else false) false).1).getD 0 0 = 0
            · rw [if_pos hend] at ht2
              simp at ht2
            · rw [if_neg hend] at ht2
              rcases hex with hz | ⟨_, hq, hb⟩
              · exact absurd hz hend
              · rw [hq, hb] at ht2
                refine ih _ ?_ t ht2
                have := scan_tag_length_le (c :: cs) (if c = 34 then true else false) false
                simp only [List.length_drop]
                omega

/-- The token that starts at a character that is neither NUL nor whitespace:
it is not empty, it ends at the end of the string or in front of a whitespace
character, and when it does not start with a backslash its whitespace lies
inside quotes and the whitespace that ends it outside. -/
theorem token_of_start (c : Nat) (cs : List Nat) (h0 : c ≠ 0) (hs : isspace c = false) :
    1 ≤ (c :: cs).length - (scan_tag (c :: cs) (if c = 34 then true else false) false).1.length ∧
    (c :: cs).length - (scan_tag (c :: cs) (if c = 34 then true else false) false).1.length ≤
      (c :: cs).length ∧
    (cget (c :: cs) ((c :: cs).length -
        (scan_tag (c :: cs) (if c = 34 then true else false) false).1.length) = 0 ∨
      isspace (cget (c :: cs) ((c :: cs).length -
        (scan_tag (c :: cs) (if c = 34 then true else false) false).1.length)) = true) ∧
    (c ≠ 92 →
      (∀ p, p < (c :: cs).length -
          (scan_tag (c :: cs) (if c = 34 then true else false) false).1.length →
        isspace (cget (c :: cs) p) = true → inside_quotes ((c :: cs).take p) = true) ∧
      (cget (c :: cs) ((c :: cs).length -
          (scan_tag (c :: cs) (if c = 34 then true else false) false).1.length) = 0 ∨
        inside_quotes ((c :: cs).take ((c :: cs).length -
          (scan_tag (c :: cs) (if c = 34 then true else false) false).1.length)) = false)) := by
  have hfirst := scan_tag_first c cs (if c = 34 then true else false) false h0 hs
  have hex := scan_tag_exit (c :: cs) (if c = 34 then true else false) false
    (fun hh => by simp at hh)
  obtain ⟨tok, htok⟩ := scan_tag_suffix (c :: cs) (if c = 34 then true else false) false
  have hlen : (c :: cs).length -
      (scan_tag (c :: cs) (if c = 34 then true else false) false).1.length = tok.length := by
    have := congrArg List.length htok
    rw [List.length_append] at this
    omega
  have hend : cget (c :: cs) tok.length =
      cget (scan_tag (c :: cs) (if c = 34 then true else false) false).1 0 := by
    conv_lhs => rw [htok]
    exact cget_append_add _ _ 0
  rw [hlen, hend]
  simp only [List.length_cons] at hfirst hlen ⊢
  refine ⟨by omega, by omega, ?_, ?_⟩
  · rcases hex with h | ⟨h, _⟩
    · exact Or.inl h
    · exact Or.inr h
  · intro h92
    have hq : quote_state ([] ++ [c]) = (if c = 34 then true else false, false) := by
      simp only [List.nil_append, quote_state, List.foldl_cons, List.foldl_nil, quote_step]
      by_cases h34 : c = 34 <;> simp [h92, h34]
    obtain ⟨tok2, h1, h2, h3⟩ := scan_tag_quote_rule cs [] c
    rw [hq] at h1 h3
    simp only [List.nil_append] at h2 h3
    have htt : tok2 = tok := by
      have := htok.symm.trans h1
      exact ((List.append_left_inj _).mp this).symm
    subst htt
    constructor
    · intro p hp hsp
      have ht : (c :: cs).take p = tok2.take p := by
        conv_lhs => rw [htok]
        rw [List.take_append_of_le_length (by omega)]
      rw [ht]
      apply h2 p hp
      have : cget (c :: cs) p = cget tok2 p := by
        conv_lhs => rw [htok]
        exact cget_append_left _ _ p hp
      rw [← this]
      exact hsp
    · rcases h3 with h | ⟨_, h⟩
      · exact Or.inl h
      · right
        have ht : (c :: cs).take tok2.length = tok2 := by
          conv_lhs => rw [htok]
          simp
        rw [ht]
        exact h

/-! ## The decoder on an arbitrary value slice -/

/-- Induction over a string one or two characters at a time. -/
theorem list_two_step {P : List Nat → Prop} (h0 : P []) (h1 : ∀ c, P [c])
    (h2 : ∀ c d ds, P ds → P (d :: ds) → P (c :: d :: ds)) : ∀ s, P s := by
  have h : ∀ s, P s ∧ ∀ c, P (c :: s) := by
    intro s
    induction s with
    | nil => exact ⟨h0, h1⟩
    | cons d ds ih => exact ⟨ih.2 d, fun c => h2 c d ds ih.1 (ih.2 d)⟩
  exact fun s => (h s).1

theorem unescape_length (s : List Nat) :
    (unescape s).length + escaping_backslashes s = s.length := by
  induction s using list_two_step with
  | h0 => rfl
  | h1 c => by_cases h : c = 92 <;> simp [unescape, escaping_backslashes, h]
  | h2 c d ds ih1 ih2 =>
    by_cases h : c = 92
    · simp only [unescape, escaping_backslashes, if_pos h, List.length_cons]
      omega
    · simp only [unescape, escaping_backslashes, if_neg h, List.length_cons] at ih2 ⊢
      omega

/-- A slice whose last character is a backslash that escapes nothing ends in
an escaped backslash. -/
theorem last_backslash_not_dangling (s : List Nat) :
    s ≠ [] → dangling s = false → cget s (s.length - 1) = 92 →
      s.length ≠ 1 ∧ cget s (s.length - 2) = 92 := by
  induction s using list_two_step with
  | h0 => intro h; exact absurd rfl h
  | h1 c =>
    intro _ hd hl
    simp only [dangling, decide_eq_false_iff_not] at hd
    simp only [List.length_singleton, Nat.sub_self, cget, List.getD_cons_zero] at hl
    exact absurd hl hd
  | h2 c d ds ih1 ih2 =>
    intro _ hd hl
    refine ⟨by simp, ?_⟩
    by_cases h : c = 92
    · simp only [dangling, if_pos h] at hd
      cases ds with
      | nil => simp [cget, h]
      | cons e es =>
        have := ih1 (by simp) hd (by simpa [cget] using hl)
        have hlen : (c :: d :: e :: es).length - 2 = ((e :: es).length - 2) + 2 := by
          have := this.1
          simp only [List.length_cons] at this ⊢
          omega
        rw [hlen]
        simpa [cget] using this.2
    · simp only [dangling, if_neg h] at hd
      have := ih2 (by simp) hd (by simpa [cget] using hl)
      have hlen : (c :: d :: ds).length - 2 = ((d :: ds).length - 2) + 1 := by
        have := this.1
        simp only [List.length_cons] at this ⊢
        omega
      rw [hlen]
      simpa [cget] using this.2

/-- The first loop of the decoder on a slice: it counts the escaping
backslashes and stops one cell behind the slice when the last character is an
escaping backslash. -/
theorem deslash_count_slice (s : List Nat) :
    ∀ (pre post str : List Nat) (len fuel bs : Nat), str = pre ++ (s ++ post) →
      len = pre.length + s.length → len < 65535 → bs + s.length < 65536 → s.length < fuel →
      deslash_count str len fuel pre.length bs =
        some (len + (if dangling s = true then 1 else 0), bs + escaping_backslashes s) := by
  induction s using list_two_step with
  | h0 =>
    intro pre post str len fuel bs _ hlen _ _ hf
    obtain ⟨f, rfl⟩ : ∃ f, fuel = f + 1 := ⟨fuel - 1, by simp at hf; omega⟩
    simp only [List.length_nil, Nat.add_zero] at hlen
    rw [deslash_count, if_neg (by omega)]
    simp [dangling, escaping_backslashes, hlen]
  | h1 c =>
    intro pre post str len fuel bs hstr hlen h16 hbs hf
    simp only [List.length_singleton] at hlen hf hbs
    obtain ⟨f, rfl⟩ : ∃ f, fuel = f + 2 := ⟨fuel - 2, by omega⟩
    have hget : cget str pre.length = c := by
      rw [hstr]; exact cget_append_length pre c _
    rw [deslash_count, if_pos (by omega), hget]
    by_cases h : c = 92
    · rw [if_pos h, Nat.mod_eq_of_lt (by omega), Nat.mod_eq_of_lt (by omega), deslash_count,
        if_neg (by omega)]
      simp [dangling, escaping_backslashes, h, hlen]
    · rw [if_neg h, Nat.mod_eq_of_lt (by omega), deslash_count, if_neg (by omega)]
      simp [dangling, escaping_backslashes, h, hlen]
  | h2 c d ds ih1 ih2 =>
    intro pre post str len fuel bs hstr hlen h16 hbs hf
    simp only [List.length_cons] at hlen hf hbs
    obtain ⟨f, rfl⟩ : ∃ f, fuel = f + 1 := ⟨fuel - 1, by omega⟩
    have hget : cget str pre.length = c := by
      rw [hstr]; exact cget_append_length pre c _
    rw [deslash_count, if_pos (by omega), hget]
    by_cases h : c = 92
    · rw [if_pos h, Nat.mod_eq_of_lt (by omega), Nat.mod_eq_of_lt (by omega)]
      have := ih1 (pre ++ [c, d]) post str len f (bs + 1) (by rw [hstr]; simp)
        (by simp; omega) h16 (by omega) (by omega)
      simp only [List.length_append, List.length_cons, List.length_nil] at this
      rw [show pre.length + 1 + 1 = pre.length + (0 + 1 + 1) by omega, this]
      simp only [dangling, escaping_backslashes, if_pos h]
      congr 2
      omega
    · rw [if_neg h, Nat.mod_eq_of_lt (by omega)]
      have := ih2 (pre ++ [c]) post str len f bs (by rw [hstr]; simp)
        (by simp; omega) h16 (by simp; omega) (by simp; omega)
      simp only [List.length_append, List.length_cons, List.length_nil] at this
      rw [show pre.length + 1 = pre.length + (0 + 1) by omega, this]
      simp only [dangling, escaping_backslashes, if_neg h]

/-- The second loop of the decoder on a slice: it writes the decoded slice. -/
theorem deslash_copy_slice (s : List Nat) :
    ∀ (pre post str rv : List Nat) (len new_len fuel : Nat), str = pre ++ (s ++ post) →
      len = pre.length + s.length → rv.length + (unescape s).length ≤ new_len →
      s.length ≤ fuel →
      deslash_copy str len new_len fuel pre.length false rv = rv ++ unescape s := by
  induction s using list_two_step with
  | h0 =>
    intro pre post str rv len new_len fuel _ hlen _ _
    simp only [List.length_nil, Nat.add_zero] at hlen
    cases fuel with
    | zero => simp [deslash_copy, unescape]
    | succ f =>
      rw [deslash_copy, if_neg (by omega)]
      simp [unescape]
  | h1 c =>
    intro pre post str rv len new_len fuel hstr hlen hnew hf
    simp only [List.length_singleton] at hlen hf
    obtain ⟨f, rfl⟩ : ∃ f, fuel = f + 1 := ⟨fuel - 1, by omega⟩
    have hget : cget str pre.length = c := by
      rw [hstr]; exact cget_append_length pre c _
    have hstop : ∀ (b : Bool) (r : List Nat),
        deslash_copy str len new_len f (pre.length + 1) b r = r := by
      intro b r
      cases f with
      | zero => rfl
      | succ f => rw [deslash_copy, if_neg (by omega)]
    rw [deslash_copy]
    by_cases h : c = 92
    · simp only [unescape, if_pos h, List.append_nil]
      by_cases hcond : pre.length < len ∧ rv.length < new_len
      · rw [if_pos hcond, hget, if_pos ⟨h, trivial⟩]
        exact hstop _ _
      · rw [if_neg hcond]
    · simp only [unescape, if_neg h, List.length_singleton] at hnew ⊢
      rw [if_pos ⟨by omega, by omega⟩, hget, if_neg (by simp [h])]
      exact hstop _ _
  | h2 c d ds ih1 ih2 =>
    intro pre post str rv len new_len fuel hstr hlen hnew hf
    simp only [List.length_cons] at hlen hf
    obtain ⟨f, rfl⟩ : ∃ f, fuel = f + 2 := ⟨fuel - 2, by omega⟩
    have hget : cget str pre.length = c := by
      rw [hstr]; exact cget_append_length pre c _
    have hget1 : cget str (pre.length + 1) = d := by
      have := cget_append_length (pre ++ [c]) d (ds ++ post)
      simpa [hstr] using this
    by_cases h : c = 92
    · simp only [unescape, if_pos h, List.length_cons] at hnew ⊢
      rw [deslash_copy, if_pos ⟨by omega, by omega⟩, hget, if_pos ⟨h, rfl⟩,
        deslash_copy, if_pos ⟨by omega, by omega⟩, hget1, if_neg (by simp)]
      have := ih1 (pre ++ [c, d]) post str (rv ++ [d]) len new_len f (by rw [hstr]; simp)
        (by simp; omega) (by simp; omega) (by omega)
      simp only [List.length_append, List.length_cons, List.length_nil] at this
      rw [show pre.length + 1 + 1 = pre.length + (0 + 1 + 1) by omega, this]
      simp
    · simp only [unescape, if_neg h, List.length_cons] at hnew ⊢
      rw [deslash_copy, if_pos ⟨by omega, by omega⟩, hget, if_neg (by simp [h])]
      have := ih2 (pre ++ [c]) post str (rv ++ [c]) len new_len (f + 1) (by rw [hstr]; simp)
        (by simp; omega) (by simp; omega) (by simp; omega)
      simp only [List.length_append, List.length_cons, List.length_nil] at this
      rw [show pre.length + 1 = pre.length + (0 + 1) by omega, this]
      simp

/-- The decoder on a slice of 1 to 65534 characters that is not followed by a
backslash: it returns the decoded slice. -/
theorem deslashndup_slice (str : List Nat) (len : Nat) (h1 : 1 ≤ len) (h2 : len ≤ str.length)
    (h3 : len < 65535) (h4 : cget str len ≠ 92) :
    deslashndup str len = some (some (unescape (str.take len))) := by
  have hstr : str = [] ++ (str.take len ++ str.drop len) := by simp
  have htl : (str.take len).length = len := by simp; omega
  have hesc := unescape_length (str.take len)
  have hcount := deslash_count_slice (str.take len) [] (str.drop len) str len (len + 1) 0 hstr
    (by simp; omega) h3 (by omega) (by omega)
  have hcopy := deslash_copy_slice (str.take len) [] (str.drop len) str [] len
    (unescape (str.take len)).length (len + 1) hstr (by simp; omega) (by simp) (by omega)
  simp only [List.length_nil, Nat.zero_add, List.nil_append] at hcount hcopy
  have hnew : (len + 65536 - escaping_backslashes (str.take len)) % 65536 =
      (unescape (str.take len)).length := by
    rw [show len + 65536 - escaping_backslashes (str.take len) =
      (unescape (str.take len)).length + 65536 by omega, Nat.add_mod_right]
    exact Nat.mod_eq_of_lt (by omega)
  have hdec : ¬ (cget str (len + (if dangling (str.take len) = true then 1 else 0) - 1) = 92 ∧
      (len = 1 ∨ cget str (len + (if dangling (str.take len) = true then 1 else 0) - 2) ≠ 92)) := by
    by_cases hd : dangling (str.take len) = true
    · simp only [if_pos hd, Nat.add_sub_cancel]
      exact fun h => h4 h.1
    · simp only [if_neg hd, Nat.add_zero]
      rintro ⟨hl, hr⟩
      have hne : str.take len ≠ [] := by
        intro h; rw [h] at htl; simp at htl; omega
      have e1 : cget (str.take len) (len - 1) = cget str (len - 1) := by
        conv_rhs => rw [← List.take_append_drop len str]
        exact (cget_append_left _ _ _ (by omega)).symm
      have := last_backslash_not_dangling (str.take len) hne (by simpa using hd)
        (by rw [htl, e1]; exact hl)
      rw [htl] at this
      have e2 : cget (str.take len) (len - 2) = cget str (len - 2) := by
        conv_rhs => rw [← List.take_append_drop len str]
        exact (cget_append_left _ _ _ (by omega)).symm
      rw [e2] at this
      rcases hr with hr | hr
      · exact this.1 hr
      · exact hr this.2
  unfold deslashndup
  simp only [Nat.mod_eq_of_lt (show len < 65536 by omega)]
  rw [if_neg (by omega), hcount]
  simp only [if_neg hdec, hnew, hcopy]
  simp

/-- The tag parser makes the call that `tag_call` describes, or none. -/
theorem gpspoint_process_tag_eq_call {D : Type} (env : Env D) (acc : Acc D) (tag : List Nat)
    (len : Nat) :
    gpspoint_process_tag env acc tag len =
      match tag_call tag len with
      | none => some acc
      | some (key_len, value, value_len) =>
        gpspoint_process_key_and_value env acc tag key_len value value_len := by
  obtain ⟨k, hk, _⟩ := key_end_loop_spec tag len (len + 1) 0 (by omega) (by omega)
  unfold gpspoint_process_tag tag_call
  rw [hk]
  simp only
  split_ifs <;> rfl

/-- The value slice of a call of the tag parser lies inside the token and is
followed by the closing quote of the token or by the character behind the
token. -/
theorem tag_call_slice (tag : List Nat) (len key_len n : Nat) (v : List Nat)
    (hlen : len ≤ tag.length) (h : tag_call tag len = some (key_len, some v, n)) :
    n ≤ v.length ∧ n ≤ len ∧ (cget v n = 34 ∨ cget v n = cget tag len) := by
  unfold tag_call at h
  cases hk : key_end_loop tag len (len + 1) 0 with
  | none => rw [hk] at h; simp at h
  | some k =>
    rw [hk] at h
    simp only at h
    split_ifs at h with h1 h2 h3 h4 h5 h6 h7
    · simp at h
    · simp only [Option.some.injEq, Prod.mk.injEq] at h
      obtain ⟨_, rfl, rfl⟩ := h
      have e : k + 1 + 1 + (len - 1 - (k + 1 + 1)) = len - 1 := by omega
      refine ⟨by simp only [List.length_drop]; omega, by omega, Or.inl ?_⟩
      rw [← h5]
      have := cget_append_add (tag.take (k + 1 + 1)) (tag.drop (k + 1 + 1))
        (len - 1 - (k + 1 + 1))
      rw [List.take_append_drop, List.length_take, Nat.min_eq_left (by omega), e] at this
      exact this.symm
    · simp only [Option.some.injEq, Prod.mk.injEq] at h
      obtain ⟨_, rfl, rfl⟩ := h
      have e : k + 1 + (len - (k + 1)) = len := by omega
      refine ⟨by simp only [List.length_drop]; omega, by omega, Or.inr ?_⟩
      have := cget_append_add (tag.take (k + 1)) (tag.drop (k + 1)) (len - (k + 1))
      rw [List.take_append_drop, List.length_take, Nat.min_eq_left (by omega), e] at this
      exact this.symm

/-- The tokens of a line lie in the line and end at the end of the line or in
front of a whitespace character. -/
theorem token_in_line (line : List Nat) :
    ∀ t ∈ tokens_of_line line, t.2 ≤ t.1.length ∧ t.1.length ≤ line.length ∧
      (cget t.1 t.2 = 0 ∨ isspace (cget t.1 t.2) = true) := by
  unfold tokens_of_line
  refine line_tokens_forall _ line.length ?_ (line.length + 1) line (le_refl _)
  intro c cs hcs h0 hs
  obtain ⟨_, h2, h3, _⟩ := token_of_start c cs h0 hs
  exact ⟨h2, hcs, h3⟩

/-! ## The escaper: backslashes in front of a double quote -/

theorem trailing_backslashes_snoc (l : List Nat) (c : Nat) :
    trailing_backslashes (l ++ [c]) = if c = 92 then trailing_backslashes l + 1 else 0 := by
  unfold trailing_backslashes
  rw [List.reverse_append, List.reverse_singleton, List.singleton_append, List.takeWhile_cons]
  by_cases h : c = 92
  · simp [h]
  · simp [h]

/-- Where a character of a concatenation lies: in the first part or in the
second. -/
theorem append_eq_split (A B pre post : List Nat) (x : Nat) (h : A ++ B = pre ++ x :: post) :
    (∃ post1, A = pre ++ x :: post1) ∨ (∃ b1, pre = A ++ b1 ∧ B = b1 ++ x :: post) := by
  rcases List.append_eq_append_iff.mp h with ⟨a1, h1, h2⟩ | ⟨c1, h1, h2⟩
  · exact Or.inr ⟨a1, h1, h2⟩
  · cases c1 with
    | nil =>
      simp only [List.nil_append] at h2
      simp only [List.append_nil] at h1
      exact Or.inr ⟨[], by simp [h1], by simp [h2]⟩
    | cons y ys =>
      simp only [List.cons_append, List.cons.injEq] at h2
      exact Or.inl ⟨ys, by rw [h1, h2.1]⟩

/-- In an escaped text the backslashes at the end are even in number, and those
directly in front of a double quote are odd in number. -/
theorem escaped_quote_parity (s : List Nat) :
    trailing_backslashes (escaped s) % 2 = 0 ∧
      ∀ pre post, escaped s = pre ++ 34 :: post → trailing_backslashes pre % 2 = 1 := by
  induction s using List.reverseRecOn with
  | nil =>
    refine ⟨rfl, ?_⟩
    intro pre post h
    simp [escaped] at h
  | append_singleton l c ih =>
    have hesc : escaped (l ++ [c]) = escaped l ++ esc_char c := by
      rw [escaped_append]; simp [escaped]
    rw [hesc]
    by_cases h92 : c = 92
    · have he : esc_char c = [92, 92] := by simp [esc_char, h92]
      rw [he]
      constructor
      · have : escaped l ++ [92, 92] = (escaped l ++ [92]) ++ [92] := by simp
        rw [this, trailing_backslashes_snoc, trailing_backslashes_snoc]
        simp only [if_true]
        omega
      · intro pre post h
        rcases append_eq_split _ _ _ _ _ h with ⟨p1, hp⟩ | ⟨b1, _, hb⟩
        · exact ih.2 pre p1 hp
        · have : (34 : Nat) ∈ [92, 92] := by rw [hb]; simp
          simp at this
    · by_cases h34 : c = 34
      · have he : esc_char c = [92, 34] := by simp [esc_char, h34]
        rw [he]
        constructor
        · have : escaped l ++ [92, 34] = (escaped l ++ [92]) ++ [34] := by simp
          rw [this, trailing_backslashes_snoc]
          simp
        · intro pre post h
          rcases append_eq_split _ _ _ _ _ h with ⟨p1, hp⟩ | ⟨b1, hpre, hb⟩
          · exact ih.2 pre p1 hp
          · have hb1 : b1 = [92] := by
              cases b1 with
              | nil => simp at hb
              | cons y ys =>
                cases ys with
                | nil => simp at hb; simp [hb]
                | cons z zs =>
                  simp only [List.cons_append, List.cons.injEq] at hb
                  obtain ⟨_, _, h3⟩ := hb
                  cases zs <;> simp at h3
            rw [hpre, hb1, trailing_backslashes_snoc]
            simp only [if_true]
            have := ih.1
            omega
      · obtain ⟨x, hx, hx92, hx34⟩ : ∃ x, esc_char c = [x] ∧ x ≠ 92 ∧ x ≠ 34 := by
          unfold esc_char
          rw [if_neg (by simp [h92, h34])]
          split_ifs
          · exact ⟨32, rfl, by decide, by decide⟩
          · exact ⟨c, rfl, h92, h34⟩
        rw [hx]
        constructor
        · rw [trailing_backslashes_snoc, if_neg hx92]
        · intro pre post h
          rcases append_eq_split _ _ _ _ _ h with ⟨p1, hp⟩ | ⟨b1, _, hb⟩
          · exact ih.2 pre p1 hp
          · have : (34 : Nat) ∈ [x] := by rw [hb]; simp
            simp at this
            exact absurd this.symm hx34

/-! ## The `type` key -/

theorem tolower_ne_zero (c : Nat) (h : c ≠ 0) : tolower c ≠ 0 := by
  unfold tolower
  split_ifs <;> omega

/-- The test `strncasecmp ( s1, s2, n ) == 0` holds when the first `n`
characters agree up to case. -/
theorem strncasecmp_eq_of_lower_eq :
    ∀ (n : Nat) (key lit : List Nat), n ≤ key.length → n ≤ lit.length →
      (key.take n).map tolower = (lit.take n).map tolower → strncasecmp_eq key lit n = true := by
  intro n
  induction n with
  | zero => intro key lit _ _ _; rfl
  | succ n ih =>
    intro key lit hk hl h
    cases key with
    | nil => simp at hk
    | cons a key1 =>
      cases lit with
      | nil => simp at hl
      | cons b lit1 =>
        simp only [List.take_succ_cons, List.map_cons, List.cons.injEq] at h
        simp only [List.length_cons] at hk hl
        rw [strncasecmp_eq]
        simp only [cget, List.getD_cons_zero, List.tail_cons, h.1, ne_eq, not_true_eq_false,
          if_false]
        split_ifs
        · rfl
        · exact ih key1 lit1 (by omega) (by omega) h.2

/-- The dispatcher's test for a key: the key has the length of the literal and
agrees with it up to case. -/
theorem key_is_iff (key : List Nat) (key_len n : Nat) (lit : List Nat) (hl : lit.length = n)
    (h0 : 0 ∉ lit) :
    key_is key key_len n lit = true ↔ key_len = n ∧ (key.take n).map tolower = lit.map tolower := by
  unfold key_is
  simp only [Bool.and_eq_true, decide_eq_true_eq]
  constructor
  · rintro ⟨h1, h2⟩
    subst h1
    have := (strncasecmp_eq_take key_len key lit (by omega) h0 h2).1
    rw [List.take_of_length_le (show lit.length ≤ key_len by omega)] at this
    exact ⟨rfl, this⟩
  · rintro ⟨h1, h2⟩
    subst h1
    refine ⟨rfl, ?_⟩
    have hlen := congrArg List.length h2
    simp only [List.length_map, List.length_take] at hlen
    apply strncasecmp_eq_of_lower_eq key_len key lit (by omega) (by omega)
    rw [List.take_of_length_le (show lit.length ≤ key_len by omega)]
    exact h2

/-- The body of the `type` branch gives the record type that the word of the
value names. -/
theorem type_of_value_eq (v : List Nat) (n : Nat) (hn : n ≤ v.length) :
    type_of_value v n = record_type_of_word (v.take n) := by
  have hk : ∀ (m : Nat) (lit : List Nat), lit.length = m → 0 ∉ lit → lit.map tolower = lit →
      (key_is v n m lit = true ↔ (v.take n).map tolower = lit) := by
    intro m lit hl h0 hlow
    rw [key_is_iff v n m lit hl h0, hlow]
    constructor
    · rintro ⟨h1, h2⟩
      rw [h1]
      exact h2
    · intro h
      have hlen := congrArg List.length h
      simp only [List.length_map, List.length_take] at hlen
      have : n = m := by omega
      exact ⟨this, by rw [← this]; exact h⟩
  unfold type_of_value record_type_of_word
  simp only [hk 5 STR_track rfl (by decide) (by decide),
    hk 8 STR_trackend rfl (by decide) (by decide),
    hk 10 STR_trackpoint rfl (by decide) (by decide),
    hk 8 STR_waypoint rfl (by decide) (by decide),
    hk 5 STR_route rfl (by decide) (by decide),
    hk 8 STR_routeend rfl (by decide) (by decide),
    hk 10 STR_routepoint rfl (by decide) (by decide)]
  by_cases h1 : (v.take n).map tolower = STR_waypoint
  · rw [h1]; decide
  by_cases h2 : (v.take n).map tolower = STR_track
  · rw [h2]; decide
  by_cases h3 : (v.take n).map tolower = STR_trackend
  · rw [h3]; decide
  by_cases h4 : (v.take n).map tolower = STR_trackpoint
  · rw [h4]; decide
  by_cases h5 : (v.take n).map tolower = STR_route
  · rw [h5]; decide
  by_cases h6 : (v.take n).map tolower = STR_routeend
  · rw [h6]; decide
  by_cases h7 : (v.take n).map tolower = STR_routepoint
  · rw [h7]; decide
  simp only [h1, h2, h3, h4, h5, h6, h7, if_false]

/-- The record type after a call of the dispatcher: set by the `type` branch,
kept by every other branch. -/
theorem process_key_and_value_line_type {D : Type} (env : Env D) (acc acc1 : Acc D)
    (key : List Nat) (key_len : Nat) (value : Option (List Nat)) (value_len : Nat)
    (h : gpspoint_process_key_and_value env acc key key_len value value_len = some acc1) :
    acc1.line_type =
      if key_is key key_len 4 STR_type = true then
        (match value with
         | none => GPSPOINT_TYPE_NONE
         | some v => type_of_value v value_len)
      else acc.line_type := by
  cases value with
  | none =>
    rw [process_key_and_value_null] at h
    split_ifs at h ⊢ <;> (simp only [Option.some.injEq] at h; subst h; rfl)
  | some v =>
    by_cases hk : key_is key key_len 4 STR_type = true
    · rw [if_pos hk]
      unfold gpspoint_process_key_and_value at h
      rw [if_pos hk] at h
      simp only [Option.some.injEq] at h
      subst h
      rfl
    · rw [if_neg hk]
      rw [process_key_and_value_eq_table] at h
      cases hi : key_index key key_len with
      | none =>
        rw [hi] at h
        simp only [Option.some.injEq] at h
        subst h
        rfl
      | some i =>
        rw [hi] at h
        have hne : i ≠ 0 := by
          rintro rfl
          obtain ⟨e, he, hke⟩ := key_index_sound key key_len 0 hi
          have : e = (4, STR_type) := by
            have h0 : key_table[0]? = some (4, STR_type) := rfl
            rw [h0] at he
            exact (Option.some.inj he).symm
          rw [this] at hke
          exact hk hke
        exact key_action_frame_line_type env i acc v value_len acc1 hne h

/-- The key of a call of the tag parser ends inside the token. -/
theorem tag_call_key_len (tag : List Nat) (len key_len n : Nat) (value : Option (List Nat))
    (h : tag_call tag len = some (key_len, value, n)) : 0 < key_len ∧ key_len < len := by
  obtain ⟨k, hk, h1, _, _, h4⟩ := key_end_loop_spec tag len (len + 1) 0 (by omega) (by omega)
  unfold tag_call at h
  rw [hk] at h
  simp only at h
  have hlt : k ≠ len → k ≠ len + 1 → k < len := by
    intro h5 h6
    by_contra hc
    have := h4 (by omega)
    rcases Nat.le_total len 1 with hle | hle
    · rw [Nat.max_eq_right hle] at this; omega
    · rw [Nat.max_eq_left hle] at this; omega
  split_ifs at h with h5 h6 <;>
    (simp only [Option.some.injEq, Prod.mk.injEq] at h
     obtain ⟨rfl, _⟩ := h
     exact ⟨h1, hlt h5 h6⟩)

/-- The record type after a token: that of its `type` key, if it has one. -/
theorem process_tag_line_type {D : Type} (env : Env D) (acc acc1 : Acc D) (t : List Nat × Nat)
    (hlen : t.2 ≤ t.1.length) (h : gpspoint_process_tag env acc t.1 t.2 = some acc1) :
    acc1.line_type = (token_record_type t).getD acc.line_type := by
  rw [gpspoint_process_tag_eq_call] at h
  unfold token_record_type
  cases hc : tag_call t.1 t.2 with
  | none =>
    rw [hc] at h
    simp only [Option.some.injEq] at h
    subst h
    rfl
  | some c =>
    obtain ⟨k, v, n⟩ := c
    rw [hc] at h
    simp only at h
    obtain ⟨hk0, hk⟩ := tag_call_key_len t.1 t.2 k n v hc
    have hkey : key_is t.1 k 4 STR_type = true ↔ (t.1.take k).map tolower = STR_type := by
      rw [key_is_iff t.1 k 4 STR_type rfl (by decide)]
      have hlow : STR_type.map tolower = STR_type := by decide
      rw [hlow]
      constructor
      · rintro ⟨h1, h2⟩
        rw [h1]
        exact h2
      · intro h2
        have hl := congrArg List.length h2
        simp only [List.length_map, List.length_take, STR_type, List.length_cons,
          List.length_nil] at hl
        have : k = 4 := by omega
        exact ⟨this, by rw [← this]; exact h2⟩
    rw [process_key_and_value_line_type env acc acc1 t.1 k v n h]
    by_cases hty : (t.1.take k).map tolower = STR_type
    · rw [if_pos (hkey.mpr hty)]
      simp only [if_pos hty]
      cases v with
      | none => rfl
      | some w =>
        obtain ⟨hn, _, _⟩ := tag_call_slice t.1 t.2 k n w hlen hc
        simp only [Option.getD_some]
        exact type_of_value_eq w n hn
    · rw [if_neg (fun hh => hty (hkey.mp hh))]
      simp only [if_neg hty]
      rfl

/-- Tokens without a `type` key that names a record type leave the record type
at None. -/
theorem fold_line_type_none {D : Type} (env : Env D) :
    ∀ (toks : List (List Nat × Nat)) (acc acc1 : Acc D),
      (∀ t ∈ toks, t.2 ≤ t.1.length ∧
        (token_record_type t = none ∨ token_record_type t = some GPSPOINT_TYPE_NONE)) →
      acc.line_type = GPSPOINT_TYPE_NONE →
      toks.foldlM (fun a t => gpspoint_process_tag env a t.1 t.2) acc = some acc1 →
      acc1.line_type = GPSPOINT_TYPE_NONE := by
  intro toks
  induction toks with
  | nil =>
    intro acc acc1 _ h0 h
    simp only [List.foldlM_nil] at h
    cases h
    exact h0
  | cons t ts ih =>
    intro acc acc1 hall h0 h
    rw [List.foldlM_cons] at h
    cases h1 : gpspoint_process_tag env acc t.1 t.2 with
    | none => rw [h1] at h; simp at h
    | some a1 =>
      rw [h1] at h
      obtain ⟨hl, hty⟩ := hall t (List.mem_cons_self _ _)
      have := process_tag_line_type env acc a1 t hl h1
      refine ih a1 acc1 (fun t2 ht2 => hall t2 (List.mem_cons_of_mem _ ht2)) ?_ h
      rw [this]
      rcases hty with hty | hty
      · rw [hty]; exact h0
      · rw [hty]; rfl

/-! ## The sentinel line -/

/-- The results of `fgets` on a file: those of its first lines, then those of
the rest. -/
theorem fgets_chunks_append_line (rest : List Nat) :
    ∀ (pre cur : List Nat),
      fgets_chunks (pre ++ 10 :: rest) cur = fgets_chunks (pre ++ [10]) cur ++ fgets_chunks rest [] := by
  intro pre
  induction pre with
  | nil =>
    intro cur
    simp [fgets_chunks]
  | cons c cs ih =>
    intro cur
    rw [List.cons_append, List.cons_append, fgets_chunks, fgets_chunks]
    split_ifs
    · rw [ih]
      rfl
    · exact ih _

/-- The loop over the lines stops at a sentinel line: the lines behind it are
not read. -/
theorem read_lines_append_sentinel {D : Type} (env : Env D) (buf : List Nat)
    (chunks2 : List (List Nat)) (hs : is_sentinel (chop buf)) :
    ∀ (chunks1 : List (List Nat)) (st : RState D),
      read_lines env (chunks1 ++ buf :: chunks2) st =
        (read_lines env chunks1 st).map (fun s => { s with have_read_something := true }) := by
  intro chunks1
  induction chunks1 with
  | nil =>
    intro st
    have e1 : read_lines env (buf :: chunks2) st =
        some { st with have_read_something := true } := by
      rw [read_lines]
      exact if_pos hs
    rw [List.nil_append, e1]
    rfl
  | cons b bs ih =>
    intro st
    rw [List.cons_append, read_lines, read_lines]
    split_ifs
    · rfl
    · cases process_line env (chop b) st with
      | none => rfl
      | some s1 => exact ih s1

theorem trackpoints_end_set_have_read {D : Type} (st : RState D) :
    trackpoints_end { st with have_read_something := true } =
      { trackpoints_end st with have_read_something := true } := by
  unfold trackpoints_end
  simp only
  split
  · rfl
  · split
    · rfl
    · split_ifs <;> rfl

/-! ## The serializer: the text of a line, field by field -/

theorem tail_text_cons (e : Option (List Nat)) (t : List (Option (List Nat))) :
    tail_text (e :: t) = (match e with | none => [] | some tok => 32 :: tok) ++ tail_text t := by
  cases e <;> simp [tail_text]

theorem tail_text_some (tok : List Nat) (t : List (Option (List Nat))) :
    tail_text (some tok :: t) = 32 :: tok ++ tail_text t := by
  simp [tail_text]

theorem tail_text_opt (c : Bool) (tok : List Nat) (t : List (Option (List Nat))) :
    tail_text (opt c tok :: t) = text_if c (32 :: tok) ++ tail_text t := by
  cases c <;> simp [opt, text_if, tail_text]

theorem tail_text_opt_text (key : List Nat) (text : Option (List Nat))
    (t : List (Option (List Nat))) :
    tail_text (opt_text key text :: t) = text_field_text key text ++ tail_text t := by
  cases text <;> simp [opt_text, text_field_text, field_text, tail_text]

theorem tail_text_map {α : Type} (f : α → List Nat) (x : Option α)
    (t : List (Option (List Nat))) :
    tail_text (x.map f :: t) =
      (match x with | none => [] | some a => 32 :: f a) ++ tail_text t := by
  cases x <;> simp [tail_text]

theorem hex_digit_eq : ∀ k, k < 16 → hex_digit k = hex_chars.getD k 0 ∧
    hex_chars.getD k 0 ∈ hex_chars ∧ hex_chars.indexOf (hex_chars.getD k 0) = k := by
  decide

/-- The text of `%.2x` for the high byte of a channel: the two hexadecimal
digits of the channel value divided by 256. -/
theorem fmt_02x_high_byte_eq (c : Nat) (h : c ≤ 65535) :
    fmt_02x_high_byte c = two_hex (c / 256) := by
  unfold fmt_02x_high_byte two_hex
  rw [Nat.mod_eq_of_lt (by omega)]
  rw [(hex_digit_eq (c / 256 / 16) (by omega)).1, (hex_digit_eq (c / 256 % 16) (by omega)).1]

theorem two_hex_spec (byte : Nat) (h : byte < 256) :
    (two_hex byte).length = 2 ∧ (∀ d ∈ two_hex byte, d ∈ hex_chars) ∧
      byte_of_hex (two_hex byte) = byte := by
  have h1 := hex_digit_eq (byte / 16) (by omega)
  have h2 := hex_digit_eq (byte % 16) (by omega)
  refine ⟨rfl, ?_, ?_⟩
  · intro d hd
    simp only [two_hex, List.mem_cons, List.mem_singleton, List.not_mem_nil, or_false] at hd
    rcases hd with rfl | rfl
    · exact h1.2.1
    · exact h2.2.1
  · simp only [byte_of_hex, two_hex, List.getD_cons_zero, List.getD_cons_succ]
    rw [h1.2.2, h2.2.2]
    omega

theorem flatten_map_filter {α : Type} (f : α → List Nat) (p : α → Bool)
    (h : ∀ x, p x = false → f x = []) :
    ∀ l : List α, (l.map f).flatten = ((l.filter p).map f).flatten := by
  intro l
  induction l with
  | nil => rfl
  | cons x xs ih =>
    cases hp : p x with
    | false => simp [List.filter_cons, hp, h x hp, ih]
    | true => simp [List.filter_cons, hp, ih]

/-! ## The `extended` key and the extended fields of a point -/

theorem key_action_frame_line_extended {D : Type} (env : Env D) (i : Nat) (acc : Acc D)
    (v : List Nat) (vl : Nat) (acc1 : Acc D) (hi : i ≠ 19)
    (h : key_action env i acc v vl = some acc1) : acc1.line_extended = acc.line_extended := by
  unfold key_action at h
  split at h
  all_goals first
    | exact absurd rfl hi
    | (simp only [Option.some.injEq] at h; subst h; rfl)
    | (split_ifs at h <;> first
        | (simp only [Option.some.injEq] at h; subst h; rfl)
        | (simp only [Option.map_eq_some'] at h; obtain ⟨r, _, rfl⟩ := h; rfl))

/-- The extended flag after a token: set by an `extended` key with a value,
kept otherwise. -/
theorem process_tag_line_extended {D : Type} (env : Env D) (acc acc1 : Acc D)
    (t : List Nat × Nat) (h : gpspoint_process_tag env acc t.1 t.2 = some acc1) :
    acc1.line_extended = (acc.line_extended || token_sets_extended t) := by
  rw [gpspoint_process_tag_eq_call] at h
  unfold token_sets_extended
  cases hc : tag_call t.1 t.2 with
  | none =>
    rw [hc] at h
    simp only [Option.some.injEq] at h
    subst h
    simp
  | some c =>
    obtain ⟨k, v, n⟩ := c
    rw [hc] at h
    simp only at h
    cases v with
    | none =>
      rw [process_key_and_value_null] at h
      split_ifs at h <;> (simp only [Option.some.injEq] at h; subst h; simp)
    | some w =>
      simp only
      rw [process_key_and_value_eq_table] at h
      cases hk : key_is t.1 k 8 STR_extended with
      | true =>
        rw [key_index_of_match t.1 k 19 (8, STR_extended) rfl hk] at h
        simp only [key_action, Option.some.injEq] at h
        subst h
        simp
      | false =>
        cases hi : key_index t.1 k with
        | none =>
          rw [hi] at h
          simp only [Option.some.injEq] at h
          subst h
          simp
        | some i =>
          rw [hi] at h
          have hne : i ≠ 19 := by
            rintro rfl
            obtain ⟨e, he, hke⟩ := key_index_sound t.1 k 19 hi
            have : e = (8, STR_extended) := by
              have h0 : key_table[19]? = some (8, STR_extended) := rfl
              rw [h0] at he
              exact (Option.some.inj he).symm
            rw [this, hk] at hke
            exact Bool.false_ne_true hke
          rw [key_action_frame_line_extended env i acc w n acc1 hne h]
          simp

theorem fold_line_extended {D : Type} (env : Env D) :
    ∀ (toks : List (List Nat × Nat)) (acc acc1 : Acc D),
      toks.foldlM (fun a t => gpspoint_process_tag env a t.1 t.2) acc = some acc1 →
      acc1.line_extended = (acc.line_extended || toks.any token_sets_extended) := by
  intro toks
  induction toks with
  | nil =>
    intro acc acc1 h
    simp only [List.foldlM_nil] at h
    cases h
    simp
  | cons t ts ih =>
    intro acc acc1 h
    rw [List.foldlM_cons] at h
    cases h1 : gpspoint_process_tag env acc t.1 t.2 with
    | none => rw [h1] at h; simp at h
    | some a1 =>
      rw [h1] at h
      rw [ih a1 acc1 h, process_tag_line_extended env acc a1 t h1]
      simp [Bool.or_assoc]

/-! ## The character positions that are read while a line is processed -/

theorem key_end_loop_reads_lt (tag : List Nat) (len : Nat) :
    ∀ (fuel j : Nat), ∀ p ∈ key_end_loop_reads tag len fuel j, p < len := by
  intro fuel
  induction fuel with
  | zero => intro j p hp; simp [key_end_loop_reads] at hp
  | succ fuel ih =>
    intro j p hp
    rw [key_end_loop_reads] at hp
    split_ifs at hp with h1 h2
    · simp only [List.mem_singleton] at hp
      omega
    · rcases List.mem_cons.mp hp with rfl | hp2
      · exact h1
      · exact ih _ p hp2
    · simp at hp

/-- The decoder reads inside the slice or the one character behind it. -/
theorem deslashndup_reads_le (str : List Nat) (len : Nat) (h2 : len ≤ str.length)
    (h3 : len < 65535) : ∀ p ∈ deslashndup_reads str len, p ≤ len := by
  intro p hp
  unfold deslashndup_reads at hp
  simp only [Nat.mod_eq_of_lt (show len < 65536 by omega)] at hp
  split_ifs at hp with h1
  · simp at hp
  · have hstr : str = [] ++ (str.take len ++ str.drop len) := by simp
    have hcount := deslash_count_slice (str.take len) [] (str.drop len) str len (len + 1) 0 hstr
      (by simp only [List.length_nil, List.length_take]; omega) h3
      (by simp only [List.length_take]; omega) (by simp only [List.length_take]; omega)
    simp only [List.length_nil, Nat.zero_add] at hcount
    have hd : (if dangling (str.take len) = true then 1 else 0) ≤ 1 := by split_ifs <;> omega
    generalize (if dangling (str.take len) = true then 1 else 0) = d at hd hcount
    rw [hcount] at hp
    simp only [List.mem_append, List.mem_range, List.mem_cons] at hp
    rcases hp with hp | hp | hp
    · omega
    · omega
    · split_ifs at hp
      · simp only [List.mem_singleton] at hp
        omega
      · simp at hp

/-- The branches of the dispatcher read inside the C string at `value`. -/
theorem value_reads_le (i : Nat) (v : List Nat) (n : Nat) (h0 : 0 ∉ v) (hn : n ≤ v.length)
    (h3 : n < 65535) : ∀ p ∈ value_reads i v n, p ≤ v.length := by
  intro p hp
  unfold value_reads at hp
  split_ifs at hp
  · simp only [List.mem_range] at hp
    omega
  · have := deslashndup_reads_le v n hn h3 p hp
    omega
  · simp only [List.mem_singleton] at hp
    omega
  · simp at hp
  · rw [strlen_of_no_nul v h0] at hp
    simp only [List.mem_range] at hp
    omega

theorem dispatcher_reads_le (tag : List Nat) (key_len : Nat) (value : Option Nat) (n : Nat)
    (h0 : 0 ∉ tag) (hk : key_len ≤ tag.length)
    (hv : ∀ vs, value = some vs → vs + n ≤ tag.length) (h3 : n < 65535) :
    ∀ p ∈ dispatcher_reads tag key_len value n, p ≤ tag.length := by
  intro p hp
  unfold dispatcher_reads at hp
  rcases List.mem_append.mp hp with hp | hp
  · simp only [List.mem_range] at hp
    omega
  · cases value with
    | none => simp at hp
    | some vs =>
      simp only at hp
      have hvs := hv vs rfl
      cases hi : key_index tag key_len with
      | none => rw [hi] at hp; simp at hp
      | some i =>
        rw [hi] at hp
        simp only [List.mem_map] at hp
        obtain ⟨q, hq, rfl⟩ := hp
        have h0d : 0 ∉ tag.drop vs := fun h => h0 (List.mem_of_mem_drop h)
        have := value_reads_le i (tag.drop vs) n h0d (by simp only [List.length_drop]; omega) h3
          q hq
        simp only [List.length_drop] at this
        omega

/-- The tag parser and the functions it calls read between the start of the
token and the NUL of the line. -/
theorem tag_reads_le (tag : List Nat) (len : Nat) (h0 : 0 ∉ tag) (hlen : len ≤ tag.length)
    (h3 : len < 65535) (hend : cget tag len ≠ 34) :
    ∀ p ∈ tag_reads tag len, p ≤ tag.length := by
  intro p hp
  obtain ⟨k, hk, h1, _, _, h4⟩ := key_end_loop_spec tag len (len + 1) 0 (by omega) (by omega)
  unfold tag_reads at hp
  rw [hk] at hp
  simp only at hp
  rcases List.mem_append.mp hp with hp | hp
  · have := key_end_loop_reads_lt tag len _ _ p hp
    omega
  · split_ifs at hp with h5 h6 h7 h8 h9 h10 h11
    · simp at hp
    · simp at hp
    all_goals
      have hklt : k < len := by
        by_contra hc
        have := h4 (by omega)
        rcases Nat.le_total len 1 with hle | hle
        · rw [Nat.max_eq_right hle] at this; omega
        · rw [Nat.max_eq_left hle] at this; omega
    · -- `key=""`
      have hk1 : k + 1 < len := by
        by_contra hc
        have : k + 1 = len := by omega
        rw [this] at h7
        exact hend h7
      simp only [List.mem_cons] at hp
      rcases hp with rfl | rfl | hp
      · omega
      · omega
      · exact dispatcher_reads_le tag k none 0 h0 (by omega) (fun vs h => by cases h)
          (by omega) p hp
    · have hk1 : k + 1 < len := by
        by_contra hc
        have : k + 1 = len := by omega
        rw [this] at h7
        exact hend h7
      simp only [List.mem_cons, List.not_mem_nil, or_false] at hp
      rcases hp with rfl | rfl | rfl
      · omega
      · omega
      · omega
    · have hk1 : k + 1 < len := by
        by_contra hc
        have : k + 1 = len := by omega
        rw [this] at h7
        exact hend h7
      simp only [List.mem_cons] at hp
      rcases hp with rfl | rfl | rfl | hp
      · omega
      · omega
      · omega
      · exact dispatcher_reads_le tag k (some (k + 1 + 1)) (len - 1 - (k + 1 + 1)) h0 (by omega)
          (fun vs h => by cases h; omega) (by omega) p hp
    · have hk1 : k + 1 < len := by
        by_contra hc
        have : k + 1 = len := by omega
        rw [this] at h7
        exact hend h7
      simp only [List.mem_cons, List.not_mem_nil, or_false] at hp
      rcases hp with rfl | rfl | rfl
      · omega
      · omega
      · omega
    · simp only [List.mem_cons, List.not_mem_nil, or_false] at hp
      omega
    · simp only [List.mem_cons] at hp
      rcases hp with rfl | hp
      · omega
      · exact dispatcher_reads_le tag k (some (k + 1)) (len - (k + 1)) h0 (by omega)
          (fun vs h => by cases h; omega) (by omega) p hp

/-- The tokenizer loop reads between its start and the NUL of the line. -/
theorem tokenizer_reads_le :
    ∀ (fuel : Nat) (ts : List Nat) (iq bs : Bool), ∀ p ∈ tokenizer_reads fuel ts iq bs,
      p ≤ ts.length := by
  intro fuel
  induction fuel with
  | zero => intro ts iq bs p hp; simp [tokenizer_reads] at hp
  | succ fuel ih =>
    intro ts iq bs p hp
    have hs := skip_space_length_le ts
    rw [tokenizer_reads] at hp
    simp only at hp
    generalize (if cget (skip_space ts) 0 = 34 then !iq else iq) = iq1 at hp
    have hl := scan_tag_length_le (skip_space ts) iq1 bs
    generalize scan_tag (skip_space ts) iq1 bs = r at hp hl
    rcases List.mem_append.mp hp with hp | hp
    · simp only [List.mem_range] at hp
      omega
    · by_cases h1 : cget (skip_space ts) 0 = 0
      · rw [if_pos h1] at hp
        simp at hp
      · rw [if_neg h1] at hp
        by_cases h2 : cget (skip_space ts) 0 = 35
        · rw [if_pos h2] at hp
          simp at hp
        · rw [if_neg h2] at hp
          rcases List.mem_append.mp hp with hp | hp
          · simp only [List.mem_map, List.mem_range] at hp
            obtain ⟨q, hq, rfl⟩ := hp
            omega
          · by_cases h3 : cget r.1 0 = 0
            · rw [if_pos h3] at hp
              simp at hp
            · rw [if_neg h3] at hp
              simp only [List.mem_map] at hp
              obtain ⟨q, hq, rfl⟩ := hp
              have := ih _ _ _ q hq
              have hne : 1 ≤ r.1.length := by
                cases hr1 : r.1 with
                | nil => rw [hr1] at h3; exact absurd rfl h3
                | cons c cs => simp
              simp only [List.length_drop] at this
              omega

theorem skip_space_suffix (l : List Nat) : skip_space l <:+ l := by
  induction l with
  | nil => exact List.suffix_refl _
  | cons c cs ih =>
    rw [skip_space]
    split_ifs
    · exact ih.trans (List.suffix_cons c cs)
    · exact List.suffix_refl _

/-- Every token starts inside the line. -/
theorem line_tokens_suffix :
    ∀ (fuel : Nat) (l : List Nat) (iq bs : Bool), ∀ t ∈ line_tokens fuel l iq bs, t.1 <:+ l := by
  intro fuel
  induction fuel with
  | zero => intro l iq bs t ht; simp [line_tokens] at ht
  | succ fuel ih =>
    intro l iq bs t ht
    rw [line_tokens] at ht
    simp only at ht
    generalize (if cget (skip_space l) 0 = 34 then !iq else iq) = iq1 at ht
    obtain ⟨tok, htok⟩ := scan_tag_suffix (skip_space l) iq1 bs
    generalize scan_tag (skip_space l) iq1 bs = r at ht htok
    by_cases h1 : cget (skip_space l) 0 = 0
    · rw [if_pos h1] at ht
      simp at ht
    · rw [if_neg h1] at ht
      by_cases h2 : cget (skip_space l) 0 = 35
      · rw [if_pos h2] at ht
        simp at ht
      · rw [if_neg h2] at ht
        rcases List.mem_cons.mp ht with rfl | ht2
        · exact skip_space_suffix l
        · by_cases h3 : cget r.1 0 = 0
          · rw [if_pos h3] at ht2
            simp at ht2
          · rw [if_neg h3] at ht2
            have h4 := ih _ _ _ t ht2
            have h5 : r.1 <:+ skip_space l := ⟨tok, htok.symm⟩
            exact (h4.trans (List.drop_suffix 1 _)).trans (h5.trans (skip_space_suffix l))

/-! ## The serializer: line feeds in a written line -/

theorem slashdup_step_no_lf (str rv : List Nat) (i : Nat) (h : 10 ∉ rv) :
    10 ∉ slashdup_step str rv i := by
  unfold slashdup_step
  by_cases h1 : cget str i = 92 ∨ cget str i = 34
  · by_cases h2 : cget str i = 10 ∨ cget str i = 13
    · simp only [if_pos h1, if_pos h2, List.mem_append, List.mem_singleton, not_or]
      exact ⟨⟨h, by decide⟩, by decide⟩
    · simp only [if_pos h1, if_neg h2, List.mem_append, List.mem_singleton, not_or]
      exact ⟨⟨h, by decide⟩, fun e => h2 (Or.inl e.symm)⟩
  · by_cases h2 : cget str i = 10 ∨ cget str i = 13
    · simp only [if_neg h1, if_pos h2, List.mem_append, List.mem_singleton, not_or]
      exact ⟨h, by decide⟩
    · simp only [if_neg h1, if_neg h2, List.mem_append, List.mem_singleton, not_or]
      exact ⟨h, fun e => h2 (Or.inl e.symm)⟩

/-- The escaped copy of a string holds no line feed, whatever the string. -/
theorem slashdup_no_lf (str : List Nat) : 10 ∉ slashdup str := by
  unfold slashdup
  have : ∀ (l : List Nat) (rv : List Nat), 10 ∉ rv → 10 ∉ l.foldl (slashdup_step str) rv := by
    intro l
    induction l with
    | nil => exact fun _ h => h
    | cons i is ih => exact fun rv h => ih _ (slashdup_step_no_lf str rv i h)
  exact this _ [] (by simp)

theorem quoted_field_no_lf (key value : List Nat) (hk : 10 ∉ key) (hv : 10 ∉ value) :
    10 ∉ quoted_field key value := by
  unfold quoted_field
  simp only [List.mem_append, List.mem_cons, List.mem_singleton, not_or, List.not_mem_nil,
    or_false]
  exact ⟨hk, by decide, by decide, hv, by decide⟩

theorem key_table_keys_no_lf : ∀ e ∈ key_table, 10 ∉ e.2 := by decide

theorem opt_no_lf (c : Bool) (tok : List Nat) (h : 10 ∉ tok) :
    ∀ t, opt c tok = some t → 10 ∉ t := by
  intro t ht
  cases c with
  | false => simp [opt] at ht
  | true =>
    simp only [opt, if_true, Option.some.injEq] at ht
    subst ht
    exact h

theorem opt_text_no_lf (key : List Nat) (text : Option (List Nat)) (hk : 10 ∉ key) :
    ∀ t, opt_text key text = some t → 10 ∉ t := by
  intro t ht
  cases text with
  | none => simp [opt_text] at ht
  | some x =>
    simp only [opt_text, Option.map_some', Option.some.injEq] at ht
    subst ht
    exact quoted_field_no_lf key _ hk (slashdup_no_lf x)

theorem tail_text_no_lf (l : List (Option (List Nat)))
    (h : ∀ e ∈ l, ∀ t, e = some t → 10 ∉ t) : 10 ∉ tail_text l := by
  induction l with
  | nil => simp [tail_text]
  | cons e t ih =>
    have ht := ih (fun e2 h2 => h e2 (List.mem_cons_of_mem _ h2))
    cases e with
    | none => exact ht
    | some tok =>
      have htok := h (some tok) (List.mem_cons_self _ _) tok rfl
      simp only [tail_text, List.mem_cons, List.mem_append, not_or]
      exact ⟨by decide, htok, ht⟩

theorem hex_digit_ne_lf (n : Nat) : hex_digit n ≠ 10 := by
  unfold hex_digit
  split_ifs <;> omega

theorem color_token_no_lf (color : Nat × Nat × Nat) : 10 ∉ color_token color := by
  unfold color_token fmt_02x_high_byte
  simp only [List.mem_append, List.mem_cons, List.mem_singleton, not_or, List.not_mem_nil,
    or_false, List.cons_append, List.nil_append]
  refine ⟨by decide, by decide, by decide, ?_, ?_, ?_, ?_, ?_, ?_⟩ <;>
    exact fun e => hex_digit_ne_lf _ e.symm

/-- A written line: a first token without line feed, then tokens without line
feed, then the line feed. -/
theorem written_line_one_lf (first : List Nat) (l : List (Option (List Nat)))
    (hf : 10 ∉ first) (h : ∀ e ∈ l, ∀ t, e = some t → 10 ∉ t) :
    ∃ body, first ++ tail_text l ++ [10] = body ++ [10] ∧ 10 ∉ body :=
  ⟨first ++ tail_text l, rfl, by
    simp only [List.mem_append, not_or]
    exact ⟨hf, tail_text_no_lf l h⟩⟩

/-! ## Records without a name -/

/-- A track or route record without a name enters no branch: the store, the
open track and the result are left as they are. -/
theorem process_record_track_no_name {D : Type} (env : Env D) (st : RState D)
    (htype : st.acc.line_type = GPSPOINT_TYPE_TRACK ∨ st.acc.line_type = GPSPOINT_TYPE_ROUTE)
    (hname : st.acc.line_name = none) : process_record env st = st := by
  unfold process_record
  have h1 : ¬ (st.acc.line_type = GPSPOINT_TYPE_TRACK_END ∨
      st.acc.line_type = GPSPOINT_TYPE_ROUTE_END) := by
    simp only [GPSPOINT_TYPE_TRACK, GPSPOINT_TYPE_ROUTE, GPSPOINT_TYPE_TRACK_END,
      GPSPOINT_TYPE_ROUTE_END] at htype ⊢
    omega
  have h2 : ¬ (st.acc.line_type = GPSPOINT_TYPE_WAYPOINT ∧ st.acc.line_name ≠ none) :=
    fun h => h.2 hname
  have h3 : ¬ ((st.acc.line_type = GPSPOINT_TYPE_TRACK ∨ st.acc.line_type = GPSPOINT_TYPE_ROUTE) ∧
      st.acc.line_name ≠ none) := fun h => h.2 hname
  have h4 : ¬ ((st.acc.line_type = GPSPOINT_TYPE_TRACKPOINT ∨
      st.acc.line_type = GPSPOINT_TYPE_ROUTEPOINT) ∧ st.current_track ≠ none) := by
    simp only [GPSPOINT_TYPE_TRACK, GPSPOINT_TYPE_ROUTE, GPSPOINT_TYPE_TRACKPOINT,
      GPSPOINT_TYPE_ROUTEPOINT] at htype ⊢
    omega
  simp only [if_neg h1, if_neg h2, if_neg h3, if_neg h4]

/-! ## The coordinate from one line to the next -/

theorem key_action_frame_lat {D : Type} (env : Env D) (i : Nat) (acc : Acc D) (v : List Nat)
    (vl : Nat) (acc1 : Acc D) (hi : i ≠ 12) (h : key_action env i acc v vl = some acc1) :
    acc1.line_latlon.lat = acc.line_latlon.lat := by
  unfold key_action at h
  split at h
  all_goals first
    | exact absurd rfl hi
    | (simp only [Option.some.injEq] at h; subst h; rfl)
    | (split_ifs at h <;> first
        | (simp only [Option.some.injEq] at h; subst h; rfl)
        | (simp only [Option.map_eq_some'] at h; obtain ⟨r, _, rfl⟩ := h; rfl))

theorem key_action_frame_lon {D : Type} (env : Env D) (i : Nat) (acc : Acc D) (v : List Nat)
    (vl : Nat) (acc1 : Acc D) (hi : i ≠ 13) (h : key_action env i acc v vl = some acc1) :
    acc1.line_latlon.lon = acc.line_latlon.lon := by
  unfold key_action at h
  split at h
  all_goals first
    | exact absurd rfl hi
    | (simp only [Option.some.injEq] at h; subst h; rfl)
    | (split_ifs at h <;> first
        | (simp only [Option.some.injEq] at h; subst h; rfl)
        | (simp only [Option.map_eq_some'] at h; obtain ⟨r, _, rfl⟩ := h; rfl))

/-- The record branches leave the `line_*` variables as they are. -/
theorem process_record_acc {D : Type} (env : Env D) (st : RState D) :
    (process_record env st).acc = st.acc := by
  unfold process_record
  dsimp only
  generalize hg : (if st.acc.line_type = GPSPOINT_TYPE_TRACK_END ∨
    st.acc.line_type = GPSPOINT_TYPE_ROUTE_END then trackpoints_end st else st) = s1
  have ha : s1.acc = st.acc := by
    rw [← hg]; split_ifs
    · exact trackpoints_end_acc st
    · rfl
  split_ifs
  · simp only [trackpoints_end_acc, ha]
  · simp only [trackpoints_end_acc, ha]
  · cases hk : s1.current_track with
    | none => exact ha
    | some k => exact ha
  · exact ha

/-- After a line, `line_latlon` is what the tokens of the line left in it. -/
theorem process_line_latlon {D : Type} (env : Env D) (line : List Nat) (st st1 : RState D)
    (h : process_line env line st = some st1) :
    ∃ acc1, line_acc env line st.acc = some acc1 ∧ st1.acc.line_latlon = acc1.line_latlon := by
  rw [process_line_eq_map] at h
  cases hacc : line_acc env line st.acc with
  | none => rw [hacc] at h; simp at h
  | some acc1 =>
    rw [hacc] at h
    simp only [Option.map_some', Option.some.injEq] at h
    refine ⟨acc1, rfl, ?_⟩
    rw [← h]
    show (process_record env { st with acc := acc1 }).acc.line_latlon = acc1.line_latlon
    rw [process_record_acc]

/-- A line without a latitude key leaves the latitude as it was. -/
theorem line_acc_lat {D : Type} (env : Env D) (line : List Nat) (acc acc1 : Acc D)
    (hl : line_lacks_key line 8 STR_latitude) (h : line_acc env line acc = some acc1) :
    acc1.line_latlon.lat = acc.line_latlon.lat :=
  line_acc_frame env (fun a => a.line_latlon.lat) 12 8 STR_latitude rfl
    (key_action_frame_lat env) (fun _ _ => rfl) line acc acc1 hl h

/-- A line without a longitude key leaves the longitude as it was. -/
theorem line_acc_lon {D : Type} (env : Env D) (line : List Nat) (acc acc1 : Acc D)
    (hl : line_lacks_key line 9 STR_longitude) (h : line_acc env line acc = some acc1) :
    acc1.line_latlon.lon = acc.line_latlon.lon :=
  line_acc_frame env (fun a => a.line_latlon.lon) 13 9 STR_longitude rfl
    (key_action_frame_lon env) (fun _ _ => rfl) line acc acc1 hl h

/-- Lines without the key of a coordinate component leave that component of
`line_latlon` as it was, whatever they register. -/
theorem lines_keep_component {D β : Type} (env : Env D) (proj : LatLon D → β)
    (lacks : List Nat → Prop)
    (hline : ∀ (line : List Nat) (acc acc1 : Acc D), lacks line →
      line_acc env line acc = some acc1 → proj acc1.line_latlon = proj acc.line_latlon) :
    ∀ (lines : List (List Nat)) (st st2 : RState D), (∀ l ∈ lines, lacks l) →
      lines.foldlM (fun s l => process_line env l s) st = some st2 →
      proj st2.acc.line_latlon = proj st.acc.line_latlon := by
  intro lines
  induction lines with
  | nil =>
    intro st st2 _ h
    simp only [List.foldlM_nil] at h
    cases h
    rfl
  | cons l ls ih =>
    intro st st2 hall h
    rw [List.foldlM_cons] at h
    cases h1 : process_line env l st with
    | none => rw [h1] at h; simp at h
    | some s1 =>
      rw [h1] at h
      obtain ⟨acc1, ha, he⟩ := process_line_latlon env l st s1 h1
      rw [ih s1 st2 (fun x hx => hall x (List.mem_cons_of_mem _ hx)) h, he]
      exact hline l st.acc acc1 (hall l (List.mem_cons_self _ _)) ha

/-! ## The last character of a line -/

/-- The last result of `fgets` on a file that does not end with a line feed:
the rest of the file, as it is. -/
theorem fgets_chunks_last (l : List Nat) (h10 : 10 ∉ l) :
    ∀ cur : List Nat, cur ++ l ≠ [] → cur.length + l.length ≤ VIKING_LINE_SIZE - 1 →
      fgets_chunks l cur = [cur ++ l] := by
  induction l with
  | nil =>
    intro cur hne _
    rw [List.append_nil] at hne
    simp [fgets_chunks, hne]
  | cons c cs ih =>
    intro cur _ hlen
    simp only [List.mem_cons, not_or] at h10
    simp only [List.length_cons] at hlen
    rw [fgets_chunks]
    by_cases hfull : cur.length + 1 = VIKING_LINE_SIZE - 1
    · have hcs : cs = [] := List.length_eq_zero.1 (by omega)
      subst hcs
      rw [if_pos (Or.inr hfull)]
      simp [fgets_chunks]
    · rw [if_neg (by simp only [not_or]; exact ⟨fun h => h10.1 h.symm, hfull⟩)]
      rw [ih h10.2 (cur ++ [c]) (by simp) (by simp; omega)]
      simp

/-- The loop over the lines sees each result of `fgets` only without its last
character. -/
theorem read_lines_congr_chop {D : Type} (env : Env D) :
    ∀ (c1 c2 : List (List Nat)) (st : RState D), c1.map chop = c2.map chop →
      read_lines env c1 st = read_lines env c2 st := by
  intro c1
  induction c1 with
  | nil =>
    intro c2 st h
    cases c2 with
    | nil => rfl
    | cons b bs => simp at h
  | cons a as ih =>
    intro c2 st h
    cases c2 with
    | nil => simp at h
    | cons b bs =>
      simp only [List.map_cons, List.cons.injEq] at h
      rw [read_lines, read_lines, h.1]
      split_ifs
      · rfl
      · cases process_line env (chop b) st with
        | none => rfl
        | some s1 => exact ih bs s1 h.2

/-- Removing the last character of a string without NUL bytes. -/
theorem chop_snoc (body : List Nat) (c : Nat) (h0 : 0 ∉ body) (hc : c ≠ 0) :
    chop (body ++ [c]) = body := by
  unfold chop
  have : (body ++ [c]).takeWhile (fun x => x != 0) = body ++ [c] := by
    rw [List.takeWhile_eq_self_iff]
    intro x hx
    simp only [List.mem_append, List.mem_singleton] at hx
    rcases hx with hx | rfl
    · have : x ≠ 0 := fun e => h0 (e ▸ hx)
      simpa using this
    · simpa using hc
  rw [this]
  simp

/-! ## Empty texts: written as `key=""`, read as no value -/

/-- A token `key=...` with a key of the table other than `name` does not have
the key `name`. -/
theorem other_key_token_lacks_name (tok rest : List Nat) (h : other_key_token tok) :
    token_has_key (tok ++ rest, tok.length) 4 STR_name = false := by
  obtain ⟨n, key, body, hmem, _, hne, rfl⟩ := h
  obtain ⟨_, h61, hkne, _⟩ := key_table_keys_plain (n, key) hmem
  have hklen : 0 < key.length := List.length_pos.mpr hkne
  have etag : key ++ 61 :: body ++ rest = key ++ 61 :: (body ++ rest) := by simp
  have hlen : (key ++ 61 :: body).length = key.length + 1 + body.length := by
    simp; omega
  unfold token_has_key
  simp only
  rw [etag, hlen, key_end_loop_key key _ _ h61 (by omega) _ 0 hklen (by omega)]
  simp only
  have hkis : key_is (key ++ 61 :: (body ++ rest)) key.length n key = true :=
    key_is_self_append key _ n hmem
  have hnot : key_is (key ++ 61 :: (body ++ rest)) key.length 4 STR_name = false := by
    by_contra hc
    simp only [Bool.not_eq_false] at hc
    have := key_is_unique _ _ (4, STR_name) (n, key) (by decide) hmem hc hkis
    exact hne (congrArg Prod.snd this).symm
  rw [hnot]
  simp

/-- What no token of a written line changes is the same after the line. -/
theorem fold_tail_keeps {D β : Type} (env : Env D) (proj : Acc D → β) :
    ∀ (l : List (Option (List Nat))) (acc acc1 : Acc D),
      (∀ tok, some tok ∈ l → ∀ (rest : List Nat) (a a2 : Acc D),
        gpspoint_process_tag env a (tok ++ rest) tok.length = some a2 → proj a2 = proj a) →
      fold_tail env l acc = some acc1 → proj acc1 = proj acc := by
  intro l
  induction l with
  | nil =>
    intro acc acc1 _ h
    simp only [fold_tail, Option.some.injEq] at h
    rw [h]
  | cons e t ih =>
    intro acc acc1 hs h
    cases e with
    | none => exact ih acc acc1 (fun tok ht => hs tok (List.mem_cons_of_mem _ ht)) h
    | some tok =>
      rw [fold_tail] at h
      cases hp : gpspoint_process_tag env acc (tok ++ tail_text t) tok.length with
      | none => rw [hp] at h; simp at h
      | some a2 =>
        rw [hp] at h
        simp only [Option.some_bind] at h
        rw [ih a2 acc1 (fun tok2 ht => hs tok2 (List.mem_cons_of_mem _ ht)) h]
        exact hs tok (List.mem_cons_self _ _) _ acc a2 hp

/-- The tokens `name=""` and `key=...` with another key of the table leave
`line_name` as it is. -/
theorem written_token_keeps_line_name {D : Type} (env : Env D) (tok : List Nat)
    (h : tok = quoted_field STR_name [] ∨ other_key_token tok) (rest : List Nat) (a a2 : Acc D)
    (hp : gpspoint_process_tag env a (tok ++ rest) tok.length = some a2) :
    a2.line_name = a.line_name := by
  rcases h with rfl | h
  · rw [process_tag_table_field_empty env a 1 4 STR_name rest rfl (by decide)] at hp
    rw [← Option.some.inj hp]
  · exact process_tag_frame env (fun x => x.line_name) 1 4 STR_name rfl
      (key_action_frame_line_name env) (fun _ _ => rfl) a a2 (tok ++ rest, tok.length)
      (other_key_token_lacks_name tok rest h) hp

theorem other_key_quoted_field (n : Nat) (key value : List Nat) (hmem : (n, key) ∈ key_table)
    (hty : key ≠ STR_type) (hne : key ≠ STR_name) : other_key_token (quoted_field key value) :=
  ⟨n, key, 34 :: (value ++ [34]), hmem, hty, hne, rfl⟩

/-- A token `key=...` with a key of the table other than `type` leaves the
record type as it is. -/
theorem other_key_token_keeps_line_type {D : Type} (env : Env D) (tok rest : List Nat)
    (h : other_key_token tok) (a a2 : Acc D)
    (hp : gpspoint_process_tag env a (tok ++ rest) tok.length = some a2) :
    a2.line_type = a.line_type := by
  obtain ⟨n, key, body, hmem, hty, _, rfl⟩ := h
  obtain ⟨_, h61, hkne, _⟩ := key_table_keys_plain (n, key) hmem
  have hklen : 0 < key.length := List.length_pos.mpr hkne
  have etag : key ++ 61 :: body ++ rest = key ++ 61 :: (body ++ rest) := by simp
  have hlen : (key ++ 61 :: body).length = key.length + 1 + body.length := by
    simp; omega
  have hkis : key_is (key ++ 61 :: (body ++ rest)) key.length n key = true :=
    key_is_self_append key _ n hmem
  have hnot : key_is (key ++ 61 :: (body ++ rest)) key.length 4 STR_type = false := by
    by_contra hc
    simp only [Bool.not_eq_false] at hc
    have := key_is_unique _ _ (4, STR_type) (n, key) (by decide) hmem hc hkis
    exact hty (congrArg Prod.snd this).symm
  have hkv : ∀ value vl, gpspoint_process_key_and_value env a (key ++ 61 :: (body ++ rest))
      key.length value vl = some a2 → a2.line_type = a.line_type := by
    intro value vl hq
    rw [process_key_and_value_line_type env a a2 _ _ value vl hq, hnot]
    simp
  have hsame : some a = some a2 → a2.line_type = a.line_type := by
    intro hs
    rw [← Option.some.inj hs]
  unfold gpspoint_process_tag at hp
  rw [etag, hlen, key_end_loop_key key _ _ h61 (by omega) _ 0 hklen (by omega)] at hp
  simp only at hp
  split_ifs at hp
  all_goals first
    | exact hsame hp
    | exact hkv _ _ hp

/-- The tokens `name=""` and `key=...` with another key of the table leave
the record type as it is. -/
theorem written_token_keeps_line_type {D : Type} (env : Env D) (tok : List Nat)
    (h : tok = quoted_field STR_name [] ∨ other_key_token tok) (rest : List Nat) (a a2 : Acc D)
    (hp : gpspoint_process_tag env a (tok ++ rest) tok.length = some a2) :
    a2.line_type = a.line_type := by
  rcases h with rfl | h
  · rw [process_tag_table_field_empty env a 1 4 STR_name rest rfl (by decide)] at hp
    rw [← Option.some.inj hp]
  · exact other_key_token_keeps_line_type env tok rest h a a2 hp

/-- A waypoint record without a name enters no branch. -/
theorem process_record_waypoint_no_name {D : Type} (env : Env D) (st : RState D)
    (htype : st.acc.line_type = GPSPOINT_TYPE_WAYPOINT) (hname : st.acc.line_name = none) :
    process_record env st = st := by
  unfold process_record
  have h1 : ¬ (st.acc.line_type = GPSPOINT_TYPE_TRACK_END ∨
      st.acc.line_type = GPSPOINT_TYPE_ROUTE_END) := by
    simp only [GPSPOINT_TYPE_WAYPOINT, GPSPOINT_TYPE_TRACK_END, GPSPOINT_TYPE_ROUTE_END]
      at htype ⊢
    omega
  have h2 : ¬ (st.acc.line_type = GPSPOINT_TYPE_WAYPOINT ∧ st.acc.line_name ≠ none) :=
    fun h => h.2 hname
  have h3 : ¬ ((st.acc.line_type = GPSPOINT_TYPE_TRACK ∨ st.acc.line_type = GPSPOINT_TYPE_ROUTE) ∧
      st.acc.line_name ≠ none) := fun h => h.2 hname
  have h4 : ¬ ((st.acc.line_type = GPSPOINT_TYPE_TRACKPOINT ∨
      st.acc.line_type = GPSPOINT_TYPE_ROUTEPOINT) ∧ st.current_track ≠ none) := by
    simp only [GPSPOINT_TYPE_WAYPOINT, GPSPOINT_TYPE_TRACKPOINT, GPSPOINT_TYPE_ROUTEPOINT]
      at htype ⊢
    omega
  simp only [if_neg h1, if_neg h2, if_neg h3, if_neg h4]

/-- A written line whose first token gives the record type `code` and whose
other tokens are `name=""` and tokens with other keys, read at the start of a
line: the record type is `code` and there is no name. -/
theorem line_acc_empty_name {D : Type} (env : Env D) (lit : List Nat) (code : Nat)
    (l : List (Option (List Nat))) (a : Acc D)
    (hlit : lit ≠ [] ∧ escaped lit = lit ∧ 0 ∉ lit)
    (hcode : ∀ rest, type_of_value (lit ++ 34 :: rest) lit.length = code)
    (hs : ∀ tok, some tok ∈ l → scannable tok)
    (hshape : ∀ tok, some tok ∈ l → tok = quoted_field STR_name [] ∨ other_key_token tok)
    (hfit : (quoted_field STR_type lit ++ tail_text l).length < VIKING_LINE_SIZE) :
    ∃ acc1, line_acc env (quoted_field STR_type lit ++ tail_text l) (Acc.reset env a) =
        some acc1 ∧ acc1.line_type = code ∧ acc1.line_name = none := by
  obtain ⟨acc1, hacc⟩ := line_acc_terminates env (quoted_field STR_type lit ++ tail_text l)
    (Acc.reset env a) hfit
  refine ⟨acc1, hacc, ?_, ?_⟩
  · have h := (line_acc_written_line env lit code l 0 a.line_latlon.lat a.line_latlon.lon none
      none none none none none 0 0 none none env.NAN WP_IMAGE_DIRECTION_REF_TRUE false env.NAN
      env.NAN true false env.NAN env.NAN 0 0 env.NAN env.NAN env.NAN hlit hcode hs).symm.trans
      hacc
    exact fold_tail_keeps env (fun x => x.line_type) l _ acc1
      (fun tok ht rest x x2 hp => written_token_keeps_line_type env tok (hshape tok ht) rest x x2 hp)
      h
  · have h := (line_acc_written_line env lit code l 0 a.line_latlon.lat a.line_latlon.lon none
      none none none none none 0 0 none none env.NAN WP_IMAGE_DIRECTION_REF_TRUE false env.NAN
      env.NAN true false env.NAN env.NAN 0 0 env.NAN env.NAN env.NAN hlit hcode hs).symm.trans
      hacc
    exact fold_tail_keeps env (fun x => x.line_name) l _ acc1
      (fun tok ht rest x x2 hp => written_token_keeps_line_name env tok (hshape tok ht) rest x x2 hp)
      h

theorem other_key_of_opt (c : Bool) (t tok : List Nat) (ht : other_key_token t)
    (h : some tok = opt c t) : other_key_token tok := by
  cases c with
  | false => simp [opt] at h
  | true =>
    simp only [opt, if_true, Option.some.injEq] at h
    rw [h]
    exact ht

theorem other_key_of_opt_text (n : Nat) (key : List Nat) (o : Option (List Nat))
    (tok : List Nat) (hmem : (n, key) ∈ key_table) (hty : key ≠ STR_type)
    (hne : key ≠ STR_name) (h : some tok = opt_text key o) : other_key_token tok := by
  cases o with
  | none => simp [opt_text] at h
  | some x =>
    simp only [opt_text, Option.map_some', Option.some.injEq] at h
    rw [h]
    exact other_key_quoted_field n key _ hmem hty hne

/-- The tokens of a written waypoint line behind the type, for a waypoint whose
name is the empty string: `name=""` and tokens with other keys. -/
theorem waypoint_fields_shape {D : Type} (env : Env D) (wp : Waypoint D) :
    ∀ tok, some tok ∈ waypoint_fields env wp [] →
      tok = quoted_field STR_name [] ∨ other_key_token tok := by
  intro tok h
  simp only [waypoint_fields, List.mem_cons, List.mem_singleton, List.not_mem_nil,
    or_false] at h
  rcases h with h | h | h | h | h | h | h | h | h | h | h | h | h | h
  · right
    rw [Option.some.inj h]
    exact other_key_quoted_field 8 _ _ (by decide) (by decide) (by decide)
  · right
    rw [Option.some.inj h]
    exact other_key_quoted_field 9 _ _ (by decide) (by decide) (by decide)
  · left
    rw [Option.some.inj h]
    rfl
  · exact Or.inr (other_key_of_opt _ _ tok
      (other_key_quoted_field 8 _ _ (by decide) (by decide) (by decide)) h)
  · exact Or.inr (other_key_of_opt _ _ tok
      (other_key_quoted_field 8 _ _ (by decide) (by decide) (by decide)) h)
  · exact Or.inr (other_key_of_opt_text 7 _ _ tok (by decide) (by decide) (by decide) h)
  · exact Or.inr (other_key_of_opt_text 11 _ _ tok (by decide) (by decide) (by decide) h)
  · exact Or.inr (other_key_of_opt_text 6 _ _ tok (by decide) (by decide) (by decide) h)
  · exact Or.inr (other_key_of_opt_text 5 _ _ tok (by decide) (by decide) (by decide) h)
  · right
    cases himg : wp.image with
    | none => rw [himg] at h; simp [image_entry] at h
    | some img =>
      rw [himg] at h
      simp only [image_entry, Option.map_some', Option.some.injEq] at h
      rw [h]
      exact other_key_quoted_field 5 _ _ (by decide) (by decide) (by decide)
  · exact Or.inr (other_key_of_opt _ _ tok
      (other_key_quoted_field 15 _ _ (by decide) (by decide) (by decide)) h)
  · exact Or.inr (other_key_of_opt _ _ tok
      (other_key_quoted_field 19 _ _ (by decide) (by decide) (by decide)) h)
  · right
    cases hs : wp.symbol with
    | none => rw [hs] at h; simp at h
    | some s =>
      rw [hs] at h
      simp only [Option.map_some', Option.some.injEq] at h
      rw [h]
      exact other_key_quoted_field 6 _ _ (by decide) (by decide) (by decide)
  · exact Or.inr (other_key_of_opt _ _ tok
      (other_key_quoted_field 7 _ _ (by decide) (by decide) (by decide)) h)

/-- The tokens of a written track header behind the type, for a track whose
name is the empty string: `name=""` and tokens with other keys. -/
theorem track_fields_shape {D : Type} (env : Env D) (trk : Track D) :
    ∀ tok, some tok ∈ track_fields env trk [] →
      tok = quoted_field STR_name [] ∨ other_key_token tok := by
  intro tok h
  simp only [track_fields, List.mem_cons, List.mem_singleton, List.not_mem_nil,
    or_false] at h
  rcases h with h | h | h | h | h | h | h | h | h
  · left
    rw [Option.some.inj h]
    rfl
  · exact Or.inr (other_key_of_opt_text 7 _ _ tok (by decide) (by decide) (by decide) h)
  · exact Or.inr (other_key_of_opt_text 11 _ _ tok (by decide) (by decide) (by decide) h)
  · exact Or.inr (other_key_of_opt_text 6 _ _ tok (by decide) (by decide) (by decide) h)
  · exact Or.inr (other_key_of_opt_text 5 _ _ tok (by decide) (by decide) (by decide) h)
  · exact Or.inr (other_key_of_opt _ _ tok
      ⟨5, STR_color, _, by decide, by decide, by decide, rfl⟩ h)
  · exact Or.inr (other_key_of_opt _ _ tok
      (other_key_quoted_field 14 _ _ (by decide) (by decide) (by decide)) h)
  · exact Or.inr (other_key_of_opt _ _ tok
      (other_key_quoted_field 18 _ _ (by decide) (by decide) (by decide)) h)
  · exact Or.inr (other_key_of_opt _ _ tok
      (other_key_quoted_field 7 _ _ (by decide) (by decide) (by decide)) h)

theorem entry_wf_empty_name : entry_wf (some (quoted_field STR_name (slashdup []))) :=
  entry_wf_some _ (wf_quoted_escaped STR_name [] 4 (by decide) (by simp))

/-- A waypoint that is written and read back, with its name replaced by the
empty string: the written tokens are cut out as they were written and the line
fits the line buffer. -/
theorem waypoint_fields_empty_name {D : Type} (env : Env D) (wp : Waypoint D)
    (h : waypoint_ok env wp) :
    (∀ e ∈ waypoint_fields env wp [], entry_wf e) ∧
    (quoted_field STR_type STR_waypoint ++ tail_text (waypoint_fields env wp [])).length <
      VIKING_LINE_SIZE := by
  obtain ⟨n, hn, _⟩ := h.name
  have hwf := waypoint_fields_wf env wp n hn h
  have hfit := waypoint_fields_fit env wp n hn h
  have hsplit : ∀ x, waypoint_fields env wp x =
      (waypoint_fields env wp x).take 2 ++ some (quoted_field STR_name (slashdup x)) ::
        (waypoint_fields env wp []).drop 3 := fun _ => rfl
  constructor
  · intro e he
    rw [hsplit []] at he
    simp only [List.mem_append, List.mem_cons] at he
    rcases he with he | he | he
    · exact hwf e (by rw [hsplit n]; exact List.mem_append_left _ he)
    · rw [he]
      exact entry_wf_empty_name
    · exact hwf e (by
        rw [hsplit n]
        exact List.mem_append_right _ (List.mem_cons_of_mem _ he))
  · have e1 : ∀ x, (tail_text (waypoint_fields env wp x)).length =
        (slashdup x).length + (tail_text (waypoint_fields env wp [])).length := by
      intro x
      simp [waypoint_fields, tail_text, quoted_field, slashdup, strlen]
      omega
    simp only [List.length_append, VIKING_LINE_SIZE] at hfit ⊢
    rw [e1 n] at hfit
    omega

/-- A track that is written and read back, with its name replaced by the
empty string: the written tokens of the header are cut out as they were
written and the header line fits the line buffer. -/
theorem track_fields_empty_name {D : Type} (env : Env D) (trk : Track D)
    (h : track_ok env trk) :
    (∀ e ∈ track_fields env trk [], entry_wf e) ∧
    (quoted_field STR_type (if trk.is_route then STR_route else STR_track) ++
      tail_text (track_fields env trk [])).length < VIKING_LINE_SIZE := by
  obtain ⟨n, hn, _⟩ := h.name
  have hwf := track_fields_wf env trk n hn h
  have hfit := track_fields_fit env trk n hn h
  have hsplit : ∀ x, track_fields env trk x =
      some (quoted_field STR_name (slashdup x)) :: (track_fields env trk []).drop 1 :=
    fun _ => rfl
  constructor
  · intro e he
    rw [hsplit []] at he
    simp only [List.mem_cons] at he
    rcases he with he | he
    · rw [he]
      exact entry_wf_empty_name
    · exact hwf e (by
        rw [hsplit n]
        exact List.mem_cons_of_mem _ he)
  · have e1 : ∀ x, (tail_text (track_fields env trk x)).length =
        (slashdup x).length + (tail_text (track_fields env trk [])).length := by
      intro x
      simp [track_fields, tail_text, quoted_field, slashdup, strlen]
      omega
    simp only [List.length_append, VIKING_LINE_SIZE] at hfit ⊢
    rw [e1 n] at hfit
    omega

/-! ## Tokens that begin with `#` -/

/-- A token start that is `#` ends the tokenizer loop. -/
theorem tag_loop_hash {D : Type} (env : Env D) (fuel : Nat) (ts : List Nat) (iq bs : Bool)
    (acc : Acc D) (h : cget (skip_space ts) 0 = 35) :
    tag_loop env (fuel + 1) ts iq bs acc = some acc := by
  rw [tag_loop]
  simp only [h]
  rw [if_neg (by decide)]
  exact if_pos trivial

theorem line_tokens_hash (fuel : Nat) (ts : List Nat) (iq bs : Bool)
    (h : cget (skip_space ts) 0 = 35) : line_tokens (fuel + 1) ts iq bs = [] := by
  rw [line_tokens]
  simp only [h]
  rw [if_neg (by decide)]
  exact if_pos trivial

theorem cget_skip_space_hash (ws junk : List Nat) (hws : ∀ c ∈ ws, isspace c = true) :
    cget (skip_space (ws ++ 35 :: junk)) 0 = 35 := by
  rw [skip_space_append_spaces ws _ hws, skip_space_of_not_isspace 35 junk (by decide)]
  rfl

theorem token_boundary_tail_text_append (t : List (Option (List Nat))) (w : Nat)
    (r : List Nat) (hw : isspace w = true) : token_boundary (tail_text t ++ w :: r) := by
  rcases tail_text_boundary t with h | ⟨w2, r2, h, hw2⟩
  · rw [h]
    exact Or.inr ⟨w, r, rfl, hw⟩
  · rw [h]
    exact Or.inr ⟨w2, r2 ++ w :: r, rfl, hw2⟩

/-- The tokenizer loop behind the first token of a written line that is
followed by whitespace and a token that begins with `#`: the tag parser is
applied to the written tokens in turn, and to nothing else. -/
theorem tag_loop_after_tail_text_hash {D : Type} (env : Env D) (w : Nat) (ws junk : List Nat)
    (hw : isspace w = true) (hws : ∀ c ∈ ws, isspace c = true) :
    ∀ (l : List (Option (List Nat))) (acc : Acc D) (fuel : Nat),
      (∀ tok, some tok ∈ l → scannable tok) →
      (tail_text l ++ w :: (ws ++ 35 :: junk)).length < fuel + 1 →
      tag_loop_after env fuel (tail_text l ++ w :: (ws ++ 35 :: junk)) acc =
        fold_tail_before env l (w :: (ws ++ 35 :: junk)) acc := by
  intro l
  induction l with
  | nil =>
    intro acc fuel _ hlen
    obtain ⟨fuel1, rfl⟩ : ∃ f, fuel = f + 1 := ⟨fuel - 1, by
      simp only [tail_text, List.nil_append, List.length_cons] at hlen
      omega⟩
    show tag_loop env (fuel1 + 1) (ws ++ 35 :: junk) false false acc = some acc
    exact tag_loop_hash env fuel1 _ false false acc (cget_skip_space_hash ws junk hws)
  | cons o t ih =>
    intro acc fuel hs hlen
    cases o with
    | none =>
      exact ih acc fuel (fun tok h => hs tok (List.mem_cons_of_mem _ h)) hlen
    | some tok =>
      have hl : (tail_text (some tok :: t) ++ w :: (ws ++ 35 :: junk)).length =
          1 + tok.length + (tail_text t ++ w :: (ws ++ 35 :: junk)).length := by
        simp [tail_text]
        omega
      rw [hl] at hlen
      obtain ⟨fuel1, rfl⟩ : ∃ f, fuel = f + 1 := ⟨fuel - 1, by omega⟩
      have hsc := hs tok (List.mem_cons_self _ _)
      show tag_loop env (fuel1 + 1) (tok ++ tail_text t ++ w :: (ws ++ 35 :: junk)) false false
        acc = _
      rw [List.append_assoc,
        hsc D env acc (tail_text t ++ w :: (ws ++ 35 :: junk)) fuel1
          (token_boundary_tail_text_append t w _ hw), fold_tail_before]
      congr 1
      funext a
      exact ih a fuel1 (fun tok2 h => hs tok2 (List.mem_cons_of_mem _ h)) (by omega)

theorem safe_body_of_plain (s : List Nat) (h : ∀ c ∈ s, plain_char c = true) : safe_body s := by
  have key : ∀ c : Nat, plain_char c = true → c ≠ 0 ∧ c ≠ 92 ∧ c ≠ 34 ∧ c ≠ 10 ∧ c ≠ 13 := by
    intro c hc
    simp only [plain_char, Bool.and_eq_true, bne_iff_ne, ne_eq, Bool.not_eq_true'] at hc
    refine ⟨hc.1.1.1, hc.1.2, hc.2, ?_, ?_⟩
    · rintro rfl
      exact absurd hc.1.1.2 (by decide)
    · rintro rfl
      exact absurd hc.1.1.2 (by decide)
  refine ⟨fun h0 => (key 0 (h 0 h0)).1 rfl, fun h0 => (key 92 (h 92 h0)).2.1 rfl,
    fun h0 => (key 34 (h 34 h0)).2.2.1 rfl, fun h0 => (key 10 (h 10 h0)).2.2.2.1 rfl,
    fun h0 => (key 13 (h 13 h0)).2.2.2.2 rfl⟩

/-- The colour token of a written track header sets `line_color` to the text
behind its `=`, the `#` and the six digits. -/
theorem fold_tail_color_value {D : Type} (env : Env D) (color : Nat × Nat × Nat)
    (t : List (Option (List Nat)))
    (ty : Nat) (la : D) (lo : D) (nm : Option (List Nat)) (cm : Option (List Nat))
    (ds : Option (List Nat)) (so : Option (List Nat)) (xt : Option (List Nat))
    (nl : Int) (dl : Int) (im : Option (List Nat))
    (sy : Option (List Nat)) (imd : D) (imr : Int) (ns : Bool) (ts : D) (al : D) (vi : Bool)
    (ex : Bool) (sp : D) (cr : D) (sa : Int) (fx : Int) (hd : D) (vd : D) (pd : D) :
    fold_tail env (opt true (color_token color) :: t)
        (Acc.mk ty ⟨la, lo⟩ nm cm ds so xt none nl dl im sy imd imr ns ts al vi ex sp cr sa fx hd vd pd) =
      fold_tail env t
        (Acc.mk ty ⟨la, lo⟩ nm cm ds so xt (some ((color_token color).drop 6)) nl dl im sy imd imr ns ts al vi ex sp cr sa fx hd vd pd) := by
  obtain ⟨h1, h2, h3, h4, h5, h6, he, hp⟩ := color_token_eq color
  have hkey : key_end_loop (color_token color ++ tail_text t) (color_token color).length
      ((color_token color).length + 1) 0 = some 5 := by
    rw [he]
    have := key_end_loop_key STR_color ([35, h1, h2, h3, h4, h5, h6] ++ tail_text t) 13
      (by decide) (by decide) 14 0 (by decide) (by decide)
    simpa [STR_color] using this
  have hv : cget (color_token color ++ tail_text t) 6 = 35 := by rw [he]; rfl
  have hdrop : (color_token color ++ tail_text t).drop 6 =
      [35, h1, h2, h3, h4, h5, h6] ++ tail_text t := by rw [he]; rfl
  have hdrop2 : (color_token color).drop 6 = [35, h1, h2, h3, h4, h5, h6] := by rw [he]; rfl
  have hlen : (color_token color).length = 13 := by rw [he]; rfl
  have hkis : key_is (color_token color ++ tail_text t) 5 5 STR_color = true := by
    rw [he]; rfl
  have hsafe : safe_body [35, h1, h2, h3, h4, h5, h6] :=
    safe_body_of_plain _ (fun c hc => (hp c hc).1)
  have hr : deslashndup ([35, h1, h2, h3, h4, h5, h6] ++ tail_text t) 7 =
      some (some [35, h1, h2, h3, h4, h5, h6]) := by
    have := deslashndup_escaped [35, h1, h2, h3, h4, h5, h6] (tail_text t) (by simp)
      (by rw [escaped_of_safe_body _ hsafe]; simp)
    rw [escaped_of_safe_body _ hsafe, crlf_to_space_of_safe_body _ hsafe] at this
    exact this
  have hpt : ∀ acc : Acc D, gpspoint_process_tag env acc (color_token color ++ tail_text t)
      (color_token color).length =
      key_action env 6 acc ([35, h1, h2, h3, h4, h5, h6] ++ tail_text t) 7 := by
    intro acc
    unfold gpspoint_process_tag
    rw [hkey, hlen]
    simp only [hv, hdrop]
    rw [if_neg (by decide), if_neg (by decide), if_neg (by decide), if_neg (by decide),
      process_key_and_value_eq_table, key_index_of_match _ _ 6 (5, STR_color) rfl hkis]
  show (gpspoint_process_tag env _ (color_token color ++ tail_text t)
    (color_token color).length).bind _ = _
  rw [hpt, hdrop2]
  show ((deslashndup ([35, h1, h2, h3, h4, h5, h6] ++ tail_text t) 7).map _).bind _ = _
  rw [hr]
  rfl

/-- The `line_*` variables after the tokenizer loop on the written header line
of a track that has a colour: the colour text, and the fields written behind
the colour token. -/
theorem track_line_acc_color {D : Type} (env : Env D) (lit : List Nat) (code : Nat)
    (hlit : lit ≠ [] ∧ escaped lit = lit ∧ 0 ∉ lit)
    (hcode : ∀ rest, type_of_value (lit ++ 34 :: rest) lit.length = code)
    (trk : Track D) (n : List Nat) (hn : trk.name = some n) (h : track_ok env trk)
    (hcol : trk.has_color = true) (a : Acc D) :
    line_acc env (quoted_field STR_type lit ++ tail_text (track_fields env trk n))
        (Acc.reset env a) =
      some (Acc.mk code a.line_latlon (some (crlf_to_space n))
        (trk.comment.map crlf_to_space) (trk.description.map crlf_to_space)
        (trk.source.map crlf_to_space) (trk.type.map crlf_to_space)
        (some ((color_token trk.color).drop 6)) trk.draw_name_mode
        trk.max_number_dist_labels none none env.NAN
        WP_IMAGE_DIRECTION_REF_TRUE false env.NAN env.NAN trk.visible false env.NAN env.NAN 0 0
        env.NAN env.NAN env.NAN) := by
  have hwf := track_fields_wf env trk n hn h
  have hfit := track_fields_short env trk n hn h
  obtain ⟨n2, hn2, hgn⟩ := h.name
  have hnn : n2 = n := by
    rw [hn] at hn2
    exact (Option.some.inj hn2).symm
  subst hnn
  have hname : opt_good (some n2) := fun t ht => by cases ht; exact hgn
  have hcomment := h.comment
  have hdescription := h.description
  have hsource := h.source
  have hxtype := h.type
  have hlname := written_text_short _ STR_name (some n2) (show opt_text STR_name (some n2) ∈
    track_fields env trk n2 from List.mem_cons_self _ _) hfit hname
  have hlcomment := written_text_short _ STR_comment trk.comment (show opt_text STR_comment
    trk.comment ∈ track_fields env trk n2 from List.mem_cons_of_mem _ (List.mem_cons_self _ _)) hfit hcomment
  have hldescription := written_text_short _ STR_description trk.description (show
    opt_text STR_description trk.description ∈ track_fields env trk n2 from
    List.mem_cons_of_mem _ (List.mem_cons_of_mem _ (List.mem_cons_self _ _))) hfit hdescription
  have hlsource := written_text_short _ STR_source trk.source (show opt_text STR_source
    trk.source ∈ track_fields env trk n2 from List.mem_cons_of_mem _ (List.mem_cons_of_mem _ (List.mem_cons_of_mem _ (List.mem_cons_self _ _)))) hfit hsource
  have hlxtype := written_text_short _ STR_xtype trk.type (show opt_text STR_xtype
    trk.type ∈ track_fields env trk n2 from List.mem_cons_of_mem _ (List.mem_cons_of_mem _ (List.mem_cons_of_mem _ (List.mem_cons_of_mem _ (List.mem_cons_self _ _))))) hfit hxtype
  have hr5 := fold_tail_color_value env trk.color [opt (decide (trk.draw_name_mode > 0)) (quoted_field STR_draw_name_mode (env.fmt_d trk.draw_name_mode)), opt (decide (trk.max_number_dist_labels > 0)) (quoted_field STR_number_dist_labels (env.fmt_d trk.max_number_dist_labels)), opt (!trk.visible) (quoted_field STR_visible STR_n)]
    code a.line_latlon.lat a.line_latlon.lon (Option.map crlf_to_space (some n2)) (Option.map crlf_to_space trk.comment) (Option.map crlf_to_space trk.description) (Option.map crlf_to_space trk.source) (Option.map crlf_to_space trk.type) 0 0 none none env.NAN WP_IMAGE_DIRECTION_REF_TRUE false env.NAN env.NAN true false env.NAN env.NAN 0 0 env.NAN env.NAN env.NAN
  have hfields : track_fields env trk n2 =
      [some (quoted_field STR_name (slashdup n2)), opt_text STR_comment trk.comment,
        opt_text STR_description trk.description, opt_text STR_source trk.source,
        opt_text STR_xtype trk.type, opt true (color_token trk.color),
        opt (decide (trk.draw_name_mode > 0))
          (quoted_field STR_draw_name_mode (env.fmt_d trk.draw_name_mode)),
        opt (decide (trk.max_number_dist_labels > 0))
          (quoted_field STR_number_dist_labels (env.fmt_d trk.max_number_dist_labels)),
        opt (!trk.visible) (quoted_field STR_visible STR_n)] := by
    rw [track_fields, hcol]
  refine (line_acc_written_line env lit code (track_fields env trk n2)
    0 a.line_latlon.lat a.line_latlon.lon none none none none none none 0 0 none none env.NAN WP_IMAGE_DIRECTION_REF_TRUE false env.NAN env.NAN true false env.NAN env.NAN 0 0 env.NAN env.NAN env.NAN
    hlit hcode (scannable_of_entry_wf _ hwf)).trans ?_
  rw [hfields]
  refine (fold_tail_name env (some n2) _ _ _ _ _ _ _ _ _ _ _ _ _ _ _ _ _ _ _ _ _ _ _ _ _ _ _ hname hlname).trans ?_
  refine (fold_tail_comment env trk.comment _ _ _ _ _ _ _ _ _ _ _ _ _ _ _ _ _ _ _ _ _ _ _ _ _ _ _ hcomment hlcomment).trans ?_
  refine (fold_tail_description env trk.description _ _ _ _ _ _ _ _ _ _ _ _ _ _ _ _ _ _ _ _ _ _ _ _ _ _ _ hdescription hldescription).trans ?_
  refine (fold_tail_source env trk.source _ _ _ _ _ _ _ _ _ _ _ _ _ _ _ _ _ _ _ _ _ _ _ _ _ _ _ hsource hlsource).trans ?_
  refine (fold_tail_xtype env trk.type _ _ _ _ _ _ _ _ _ _ _ _ _ _ _ _ _ _ _ _ _ _ _ _ _ _ _ hxtype hlxtype).trans ?_
  refine hr5.trans ?_
  refine (fold_tail_draw_name_mode env (decide (trk.draw_name_mode > 0)) trk.draw_name_mode _ _ _ _ _ _ _ _ _ _ _ _ _ _ _ _ _ _ _ _ _ _ _ _ _ _ _ _ (fun hc => h.draw_name_mode.2 (by simpa using hc))).trans ?_
  refine (fold_tail_number_dist_labels env (decide (trk.max_number_dist_labels > 0)) trk.max_number_dist_labels _ _ _ _ _ _ _ _ _ _ _ _ _ _ _ _ _ _ _ _ _ _ _ _ _ _ _ _ (fun hc => h.number_dist_labels.2 (by simpa using hc))).trans ?_
  refine (fold_tail_visible env (!trk.visible) _ _ _ _ _ _ _ _ _ _ _ _ _ _ _ _ _ _ _ _ _ _ _ _ _ _ _ _).trans ?_
  rw [visible_read, label_mode_read _ h.draw_name_mode.1,
    label_mode_read _ h.number_dist_labels.1]
  rfl

/-! ## The order of the tokens of a line -/

theorem key_action_ge {D : Type} (env : Env D) (i : Nat) (acc : Acc D) (v : List Nat) (n : Nat)
    (h : 27 ≤ i) : key_action env i acc v n = some acc := by
  unfold key_action
  split
  all_goals first
    | omega
    | rfl

theorem key_apply_ge {D : Type} (env : Env D) (i : Nat) (acc : Acc D) (v : List Nat) (n : Nat)
    (h : 27 ≤ i) : key_apply env i acc v n = acc := by
  unfold key_apply
  split
  all_goals first
    | omega
    | rfl

/-- The table action returns, for a value shorter than 65535 bytes, what its
total form gives. -/
theorem key_action_eq_apply {D : Type} (env : Env D) (i : Nat) (acc : Acc D) (v : List Nat)
    (value_len : Nat) (h : value_len < 65535) :
    key_action env i acc v value_len = some (key_apply env i acc v value_len) := by
  obtain ⟨r, hr⟩ := deslashndup_terminates v value_len
    (by rw [Nat.mod_eq_of_lt (by omega)]; exact h)
  by_cases hi : 27 ≤ i
  · rw [key_apply_ge env i acc v value_len hi, key_action_ge env i acc v value_len hi]
  have h27 : i < 27 := Nat.lt_of_not_le hi
  interval_cases i
  all_goals
    simp only [key_action, key_apply] <;>
      (split_ifs with hc
       · first
         | (rw [hr]; rfl)
         | rfl
       · rfl)

/-- The action of a key changes no variable but its own. -/
theorem key_apply_same_except {D : Type} (env : Env D) (k : Nat) (a : Acc D) (v : List Nat)
    (n : Nat) : same_except k a (key_apply env k a v n) := by
  unfold key_apply same_except
  split
  all_goals
    refine ⟨?_, ?_, ?_, ?_, ?_, ?_, ?_, ?_, ?_, ?_, ?_, ?_, ?_, ?_, ?_, ?_, ?_, ?_, ?_, ?_, ?_, ?_, ?_, ?_, ?_, ?_, ?_⟩ <;> intro h <;>
      first
      | rfl
      | exact absurd rfl h

/-- Two states of the `line_*` variables that agree variable by variable are
the same. -/
theorem acc_eq_of_fields {D : Type} (a b : Acc D)
    (h0 : a.line_type = b.line_type)
    (h1 : a.line_name = b.line_name)
    (h2 : a.line_comment = b.line_comment)
    (h3 : a.line_description = b.line_description)
    (h4 : a.line_source = b.line_source)
    (h5 : a.line_xtype = b.line_xtype)
    (h6 : a.line_color = b.line_color)
    (h7 : a.line_name_label = b.line_name_label)
    (h8 : a.line_dist_label = b.line_dist_label)
    (h9 : a.line_image = b.line_image)
    (h10 : a.line_image_direction = b.line_image_direction)
    (h11 : a.line_image_direction_ref = b.line_image_direction_ref)
    (h12 : a.line_latlon.lat = b.line_latlon.lat)
    (h13 : a.line_latlon.lon = b.line_latlon.lon)
    (h14 : a.line_altitude = b.line_altitude)
    (h15 : a.line_visible = b.line_visible)
    (h16 : a.line_symbol = b.line_symbol)
    (h17 : a.line_timestamp = b.line_timestamp)
    (h18 : a.line_newsegment = b.line_newsegment)
    (h19 : a.line_extended = b.line_extended)
    (h20 : a.line_speed = b.line_speed)
    (h21 : a.line_course = b.line_course)
    (h22 : a.line_sat = b.line_sat)
    (h23 : a.line_fix = b.line_fix)
    (h24 : a.line_hdop = b.line_hdop)
    (h25 : a.line_vdop = b.line_vdop)
    (h26 : a.line_pdop = b.line_pdop) : a = b := by
  obtain ⟨ty, ⟨la, lo⟩, nm, cm, ds, so, xt, co, nl, dl, im, sy, imd, imr, ns, ts, al, vi, ex, sp,
    cr, sa, fx, hd, vd, pd⟩ := a
  obtain ⟨ty2, ⟨la2, lo2⟩, nm2, cm2, ds2, so2, xt2, co2, nl2, dl2, im2, sy2, imd2, imr2, ns2, ts2,
    al2, vi2, ex2, sp2, cr2, sa2, fx2, hd2, vd2, pd2⟩ := b
  simp only at h0 h1 h2 h3 h4 h5 h6 h7 h8 h9 h10 h11 h12 h13 h14 h15 h16 h17 h18 h19 h20 h21 h22 h23 h24 h25 h26
  subst_vars
  rfl

/-- A variable that only the key of index `o` sets, and sets from its own old
value, is the same after two actions of different keys in either order. -/
theorem field_comm {D β : Type} (env : Env D) (proj : Acc D → β) (o : Nat)
    (N : β → List Nat → Nat → β)
    (hframe : ∀ (k : Nat) (a : Acc D) (v : List Nat) (n : Nat), k ≠ o →
      proj (key_apply env k a v n) = proj a)
    (hown : ∀ (a : Acc D) (v : List Nat) (n : Nat), proj (key_apply env o a v n) = N (proj a) v n)
    (i j : Nat) (hij : i ≠ j) (acc : Acc D) (v1 : List Nat) (n1 : Nat) (v2 : List Nat)
    (n2 : Nat) :
    proj (key_apply env j (key_apply env i acc v1 n1) v2 n2) =
      proj (key_apply env i (key_apply env j acc v2 n2) v1 n1) := by
  by_cases hi : i = o
  · subst hi
    rw [hframe j _ v2 n2 (fun h => hij h.symm), hown, hown, hframe j _ v2 n2 (fun h => hij h.symm)]
  · by_cases hj : j = o
    · subst hj
      rw [hown, hframe i _ v1 n1 hi, hframe i _ v1 n1 hi, hown]
    · rw [hframe j _ v2 n2 hj, hframe i _ v1 n1 hi, hframe i _ v1 n1 hi, hframe j _ v2 n2 hj]

/-- The actions of two different keys of the table commute. -/
theorem key_apply_comm {D : Type} (env : Env D) (i j : Nat) (hij : i ≠ j) (acc : Acc D)
    (v1 : List Nat) (n1 : Nat) (v2 : List Nat) (n2 : Nat) :
    key_apply env j (key_apply env i acc v1 n1) v2 n2 =
      key_apply env i (key_apply env j acc v2 n2) v1 n1 := by
  apply acc_eq_of_fields
  · exact field_comm env (fun a => a.line_type) 0
      (fun _ v n => type_of_value v n)
      (fun k a v n hk => (key_apply_same_except env k a v n).1 hk)
      (fun _ _ _ => rfl) i j hij acc v1 n1 v2 n2
  · exact field_comm env (fun a => a.line_name) 1
      (fun old v n => if old = none then (deslashndup v n).getD none else old)
      (fun k a v n hk => (key_apply_same_except env k a v n).2.1 hk)
      (fun _ _ _ => rfl) i j hij acc v1 n1 v2 n2
  · exact field_comm env (fun a => a.line_comment) 2
      (fun old v n => if old = none then (deslashndup v n).getD none else old)
      (fun k a v n hk => (key_apply_same_except env k a v n).2.2.1 hk)
      (fun _ _ _ => rfl) i j hij acc v1 n1 v2 n2
  · exact field_comm env (fun a => a.line_description) 3
      (fun old v n => if old = none then (deslashndup v n).getD none else old)
      (fun k a v n hk => (key_apply_same_except env k a v n).2.2.2.1 hk)
      (fun _ _ _ => rfl) i j hij acc v1 n1 v2 n2
  · exact field_comm env (fun a => a.line_source) 4
      (fun old v n => if old = none then (deslashndup v n).getD none else old)
      (fun k a v n hk => (key_apply_same_except env k a v n).2.2.2.2.1 hk)
      (fun _ _ _ => rfl) i j hij acc v1 n1 v2 n2
  · exact field_comm env (fun a => a.line_xtype) 5
      (fun old v n => if old = none then (deslashndup v n).getD none else old)
      (fun k a v n hk => (key_apply_same_except env k a v n).2.2.2.2.2.1 hk)
      (fun _ _ _ => rfl) i j hij acc v1 n1 v2 n2
  · exact field_comm env (fun a => a.line_color) 6
      (fun old v n => if old = none then (deslashndup v n).getD none else old)
      (fun k a v n hk => (key_apply_same_except env k a v n).2.2.2.2.2.2.1 hk)
      (fun _ _ _ => rfl) i j hij acc v1 n1 v2 n2
  · exact field_comm env (fun a => a.line_name_label) 7
      (fun _ v _ => env.atoi v)
      (fun k a v n hk => (key_apply_same_except env k a v n).2.2.2.2.2.2.2.1 hk)
      (fun _ _ _ => rfl) i j hij acc v1 n1 v2 n2
  · exact field_comm env (fun a => a.line_dist_label) 8
      (fun _ v _ => env.atoi v)
      (fun k a v n hk => (key_apply_same_except env k a v n).2.2.2.2.2.2.2.2.1 hk)
      (fun _ _ _ => rfl) i j hij acc v1 n1 v2 n2
  · exact field_comm env (fun a => a.line_image) 9
      (fun old v n => if old = none then (deslashndup v n).getD none else old)
      (fun k a v n hk => (key_apply_same_except env k a v n).2.2.2.2.2.2.2.2.2.1 hk)
      (fun _ _ _ => rfl) i j hij acc v1 n1 v2 n2
  · exact field_comm env (fun a => a.line_image_direction) 10
      (fun _ v _ => env.g_ascii_strtod v)
      (fun k a v n hk => (key_apply_same_except env k a v n).2.2.2.2.2.2.2.2.2.2.1 hk)
      (fun _ _ _ => rfl) i j hij acc v1 n1 v2 n2
  · exact field_comm env (fun a => a.line_image_direction_ref) 11
      (fun _ v _ => env.atoi v)
      (fun k a v n hk => (key_apply_same_except env k a v n).2.2.2.2.2.2.2.2.2.2.2.1 hk)
      (fun _ _ _ => rfl) i j hij acc v1 n1 v2 n2
  · exact field_comm env (fun a => a.line_latlon.lat) 12
      (fun _ v _ => env.g_ascii_strtod v)
      (fun k a v n hk => (key_apply_same_except env k a v n).2.2.2.2.2.2.2.2.2.2.2.2.1 hk)
      (fun _ _ _ => rfl) i j hij acc v1 n1 v2 n2
  · exact field_comm env (fun a => a.line_latlon.lon) 13
      (fun _ v _ => env.g_ascii_strtod v)
      (fun k a v n hk => (key_apply_same_except env k a v n).2.2.2.2.2.2.2.2.2.2.2.2.2.1 hk)
      (fun _ _ _ => rfl) i j hij acc v1 n1 v2 n2
  · exact field_comm env (fun a => a.line_altitude) 14
      (fun _ v _ => env.g_ascii_strtod v)
      (fun k a v n hk => (key_apply_same_except env k a v n).2.2.2.2.2.2.2.2.2.2.2.2.2.2.1 hk)
      (fun _ _ _ => rfl) i j hij acc v1 n1 v2 n2
  · exact field_comm env (fun a => a.line_visible) 15
      (fun old v _ =>
        if cget v 0 ≠ 121 ∧ cget v 0 ≠ 89 ∧ cget v 0 ≠ 116 ∧ cget v 0 ≠ 84 then false else old)
      (fun k a v n hk => (key_apply_same_except env k a v n).2.2.2.2.2.2.2.2.2.2.2.2.2.2.2.1 hk)
      (fun _ _ _ => rfl) i j hij acc v1 n1 v2 n2
  · exact field_comm env (fun a => a.line_symbol) 16
      (fun _ v n => some (g_strndup v n))
      (fun k a v n hk => (key_apply_same_except env k a v n).2.2.2.2.2.2.2.2.2.2.2.2.2.2.2.2.1 hk)
      (fun _ _ _ => rfl) i j hij acc v1 n1 v2 n2
  · exact field_comm env (fun a => a.line_timestamp) 17
      (fun _ v _ => env.g_ascii_strtod v)
      (fun k a v n hk => (key_apply_same_except env k a v n).2.2.2.2.2.2.2.2.2.2.2.2.2.2.2.2.2.1 hk)
      (fun _ _ _ => rfl) i j hij acc v1 n1 v2 n2
  · exact field_comm env (fun a => a.line_newsegment) 18
      (fun _ _ _ => true)
      (fun k a v n hk => (key_apply_same_except env k a v n).2.2.2.2.2.2.2.2.2.2.2.2.2.2.2.2.2.2.1 hk)
      (fun _ _ _ => rfl) i j hij acc v1 n1 v2 n2
  · exact field_comm env (fun a => a.line_extended) 19
      (fun _ _ _ => true)
      (fun k a v n hk => (key_apply_same_except env k a v n).2.2.2.2.2.2.2.2.2.2.2.2.2.2.2.2.2.2.2.1 hk)
      (fun _ _ _ => rfl) i j hij acc v1 n1 v2 n2
  · exact field_comm env (fun a => a.line_speed) 20
      (fun _ v _ => env.g_ascii_strtod v)
      (fun k a v n hk => (key_apply_same_except env k a v n).2.2.2.2.2.2.2.2.2.2.2.2.2.2.2.2.2.2.2.2.1 hk)
      (fun _ _ _ => rfl) i j hij acc v1 n1 v2 n2
  · exact field_comm env (fun a => a.line_course) 21
      (fun _ v _ => env.g_ascii_strtod v)
      (fun k a v n hk => (key_apply_same_except env k a v n).2.2.2.2.2.2.2.2.2.2.2.2.2.2.2.2.2.2.2.2.2.1 hk)
      (fun _ _ _ => rfl) i j hij acc v1 n1 v2 n2
  · exact field_comm env (fun a => a.line_sat) 22
      (fun _ v _ => env.atoi v)
      (fun k a v n hk => (key_apply_same_except env k a v n).2.2.2.2.2.2.2.2.2.2.2.2.2.2.2.2.2.2.2.2.2.2.1 hk)
      (fun _ _ _ => rfl) i j hij acc v1 n1 v2 n2
  · exact field_comm env (fun a => a.line_fix) 23
      (fun _ v _ => env.atoi v)
      (fun k a v n hk => (key_apply_same_except env k a v n).2.2.2.2.2.2.2.2.2.2.2.2.2.2.2.2.2.2.2.2.2.2.2.1 hk)
      (fun _ _ _ => rfl) i j hij acc v1 n1 v2 n2
  · exact field_comm env (fun a => a.line_hdop) 24
      (fun _ v _ => env.g_ascii_strtod v)
      (fun k a v n hk => (key_apply_same_except env k a v n).2.2.2.2.2.2.2.2.2.2.2.2.2.2.2.2.2.2.2.2.2.2.2.2.1 hk)
      (fun _ _ _ => rfl) i j hij acc v1 n1 v2 n2
  · exact field_comm env (fun a => a.line_vdop) 25
      (fun _ v _ => env.g_ascii_strtod v)
      (fun k a v n hk => (key_apply_same_except env k a v n).2.2.2.2.2.2.2.2.2.2.2.2.2.2.2.2.2.2.2.2.2.2.2.2.2.1 hk)
      (fun _ _ _ => rfl) i j hij acc v1 n1 v2 n2
  · exact field_comm env (fun a => a.line_pdop) 26
      (fun _ v _ => env.g_ascii_strtod v)
      (fun k a v n hk => (key_apply_same_except env k a v n).2.2.2.2.2.2.2.2.2.2.2.2.2.2.2.2.2.2.2.2.2.2.2.2.2.2 hk)
      (fun _ _ _ => rfl) i j hij acc v1 n1 v2 n2

/-- The tag parser on a token that is handed over alone and is shorter than
65535 bytes: the total form of what the token does. -/
theorem process_tag_eq_token_apply {D : Type} (env : Env D) (acc : Acc D) (tok : List Nat)
    (hlen : tok.length < 65535) :
    gpspoint_process_tag env acc tok tok.length = some (token_apply env tok acc) := by
  rw [gpspoint_process_tag_eq_call]
  unfold token_apply token_action
  cases hc : tag_call tok tok.length with
  | none => rfl
  | some c =>
    obtain ⟨kl, value, n⟩ := c
    cases value with
    | none =>
      simp only
      rw [process_key_and_value_null]
      by_cases hk : key_is tok kl 4 STR_type = true
      · rw [if_pos hk, if_pos hk]
        rfl
      · rw [if_neg hk, if_neg hk]
    | some v =>
      simp only
      rw [process_key_and_value_eq_table]
      cases hi : key_index tok kl with
      | none => rfl
      | some i =>
        obtain ⟨_, hn, _⟩ := tag_call_slice tok tok.length kl n v (le_refl _) hc
        exact key_action_eq_apply env i acc v n (by omega)

/-- The action of a token is that of the key of the table that is the key of
the token in lower case. -/
theorem token_action_key (tok : List Nat) (i : Nat) (v : List Nat) (n : Nat)
    (h : token_action tok = some (i, v, n)) :
    ∃ e, key_table[i]? = some e ∧ token_key tok = some (e.2.map tolower) := by
  unfold token_action at h
  unfold token_key
  cases hc : tag_call tok tok.length with
  | none => rw [hc] at h; simp at h
  | some c =>
    obtain ⟨kl, value, m⟩ := c
    rw [hc] at h
    have hget : ∀ e, e ∈ key_table → key_is tok kl e.1 e.2 = true →
        (tok.take kl).map tolower = e.2.map tolower := by
      intro e he hk
      obtain ⟨hl, h0⟩ := key_table_wellformed e he
      obtain ⟨h1, h2⟩ := (key_is_iff tok kl e.1 e.2 hl h0).1 hk
      rw [h1]
      exact h2
    cases value with
    | none =>
      simp only at h
      by_cases hk : key_is tok kl 4 STR_type = true
      · rw [if_pos hk] at h
        simp only [Option.some.injEq, Prod.mk.injEq] at h
        obtain ⟨rfl, _, _⟩ := h
        refine ⟨(4, STR_type), rfl, ?_⟩
        simp only [Option.map_some']
        rw [hget (4, STR_type) (by decide) hk]
      · rw [if_neg hk] at h
        simp at h
    | some w =>
      simp only at h
      cases hi : key_index tok kl with
      | none => rw [hi] at h; simp at h
      | some j =>
        rw [hi] at h
        simp only [Option.map_some', Option.some.injEq, Prod.mk.injEq] at h
        obtain ⟨rfl, _, _⟩ := h
        obtain ⟨e, he, hk⟩ := key_index_sound tok kl j hi
        refine ⟨e, he, ?_⟩
        simp only [Option.map_some']
        rw [hget e (List.getElem?_mem he) hk]

theorem keys_differ_symm (a b : List Nat) (h : keys_differ a b) : keys_differ b a := by
  rcases h with h | h | h
  · exact Or.inr (Or.inl h)
  · exact Or.inl h
  · exact Or.inr (Or.inr (fun e => h e.symm))

/-- Two tokens with different keys do the same in either order. -/
theorem token_apply_comm {D : Type} (env : Env D) (a b : List Nat) (h : keys_differ a b)
    (acc : Acc D) :
    token_apply env b (token_apply env a acc) = token_apply env a (token_apply env b acc) := by
  unfold token_apply
  cases ha : token_action a with
  | none => rfl
  | some x =>
    obtain ⟨i, v1, n1⟩ := x
    cases hb : token_action b with
    | none => rfl
    | some y =>
      obtain ⟨j, v2, n2⟩ := y
      obtain ⟨e1, he1, hk1⟩ := token_action_key a i v1 n1 ha
      obtain ⟨e2, he2, hk2⟩ := token_action_key b j v2 n2 hb
      have hij : i ≠ j := by
        rintro rfl
        rw [he1] at he2
        cases he2
        rcases h with h | h | h
        · rw [hk1] at h; cases h
        · rw [hk2] at h; cases h
        · exact h (hk1.trans hk2.symm)
      exact key_apply_comm env i j hij acc v1 n1 v2 n2

/-- The tokens of a line, taken alone one after the other, do the same in
every order when their keys are pairwise different. -/
theorem fold_token_apply_perm {D : Type} (env : Env D) (toks toks2 : List (List Nat))
    (hperm : toks2.Perm toks) (hkeys : toks.Pairwise keys_differ) (acc : Acc D) :
    toks2.foldl (fun a t => token_apply env t a) acc =
      toks.foldl (fun a t => token_apply env t a) acc := by
  refine List.Perm.foldl_eq' hperm ?_ acc
  intro x hx y hy z
  by_cases hxy : x = y
  · rw [hxy]
  · have hp2 : toks2.Pairwise keys_differ :=
      (List.Perm.pairwise_iff (fun {a b} h => keys_differ_symm a b h) hperm).2 hkeys
    exact token_apply_comm env x y
      (List.Pairwise.forall (fun a b h => keys_differ_symm a b h) hp2 hx hy hxy) z

/-- The tag parser applied in turn to written tokens that stand for
themselves. -/
theorem fold_tail_self_contained {D : Type} (env : Env D) :
    ∀ (ts : List (List Nat)) (acc : Acc D),
      (∀ t ∈ ts, self_contained env t ∧ t.length < VIKING_LINE_SIZE) →
      fold_tail env (ts.map some) acc = some (ts.foldl (fun a t => token_apply env t a) acc) := by
  intro ts
  induction ts with
  | nil => intro acc _; rfl
  | cons t ts ih =>
    intro acc h
    obtain ⟨hs, hl⟩ := h t (List.mem_cons_self _ _)
    simp only [VIKING_LINE_SIZE] at hl
    rw [List.map_cons, fold_tail, hs.2 acc _ (tail_text_boundary _),
      process_tag_eq_token_apply env acc t (by omega), Option.some_bind, List.foldl_cons]
    exact ih _ (fun x hx => h x (List.mem_cons_of_mem _ hx))

/-- The tokenizer loop on a line of tokens that stand for themselves. -/
theorem line_acc_join_tokens {D : Type} (env : Env D) (toks : List (List Nat)) (acc : Acc D)
    (h : ∀ t ∈ toks, self_contained env t ∧ t.length < VIKING_LINE_SIZE) :
    line_acc env (join_tokens toks) acc =
      some (toks.foldl (fun a t => token_apply env t a) acc) := by
  cases toks with
  | nil => rfl
  | cons t ts =>
    obtain ⟨hs, hl⟩ := h t (List.mem_cons_self _ _)
    simp only [VIKING_LINE_SIZE] at hl
    unfold line_acc join_tokens
    rw [hs.1 D env acc _ _ (tail_text_boundary _), hs.2 acc _ (tail_text_boundary _),
      process_tag_eq_token_apply env acc t (by omega), Option.some_bind,
      tag_loop_after_tail_text env (ts.map some) _ _
        (fun tok ht => by
          obtain ⟨x, hx, he⟩ := List.mem_map.1 ht
          cases he
          exact (h _ (List.mem_cons_of_mem _ hx)).1.1)
        (by simp; omega),
      List.foldl_cons]
    exact fold_tail_self_contained env ts _ (fun x hx => h x (List.mem_cons_of_mem _ hx))

/-- The action of a key on the value slice of a written token does not depend
on what follows the closing quote, when the number parsers stop there. -/
theorem key_action_rest_indep {D : Type} (env : Env D) (hstop : stops_at_quote env) (i : Nat)
    (acc : Acc D) (s r1 r2 : List Nat) (hne : s ≠ []) (h0 : 0 ∉ s)
    (hlen : (escaped s).length < 65536) :
    key_action env i acc (escaped s ++ 34 :: r1) (escaped s).length =
      key_action env i acc (escaped s ++ 34 :: r2) (escaped s).length := by
  have hpos : 0 < (escaped s).length := by
    cases s with
    | nil => exact absurd rfl hne
    | cons c cs =>
      simp only [escaped, List.length_append]
      have := esc_char_length_pos c
      omega
  have hd : deslashndup (escaped s ++ 34 :: r1) (escaped s).length =
      deslashndup (escaped s ++ 34 :: r2) (escaped s).length := by
    rw [deslashndup_escaped s (34 :: r1) hne hlen, deslashndup_escaped s (34 :: r2) hne hlen]
  have ht : type_of_value (escaped s ++ 34 :: r1) (escaped s).length =
      type_of_value (escaped s ++ 34 :: r2) (escaped s).length := by
    rw [type_of_value_eq _ _ (by simp), type_of_value_eq _ _ (by simp), List.take_left,
      List.take_left]
  have hc : cget (escaped s ++ 34 :: r1) 0 = cget (escaped s ++ 34 :: r2) 0 := by
    rw [cget_append_left _ _ 0 hpos, cget_append_left _ _ 0 hpos]
  have hg : g_strndup (escaped s ++ 34 :: r1) (escaped s).length =
      g_strndup (escaped s ++ 34 :: r2) (escaped s).length := by
    have hnz : ∀ a ∈ escaped s, (fun c => c != 0) a = true := by
      intro a ha
      have : a ≠ 0 := fun e => escaped_no_nul s h0 (e ▸ ha)
      simpa using this
    unfold g_strndup
    rw [List.takeWhile_append_of_pos hnz, List.takeWhile_append_of_pos hnz, List.take_left,
      List.take_left]
  have hs := (hstop (escaped s) r1 r2).1
  have ha := (hstop (escaped s) r1 r2).2
  by_cases hi : 27 ≤ i
  · rw [key_action_ge env i acc _ _ hi, key_action_ge env i acc _ _ hi]
  have h27 : i < 27 := Nat.lt_of_not_le hi
  interval_cases i <;> simp only [key_action, hd, ht, hc, hg, hs, ha]

/-- A written token `key="value"` with a key of the table and an escaped value
stands for itself, when the number parsers stop at the closing quote. -/
theorem self_contained_quoted_field {D : Type} (env : Env D) (hstop : stops_at_quote env)
    (i n : Nat) (key s : List Nat) (hi : key_table[i]? = some (n, key)) (h0 : 0 ∉ s)
    (hlen : (escaped s).length < 65536) : self_contained env (quoted_field key (escaped s)) := by
  have hmem : (n, key) ∈ key_table := List.getElem?_mem hi
  refine ⟨scannable_quoted_field key s n hmem h0, ?_⟩
  intro acc rest _
  have hnil : ∀ q : List Nat, gpspoint_process_tag env acc q (quoted_field key (escaped s)).length =
      gpspoint_process_tag env acc (q ++ []) (quoted_field key (escaped s)).length := by
    intro q
    rw [List.append_nil]
  rw [hnil (quoted_field key (escaped s))]
  by_cases hs : s = []
  · subst hs
    obtain ⟨_, h61, hkne, _⟩ := key_table_keys_plain (n, key) hmem
    have hkis : ∀ r, key_is (quoted_field key [] ++ r) key.length n key = true := by
      intro r
      have := key_is_self_append key (61 :: 34 :: ([] ++ [34]) ++ r) n hmem
      simpa [quoted_field] using this
    show gpspoint_process_tag env acc (quoted_field key [] ++ rest) (quoted_field key []).length =
      gpspoint_process_tag env acc (quoted_field key [] ++ []) (quoted_field key []).length
    rw [process_tag_empty_quoted_field env acc key rest hkne h61,
      process_tag_empty_quoted_field env acc key [] hkne h61,
      process_key_and_value_null, process_key_and_value_null]
    by_cases hty : key_is (quoted_field key [] ++ rest) key.length 4 STR_type = true
    · have e := key_is_unique _ _ (4, STR_type) (n, key) (by decide) hmem hty (hkis rest)
      cases e
      rw [if_pos hty, if_pos (hkis [])]
    · have hty2 : ¬ key_is (quoted_field key [] ++ []) key.length 4 STR_type = true := by
        intro hc
        have e := key_is_unique _ _ (4, STR_type) (n, key) (by decide) hmem hc (hkis [])
        cases e
        exact hty (hkis rest)
      rw [if_neg hty, if_neg hty2]
  · rw [process_tag_table_field env acc i n key s rest hi hs,
      process_tag_table_field env acc i n key s [] hi hs]
    exact key_action_rest_indep env hstop i acc s rest [] hs h0 hlen

theorem takeWhile_append_stop (p : Nat → Bool) (q : Nat) (hq : p q = false) :
    ∀ v r : List Nat, (v ++ q :: r).takeWhile p = v.takeWhile p := by
  intro v
  induction v with
  | nil =>
    intro r
    simp [List.takeWhile, hq]
  | cons c cs ih =>
    intro r
    cases hc : p c with
    | false => simp [List.takeWhile, hc]
    | true => simp [List.takeWhile, hc, ih r]

theorem take_three_quote (v r : List Nat) :
    ((v ++ 34 :: r).take 3).map tolower = [110, 97, 110] ↔
      (v.take 3).map tolower = [110, 97, 110] := by
  have h34 : tolower 34 = 34 := by decide
  rcases v with _ | ⟨a, _ | ⟨b, _ | ⟨c, t⟩⟩⟩
  · simp [h34]
  · simp [h34]
  · simp [h34]
  · simp

/-- The number parsers of the concrete environment stop at a double quote. -/
theorem sample_env_stops_at_quote : stops_at_quote sample_env := by
  intro v r1 r2
  have hn : is_numeral_char 34 = false := by decide
  have hd : (fun c => decide (48 ≤ c) && decide (c ≤ 57)) 34 = false := by decide
  constructor
  · show (if ((v ++ 34 :: r1).take 3).map tolower = [110, 97, 110] then none
        else if (v ++ 34 :: r1).takeWhile is_numeral_char = [] then some [48]
        else some ((v ++ 34 :: r1).takeWhile is_numeral_char)) =
      (if ((v ++ 34 :: r2).take 3).map tolower = [110, 97, 110] then none
        else if (v ++ 34 :: r2).takeWhile is_numeral_char = [] then some [48]
        else some ((v ++ 34 :: r2).takeWhile is_numeral_char))
    rw [takeWhile_append_stop _ 34 hn v r1, takeWhile_append_stop _ 34 hn v r2]
    by_cases h3 : (v.take 3).map tolower = [110, 97, 110]
    · rw [if_pos ((take_three_quote v r1).2 h3), if_pos ((take_three_quote v r2).2 h3)]
    · rw [if_neg (fun h => h3 ((take_three_quote v r1).1 h)),
        if_neg (fun h => h3 ((take_three_quote v r2).1 h))]
  · have hdv : ∀ w r : List Nat, digits_value (w ++ 34 :: r) = digits_value w := by
      intro w r
      unfold digits_value
      rw [takeWhile_append_stop _ 34 hd w r]
    show (if cget (v ++ 34 :: r1) 0 = 45 then - digits_value ((v ++ 34 :: r1).drop 1)
        else digits_value (v ++ 34 :: r1)) =
      (if cget (v ++ 34 :: r2) 0 = 45 then - digits_value ((v ++ 34 :: r2).drop 1)
        else digits_value (v ++ 34 :: r2))
    cases v with
    | nil =>
      have e : ∀ r : List Nat, cget ([] ++ 34 :: r) 0 = 34 := fun _ => rfl
      rw [e, e, if_neg (by decide), if_neg (by decide), hdv, hdv]
    | cons a t =>
      have e : ∀ r : List Nat, cget (a :: t ++ 34 :: r) 0 = a := fun _ => rfl
      have ed : ∀ r : List Nat, (a :: t ++ 34 :: r).drop 1 = t ++ 34 :: r := fun _ => rfl
      rw [e, e, ed, ed, hdv, hdv, hdv, hdv]

/-! ## Claims -/

/-- C1 (as amended). For every non-empty text `s` without NUL bytes whose
escaped form is at most 65535 bytes long (the range of the `guint16` length
parameter), `deslashndup` applied to `slashdup ( s )` over its whole length
returns `s` with every line feed and carriage return replaced by one space and
every other character unchanged and in order. -/
theorem deslashndup_slashdup_roundtrip (s : List Nat) (hne : s ≠ []) (h0 : 0 ∉ s)
    (h16 : strlen (slashdup s) ≤ 65535) :
    deslashndup (slashdup s) (strlen (slashdup s)) = some (some (crlf_to_space s)) := by
  rw [slashdup_eq_escaped s h0] at h16 ⊢
  rw [strlen_of_no_nul _ (escaped_no_nul s h0)] at h16 ⊢
  have := deslashndup_escaped s [] hne (by omega)
  simpa using this

theorem deslashndup_slashdup_roundtrip_witness :
    ([97, 92, 34, 10, 13, 98] ≠ [] ∧ 0 ∉ [97, 92, 34, 10, 13, 98] ∧
      strlen (slashdup [97, 92, 34, 10, 13, 98]) ≤ 65535) ∧
    deslashndup (slashdup [97, 92, 34, 10, 13, 98]) (strlen (slashdup [97, 92, 34, 10, 13, 98])) =
      some (some [97, 92, 34, 32, 32, 98]) :=
  ⟨by decide, deslashndup_slashdup_roundtrip [97, 92, 34, 10, 13, 98] (by decide) (by decide)
    (by decide)⟩

/-- C1 as stated fails on a long text: for the text of 65536 letters `a` the
length of the escaped form is 65536, which is 0 as a `guint16`, and
`deslashndup` returns NULL. -/
theorem deslashndup_slashdup_long_text :
    List.replicate 65536 97 ≠ [] ∧ 0 ∉ List.replicate 65536 97 ∧
    deslashndup (slashdup (List.replicate 65536 97))
      (strlen (slashdup (List.replicate 65536 97))) = some none :=
  deslashndup_slashdup_multiple_of_65536 65536 (by norm_num) (by norm_num)

/-- C2. For every non-empty text `s` and every recognised text key `k` (name,
comment, description, source, xtype), on a line of the line buffer the
fragment `k="E"` with `E = slashdup ( s )` that is followed by whitespace or by
the end of the line is cut out by the tokenizer as exactly one token (the scan
stops right behind the fragment, outside quotes, and the tokenizer loop hands
the fragment to the tag parser and goes on behind the whitespace); the tag
parser splits the token into the key `k` and the raw value `E`; and the
decoder turns `E` back into `s` with CR and LF as spaces. -/
theorem quoted_text_field_roundtrip {D : Type} (env : Env D) (acc : Acc D) (k s rest : List Nat)
    (fuel : Nat) (hk : k ∈ text_keys) (hne : s ≠ []) (h0 : 0 ∉ s) (hb : token_boundary rest)
    (hfit : (quoted_field k (slashdup s) ++ rest).length < VIKING_LINE_SIZE) :
    scan_tag (quoted_field k (slashdup s) ++ rest) false false = (rest, false, false) ∧
    tag_loop env (fuel + 1) (quoted_field k (slashdup s) ++ rest) false false acc =
      (gpspoint_process_tag env acc (quoted_field k (slashdup s) ++ rest)
        (quoted_field k (slashdup s)).length).bind (tag_loop_after env fuel rest) ∧
    gpspoint_process_tag env acc (quoted_field k (slashdup s) ++ rest)
        (quoted_field k (slashdup s)).length =
      gpspoint_process_key_and_value env acc (quoted_field k (slashdup s) ++ rest) k.length
        (some (slashdup s ++ 34 :: rest)) (slashdup s).length ∧
    (quoted_field k (slashdup s) ++ rest).take k.length = k ∧
    deslashndup (slashdup s ++ 34 :: rest) (slashdup s).length = some (some (crlf_to_space s)) := by
  obtain ⟨hp, h61, hkne, h35⟩ := text_keys_wellformed k hk
  rw [slashdup_eq_escaped s h0] at hfit ⊢
  have hE : cget (escaped s ++ 34 :: rest) 0 ≠ 34 := fun h => hne (escaped_head_ne_quote s rest h)
  refine ⟨scan_tag_quoted_field k s rest hp h0 hb,
    tag_loop_quoted_field env acc k s rest fuel hp hkne h35 h0 hb,
    process_tag_quoted_field env acc k (escaped s) rest hkne h61 hE, ?_, ?_⟩
  · simp [quoted_field]
  · apply deslashndup_escaped s (34 :: rest) hne
    simp [quoted_field, VIKING_LINE_SIZE] at hfit
    omega

theorem quoted_text_field_roundtrip_witness :
    (STR_comment ∈ text_keys ∧ sample_text ≠ [] ∧ 0 ∉ sample_text ∧ token_boundary [32, 120] ∧
      (quoted_field STR_comment (slashdup sample_text) ++ [32, 120]).length < VIKING_LINE_SIZE) ∧
    scan_tag (quoted_field STR_comment (slashdup sample_text) ++ [32, 120]) false false =
      ([32, 120], false, false) ∧
    deslashndup (slashdup sample_text ++ 34 :: [32, 120]) (slashdup sample_text).length =
      some (some (crlf_to_space sample_text)) :=
  have hb : token_boundary [32, 120] := Or.inr ⟨32, [120], rfl, by decide⟩
  have h := quoted_text_field_roundtrip sample_env (init_state sample_env ⟨none, none⟩ [] []).acc
    STR_comment sample_text [32, 120] 0 (by decide) (by decide) (by decide) hb (by decide)
  ⟨⟨by decide, by decide, by decide, hb, by decide⟩, h.1, h.2.2.2.2⟩

/-- C3 (amended). Serialising a collection with `a_gpspoint_write_file` and
parsing the written text with `a_gpspoint_read_file` into an empty store
returns, and the store then holds the written waypoints in their order, and
the written tracks followed by the written routes in their order, with CR and
LF replaced by spaces in the names and texts: for each waypoint the name, the
coordinate, the visibility, the altitude, the timestamp, the comment, the
description, the source and the type are the written ones, and for each track
or route the name, the visibility, the route flag, the comment, the
description, the source, the type and every field of every point, in order.
This holds when each entity has a non-empty name, its texts are non-empty C
strings, each written line fits the line buffer, each number is written as text
that is read back to the same value, a point without speed, course and
satellites has no other extended field set, and new entities start without
texts (`waypoint_ok`, `track_ok`, `trackpoint_ok`, `new_entities_blank`). -/
theorem write_then_read_recovers_collection {D : Type} (env : Env D) (latlon : LatLon D)
    (waypoints : List (Waypoint D)) (tracks routes : List (Track D))
    (hb : new_entities_blank env) (hw : ∀ wp ∈ waypoints, waypoint_ok env wp)
    (ht : ∀ t ∈ tracks, track_ok env t) (hr : ∀ t ∈ routes, track_ok env t) :
    ∃ st, a_gpspoint_read_file env latlon [] []
        (a_gpspoint_write_file env waypoints tracks routes) = some st ∧
      st.waypoints.map waypoint_view =
        waypoints.map (fun wp => waypoint_view (normalised_waypoint wp)) ∧
      st.tracks.map track_view =
        (tracks ++ routes).map (fun t => track_view (normalised_track t)) := by
  obtain ⟨r, hr1, hwv, htv⟩ := read_lines_in_order_written_file env hb latlon waypoints tracks
    routes hw ht hr
  obtain ⟨c1, hc1⟩ := read_lines_terminates env
    (fgets_chunks (a_gpspoint_write_file env waypoints tracks routes) [])
    (init_state env latlon [] []) (fgets_chunks_length_le _ [] (by simp [VIKING_LINE_SIZE]))
  have h0 : in_order_rel (init_state env latlon [] []) (init_state env latlon [] []) :=
    ⟨rfl, rfl, rfl, rfl, rfl⟩
  obtain ⟨r1, hr2, hrel⟩ := in_order_rel_read_lines env _ _ _ c1 h0 hc1
  have hrr : r1 = r := by
    rw [hr1] at hr2
    exact (Option.some.inj hr2).symm
  subst hrr
  refine ⟨trackpoints_end c1, by simp [a_gpspoint_read_file, hc1], ?_, ?_⟩
  · rw [trackpoints_end_waypoints, hrel.2.2.1]
    exact hwv
  · rw [tracks_eq_after_end c1 r1 hrel]
    obtain ⟨c, hc⟩ := trackpoints_end_in_order_eq r1
    rw [hc]
    exact htv

theorem write_then_read_recovers_collection_witness :
    (new_entities_blank sample_env ∧
      (∀ wp ∈ [sample_roundtrip_waypoint], waypoint_ok sample_env wp) ∧
      (∀ t ∈ [sample_roundtrip_track], track_ok sample_env t) ∧
      (∀ t ∈ [sample_roundtrip_route], track_ok sample_env t)) ∧
    ∃ st, a_gpspoint_read_file sample_env ⟨none, none⟩ [] []
        (a_gpspoint_write_file sample_env [sample_roundtrip_waypoint] [sample_roundtrip_track]
          [sample_roundtrip_route]) = some st ∧
      st.waypoints.map waypoint_view =
        [sample_roundtrip_waypoint].map (fun wp => waypoint_view (normalised_waypoint wp)) ∧
      st.tracks.map track_view =
        ([sample_roundtrip_track] ++ [sample_roundtrip_route]).map
          (fun t => track_view (normalised_track t)) :=
  have hw : ∀ wp ∈ [sample_roundtrip_waypoint], waypoint_ok sample_env wp := fun wp h => by
    rw [List.mem_singleton.1 h]
    exact sample_roundtrip_waypoint_ok
  have ht : ∀ t ∈ [sample_roundtrip_track], track_ok sample_env t := fun t h => by
    rw [List.mem_singleton.1 h]
    exact sample_roundtrip_track_ok
  have hr : ∀ t ∈ [sample_roundtrip_route], track_ok sample_env t := fun t h => by
    rw [List.mem_singleton.1 h]
    exact sample_roundtrip_route_ok
  ⟨⟨sample_env_blank, hw, ht, hr⟩,
    write_then_read_recovers_collection sample_env ⟨none, none⟩ [sample_roundtrip_waypoint]
      [sample_roundtrip_track] [sample_roundtrip_route] sample_env_blank hw ht hr⟩

/-- C3 as stated fails on a point that has an HDOP and no speed, course and
satellite count: the serializer writes the extended fields only when one of
those three is set, so the written track is read back with the HDOP of the
point unset. -/
theorem hdop_without_speed_not_recovered :
    hdop_only_point.hdop = some [51] ∧
    (a_gpspoint_read_file sample_env ⟨none, none⟩ [] []
      (a_gpspoint_write_file sample_env [] [hdop_only_track] [])).map
        (fun st => st.tracks.map (fun t => t.trackpoints.map (fun p => p.hdop))) =
      some [[none]] := by
  decide

/-- C4. For every input, `a_gpspoint_read_file` returns, and every track and
route then holds exactly the points that were put on it while it was the open
track (`current_track`), in input line order: the final store is the one of the
reader that puts each point at the end of the open track's list and never
reorders. This covers every way a track is closed (end line, next named
waypoint, track or route, the `~EndLayerData` sentinel, end of input). -/
theorem read_file_points_in_input_order {D : Type} (env : Env D) (latlon : LatLon D)
    (waypoints : List (Waypoint D)) (tracks : List (Track D)) (input : List Nat) :
    ∃ st ref, a_gpspoint_read_file env latlon waypoints tracks input = some st ∧
      read_file_in_order env latlon waypoints tracks input = some ref ∧
      st.tracks = ref.tracks ∧ st.waypoints = ref.waypoints ∧
      st.have_read_something = ref.have_read_something := by
  obtain ⟨c1, hc1⟩ := read_lines_terminates env (fgets_chunks input [])
    (init_state env latlon waypoints tracks)
    (fgets_chunks_length_le input [] (by simp [VIKING_LINE_SIZE]))
  have h0 : in_order_rel (init_state env latlon waypoints tracks)
      (init_state env latlon waypoints tracks) := ⟨rfl, rfl, rfl, rfl, rfl⟩
  obtain ⟨r1, hr1, hrel⟩ := in_order_rel_read_lines env _ _ _ c1 h0 hc1
  refine ⟨trackpoints_end c1, trackpoints_end_in_order r1, ?_, ?_, tracks_eq_after_end c1 r1 hrel,
    ?_, ?_⟩
  · simp [a_gpspoint_read_file, hc1]
  · simp [read_file_in_order, hr1]
  · exact (in_order_rel_trackpoints_end c1 r1 hrel).2.2.1
  · exact (in_order_rel_trackpoints_end c1 r1 hrel).2.2.2.1

/-- C5. A line whose record type is trackpoint or routepoint, read while no
track is open, is ignored: the line is processed to its end, the waypoints and
the tracks of the destination store are unchanged (no point is created or
put on a track), no track is open afterwards, and `have_read_something` keeps
its value. -/
theorem point_line_without_open_track_ignored {D : Type} (env : Env D) (st : RState D)
    (line : List Nat)
    (htype : line_type_of env line st.acc = some GPSPOINT_TYPE_TRACKPOINT ∨
      line_type_of env line st.acc = some GPSPOINT_TYPE_ROUTEPOINT)
    (hcur : st.current_track = none) :
    ∃ st1, process_line env line st = some st1 ∧ st1.waypoints = st.waypoints ∧
      st1.tracks = st.tracks ∧ st1.current_track = none ∧
      st1.have_read_something = st.have_read_something := by
  unfold line_type_of at htype
  cases hacc : line_acc env line st.acc with
  | none => rw [hacc] at htype; simp at htype
  | some acc =>
    rw [hacc] at htype
    simp only [Option.map_some', Option.some.injEq] at htype
    rw [process_line_eq_map, hacc]
    have hp := process_record_point_no_track env { st with acc := acc } htype hcur
    refine ⟨_, rfl, ?_, ?_, ?_, ?_⟩
    · simp only [hp]
    · simp only [hp]
    · simp only [hp]; exact hcur
    · simp only [hp]

theorem point_line_without_open_track_ignored_witness :
    ((line_type_of sample_env sample_point_line sample_init.acc = some GPSPOINT_TYPE_TRACKPOINT ∨
        line_type_of sample_env sample_point_line sample_init.acc =
          some GPSPOINT_TYPE_ROUTEPOINT) ∧
      sample_init.current_track = none) ∧
    ∃ st1, process_line sample_env sample_point_line sample_init = some st1 ∧
      st1.waypoints = sample_init.waypoints ∧ st1.tracks = sample_init.tracks ∧
      st1.current_track = none ∧
      st1.have_read_something = sample_init.have_read_something :=
  ⟨⟨Or.inl (by decide), rfl⟩,
    point_line_without_open_track_ignored sample_env sample_init sample_point_line
      (Or.inl (by decide)) rfl⟩

/-- C6. A line of the line buffer that has no name key, in particular a
type=waypoint line, whatever its other keys, is processed to its end without
adding a waypoint to the destination store (`line_name` is NULL at the start
of every line, and is NULL again after the line). -/
theorem line_without_name_adds_no_waypoint {D : Type} (env : Env D) (st : RState D)
    (line : List Nat) (hfit : line.length < VIKING_LINE_SIZE) (hname : st.acc.line_name = none)
    (hlack : line_lacks_key line 4 STR_name) :
    ∃ st1, process_line env line st = some st1 ∧ st1.waypoints = st.waypoints ∧
      st1.acc.line_name = none := by
  obtain ⟨acc, hacc⟩ := line_acc_terminates env line st.acc hfit
  have hfr := line_acc_frame env (fun a => a.line_name) 1 4 STR_name rfl
    (key_action_frame_line_name env) (fun _ _ => rfl) line st.acc acc hlack hacc
  simp only at hfr
  rw [process_line_eq_map, hacc]
  refine ⟨_, rfl, ?_, rfl⟩
  exact (process_record_no_name env { st with acc := acc } (by rw [hfr]; exact hname)).1

theorem line_without_name_adds_no_waypoint_witness :
    (sample_nameless_waypoint_line.length < VIKING_LINE_SIZE ∧
      sample_init.acc.line_name = none ∧
      line_lacks_key sample_nameless_waypoint_line 4 STR_name ∧
      line_type_of sample_env sample_nameless_waypoint_line sample_init.acc =
        some GPSPOINT_TYPE_WAYPOINT) ∧
    ∃ st1, process_line sample_env sample_nameless_waypoint_line sample_init = some st1 ∧
      st1.waypoints = sample_init.waypoints ∧ st1.acc.line_name = none :=
  have hl : line_lacks_key sample_nameless_waypoint_line 4 STR_name := by
    unfold line_lacks_key; decide
  ⟨⟨by decide, rfl, hl, by decide⟩,
    line_without_name_adds_no_waypoint sample_env sample_init sample_nameless_waypoint_line
      (by decide) rfl hl⟩

/-- C7 fails on the code: on the line `type="waypoint" name="\"` the value of
`name` is one backslash, `deslashndup` returns the empty string (not NULL) for
it, and the reader registers a waypoint under the empty name. -/
theorem lone_backslash_name_registers_empty_name :
    (a_gpspoint_read_file sample_env ⟨none, none⟩ [] [] lone_backslash_name_file).map
        (fun st => (st.waypoints.map (fun w => w.name), st.have_read_something)) =
      some ([some []], true) ∧
    deslashndup [92, 34] 1 = some (some []) := by
  decide

/-- C8 fails on the code: `trackpoints_end` clears `current_track` only when
the open track has a point. After `type="track" name="T"` and `type="trackend"`
the track `T` is still the open track, and the point line that follows is put
on it. -/
theorem trackend_leaves_empty_track_open :
    (read_lines sample_env (fgets_chunks empty_track_file []) sample_init).map
        (fun st => (st.current_track, st.tracks.map (fun t => t.trackpoints.length))) =
      some (some 0, [0]) ∧
    (a_gpspoint_read_file sample_env ⟨none, none⟩ [] [] point_after_trackend_file).map
        (fun st => st.tracks.map (fun t => (t.name, t.trackpoints.length))) =
      some [(some [84], 1)] := by
  decide

/-- C9. A record is visible by default: `line_visible` is TRUE after the reset
at the end of every line, a line without a visible key keeps it, and the
waypoint and the track built from the line take it as their visibility. The
dispatcher, for the key visible (in any case) with a non-NULL value, sets
`line_visible` to FALSE when the first character of the value is none of
y, Y, t, T and changes nothing when it is one of them; once FALSE,
`line_visible` stays FALSE to the end of the line. -/
theorem visible_key_rule {D : Type} (env : Env D) (acc : Acc D) (key : List Nat) (key_len : Nat)
    (v : List Nat) (value_len : Nat) (hkey : key_is key key_len 7 STR_visible = true) :
    (Acc.reset env acc).line_visible = true ∧
    (build_waypoint env acc).visible = acc.line_visible ∧
    (build_track env acc).visible = acc.line_visible ∧
    ((cget v 0 ≠ 121 ∧ cget v 0 ≠ 89 ∧ cget v 0 ≠ 116 ∧ cget v 0 ≠ 84) →
      gpspoint_process_key_and_value env acc key key_len (some v) value_len =
        some { acc with line_visible := false }) ∧
    ((cget v 0 = 121 ∨ cget v 0 = 89 ∨ cget v 0 = 116 ∨ cget v 0 = 84) →
      gpspoint_process_key_and_value env acc key key_len (some v) value_len = some acc) ∧
    (∀ (line : List Nat) (a1 : Acc D), acc.line_visible = true →
      line_lacks_key line 7 STR_visible → line_acc env line acc = some a1 →
      a1.line_visible = true) ∧
    (∀ (line : List Nat) (a1 : Acc D), acc.line_visible = false →
      line_acc env line acc = some a1 → a1.line_visible = false) := by
  refine ⟨rfl, rfl, rfl, ?_, ?_, ?_, ?_⟩
  · intro hc
    rw [process_key_and_value_visible env acc key key_len v value_len hkey, if_pos hc]
  · intro hc
    rw [process_key_and_value_visible env acc key key_len v value_len hkey, if_neg (by omega)]
  · intro line a1 hv hl ha
    have := line_acc_frame env (fun a => a.line_visible) 15 7 STR_visible rfl
      (key_action_frame_line_visible env) (fun _ _ => rfl) line acc a1 hl ha
    simp only at this
    rw [this, hv]
  · intro line a1 hv ha
    exact line_acc_invariant env (fun a => a.line_visible = false)
      (fun a a2 k kl val vl h0 h => process_key_and_value_keeps_hidden env a a2 k kl val vl h0 h)
      line acc a1 hv ha

theorem visible_key_rule_witness :
    key_is [86, 105, 115, 105, 98, 108, 101, 61, 34, 110, 34] 7 7 STR_visible = true ∧
    gpspoint_process_key_and_value sample_env sample_init.acc
        [86, 105, 115, 105, 98, 108, 101, 61, 34, 110, 34] 7 (some [110, 34]) 1 =
      some { sample_init.acc with line_visible := false } ∧
    gpspoint_process_key_and_value sample_env sample_init.acc
        [86, 105, 115, 105, 98, 108, 101, 61, 34, 110, 34] 7 (some [84, 34]) 1 =
      some sample_init.acc :=
  ⟨by decide,
    (visible_key_rule sample_env sample_init.acc [86, 105, 115, 105, 98, 108, 101, 61, 34, 110, 34]
      7 [110, 34] 1 (by decide)).2.2.2.1 (by decide),
    (visible_key_rule sample_env sample_init.acc [86, 105, 115, 105, 98, 108, 101, 61, 34, 110, 34]
      7 [84, 34] 1 (by decide)).2.2.2.2.1 (by decide)⟩

/-- C10. A line whose record type is waypoint and whose name is `N`, read with
the `line_*` variables at their reset values (as at the start of every line),
is processed to its end and registers exactly one waypoint, under `N`, and no
track; the waypoint's coordinate is `line_latlon` as the line's latitude and
longitude keys left it, its visibility is `line_visible` as the visible key
left it, and altitude, timestamp, comment, description, source, classification
(xtype), image and symbol are unset (NAN, or as `vik_waypoint_new` made them)
whenever the line does not carry the matching key. -/
theorem waypoint_line_registers_one_waypoint {D : Type} (env : Env D) (st : RState D)
    (line N : List Nat) (hreset : st.acc = Acc.reset env st.acc)
    (htype : line_type_of env line st.acc = some GPSPOINT_TYPE_WAYPOINT)
    (hname : line_name_of env line st.acc = some (some N)) :
    ∃ st1 acc1 wp, line_acc env line st.acc = some acc1 ∧
      process_line env line st = some st1 ∧
      st1.waypoints = st.waypoints ++ [wp] ∧ st1.tracks.length = st.tracks.length ∧
      st1.have_read_something = true ∧
      wp.name = some N ∧ wp.coord = acc1.line_latlon ∧ wp.visible = acc1.line_visible ∧
      (line_lacks_key line 8 STR_altitude → wp.altitude = env.NAN) ∧
      (line_lacks_key line 8 STR_unixtime → wp.timestamp = env.NAN) ∧
      (line_lacks_key line 7 STR_comment → wp.comment = env.vik_waypoint_new.comment) ∧
      (line_lacks_key line 11 STR_description →
        wp.description = env.vik_waypoint_new.description) ∧
      (line_lacks_key line 6 STR_source → wp.source = env.vik_waypoint_new.source) ∧
      (line_lacks_key line 5 STR_xtype → wp.type = env.vik_waypoint_new.type) ∧
      (line_lacks_key line 5 STR_image → wp.image = env.vik_waypoint_new.image) ∧
      (line_lacks_key line 6 STR_symbol → wp.symbol = env.vik_waypoint_new.symbol) := by
  unfold line_type_of at htype
  unfold line_name_of at hname
  cases hacc : line_acc env line st.acc with
  | none => rw [hacc] at htype; simp at htype
  | some acc1 =>
    rw [hacc] at htype hname
    simp only [Option.map_some', Option.some.injEq] at htype hname
    have hrec := process_record_waypoint env { st with acc := acc1 } htype
      (by simp only [hname]; simp)
    have hte : ∀ s : RState D, (trackpoints_end s).tracks.length = s.tracks.length := by
      intro s
      unfold trackpoints_end
      split
      · rfl
      · split
        · rfl
        · split_ifs
          · exact update_at_length _ _ _
          · rfl
    have hpl := process_line_eq_map env line st
    rw [hacc] at hpl
    simp only [Option.map_some'] at hpl
    refine ⟨_, acc1, build_waypoint env acc1, rfl, hpl, ?_, ?_, ?_, hname, rfl, rfl, ?_, ?_, ?_,
      ?_, ?_, ?_, ?_, ?_⟩
    · simp only [hrec]
    · simp only [hrec]
      exact hte _
    · simp only [hrec]
    · intro hl
      have := line_acc_frame env (fun a => a.line_altitude) 14 8 STR_altitude rfl
        (key_action_frame_line_altitude env) (fun _ _ => rfl) line st.acc acc1 hl hacc
      simp only at this
      show acc1.line_altitude = env.NAN
      rw [this, hreset]; rfl
    · intro hl
      have := line_acc_frame env (fun a => a.line_timestamp) 17 8 STR_unixtime rfl
        (key_action_frame_line_timestamp env) (fun _ _ => rfl) line st.acc acc1 hl hacc
      simp only at this
      show acc1.line_timestamp = env.NAN
      rw [this, hreset]; rfl
    · intro hl
      have := line_acc_frame env (fun a => a.line_comment) 2 7 STR_comment rfl
        (key_action_frame_line_comment env) (fun _ _ => rfl) line st.acc acc1 hl hacc
      simp only at this
      have h0 : acc1.line_comment = none := by rw [this, hreset]; rfl
      simp [build_waypoint, h0]
    · intro hl
      have := line_acc_frame env (fun a => a.line_description) 3 11 STR_description rfl
        (key_action_frame_line_description env) (fun _ _ => rfl) line st.acc acc1 hl hacc
      simp only at this
      have h0 : acc1.line_description = none := by rw [this, hreset]; rfl
      simp [build_waypoint, h0]
    · intro hl
      have := line_acc_frame env (fun a => a.line_source) 4 6 STR_source rfl
        (key_action_frame_line_source env) (fun _ _ => rfl) line st.acc acc1 hl hacc
      simp only at this
      have h0 : acc1.line_source = none := by rw [this, hreset]; rfl
      simp [build_waypoint, h0]
    · intro hl
      have := line_acc_frame env (fun a => a.line_xtype) 5 5 STR_xtype rfl
        (key_action_frame_line_xtype env) (fun _ _ => rfl) line st.acc acc1 hl hacc
      simp only at this
      have h0 : acc1.line_xtype = none := by rw [this, hreset]; rfl
      simp [build_waypoint, h0]
    · intro hl
      have := line_acc_frame env (fun a => a.line_image) 9 5 STR_image rfl
        (key_action_frame_line_image env) (fun _ _ => rfl) line st.acc acc1 hl hacc
      simp only at this
      have h0 : acc1.line_image = none := by rw [this, hreset]; rfl
      simp [build_waypoint, h0]
    · intro hl
      have := line_acc_frame env (fun a => a.line_symbol) 16 6 STR_symbol rfl
        (key_action_frame_line_symbol env) (fun _ _ => rfl) line st.acc acc1 hl hacc
      simp only at this
      have h0 : acc1.line_symbol = none := by rw [this, hreset]; rfl
      simp [build_waypoint, h0]

theorem waypoint_line_registers_one_waypoint_witness :
    (sample_init.acc = Acc.reset sample_env sample_init.acc ∧
      line_type_of sample_env sample_waypoint_line sample_init.acc =
        some GPSPOINT_TYPE_WAYPOINT ∧
      line_name_of sample_env sample_waypoint_line sample_init.acc = some (some [65])) ∧
    (∃ st1 acc1 wp, line_acc sample_env sample_waypoint_line sample_init.acc = some acc1 ∧
      process_line sample_env sample_waypoint_line sample_init = some st1 ∧
      st1.waypoints = sample_init.waypoints ++ [wp] ∧
      st1.tracks.length = sample_init.tracks.length ∧
      st1.have_read_something = true ∧
      wp.name = some [65] ∧ wp.coord = acc1.line_latlon ∧ wp.visible = acc1.line_visible ∧
      (line_lacks_key sample_waypoint_line 8 STR_altitude → wp.altitude = sample_env.NAN) ∧
      (line_lacks_key sample_waypoint_line 8 STR_unixtime → wp.timestamp = sample_env.NAN) ∧
      (line_lacks_key sample_waypoint_line 7 STR_comment →
        wp.comment = sample_env.vik_waypoint_new.comment) ∧
      (line_lacks_key sample_waypoint_line 11 STR_description →
        wp.description = sample_env.vik_waypoint_new.description) ∧
      (line_lacks_key sample_waypoint_line 6 STR_source →
        wp.source = sample_env.vik_waypoint_new.source) ∧
      (line_lacks_key sample_waypoint_line 5 STR_xtype →
        wp.type = sample_env.vik_waypoint_new.type) ∧
      (line_lacks_key sample_waypoint_line 5 STR_image →
        wp.image = sample_env.vik_waypoint_new.image) ∧
      (line_lacks_key sample_waypoint_line 6 STR_symbol →
        wp.symbol = sample_env.vik_waypoint_new.symbol)) ∧
    (process_line sample_env sample_waypoint_line sample_init).map (fun st => st.waypoints) =
      some [sample_waypoint] :=
  ⟨⟨by decide, by decide, by decide⟩,
    waypoint_line_registers_one_waypoint sample_env sample_init sample_waypoint_line [65]
      (by decide) (by decide) (by decide),
    by decide⟩

/-- C11. A line whose record type is track or route and whose name is `N`,
read at the start of a line (the `line_*` variables at their reset values), is
processed to its end: the track that was open is closed, a new entity named
`N` without points is registered behind the registered ones, it is a route
exactly when the record type is route, and it is the open track. Every point
line (record type trackpoint or routepoint) read after it, up to the next
line of another kind, puts one point on it: after those lines the store holds
the same waypoints and the same tracks as before, except that the new entity
has as many points as there were point lines, and it is still the open
track. -/
theorem track_line_opens_track {D : Type} (env : Env D) (st : RState D) (line N : List Nat)
    (hreset : st.acc = Acc.reset env st.acc)
    (htype : line_type_of env line st.acc = some GPSPOINT_TYPE_TRACK ∨
      line_type_of env line st.acc = some GPSPOINT_TYPE_ROUTE)
    (hname : line_name_of env line st.acc = some (some N)) :
    ∃ st1 trk, process_line env line st = some st1 ∧
      st1.tracks = (trackpoints_end st).tracks ++ [trk] ∧
      (trackpoints_end st).tracks.length = st.tracks.length ∧
      st1.waypoints = st.waypoints ∧ st1.current_track = some st.tracks.length ∧
      st1.have_read_something = true ∧
      trk.name = some N ∧ trk.trackpoints = [] ∧
      (trk.is_route = true ↔ line_type_of env line st.acc = some GPSPOINT_TYPE_ROUTE) ∧
      ∀ points : List (List Nat),
        (∀ l ∈ points, l.length < VIKING_LINE_SIZE ∧
          (line_type_of env l st.acc = some GPSPOINT_TYPE_TRACKPOINT ∨
            line_type_of env l st.acc = some GPSPOINT_TYPE_ROUTEPOINT)) →
        ∃ st2 pts, points.foldlM (fun s l => process_line env l s) st1 = some st2 ∧
          pts.length = points.length ∧
          st2.tracks = (trackpoints_end st).tracks ++ [{ trk with trackpoints := pts }] ∧
          st2.current_track = some st.tracks.length ∧ st2.waypoints = st.waypoints := by
  unfold line_type_of at htype
  unfold line_name_of at hname
  cases hacc : line_acc env line st.acc with
  | none => rw [hacc] at hname; simp at hname
  | some acc1 =>
    rw [hacc] at htype hname
    simp only [Option.map_some', Option.some.injEq] at htype hname
    have hnn : acc1.line_name ≠ none := by
      rw [hname]
      exact Option.some_ne_none N
    have hpl := process_line_track env line st acc1 hacc htype hnn
    have hl := trackpoints_end_tracks_length st
    have h0 : st.acc.line_type = GPSPOINT_TYPE_NONE := by
      rw [hreset]
      rfl
    refine ⟨_, build_track env acc1, hpl, rfl, hl, rfl, rfl, rfl, ?_, rfl, ?_, ?_⟩
    · simp only [build_track, hname]
      rw [if_neg (Option.some_ne_none N)]
    · unfold line_type_of
      rw [hacc]
      simp [build_track]
    · intro points hpts
      obtain ⟨s2, pts, hf, hlen, ht2, hc2, hw2⟩ := point_lines_fold env st.acc h0
        (trackpoints_end st).tracks st.waypoints points hpts
        { acc := Acc.reset env acc1, current_track := some st.tracks.length,
          waypoints := st.waypoints,
          tracks := (trackpoints_end st).tracks ++ [build_track env acc1],
          have_read_something := true }
        (build_track env acc1) rfl (by rw [hl]) rfl rfl
      refine ⟨s2, pts, hf, hlen, ?_, ?_, hw2⟩
      · rw [ht2]
        simp [build_track]
      · rw [hc2, hl]

theorem track_line_opens_track_witness :
    (sample_init.acc = Acc.reset sample_env sample_init.acc ∧
      line_type_of sample_env sample_track_line sample_init.acc = some GPSPOINT_TYPE_TRACK ∧
      line_name_of sample_env sample_track_line sample_init.acc = some (some [84, 49])) ∧
    (∃ st1 trk st2 pts, process_line sample_env sample_track_line sample_init = some st1 ∧
      st1.tracks = (trackpoints_end sample_init).tracks ++ [trk] ∧
      st1.current_track = some sample_init.tracks.length ∧
      trk.name = some [84, 49] ∧ trk.trackpoints = [] ∧
      [sample_track_point_line].foldlM (fun s l => process_line sample_env l s) st1 = some st2 ∧
      pts.length = [sample_track_point_line].length ∧
      st2.tracks = (trackpoints_end sample_init).tracks ++ [{ trk with trackpoints := pts }] ∧
      st2.current_track = some sample_init.tracks.length) ∧
    (a_gpspoint_read_file sample_env ⟨none, none⟩ [] [] track_example_file).map
        (fun st => st.tracks.map (fun t => (t.name, t.is_route, t.trackpoints.length))) =
      some [(some [84, 49], false, 1)] ∧
    (a_gpspoint_read_file sample_env ⟨none, none⟩ [] [] track_example_file).map
        (fun st => st.tracks.map (fun t => t.trackpoints.map (fun p => p.coord))) =
      some [[⟨some [49, 46, 48], some [49, 46, 48]⟩]] :=
  have h := track_line_opens_track sample_env sample_init sample_track_line [84, 49] rfl
    (Or.inl (by decide)) (by decide)
  ⟨⟨rfl, by decide, by decide⟩,
    (let ⟨st1, trk, h1, h2, _, _, h5, _, h7, h8, _, h10⟩ := h
     let ⟨st2, pts, g1, g2, g3, g4, _⟩ := h10 [sample_track_point_line]
       (fun l hl => by
         rw [List.mem_singleton.1 hl]
         exact ⟨by decide, Or.inl (by decide)⟩)
     ⟨st1, trk, st2, pts, h1, h2, h5, h7, h8, g1, g2, g3, g4⟩),
    by decide, by decide⟩

/-- C12 fails on the code: the track branch is entered only with a name
(`&& line_name`), so the statement that puts "UNK" in place of a missing name
is never reached with a missing name. On the file of the lines `type="track"`
and `type="trackpoint" latitude="1" longitude="2"` nothing is registered, no
track is open and the result is FALSE, although the track built from a line
without a name would be named "UNK". -/
theorem nameless_track_line_registers_nothing :
    (a_gpspoint_read_file sample_env ⟨none, none⟩ [] [] nameless_track_file).map
        (fun st => (st.tracks.map (fun t => t.name), st.current_track, st.waypoints.length,
          st.have_read_something)) =
      some ([], none, 0, false) ∧
    (build_track sample_env sample_init.acc).name = some STR_UNK := by
  decide

/-- C13 fails on the code: the statements at the end of a line reset every
`line_*` variable except `line_latlon`. On the file of the lines
`type="waypoint" latitude="1" longitude="2" name="A"` and
`type="waypoint" name="B"` the waypoint `B`, whose line has no coordinate, is
registered at the coordinate of the line before it. -/
theorem coordinate_leaks_into_next_line :
    (a_gpspoint_read_file sample_env ⟨none, none⟩ [] [] stale_latlon_file).map
        (fun st => st.waypoints.map (fun w => (w.name, w.coord))) =
      some [(some [65], ⟨some [49], some [50]⟩), (some [66], ⟨some [49], some [50]⟩)] ∧
    (∀ acc : Acc (Option (List Nat)),
      (Acc.reset sample_env acc).line_latlon = acc.line_latlon) := by
  refine ⟨by decide, fun _ => rfl⟩

/-- C14, as amended: `a_gpspoint_read_file` returns on every input, and its
result is true exactly when the store holds more records than before the call
(a line that was read registered a waypoint, registered a track or route, or
attached a point to the open track) or a line of the input starts with
`~EndLayerData`; it is false otherwise. The final store never holds fewer
records than the initial one. -/
theorem read_result_iff_record_or_sentinel {D : Type} (env : Env D) (latlon : LatLon D)
    (waypoints : List (Waypoint D)) (tracks : List (Track D)) (input : List Nat) :
    ∃ st, a_gpspoint_read_file env latlon waypoints tracks input = some st ∧
      store_size (init_state env latlon waypoints tracks) ≤ store_size st ∧
      (st.have_read_something = true ↔
        (store_size (init_state env latlon waypoints tracks) < store_size st ∨
          ∃ buf ∈ fgets_chunks input [], STR_EndLayerData <+: chop buf)) := by
  have hv0 : current_track_valid (init_state env latlon waypoints tracks) := by
    intro k hk
    simp [init_state] at hk
  obtain ⟨st1, h1, hv1, hn1, hiff1⟩ := read_lines_size env
    (store_size (init_state env latlon waypoints tracks)) (fgets_chunks input [])
    (init_state env latlon waypoints tracks)
    (fgets_chunks_length_le input [] (by simp [VIKING_LINE_SIZE])) hv0 (le_refl _)
    (by simp [init_state])
  obtain ⟨e1, e2, _⟩ := trackpoints_end_size st1 hv1
  refine ⟨trackpoints_end st1, ?_, ?_, ?_⟩
  · unfold a_gpspoint_read_file
    rw [h1]
    rfl
  · rw [e1]
    exact hn1
  · rw [e1, e2, hiff1]
    simp only [is_sentinel_iff_starts_with]

/-- C14, counterexample: the input of the one line `~EndLayerData` registers no
waypoint, no track and no point, and the reader returns true. -/
theorem sentinel_alone_reads_true :
    (a_gpspoint_read_file sample_env ⟨none, none⟩ [] [] sentinel_only_file).map
        (fun st => (st.have_read_something, st.waypoints.length, st.tracks.length)) =
      some (true, 0, 0) := by
  decide

/-- C15 (amended). The tag parser treats a token with nothing behind the `=`
as a value that is present and has length 0: the dispatcher is called with a
non-NULL value that starts behind the token, so `newsegment=` sets the
new-segment flag, `extended=` sets the extended flag and `visible=` hides the
record, while `name=` gives no name. It treats a token `key=""` as a value
that is absent: the dispatcher is called with NULL, every key other than
`type` has no effect, and `type=""` sets the record type to None. -/
theorem bare_equals_is_empty_value_and_empty_quotes_no_value {D : Type} (env : Env D)
    (acc : Acc D) (rest : List Nat) (hrest : token_boundary rest) :
    (∀ key : List Nat, key ≠ [] → 61 ∉ key →
      gpspoint_process_tag env acc (key ++ 61 :: rest) (key.length + 1) =
        gpspoint_process_key_and_value env acc (key ++ 61 :: rest) key.length (some rest) 0) ∧
    gpspoint_process_tag env acc (STR_newsegment ++ 61 :: rest) (STR_newsegment.length + 1) =
      some { acc with line_newsegment := true } ∧
    gpspoint_process_tag env acc (STR_extended ++ 61 :: rest) (STR_extended.length + 1) =
      some { acc with line_extended := true } ∧
    gpspoint_process_tag env acc (STR_visible ++ 61 :: rest) (STR_visible.length + 1) =
      some { acc with line_visible := false } ∧
    gpspoint_process_tag env acc (STR_name ++ 61 :: rest) (STR_name.length + 1) = some acc ∧
    (∀ key : List Nat, key ≠ [] → 61 ∉ key →
      gpspoint_process_tag env acc (quoted_field key [] ++ rest) (quoted_field key []).length =
        gpspoint_process_key_and_value env acc (quoted_field key [] ++ rest) key.length none 0) ∧
    (∀ e ∈ key_table, e.2 ≠ STR_type →
      gpspoint_process_tag env acc (quoted_field e.2 [] ++ rest) (quoted_field e.2 []).length =
        some acc) ∧
    gpspoint_process_tag env acc (quoted_field STR_type [] ++ rest)
        (quoted_field STR_type []).length =
      some { acc with line_type := GPSPOINT_TYPE_NONE } := by
  obtain ⟨h34, h121, h89, h116, h84⟩ := token_boundary_head_ne rest hrest
  refine ⟨fun key hkne hk => process_tag_bare_equals env acc key rest hkne hk h34, ?_, ?_, ?_, ?_,
    fun key hkne hk => process_tag_empty_quoted_field env acc key rest hkne hk, ?_, ?_⟩
  · exact process_tag_bare_equals_table env acc 18 10 STR_newsegment rest rfl h34
  · exact process_tag_bare_equals_table env acc 19 8 STR_extended rest rfl h34
  · rw [process_tag_bare_equals_table env acc 15 7 STR_visible rest rfl h34]
    show (if cget rest 0 ≠ 121 ∧ cget rest 0 ≠ 89 ∧ cget rest 0 ≠ 116 ∧ cget rest 0 ≠ 84 then
      some { acc with line_visible := false } else some acc) = _
    rw [if_pos ⟨h121, h89, h116, h84⟩]
  · rw [process_tag_bare_equals_table env acc 1 4 STR_name rest rfl h34]
    show (if acc.line_name = none then
      (deslashndup rest 0).map (fun r => { acc with line_name := r }) else some acc) = _
    by_cases hn : acc.line_name = none
    · rw [if_pos hn]
      show some ({ acc with line_name := none } : Acc D) = some acc
      rw [acc_set_name_none acc hn]
    · rw [if_neg hn]
  · intro e he hne
    obtain ⟨i, hi, hget⟩ := List.getElem_of_mem he
    have hi2 : key_table[i]? = some (e.1, e.2) := by
      rw [List.getElem?_eq_getElem hi, hget]
    have h0 : i ≠ 0 := by
      intro hz
      subst hz
      apply hne
      rw [← hget]
      rfl
    exact process_tag_table_field_empty env acc i e.1 e.2 rest hi2 h0
  · rw [process_tag_empty_quoted_field env acc STR_type rest (by decide) (by decide),
      process_key_and_value_null, if_pos]
    have := key_is_self_append STR_type (61 :: 34 :: ([] ++ [34]) ++ rest) 4 (by decide)
    simpa [quoted_field] using this

theorem bare_equals_is_empty_value_and_empty_quotes_no_value_witness :
    token_boundary [32, 120] ∧
    gpspoint_process_tag sample_env sample_init.acc (STR_newsegment ++ 61 :: [32, 120])
        (STR_newsegment.length + 1) =
      some { sample_init.acc with line_newsegment := true } ∧
    gpspoint_process_tag sample_env sample_init.acc (quoted_field STR_newsegment [] ++ [32, 120])
        (quoted_field STR_newsegment []).length = some sample_init.acc :=
  have hb : token_boundary [32, 120] := Or.inr ⟨32, [120], rfl, by decide⟩
  have h := bare_equals_is_empty_value_and_empty_quotes_no_value sample_env sample_init.acc
    [32, 120] hb
  ⟨hb, h.2.1, h.2.2.2.2.2.2.1 (10, STR_newsegment) (by decide) (by decide)⟩

/-- C15 as stated fails: on the line `newsegment=` the new-segment flag is set
(the value is present), and on the line `newsegment=""` it is not (the value
is absent); likewise `visible=` hides the record and `visible=""` does not. -/
theorem empty_value_forms_swapped :
    sample_init.acc.line_newsegment = false ∧ sample_init.acc.line_visible = true ∧
    (line_acc sample_env (STR_newsegment ++ [61]) sample_init.acc).map
      (fun a => a.line_newsegment) = some true ∧
    (line_acc sample_env (STR_newsegment ++ [61, 34, 34]) sample_init.acc).map
      (fun a => a.line_newsegment) = some false ∧
    (line_acc sample_env (STR_visible ++ [61]) sample_init.acc).map
      (fun a => a.line_visible) = some false ∧
    (line_acc sample_env (STR_visible ++ [61, 34, 34]) sample_init.acc).map
      (fun a => a.line_visible) = some true := by
  decide

/-- C16. The tag parser drops, leaving every `line_*` variable unchanged, a
token that contains no `=`, and a token whose value (the text behind its first
`=`) opens with a double quote that is not followed by a second double quote
when the last character of the token is not a double quote or is that opening
quote itself (the token ends right behind it, like `comment="`). -/
theorem malformed_token_discarded {D : Type} (env : Env D) (acc : Acc D) (tag : List Nat)
    (len : Nat) :
    ((∀ i, i < len → cget tag i ≠ 61) → gpspoint_process_tag env acc tag len = some acc) ∧
    (∀ e, e < len → cget tag e = 61 → (∀ i, i < e → cget tag i ≠ 61) →
      cget tag (e + 1) = 34 → cget tag (e + 2) ≠ 34 →
      (cget tag (len - 1) ≠ 34 ∨ len = e + 2) →
      gpspoint_process_tag env acc tag len = some acc) :=
  ⟨fun h => process_tag_no_equals env acc tag len (fun i _ hi => h i hi),
    fun e he h61 hfirst hq hq2 hlast =>
      process_tag_open_quote env acc tag len e he h61 hfirst hq hq2 hlast⟩

theorem malformed_token_discarded_witness :
    gpspoint_process_tag sample_env sample_init.acc [99, 111, 109, 109, 101, 110, 116] 7 =
      some sample_init.acc ∧
    gpspoint_process_tag sample_env sample_init.acc
      [99, 111, 109, 109, 101, 110, 116, 61, 34, 97, 98] 11 = some sample_init.acc ∧
    gpspoint_process_tag sample_env sample_init.acc [99, 111, 109, 109, 101, 110, 116, 61, 34] 9 =
      some sample_init.acc :=
  ⟨(malformed_token_discarded sample_env sample_init.acc [99, 111, 109, 109, 101, 110, 116] 7).1
      (by decide),
    (malformed_token_discarded sample_env sample_init.acc
      [99, 111, 109, 109, 101, 110, 116, 61, 34, 97, 98] 11).2 7 (by decide) (by decide)
      (by decide) (by decide) (by decide) (Or.inl (by decide)),
    (malformed_token_discarded sample_env sample_init.acc
      [99, 111, 109, 109, 101, 110, 116, 61, 34] 9).2 7 (by decide) (by decide)
      (by decide) (by decide) (by decide) (Or.inr rfl)⟩

/-- C17. Leading whitespace of a line is skipped: a line gives the same tokens
and the same `line_*` variables as the line without its leading whitespace. A
line whose first non-whitespace character is `#`, and a line that is empty or
all whitespace, yields no token, leaves every `line_*` variable as it is, and,
read at the start of a line (the `line_*` variables at their reset values), is
processed without changing the state: no entity is created and the open track
stays as it is. -/
theorem comment_or_blank_line_ignored {D : Type} (env : Env D) (st : RState D)
    (ws rest : List Nat) (hws : ∀ c ∈ ws, isspace c = true)
    (hrest : rest = [] ∨ ∃ r, rest = 35 :: r) (hreset : st.acc = Acc.reset env st.acc) :
    (∀ (l : List Nat) (acc : Acc D), tokens_of_line (ws ++ l) = tokens_of_line l ∧
      line_acc env (ws ++ l) acc = line_acc env l acc) ∧
    tokens_of_line (ws ++ rest) = [] ∧
    (∀ acc : Acc D, line_acc env (ws ++ rest) acc = some acc) ∧
    process_line env (ws ++ rest) st = some st := by
  have htok : tokens_of_line (ws ++ rest) = [] := by
    rw [tokens_of_line_skip_spaces ws rest hws]
    rcases hrest with rfl | ⟨r, rfl⟩
    · exact tokens_of_line_nil
    · exact tokens_of_line_comment r
  have hacc : ∀ acc : Acc D, line_acc env (ws ++ rest) acc = some acc := by
    intro acc
    rw [line_acc_eq_fold, htok]
    rfl
  exact ⟨fun l acc => ⟨tokens_of_line_skip_spaces ws l hws, line_acc_skip_spaces env ws l hws acc⟩,
    htok, hacc, process_line_of_acc_unchanged env _ st hreset (hacc st.acc)⟩

theorem comment_or_blank_line_ignored_witness :
    ((∀ c ∈ [32, 9], isspace c = true) ∧ ([35, 32, 120] = [] ∨ ∃ r, [35, 32, 120] = 35 :: r) ∧
      sample_init.acc = Acc.reset sample_env sample_init.acc) ∧
    tokens_of_line ([32, 9] ++ [35, 32, 120]) = [] ∧
    process_line sample_env ([32, 9] ++ [35, 32, 120]) sample_init = some sample_init :=
  have h := comment_or_blank_line_ignored sample_env sample_init [32, 9] [35, 32, 120]
    (by decide) (Or.inr ⟨[32, 120], rfl⟩) rfl
  ⟨⟨by decide, Or.inr ⟨[32, 120], rfl⟩, rfl⟩, h.2.1, h.2.2.2⟩

/-- C18, as amended: for every line, every token the tokenizer passes to the
tag parser is non-empty (length at least 1), begins with a character that is
neither whitespace nor NUL, and ends at the end of the line or in front of a
whitespace character. When the token does not begin with a backslash, it
contains a whitespace character only inside quotes, that is behind an opening
unescaped double quote that has not been closed (the closing quote is missing
when the line ends inside the quotes), and the whitespace character that ends
the token is outside quotes: whitespace inside a quoted value never splits the
token. -/
theorem tokens_nonempty_whitespace_inside_quotes (line : List Nat) :
    ∀ t ∈ tokens_of_line line,
      1 ≤ t.2 ∧ t.2 ≤ t.1.length ∧ cget t.1 0 ≠ 0 ∧ isspace (cget t.1 0) = false ∧
      (cget t.1 t.2 = 0 ∨ isspace (cget t.1 t.2) = true) ∧
      (cget t.1 0 ≠ 92 →
        (∀ p, p < t.2 → isspace (cget t.1 p) = true → inside_quotes (t.1.take p) = true) ∧
        (cget t.1 t.2 = 0 ∨ inside_quotes (t.1.take t.2) = false)) := by
  unfold tokens_of_line
  refine line_tokens_forall _ line.length ?_ (line.length + 1) line (le_refl _)
  intro c cs _ h0 hs
  obtain ⟨h1, h2, h3, h4⟩ := token_of_start c cs h0 hs
  exact ⟨h1, h2, by simpa [cget] using h0, by simpa [cget] using hs, h3,
    fun h92 => h4 (by simpa [cget] using h92)⟩

/-- C18, witness: the second token of the line `k="b c" "d e" f` is `"d e"`,
of 5 characters, with its space inside the quotes and the space behind it
outside. -/
theorem tokens_nonempty_whitespace_inside_quotes_witness :
    (tokens_of_line quoted_space_line).map (fun t => t.1.take t.2) =
      [[107, 61, 34, 98, 32, 99, 34], [34, 100, 32, 101, 34], [102]] ∧
    (1 ≤ 5 ∧ 5 ≤ (quoted_space_line.drop 8).length ∧ cget (quoted_space_line.drop 8) 0 ≠ 0 ∧
      isspace (cget (quoted_space_line.drop 8) 0) = false ∧
      (cget (quoted_space_line.drop 8) 5 = 0 ∨
        isspace (cget (quoted_space_line.drop 8) 5) = true)) ∧
    (∀ p, p < 5 → isspace (cget (quoted_space_line.drop 8) p) = true →
      inside_quotes ((quoted_space_line.drop 8).take p) = true) ∧
    (cget (quoted_space_line.drop 8) 5 = 0 ∨
      inside_quotes ((quoted_space_line.drop 8).take 5) = false) ∧
    isspace (cget (quoted_space_line.drop 8) 2) = true :=
  have h := tokens_nonempty_whitespace_inside_quotes quoted_space_line
    (quoted_space_line.drop 8, 5) (by decide)
  ⟨by decide, ⟨h.1, h.2.1, h.2.2.1, h.2.2.2.1, h.2.2.2.2.1⟩,
    (h.2.2.2.2.2 (by decide)).1, (h.2.2.2.2.2 (by decide)).2, by decide⟩

/-- C18, counterexample: the line `a="b c` is one token of 6 characters; its
character 4 is a space, and no double quote follows it: the space is not
between an opening and a closing quote. -/
theorem unclosed_quote_keeps_space_in_token :
    tokens_of_line open_quote_line = [(open_quote_line, 6)] ∧
      isspace (cget open_quote_line 4) = true ∧ 34 ∉ open_quote_line.drop 5 := by
  decide

/-- C19, as amended: in the tokenizer a backslash met with the escape flag
clear, behind a character the scan passes, escapes exactly the next character
for the quote state: the scan arrives at the character after the backslash with
the quote state unchanged and the escape flag clear, so that character does not
toggle the quote state when it is a double quote and starts no escape when it
is a backslash. Unless it is NUL, that character does not end the token when it
is not whitespace or when the scan is inside quotes. Outside quotes a
whitespace character after the backslash ends the token. -/
theorem backslash_escapes_next_char_for_quotes (c x : Nat) (rest : List Nat)
    (inside_quote : Bool) (hc : c ≠ 0) (hpass : isspace c = false ∨ inside_quote = true) :
    scan_tag (c :: 92 :: x :: rest) inside_quote false = scan_tag (x :: rest) inside_quote false ∧
    (x ≠ 0 → (isspace x = false ∨ inside_quote = true) →
      (scan_tag (c :: 92 :: x :: rest) inside_quote false).1.length ≤ rest.length) ∧
    (isspace x = true → inside_quote = false →
      scan_tag (c :: 92 :: x :: rest) inside_quote false = (x :: rest, false, false)) := by
  have h1 : scan_tag (c :: 92 :: x :: rest) inside_quote false =
      scan_tag (x :: rest) inside_quote false := by
    rw [scan_tag, if_pos ⟨hc, hpass⟩, if_pos ⟨by simp [cget], rfl⟩]
    rw [scan_tag, if_pos ⟨by decide, Or.inl (by decide)⟩, if_neg (by simp), if_pos rfl]
  refine ⟨h1, ?_, ?_⟩
  · intro hx hxp
    rw [h1, scan_tag, if_pos ⟨hx, hxp⟩]
    split_ifs <;> exact scan_tag_length_le _ _ _
  · intro hx hq
    subst hq
    rw [h1, scan_tag, if_neg]
    simp [hx]

/-- C19, witness: the character `a`, a backslash and a double quote inside
quotes, as in the line `k="a\" b" z`, whose first token runs over the escaped
quote and the space to the closing quote; and the character `a`, a backslash
and a space outside quotes, where the token ends in front of the space. -/
theorem backslash_escapes_next_char_for_quotes_witness :
    scan_tag (97 :: 92 :: 34 :: [32, 98, 34, 32, 122]) true false =
      scan_tag (34 :: [32, 98, 34, 32, 122]) true false ∧
    (scan_tag (97 :: 92 :: 34 :: [32, 98, 34, 32, 122]) true false).1.length ≤
      [32, 98, 34, 32, 122].length ∧
    scan_tag (97 :: 92 :: 32 :: [98]) false false = (32 :: [98], false, false) ∧
    (tokens_of_line escaped_quote_line).map (fun t => t.1.take t.2) =
      [[107, 61, 34, 97, 92, 34, 32, 98, 34], [122]] :=
  ⟨(backslash_escapes_next_char_for_quotes 97 34 [32, 98, 34, 32, 122] true (by decide)
      (Or.inl (by decide))).1,
    (backslash_escapes_next_char_for_quotes 97 34 [32, 98, 34, 32, 122] true (by decide)
      (Or.inl (by decide))).2.1 (by decide) (Or.inr rfl),
    (backslash_escapes_next_char_for_quotes 97 32 [98] false (by decide)
      (Or.inl (by decide))).2.2 (by decide) rfl,
    by decide⟩

/-- C19, counterexample: in the line `a\ b` the space that follows the
backslash splits the line into the tokens `a\` and `b`. -/
theorem backslash_space_splits_token :
    (tokens_of_line backslash_space_line).map (fun t => t.1.take t.2) = [[97, 92], [98]] := by
  decide

/-- C20: for every line of the line buffer, every token of the line and every
value slice of length at least 1 that the tag parser passes on for it,
`deslashndup` returns the slice with each escaping backslash removed and the
character after it kept literally, with a trailing backslash that has no
following character dropped and every other character kept in order; the
length of the result is the length of the slice minus the number of escaping
backslashes. -/
theorem deslashndup_decodes_value_slice (line : List Nat) (t : List Nat × Nat)
    (key_len n : Nat) (v : List Nat) (hline : line.length < VIKING_LINE_SIZE)
    (ht : t ∈ tokens_of_line line) (hcall : tag_call t.1 t.2 = some (key_len, some v, n))
    (hn : 1 ≤ n) :
    deslashndup v n = some (some (unescape (v.take n))) ∧
      (unescape (v.take n)).length = n - escaping_backslashes (v.take n) := by
  obtain ⟨h1, h2, h3⟩ := token_in_line line t ht
  obtain ⟨h4, h5, h6⟩ := tag_call_slice t.1 t.2 key_len n v h1 hcall
  have hnext : cget v n ≠ 92 := by
    rcases h6 with h | h
    · rw [h]; decide
    · rw [h]
      rcases h3 with h0 | hs
      · rw [h0]; decide
      · intro h92
        rw [h92] at hs
        exact absurd hs (by decide)
  simp only [VIKING_LINE_SIZE] at hline
  refine ⟨deslashndup_slice v n hn h4 (by omega) hnext, ?_⟩
  have := unescape_length (v.take n)
  simp only [List.length_take, Nat.min_eq_left h4] at this
  omega

/-- C20, witness: the first token of the line `comment="a\\b\"c" x` has the
value slice `a\\b\"c` of 7 characters with 2 escaping backslashes, which decodes
to `a\b"c` of 5 characters; the first token of the line `k=a\ x` has the value
slice `a\` of 2 characters, which decodes to `a`. -/
theorem deslashndup_decodes_value_slice_witness :
    (deslashndup (escaped_value_line.drop 9) 7 = some (some [97, 92, 98, 34, 99]) ∧
      [97, 92, 98, 34, 99].length = 7 - 2) ∧
    (deslashndup (dangling_value_line.drop 2) 2 = some (some [97]) ∧ [97].length = 2 - 1) ∧
    unescape ((escaped_value_line.drop 9).take 7) = [97, 92, 98, 34, 99] ∧
    escaping_backslashes ((escaped_value_line.drop 9).take 7) = 2 ∧
    unescape ((dangling_value_line.drop 2).take 2) = [97] ∧
    escaping_backslashes ((dangling_value_line.drop 2).take 2) = 1 := by
  have h := deslashndup_decodes_value_slice escaped_value_line (escaped_value_line, 17) 7 7
    (escaped_value_line.drop 9) (by decide) (by decide) (by decide) (by decide)
  have g := deslashndup_decodes_value_slice dangling_value_line (dangling_value_line, 4) 1 2
    (dangling_value_line.drop 2) (by decide) (by decide) (by decide) (by decide)
  have e1 : unescape ((escaped_value_line.drop 9).take 7) = [97, 92, 98, 34, 99] := by decide
  have e2 : escaping_backslashes ((escaped_value_line.drop 9).take 7) = 2 := by decide
  have e3 : unescape ((dangling_value_line.drop 2).take 2) = [97] := by decide
  have e4 : escaping_backslashes ((dangling_value_line.drop 2).take 2) = 1 := by decide
  rw [e1, e2] at h
  rw [e3, e4] at g
  exact ⟨h, g, e1, e2, e3, e4⟩

/-- C21: for every text (a C string, without NUL bytes), `slashdup` returns the
text with a backslash put in front of every backslash and every double quote,
and with every line feed and carriage return replaced by one space; its length
is the length of the text plus the number of its backslashes and double quotes;
and every double quote in it has an odd number of backslashes directly in front
of it. -/
theorem slashdup_escapes_text (s : List Nat) (h0 : 0 ∉ s) :
    slashdup s = escaped s ∧ (slashdup s).length = s.length + count_special s ∧
      ∀ pre post, slashdup s = pre ++ 34 :: post → trailing_backslashes pre % 2 = 1 := by
  rw [slashdup_eq_escaped s h0]
  exact ⟨rfl, escaped_length s, (escaped_quote_parity s).2⟩

/-- C21, witness: the text `a\"b`, line feed, `c`, carriage return, `\\"` is
escaped to `a\\\"b c \\\\\"`, 5 characters longer; the last double quote has 5
backslashes in front of it. -/
theorem slashdup_escapes_text_witness :
    slashdup sample_raw_text =
      [97, 92, 92, 92, 34, 98, 32, 99, 32, 92, 92, 92, 92, 92, 34] ∧
    (slashdup sample_raw_text).length = sample_raw_text.length + 5 ∧
    count_special sample_raw_text = 5 ∧
    trailing_backslashes [97, 92, 92, 92, 34, 98, 32, 99, 32, 92, 92, 92, 92, 92] % 2 = 1 :=
  have h := slashdup_escapes_text sample_raw_text (by decide)
  have e : count_special sample_raw_text = 5 := by decide
  have e2 : slashdup sample_raw_text =
      [97, 92, 92, 92, 34, 98, 32, 99, 32, 92, 92, 92, 92, 92, 34] := by decide
  ⟨e2, by rw [h.2.1, e], e,
    h.2.2 [97, 92, 92, 92, 34, 98, 32, 99, 32, 92, 92, 92, 92, 92] [] (by rw [e2]; rfl)⟩

/-- C22: the dispatcher takes a key for the `type` key exactly when the whole
key is `type` in any case, and then sets the record type to the one that the
whole value names in any case (None for any other word and for a NULL value);
for every other key it leaves the record type as it is. A line of the line
buffer, read at the start of a line, none of whose tokens has a `type` key that
names one of the seven record types (in particular a line without a `type`
key) leaves the record type at None, and the waypoints, the tracks, the open
track and the result are after the line what they were before. -/
theorem type_key_matched_in_full_any_case {D : Type} (env : Env D) :
    (∀ (acc acc1 : Acc D) (key : List Nat) (key_len : Nat) (value : Option (List Nat))
        (value_len : Nat), key_len ≤ key.length → (∀ v, value = some v → value_len ≤ v.length) →
      gpspoint_process_key_and_value env acc key key_len value value_len = some acc1 →
      acc1.line_type =
        if (key.take key_len).map tolower = STR_type then
          (match value with
           | none => GPSPOINT_TYPE_NONE
           | some v => record_type_of_word (v.take value_len))
        else acc.line_type) ∧
    (∀ (st : RState D) (line : List Nat), line.length < VIKING_LINE_SIZE →
      st.acc = Acc.reset env st.acc →
      (∀ t ∈ tokens_of_line line,
        token_record_type t = none ∨ token_record_type t = some GPSPOINT_TYPE_NONE) →
      line_type_of env line st.acc = some GPSPOINT_TYPE_NONE ∧
        ∃ st1, process_line env line st = some st1 ∧ st1.waypoints = st.waypoints ∧
          st1.tracks = st.tracks ∧ st1.current_track = st.current_track ∧
          st1.have_read_something = st.have_read_something) := by
  constructor
  · intro acc acc1 key key_len value value_len hk hv h
    rw [process_key_and_value_line_type env acc acc1 key key_len value value_len h]
    have hkey : key_is key key_len 4 STR_type = true ↔
        (key.take key_len).map tolower = STR_type := by
      rw [key_is_iff key key_len 4 STR_type rfl (by decide)]
      have hlow : STR_type.map tolower = STR_type := by decide
      rw [hlow]
      constructor
      · rintro ⟨h1, h2⟩
        rw [h1]
        exact h2
      · intro h2
        have hl := congrArg List.length h2
        simp only [List.length_map, List.length_take, STR_type, List.length_cons,
          List.length_nil] at hl
        have : key_len = 4 := by omega
        exact ⟨this, by rw [← this]; exact h2⟩
    by_cases hty : (key.take key_len).map tolower = STR_type
    · rw [if_pos (hkey.mpr hty), if_pos hty]
      cases value with
      | none => rfl
      | some w => exact type_of_value_eq w value_len (hv w rfl)
    · rw [if_neg (fun hh => hty (hkey.mp hh)), if_neg hty]
  · intro st line hfit hreset htok
    obtain ⟨acc1, hacc⟩ := line_acc_terminates env line st.acc hfit
    have h0 : st.acc.line_type = GPSPOINT_TYPE_NONE := by rw [hreset]; rfl
    have hty : acc1.line_type = GPSPOINT_TYPE_NONE := by
      rw [line_acc_eq_fold] at hacc
      exact fold_line_type_none env _ st.acc acc1
        (fun t ht => ⟨(token_in_line line t ht).1, htok t ht⟩) h0 hacc
    refine ⟨by simp [line_type_of, hacc, hty], ?_⟩
    rw [process_line_eq_map, hacc]
    simp only [Option.map_some']
    rw [process_record_none env _ hty]
    exact ⟨_, rfl, rfl, rfl, rfl, rfl⟩

/-- C22, witness: the key `TYPE` with the value `WayPoint` sets the record type
to Waypoint, the key `typ` (the first three characters of the same token) does
not; the lines `type="waypointlist"` and `name="x" latitude="1"` leave the
record type at None and the store as it was. -/
theorem type_key_matched_in_full_any_case_witness :
    ((Acc.reset sample_env sample_init.acc).line_type = GPSPOINT_TYPE_NONE ∧
      (∀ acc1, gpspoint_process_key_and_value sample_env sample_init.acc upper_case_type_token 4
          (some (upper_case_type_token.drop 6)) 8 = some acc1 →
        acc1.line_type = GPSPOINT_TYPE_WAYPOINT) ∧
      (∀ acc1, gpspoint_process_key_and_value sample_env sample_init.acc upper_case_type_token 3
          (some (upper_case_type_token.drop 6)) 8 = some acc1 →
        acc1.line_type = GPSPOINT_TYPE_NONE)) ∧
    (line_type_of sample_env waypointlist_line sample_init.acc = some GPSPOINT_TYPE_NONE ∧
      ∃ st1, process_line sample_env waypointlist_line sample_init = some st1 ∧
        st1.waypoints = [] ∧ st1.tracks = [] ∧ st1.current_track = none ∧
        st1.have_read_something = false) ∧
    (line_type_of sample_env typeless_line sample_init.acc = some GPSPOINT_TYPE_NONE ∧
      ∃ st1, process_line sample_env typeless_line sample_init = some st1 ∧
        st1.waypoints = [] ∧ st1.tracks = [] ∧ st1.current_track = none ∧
        st1.have_read_something = false) :=
  ⟨⟨rfl,
      fun acc1 h =>
        ((type_key_matched_in_full_any_case sample_env).1 sample_init.acc acc1
          upper_case_type_token 4 (some (upper_case_type_token.drop 6)) 8 (by decide)
          (fun v hv => by cases hv; decide) h).trans (by decide),
      fun acc1 h =>
        ((type_key_matched_in_full_any_case sample_env).1 sample_init.acc acc1
          upper_case_type_token 3 (some (upper_case_type_token.drop 6)) 8 (by decide)
          (fun v hv => by cases hv; decide) h).trans (by decide)⟩,
    (type_key_matched_in_full_any_case sample_env).2 sample_init waypointlist_line (by decide) rfl
      (by decide),
    (type_key_matched_in_full_any_case sample_env).2 sample_init typeless_line (by decide) rfl
      (by decide)⟩

/-- C23: when whole lines `pre` are followed by a line of the line buffer that
starts with `~EndLayerData`, the reader returns what it returns at the end of
the input `pre`, with the result TRUE: the store is the one after the lines of
`pre`, whatever follows the sentinel line, and its tracks hold their points in
input order, as the store of the reader that never reorders. -/
theorem sentinel_line_ends_reading {D : Type} (env : Env D) (latlon : LatLon D)
    (waypoints : List (Waypoint D)) (tracks : List (Track D)) (pre tail post : List Nat)
    (hpre : pre = [] ∨ ∃ p, pre = p ++ [10]) (htail : 0 ∉ tail ∧ 10 ∉ tail)
    (hfit : (STR_EndLayerData ++ tail).length + 1 ≤ VIKING_LINE_SIZE - 1) :
    ∃ st ref, a_gpspoint_read_file env latlon waypoints tracks pre = some st ∧
      a_gpspoint_read_file env latlon waypoints tracks
          (pre ++ (STR_EndLayerData ++ tail ++ 10 :: post)) =
        some { st with have_read_something := true } ∧
      read_file_in_order env latlon waypoints tracks pre = some ref ∧
      st.tracks = ref.tracks ∧ st.waypoints = ref.waypoints := by
  have hline : fgets_chunks (STR_EndLayerData ++ tail ++ 10 :: post) [] =
      (STR_EndLayerData ++ tail ++ [10]) :: fgets_chunks post [] := by
    have := fgets_chunks_line (STR_EndLayerData ++ tail) post
      (by simp only [List.mem_append, not_or]; exact ⟨by decide, htail.2⟩) []
      (by simpa using hfit)
    simpa using this
  have hclean : clean (STR_EndLayerData ++ tail) :=
    ⟨by simp only [List.mem_append, not_or]; exact ⟨by decide, htail.1⟩,
      by simp only [List.mem_append, not_or]; exact ⟨by decide, htail.2⟩⟩
  have hs : is_sentinel (chop (STR_EndLayerData ++ tail ++ [10])) := by
    rw [chop_line _ hclean, is_sentinel_iff_starts_with]
    exact List.prefix_append _ _
  have hchunks : fgets_chunks (pre ++ (STR_EndLayerData ++ tail ++ 10 :: post)) [] =
      fgets_chunks pre [] ++ (STR_EndLayerData ++ tail ++ [10]) :: fgets_chunks post [] := by
    rcases hpre with rfl | ⟨p, rfl⟩
    · rw [List.nil_append, hline]
      rfl
    · rw [List.append_assoc, List.singleton_append, fgets_chunks_append_line, hline]
  obtain ⟨c1, hc1⟩ := read_lines_terminates env (fgets_chunks pre [])
    (init_state env latlon waypoints tracks)
    (fgets_chunks_length_le pre [] (by simp [VIKING_LINE_SIZE]))
  have h0 : in_order_rel (init_state env latlon waypoints tracks)
      (init_state env latlon waypoints tracks) := ⟨rfl, rfl, rfl, rfl, rfl⟩
  obtain ⟨r1, hr1, hrel⟩ := in_order_rel_read_lines env _ _ _ c1 h0 hc1
  refine ⟨trackpoints_end c1, trackpoints_end_in_order r1, ?_, ?_, ?_,
    tracks_eq_after_end c1 r1 hrel, (in_order_rel_trackpoints_end c1 r1 hrel).2.2.1⟩
  · simp [a_gpspoint_read_file, hc1]
  · unfold a_gpspoint_read_file
    rw [hchunks, read_lines_append_sentinel env _ _ hs, hc1]
    simp only [Option.map_some']
    rw [trackpoints_end_set_have_read]
  · simp [read_file_in_order, hr1]

/-- C23, witness: behind a track `T` with two points that is still open, the
line `~EndLayerData` and two more lines: the store holds `T` with its two
points in input order and no waypoint, as at the end of the input in front of
the sentinel line. -/
theorem sentinel_line_ends_reading_witness :
    (a_gpspoint_read_file sample_env ⟨none, none⟩ [] []
        (open_track_file ++ (STR_EndLayerData ++ [] ++ 10 :: lines_after_sentinel))).map
      (fun st => (st.tracks.map (fun t => t.trackpoints.map (fun p => p.coord.lat)),
        st.waypoints.length, st.have_read_something)) =
      some ([[some [49], some [51]]], 0, true) ∧
    (a_gpspoint_read_file sample_env ⟨none, none⟩ [] [] open_track_file).map
      (fun st => (st.tracks.map (fun t => t.trackpoints.map (fun p => p.coord.lat)),
        st.waypoints.length)) =
      some ([[some [49], some [51]]], 0) := by
  obtain ⟨st, ref, h1, h2, _⟩ := sentinel_line_ends_reading sample_env ⟨none, none⟩ [] []
    open_track_file [] lines_after_sentinel (Or.inr ⟨open_track_file.dropLast, by decide⟩)
    (by decide) (by decide)
  have e : (a_gpspoint_read_file sample_env ⟨none, none⟩ [] [] open_track_file).map
      (fun st => (st.tracks.map (fun t => t.trackpoints.map (fun p => p.coord.lat)),
        st.waypoints.length)) = some ([[some [49], some [51]]], 0) := by decide
  refine ⟨?_, e⟩
  rw [h2]
  rw [h1] at e
  simp only [Option.map_some', Option.some.injEq, Prod.mk.injEq] at e ⊢
  exact ⟨e.1, e.2, trivial⟩

/-- C24: for every line without NUL bytes that fits the line buffer, and from
every state of the `line_*` variables, the tokenizer loop with the tag parser,
the key dispatcher and the decoder runs to its end; the tag parser returns for
every token and the decoder for every value slice; every character that the
tokenizer, the tag parser, the dispatcher and the decoder may read lies between
the start of the line and its terminating NUL, inclusive; and a token that the
tag parser passes over, or whose key is none of the known keys, leaves the
`line_*` variables as they are. -/
theorem parsing_total_and_reads_in_line {D : Type} (env : Env D) (line : List Nat)
    (acc : Acc D) (h0 : 0 ∉ line) (hfit : line.length < VIKING_LINE_SIZE) :
    (∃ acc1, line_acc env line acc = some acc1) ∧
    (∀ t ∈ tokens_of_line line, ∀ a : Acc D,
      ∃ a1, gpspoint_process_tag env a t.1 t.2 = some a1) ∧
    (∀ t ∈ tokens_of_line line, ∀ (k n : Nat) (v : List Nat),
      tag_call t.1 t.2 = some (k, some v, n) → ∃ r, deslashndup v n = some r) ∧
    (∀ p ∈ line_reads line, p ≤ line.length) ∧
    (∀ t ∈ tokens_of_line line, ∀ a : Acc D, tag_call t.1 t.2 = none →
      gpspoint_process_tag env a t.1 t.2 = some a) ∧
    (∀ t ∈ tokens_of_line line, ∀ (a : Acc D) (k n : Nat) (v : Option (List Nat)),
      tag_call t.1 t.2 = some (k, v, n) →
      (∀ e ∈ key_table, key_is t.1 k e.1 e.2 = false) →
      gpspoint_process_tag env a t.1 t.2 = some a) := by
  have hsz : line.length < 4096 := hfit
  have htok : ∀ t ∈ tokens_of_line line, t.2 ≤ t.1.length ∧ t.1.length ≤ line.length ∧
      (cget t.1 t.2 = 0 ∨ isspace (cget t.1 t.2) = true) := token_in_line line
  refine ⟨line_acc_terminates env line acc hfit, ?_, ?_, ?_, ?_, ?_⟩
  · intro t ht a
    obtain ⟨h1, h2, _⟩ := htok t ht
    exact process_tag_terminates env a t.1 t.2 (by omega)
  · intro t ht k n v hc
    obtain ⟨h1, h2, _⟩ := htok t ht
    obtain ⟨_, h5, _⟩ := tag_call_slice t.1 t.2 k n v h1 hc
    exact deslashndup_terminates v n (by rw [Nat.mod_eq_of_lt (by omega)]; omega)
  · intro p hp
    unfold line_reads at hp
    rcases List.mem_append.mp hp with hp | hp
    · exact tokenizer_reads_le _ _ _ _ p hp
    · simp only [List.mem_flatMap, List.mem_map] at hp
      obtain ⟨t, ht, q, hq, rfl⟩ := hp
      obtain ⟨h1, h2, h3⟩ := htok t ht
      have hsuf : t.1 <:+ line := line_tokens_suffix _ _ _ _ t ht
      have h0t : 0 ∉ t.1 := fun h => h0 (hsuf.subset h)
      have hend : cget t.1 t.2 ≠ 34 := by
        rcases h3 with h | h
        · rw [h]; decide
        · intro h34
          rw [h34] at h
          exact absurd h (by decide)
      have := tag_reads_le t.1 t.2 h0t h1 (by omega) hend q hq
      omega
  · intro t _ a hc
    rw [gpspoint_process_tag_eq_call, hc]
  · intro t _ a k n v hc hkey
    rw [gpspoint_process_tag_eq_call, hc]
    exact process_key_and_value_no_key env a t.1 k v n hkey

/-- C24, witness: the line
`type="waypoint" name="A\"b" colour="red" latitude= comment=" x=` is processed
to its end; every offset that may be read is at most its length 63, the offset
of the NUL, which is read; its tokens `colour="red"` and `comment=" x=` leave
the `line_*` variables as they are. -/
theorem parsing_total_and_reads_in_line_witness :
    (∃ acc1, line_acc sample_env mixed_line sample_init.acc = some acc1) ∧
    (∀ p ∈ line_reads mixed_line, p ≤ 63) ∧ 63 ∈ line_reads mixed_line ∧
    gpspoint_process_tag sample_env sample_init.acc (mixed_line.drop 28) 12 =
      some sample_init.acc ∧
    gpspoint_process_tag sample_env sample_init.acc (mixed_line.drop 51) 12 =
      some sample_init.acc :=
  have h := parsing_total_and_reads_in_line sample_env mixed_line sample_init.acc (by decide)
    (by decide)
  ⟨h.1, h.2.2.2.1, by decide,
    h.2.2.2.2.2 (mixed_line.drop 28, 12) (by decide) sample_init.acc 6
      3 (some (mixed_line.drop 36)) (by decide) (by decide),
    h.2.2.2.2.1 (mixed_line.drop 51, 12) (by decide) sample_init.acc (by decide)⟩

/-- C25, as amended: `a_gpspoint_write_file` writes, in this order, the line
`type="waypointlist"`, one line for each waypoint that has a name, the line
`type="waypointlistend"`, then every track that has a name, then every route
that has a name, each as its header line directly followed by its own point
lines and its end line. A waypoint, track or route without a name writes
nothing. The two bracket lines are written also when there is no waypoint. -/
theorem write_file_named_entities_in_order {D : Type} (env : Env D)
    (waypoints : List (Waypoint D)) (tracks routes : List (Track D)) :
    a_gpspoint_write_file env waypoints tracks routes =
      (quoted_field STR_type STR_waypointlist ++ [10]) ++
      ((waypoints.filter (fun wp => wp.name.isSome)).map (a_gpspoint_write_waypoint env)).flatten ++
      (quoted_field STR_type STR_waypointlistend ++ [10]) ++
      ((tracks.filter (fun trk => trk.name.isSome)).map (a_gpspoint_write_track env)).flatten ++
      ((routes.filter (fun trk => trk.name.isSome)).map (a_gpspoint_write_track env)).flatten ∧
    (∀ wp : Waypoint D, wp.name = none → a_gpspoint_write_waypoint env wp = []) ∧
    (∀ wp : Waypoint D, wp.name.isSome = true →
      ∃ body, a_gpspoint_write_waypoint env wp =
        quoted_field STR_type STR_waypoint ++ body ++ [10]) ∧
    (∀ trk : Track D, trk.name = none → a_gpspoint_write_track env trk = []) ∧
    (∀ (trk : Track D) (name : List Nat), trk.name = some name →
      a_gpspoint_write_track env trk =
        write_track_header env trk name ++
        (trk.trackpoints.map (a_gpspoint_write_trackpoint env trk.is_route)).flatten ++
        (quoted_field STR_type (if trk.is_route = true then STR_routeend else STR_trackend) ++
          [10])) ∧
    a_gpspoint_write_file env [] tracks routes =
      (quoted_field STR_type STR_waypointlist ++ [10]) ++
      (quoted_field STR_type STR_waypointlistend ++ [10]) ++
      (tracks.map (a_gpspoint_write_track env)).flatten ++
      (routes.map (a_gpspoint_write_track env)).flatten := by
  have hw : ∀ wp : Waypoint D, wp.name.isSome = false → a_gpspoint_write_waypoint env wp = [] := by
    intro wp h
    unfold a_gpspoint_write_waypoint
    cases hn : wp.name with
    | none => rfl
    | some n => rw [hn] at h; simp at h
  have ht : ∀ trk : Track D, trk.name.isSome = false → a_gpspoint_write_track env trk = [] := by
    intro trk h
    unfold a_gpspoint_write_track
    cases hn : trk.name with
    | none => rfl
    | some n => rw [hn] at h; simp at h
  refine ⟨?_, fun wp h => hw wp (by rw [h]; rfl), ?_, fun trk h => ht trk (by rw [h]; rfl), ?_, ?_⟩
  · unfold a_gpspoint_write_file
    rw [← flatten_map_filter _ _ hw waypoints, ← flatten_map_filter _ _ ht tracks,
      ← flatten_map_filter _ _ ht routes]
  · intro wp h
    unfold a_gpspoint_write_waypoint
    cases hn : wp.name with
    | none => rw [hn] at h; simp at h
    | some n => exact ⟨_, rfl⟩
  · intro trk name h
    unfold a_gpspoint_write_track
    rw [h]
  · unfold a_gpspoint_write_file
    simp

set_option maxRecDepth 8000 in
/-- C25, witness: the waypoint `W`, the track `T` and the route `R` are written
as `type="waypointlist"`, the line of `W`, `type="waypointlistend"`, the four
lines of `T` and the three lines of `R`. -/
theorem write_file_named_entities_in_order_witness :
    a_gpspoint_write_file sample_env [sample_symbol_waypoint] [sample_roundtrip_track]
        [sample_roundtrip_route] =
      waypointlist_text ++ sample_symbol_waypoint_line ++ waypointlistend_text ++
        sample_track_text ++ sample_route_text := by
  have h := (write_file_named_entities_in_order sample_env [sample_symbol_waypoint]
    [sample_roundtrip_track] [sample_roundtrip_route]).1
  rw [h]
  rfl

/-- C25, counterexample: for a new waypoint, which has no name, and a track
without a name that holds one point, only the two bracket lines are written:
no line for the waypoint, no header, point line or end line for the track. -/
theorem nameless_entities_write_nothing :
    a_gpspoint_write_file sample_env [sample_env.vik_waypoint_new] [nameless_track] [] =
      waypointlist_text ++ waypointlistend_text := by
  rfl

/-- C26: a waypoint that has a name is written as the line that starts with
`type="waypoint"`, the latitude, the longitude and the escaped name, followed
in this order, each only when the field is set, by altitude, unixtime, comment,
description, source, xtype, image, image_direction with image_direction_ref,
and the symbol in the lower case that `g_utf8_strdown` gives; then
`visible="n"` exactly when the waypoint is hidden; then the line feed. -/
theorem waypoint_line_fields_in_order {D : Type} (env : Env D) (wp : Waypoint D)
    (name : List Nat) (hname : wp.name = some name) :
    a_gpspoint_write_waypoint env wp =
      quoted_field STR_type STR_waypoint ++
      field_text STR_latitude (env.a_coords_dtostr wp.coord.lat) ++
      field_text STR_longitude (env.a_coords_dtostr wp.coord.lon) ++
      field_text STR_name (slashdup name) ++
      text_if (!env.isnan wp.altitude)
        (field_text STR_altitude (env.a_coords_dtostr wp.altitude)) ++
      text_if (!env.isnan wp.timestamp)
        (field_text STR_unixtime (env.a_coords_dtostr wp.timestamp)) ++
      text_field_text STR_comment wp.comment ++
      text_field_text STR_description wp.description ++
      text_field_text STR_source wp.source ++
      text_field_text STR_xtype wp.type ++
      (match wp.image with
       | none => []
       | some image =>
         field_text STR_image
           (match env.relative_image image with
            | some tmp_image => tmp_image
            | none => slashdup image)) ++
      text_if (!env.isnan wp.image_direction)
        (field_text STR_image_direction (env.util_formatd_2f wp.image_direction) ++
          field_text STR_image_direction_ref (env.fmt_d wp.image_direction_ref)) ++
      (match wp.symbol with
       | none => []
       | some symbol => field_text STR_symbol (env.g_utf8_strdown symbol)) ++
      text_if (!wp.visible) (field_text STR_visible STR_n) ++
      [10] := by
  obtain ⟨nm, coord, vis, alt, ts, cm, ds, sr, ty, img, dir, ref, sym⟩ := wp
  simp only at hname
  subst hname
  unfold a_gpspoint_write_waypoint
  cases img <;> cases sym <;> cases h : env.isnan dir <;>
    simp [waypoint_fields, image_entry, tail_text_some, tail_text_opt, tail_text_opt_text,
      tail_text, field_text, text_if, h]

/-- C26, witness: the hidden waypoint `W"` with an altitude, a comment, an
image with a direction and the symbol `Pin` is written as the line
`type="waypoint" latitude="1" longitude="2" name="W\"" altitude="3" comment="c d" image="i.jpg" image_direction="90.00" image_direction_ref="1" symbol="pin" visible="n"`. -/
theorem waypoint_line_fields_in_order_witness :
    a_gpspoint_write_waypoint sample_env sample_symbol_waypoint = sample_symbol_waypoint_line :=
  (waypoint_line_fields_in_order sample_env sample_symbol_waypoint [87, 34] rfl).trans rfl

/-- C27: a track or route that has a name is written as its header line, then
one line for each of its points in stored order, then its end line. The header
starts with `type="track"` for a track and `type="route"` for a route and the
escaped name, followed by the texts and the colour that are set,
`draw_name_mode` and `number_dist_labels` only when greater than 0 and
`visible="n"` only when the track is hidden. There are as many point lines as
points; each is what `a_gpspoint_write_trackpoint` writes for the point, starts
with `type="trackpoint"` for a track and `type="routepoint"` for a route and
ends with a line feed. The end line is `type="trackend"` or `type="routeend"`
respectively. -/
theorem track_block_header_points_end {D : Type} (env : Env D) (trk : Track D)
    (name : List Nat) (hname : trk.name = some name) :
    a_gpspoint_write_track env trk =
      (quoted_field STR_type (if trk.is_route = true then STR_route else STR_track) ++
        field_text STR_name (slashdup name) ++
        text_field_text STR_comment trk.comment ++
        text_field_text STR_description trk.description ++
        text_field_text STR_source trk.source ++
        text_field_text STR_xtype trk.type ++
        text_if trk.has_color (32 :: color_token trk.color) ++
        text_if (decide (trk.draw_name_mode > 0))
          (field_text STR_draw_name_mode (env.fmt_d trk.draw_name_mode)) ++
        text_if (decide (trk.max_number_dist_labels > 0))
          (field_text STR_number_dist_labels (env.fmt_d trk.max_number_dist_labels)) ++
        text_if (!trk.visible) (field_text STR_visible STR_n) ++
        [10]) ++
      (trk.trackpoints.map (a_gpspoint_write_trackpoint env trk.is_route)).flatten ++
      (quoted_field STR_type (if trk.is_route = true then STR_routeend else STR_trackend) ++
        [10]) ∧
    (trk.trackpoints.map (a_gpspoint_write_trackpoint env trk.is_route)).length =
      trk.trackpoints.length ∧
    ∀ tp ∈ trk.trackpoints,
      quoted_field STR_type (if trk.is_route = true then STR_routepoint else STR_trackpoint) <+:
        a_gpspoint_write_trackpoint env trk.is_route tp ∧
      ∃ body, a_gpspoint_write_trackpoint env trk.is_route tp = body ++ [10] := by
  refine ⟨?_, List.length_map _ _, ?_⟩
  · unfold a_gpspoint_write_track
    rw [hname]
    simp only [write_track_header, track_fields, tail_text_some, tail_text_opt,
      tail_text_opt_text, tail_text, field_text, List.append_assoc, List.cons_append,
      List.append_nil]
  · intro tp _
    unfold a_gpspoint_write_trackpoint
    exact ⟨⟨_, by rw [List.append_assoc]⟩, ⟨_, rfl⟩⟩

set_option maxRecDepth 8000 in
/-- C27, witness: the track `T` with two points is written as its header, two
`trackpoint` lines and `type="trackend"`; the hidden route `R` with one point
as `type="route" name="R" visible="n"`, one `routepoint` line and
`type="routeend"`. -/
theorem track_block_header_points_end_witness :
    a_gpspoint_write_track sample_env sample_roundtrip_track = sample_track_text ∧
    a_gpspoint_write_track sample_env sample_roundtrip_route = sample_route_text :=
  ⟨(track_block_header_points_end sample_env sample_roundtrip_track [84] rfl).1.trans rfl,
    (track_block_header_points_end sample_env sample_roundtrip_route [82] rfl).1.trans rfl⟩

/-- C28: the line of a point holds the extended block exactly when the speed is
set, the course is set or the satellite count is greater than 0; the block
starts with `extended="yes"`, followed by speed, course, sat, fix, hdop, vdop
and pdop, each only when that field is set (sat and fix when greater than 0).
A point with no speed, no course and no satellite is written without the block
and without fix, hdop, vdop and pdop, whatever their values. -/
theorem extended_block_written_iff {D : Type} (env : Env D) (is_route : Bool)
    (tp : Trackpoint D) :
    a_gpspoint_write_trackpoint env is_route tp =
      quoted_field STR_type (if is_route = true then STR_routepoint else STR_trackpoint) ++
      field_text STR_latitude (env.a_coords_dtostr tp.coord.lat) ++
      field_text STR_longitude (env.a_coords_dtostr tp.coord.lon) ++
      text_field_text STR_name tp.name ++
      text_if (!env.isnan tp.altitude)
        (field_text STR_altitude (env.a_coords_dtostr tp.altitude)) ++
      text_if (!env.isnan tp.timestamp)
        (field_text STR_unixtime (env.a_coords_dtostr tp.timestamp)) ++
      text_if tp.newsegment (field_text STR_newsegment STR_yes) ++
      text_if (!env.isnan tp.speed || !env.isnan tp.course || decide (tp.nsats > 0))
        (field_text STR_extended STR_yes ++
          text_if (!env.isnan tp.speed) (field_text STR_speed (env.a_coords_dtostr tp.speed)) ++
          text_if (!env.isnan tp.course)
            (field_text STR_course (env.a_coords_dtostr tp.course)) ++
          text_if (decide (tp.nsats > 0)) (field_text STR_sat (env.fmt_d tp.nsats)) ++
          text_if (decide (tp.fix_mode > 0)) (field_text STR_fix (env.fmt_d tp.fix_mode)) ++
          text_if (!env.isnan tp.hdop) (field_text STR_hdop (env.a_coords_dtostr tp.hdop)) ++
          text_if (!env.isnan tp.vdop) (field_text STR_vdop (env.a_coords_dtostr tp.vdop)) ++
          text_if (!env.isnan tp.pdop) (field_text STR_pdop (env.a_coords_dtostr tp.pdop))) ++
      [10] ∧
    (env.isnan tp.speed = true → env.isnan tp.course = true → tp.nsats ≤ 0 →
      ∀ (fix_mode : Int) (hdop vdop pdop : D),
        a_gpspoint_write_trackpoint env is_route
            { tp with fix_mode := fix_mode, hdop := hdop, vdop := vdop, pdop := pdop } =
          quoted_field STR_type (if is_route = true then STR_routepoint else STR_trackpoint) ++
          field_text STR_latitude (env.a_coords_dtostr tp.coord.lat) ++
          field_text STR_longitude (env.a_coords_dtostr tp.coord.lon) ++
          text_field_text STR_name tp.name ++
          text_if (!env.isnan tp.altitude)
            (field_text STR_altitude (env.a_coords_dtostr tp.altitude)) ++
          text_if (!env.isnan tp.timestamp)
            (field_text STR_unixtime (env.a_coords_dtostr tp.timestamp)) ++
          text_if tp.newsegment (field_text STR_newsegment STR_yes) ++
          [10]) := by
  have key : ∀ p : Trackpoint D, a_gpspoint_write_trackpoint env is_route p =
      quoted_field STR_type (if is_route = true then STR_routepoint else STR_trackpoint) ++
      field_text STR_latitude (env.a_coords_dtostr p.coord.lat) ++
      field_text STR_longitude (env.a_coords_dtostr p.coord.lon) ++
      text_field_text STR_name p.name ++
      text_if (!env.isnan p.altitude)
        (field_text STR_altitude (env.a_coords_dtostr p.altitude)) ++
      text_if (!env.isnan p.timestamp)
        (field_text STR_unixtime (env.a_coords_dtostr p.timestamp)) ++
      text_if p.newsegment (field_text STR_newsegment STR_yes) ++
      text_if (!env.isnan p.speed || !env.isnan p.course || decide (p.nsats > 0))
        (field_text STR_extended STR_yes ++
          text_if (!env.isnan p.speed) (field_text STR_speed (env.a_coords_dtostr p.speed)) ++
          text_if (!env.isnan p.course)
            (field_text STR_course (env.a_coords_dtostr p.course)) ++
          text_if (decide (p.nsats > 0)) (field_text STR_sat (env.fmt_d p.nsats)) ++
          text_if (decide (p.fix_mode > 0)) (field_text STR_fix (env.fmt_d p.fix_mode)) ++
          text_if (!env.isnan p.hdop) (field_text STR_hdop (env.a_coords_dtostr p.hdop)) ++
          text_if (!env.isnan p.vdop) (field_text STR_vdop (env.a_coords_dtostr p.vdop)) ++
          text_if (!env.isnan p.pdop) (field_text STR_pdop (env.a_coords_dtostr p.pdop))) ++
      [10] := by
    intro p
    unfold a_gpspoint_write_trackpoint
    simp only [trackpoint_fields, tail_text_some, tail_text_opt, tail_text_opt_text, tail_text,
      field_text, has_extended, List.append_assoc, List.cons_append, List.append_nil]
    cases h : (!env.isnan p.speed || !env.isnan p.course || decide (p.nsats > 0)) <;>
      simp [text_if]
  refine ⟨key tp, ?_⟩
  intro hs hc hn fix_mode hdop vdop pdop
  rw [key]
  have hcond : (!env.isnan tp.speed || !env.isnan tp.course || decide (tp.nsats > 0)) = false := by
    simp [hs, hc]
    omega
  simp only [hcond, text_if, Bool.false_eq_true, if_false, List.append_nil]

/-- C28, witness: the point with a speed, three satellites, a fix mode and an
HDOP is written with the block `extended="yes" speed="7" sat="3" fix="2" hdop="8"`;
the point whose only extended value is an HDOP is written as
`type="trackpoint" latitude="1" longitude="2"`. -/
theorem extended_block_written_iff_witness :
    a_gpspoint_write_trackpoint sample_env false sample_extended_point =
      sample_extended_point_line ∧
    a_gpspoint_write_trackpoint sample_env false hdop_only_point = hdop_only_point_line :=
  ⟨(extended_block_written_iff sample_env false sample_extended_point).1.trans rfl,
    ((extended_block_written_iff sample_env false hdop_only_point).2 rfl rfl (by decide)
      0 (some [51]) none none).trans rfl⟩

/-- C29: the header line of a track that has a colour holds, behind the texts
and in front of `draw_name_mode`, the one field `color=#` followed by six
hexadecimal digits: the two digits of the high byte (the value divided by 256)
of the red, the green and the blue channel, for every channel value from 0 to
65535; the header line of a track without a colour holds no such field. -/
theorem track_colour_six_hex_digits {D : Type} (env : Env D) (trk : Track D) (name : List Nat)
    (hr : trk.color.1 ≤ 65535) (hg : trk.color.2.1 ≤ 65535) (hb : trk.color.2.2 ≤ 65535) :
    write_track_header env trk name =
      (quoted_field STR_type (if trk.is_route = true then STR_route else STR_track) ++
        field_text STR_name (slashdup name) ++
        text_field_text STR_comment trk.comment ++
        text_field_text STR_description trk.description ++
        text_field_text STR_source trk.source ++
        text_field_text STR_xtype trk.type) ++
      (if trk.has_color = true then
        32 :: (STR_color ++ 61 :: 35 ::
          (two_hex (trk.color.1 / 256) ++ two_hex (trk.color.2.1 / 256) ++
            two_hex (trk.color.2.2 / 256)))
       else []) ++
      (text_if (decide (trk.draw_name_mode > 0))
          (field_text STR_draw_name_mode (env.fmt_d trk.draw_name_mode)) ++
        text_if (decide (trk.max_number_dist_labels > 0))
          (field_text STR_number_dist_labels (env.fmt_d trk.max_number_dist_labels)) ++
        text_if (!trk.visible) (field_text STR_visible STR_n) ++
        [10]) ∧
    (two_hex (trk.color.1 / 256) ++ two_hex (trk.color.2.1 / 256) ++
      two_hex (trk.color.2.2 / 256)).length = 6 ∧
    (∀ d ∈ two_hex (trk.color.1 / 256) ++ two_hex (trk.color.2.1 / 256) ++
      two_hex (trk.color.2.2 / 256), d ∈ hex_chars) ∧
    byte_of_hex (two_hex (trk.color.1 / 256)) = trk.color.1 / 256 ∧
    byte_of_hex (two_hex (trk.color.2.1 / 256)) = trk.color.2.1 / 256 ∧
    byte_of_hex (two_hex (trk.color.2.2 / 256)) = trk.color.2.2 / 256 := by
  have s1 := two_hex_spec (trk.color.1 / 256) (by omega)
  have s2 := two_hex_spec (trk.color.2.1 / 256) (by omega)
  have s3 := two_hex_spec (trk.color.2.2 / 256) (by omega)
  refine ⟨?_, by simp [s1.1, s2.1, s3.1], ?_, s1.2.2, s2.2.2, s3.2.2⟩
  · simp only [write_track_header, track_fields, tail_text_some, tail_text_opt,
      tail_text_opt_text, tail_text, field_text, color_token, fmt_02x_high_byte_eq _ hr,
      fmt_02x_high_byte_eq _ hg, fmt_02x_high_byte_eq _ hb, text_if, List.append_assoc,
      List.cons_append, List.append_nil]
  · intro d hd
    simp only [List.mem_append] at hd
    rcases hd with (hd | hd) | hd
    · exact s1.2.1 d hd
    · exact s2.2.1 d hd
    · exact s3.2.1 d hd

/-- C29, witness: the track `T` with the colour (65535, 0, 4660) has the header
`type="track" name="T" comment="c" color=#ff0012 draw_name_mode="1"`; the route
`R` without a colour has the header `type="route" name="R" visible="n"`. -/
theorem track_colour_six_hex_digits_witness :
    write_track_header sample_env sample_roundtrip_track [84] = sample_track_header_text ∧
    write_track_header sample_env sample_roundtrip_route [82] = sample_route_header_text ∧
    two_hex (65535 / 256) ++ two_hex (0 / 256) ++ two_hex (4660 / 256) =
      [102, 102, 48, 48, 49, 50] :=
  ⟨(track_colour_six_hex_digits sample_env sample_roundtrip_track [84] (by decide) (by decide)
      (by decide)).1.trans rfl,
    (track_colour_six_hex_digits sample_env sample_roundtrip_route [82] (by decide) (by decide)
      (by decide)).1.trans rfl,
    rfl⟩

/-- C30: a point line of the line buffer read while a track is open puts one
point on that track. The point takes its coordinate, altitude, timestamp, name
and new-segment flag from the line. It takes speed, course, satellite count,
fix mode, hdop, vdop and pdop from the line when a token of the line is an
`extended` key with a value; when no token is, these seven fields are those of
a new point, whatever other keys the line has. -/
theorem point_extended_fields_gated {D : Type} (env : Env D) (st : RState D)
    (line : List Nat) (k : Nat) (hfit : line.length < VIKING_LINE_SIZE)
    (hreset : st.acc = Acc.reset env st.acc)
    (htype : line_type_of env line st.acc = some GPSPOINT_TYPE_TRACKPOINT ∨
      line_type_of env line st.acc = some GPSPOINT_TYPE_ROUTEPOINT)
    (hcur : st.current_track = some k) :
    ∃ acc1 pt st1, line_acc env line st.acc = some acc1 ∧
      process_line env line st = some st1 ∧
      st1.tracks =
        update_at (fun t => { t with trackpoints := pt :: t.trackpoints }) k st.tracks ∧
      pt.coord = acc1.line_latlon ∧ pt.altitude = acc1.line_altitude ∧
      pt.timestamp = acc1.line_timestamp ∧ pt.name = acc1.line_name ∧
      pt.newsegment = acc1.line_newsegment ∧
      ((∃ t ∈ tokens_of_line line, token_sets_extended t = true) →
        pt.speed = acc1.line_speed ∧ pt.course = acc1.line_course ∧ pt.nsats = acc1.line_sat ∧
        pt.fix_mode = acc1.line_fix ∧ pt.hdop = acc1.line_hdop ∧ pt.vdop = acc1.line_vdop ∧
        pt.pdop = acc1.line_pdop) ∧
      ((∀ t ∈ tokens_of_line line, token_sets_extended t = false) →
        pt.speed = env.vik_trackpoint_new.speed ∧ pt.course = env.vik_trackpoint_new.course ∧
        pt.nsats = env.vik_trackpoint_new.nsats ∧
        pt.fix_mode = env.vik_trackpoint_new.fix_mode ∧
        pt.hdop = env.vik_trackpoint_new.hdop ∧ pt.vdop = env.vik_trackpoint_new.vdop ∧
        pt.pdop = env.vik_trackpoint_new.pdop) := by
  obtain ⟨acc1, hacc⟩ := line_acc_terminates env line st.acc hfit
  have hty : acc1.line_type = GPSPOINT_TYPE_TRACKPOINT ∨
      acc1.line_type = GPSPOINT_TYPE_ROUTEPOINT := by
    simpa [line_type_of, hacc] using htype
  have hext : acc1.line_extended = (tokens_of_line line).any token_sets_extended := by
    have h0 : st.acc.line_extended = false := by rw [hreset]; rfl
    have := fold_line_extended env (tokens_of_line line) st.acc acc1
      (by rw [← line_acc_eq_fold]; exact hacc)
    rw [this, h0, Bool.false_or]
  refine ⟨acc1, build_trackpoint env acc1, _, hacc, process_line_point env line st acc1 k hacc
    hty hcur, rfl, rfl, rfl, rfl, rfl, rfl, ?_, ?_⟩
  · intro hx
    have he : acc1.line_extended = true := by
      rw [hext, List.any_eq_true]
      exact hx
    simp [build_trackpoint, he]
  · intro hx
    have he : acc1.line_extended = false := by
      rw [hext, List.any_eq_false]
      intro t ht
      rw [hx t ht]
      exact Bool.false_ne_true
    simp [build_trackpoint, he]

/-- C30, witness: with the track `T` open, the line
`type="trackpoint" latitude="1" longitude="2" altitude="3" speed="5" sat="4" hdop="6"`
gives a point with the altitude 3 and with speed, satellite count and hdop
unset; the same line with `extended="yes"` gives a point with the altitude 3,
the speed 5, 4 satellites and the hdop 6. -/
theorem point_extended_fields_gated_witness :
    (∃ pt st1, process_line sample_env speed_without_extended_line sample_open_track_state =
        some st1 ∧
      st1.tracks = update_at (fun t => { t with trackpoints := pt :: t.trackpoints }) 0
        sample_open_track_state.tracks ∧
      pt.altitude = some [51] ∧ pt.speed = none ∧ pt.nsats = 0 ∧ pt.hdop = none) ∧
    (∃ pt st1, process_line sample_env speed_with_extended_line sample_open_track_state =
        some st1 ∧
      st1.tracks = update_at (fun t => { t with trackpoints := pt :: t.trackpoints }) 0
        sample_open_track_state.tracks ∧
      pt.altitude = some [51] ∧ pt.speed = some [53] ∧ pt.nsats = 4 ∧ pt.hdop = some [54]) := by
  constructor
  · obtain ⟨acc1, pt, st1, h1, h2, h3, _, h5, _, _, _, _, h10⟩ :=
      point_extended_fields_gated sample_env sample_open_track_state
        speed_without_extended_line 0 (by decide) rfl (Or.inl (by decide)) rfl
    have e : (line_acc sample_env speed_without_extended_line
        sample_open_track_state.acc).map (fun a => a.line_altitude) = some (some [51]) := by
      decide
    rw [h1] at e
    simp only [Option.map_some', Option.some.injEq] at e
    obtain ⟨g1, _, g3, _, g5, _, _⟩ := h10 (by decide)
    exact ⟨pt, st1, h2, h3, h5.trans e, g1, g3, g5⟩
  · obtain ⟨acc1, pt, st1, h1, h2, h3, _, h5, _, _, _, h9, _⟩ :=
      point_extended_fields_gated sample_env sample_open_track_state
        speed_with_extended_line 0 (by decide) rfl (Or.inl (by decide)) rfl
    have e : (line_acc sample_env speed_with_extended_line
        sample_open_track_state.acc).map
          (fun a => (a.line_altitude, a.line_speed, a.line_sat, a.line_hdop)) =
        some (some [51], some [53], 4, some [54]) := by
      decide
    rw [h1] at e
    simp only [Option.map_some', Option.some.injEq, Prod.mk.injEq] at e
    obtain ⟨g1, _, g3, _, g5, _, _⟩ := h9 ⟨(speed_with_extended_line.drop 58, 14), by decide,
      by decide⟩
    exact ⟨pt, st1, h2, h3, h5.trans e.1, g1.trans e.2.1, g3.trans e.2.2.1, g5.trans e.2.2.2⟩

/-- C31 (amended). The text written for a waypoint that has a name, for the
header line of a track or route, and for a point is one line, provided the
texts that the number formats give for its numbers hold no line feed: it ends
with a line feed and holds no other one, whatever the content of the name, the
comment, the description, the source, the classification and the image file
name written in escaped form (line feeds and carriage returns in them are
written as spaces), when the symbol in lower case and the image file name
written in relative form hold no line feed: those two are written as they
are. -/
theorem written_entity_is_one_line {D : Type} (env : Env D) :
    (∀ (wp : Waypoint D) (name : List Nat), wp.name = some name →
      waypoint_numbers_no_lf env wp →
      (∀ s, wp.symbol = some s → 10 ∉ env.g_utf8_strdown s) →
      (∀ img r, wp.image = some img → env.relative_image img = some r → 10 ∉ r) →
      ∃ body, a_gpspoint_write_waypoint env wp = body ++ [10] ∧ 10 ∉ body) ∧
    (∀ (trk : Track D) (name : List Nat), track_numbers_no_lf env trk →
      ∃ body, write_track_header env trk name = body ++ [10] ∧ 10 ∉ body) ∧
    (∀ (is_route : Bool) (tp : Trackpoint D), trackpoint_numbers_no_lf env tp →
      ∃ body, a_gpspoint_write_trackpoint env is_route tp = body ++ [10] ∧ 10 ∉ body) := by
  refine ⟨?_, ?_, ?_⟩
  · intro wp name hname ⟨n1, n2, n3, n4, n5, n6⟩ hsym himg
    unfold a_gpspoint_write_waypoint
    rw [hname]
    refine written_line_one_lf _ _ (by decide) ?_
    intro e he t ht
    simp only [waypoint_fields, List.mem_cons, List.mem_singleton, List.not_mem_nil,
      or_false] at he
    rcases he with rfl | rfl | rfl | rfl | rfl | rfl | rfl | rfl | rfl | rfl | rfl | rfl |
      rfl | rfl
    · cases ht
      exact quoted_field_no_lf _ _ (by decide) n1
    · cases ht
      exact quoted_field_no_lf _ _ (by decide) n2
    · cases ht
      exact quoted_field_no_lf _ _ (by decide) (slashdup_no_lf _)
    · exact opt_no_lf _ _ (quoted_field_no_lf _ _ (by decide) n3) t ht
    · exact opt_no_lf _ _ (quoted_field_no_lf _ _ (by decide) n4) t ht
    · exact opt_text_no_lf _ _ (by decide) t ht
    · exact opt_text_no_lf _ _ (by decide) t ht
    · exact opt_text_no_lf _ _ (by decide) t ht
    · exact opt_text_no_lf _ _ (by decide) t ht
    · cases himage : wp.image with
      | none => rw [himage] at ht; simp [image_entry] at ht
      | some img =>
        rw [himage] at ht
        simp only [image_entry, Option.map_some', Option.some.injEq] at ht
        subst ht
        refine quoted_field_no_lf _ _ (by decide) ?_
        cases hrel : env.relative_image img with
        | none => exact slashdup_no_lf img
        | some r => exact himg img r himage hrel
    · exact opt_no_lf _ _ (quoted_field_no_lf _ _ (by decide) n5) t ht
    · exact opt_no_lf _ _ (quoted_field_no_lf _ _ (by decide) n6) t ht
    · cases hs : wp.symbol with
      | none => rw [hs] at ht; simp at ht
      | some s =>
        rw [hs] at ht
        simp only [Option.map_some', Option.some.injEq] at ht
        subst ht
        exact quoted_field_no_lf _ _ (by decide) (hsym s hs)
    · exact opt_no_lf _ _ (by decide) t ht
  · intro trk name ⟨m1, m2⟩
    unfold write_track_header
    refine written_line_one_lf _ _ (by cases trk.is_route <;> decide) ?_
    intro e he t ht
    simp only [track_fields, List.mem_cons, List.mem_singleton, List.not_mem_nil,
      or_false] at he
    rcases he with rfl | rfl | rfl | rfl | rfl | rfl | rfl | rfl | rfl
    · cases ht
      exact quoted_field_no_lf _ _ (by decide) (slashdup_no_lf _)
    · exact opt_text_no_lf _ _ (by decide) t ht
    · exact opt_text_no_lf _ _ (by decide) t ht
    · exact opt_text_no_lf _ _ (by decide) t ht
    · exact opt_text_no_lf _ _ (by decide) t ht
    · exact opt_no_lf _ _ (color_token_no_lf _) t ht
    · exact opt_no_lf _ _ (quoted_field_no_lf _ _ (by decide) m1) t ht
    · exact opt_no_lf _ _ (quoted_field_no_lf _ _ (by decide) m2) t ht
    · exact opt_no_lf _ _ (by decide) t ht
  · intro is_route tp ⟨p1, p2, p3, p4, p5, p6, p7, p8, p9, p10, p11⟩
    unfold a_gpspoint_write_trackpoint
    refine written_line_one_lf _ _ (by cases is_route <;> decide) ?_
    intro e he t ht
    simp only [trackpoint_fields, List.mem_cons, List.mem_singleton, List.not_mem_nil,
      or_false] at he
    rcases he with rfl | rfl | rfl | rfl | rfl | rfl | rfl | rfl | rfl | rfl | rfl | rfl |
      rfl | rfl
    · cases ht
      exact quoted_field_no_lf _ _ (by decide) p1
    · cases ht
      exact quoted_field_no_lf _ _ (by decide) p2
    · exact opt_text_no_lf _ _ (by decide) t ht
    · exact opt_no_lf _ _ (quoted_field_no_lf _ _ (by decide) p3) t ht
    · exact opt_no_lf _ _ (quoted_field_no_lf _ _ (by decide) p4) t ht
    · exact opt_no_lf _ _ (by decide) t ht
    · exact opt_no_lf _ _ (by decide) t ht
    · exact opt_no_lf _ _ (quoted_field_no_lf _ _ (by decide) p5) t ht
    · exact opt_no_lf _ _ (quoted_field_no_lf _ _ (by decide) p6) t ht
    · exact opt_no_lf _ _ (quoted_field_no_lf _ _ (by decide) p7) t ht
    · exact opt_no_lf _ _ (quoted_field_no_lf _ _ (by decide) p8) t ht
    · exact opt_no_lf _ _ (quoted_field_no_lf _ _ (by decide) p9) t ht
    · exact opt_no_lf _ _ (quoted_field_no_lf _ _ (by decide) p10) t ht
    · exact opt_no_lf _ _ (quoted_field_no_lf _ _ (by decide) p11) t ht

/-- C31, witness: the waypoint `W` whose comment holds a line feed and a
carriage return is written as one line, in which both are spaces; so are the
header of the sample track and its first point. -/
theorem written_entity_is_one_line_witness :
    (∃ body, a_gpspoint_write_waypoint sample_env line_feed_comment_waypoint = body ++ [10] ∧
      10 ∉ body) ∧
    (∃ body, write_track_header sample_env sample_roundtrip_track [84] = body ++ [10] ∧
      10 ∉ body) ∧
    (∃ body, a_gpspoint_write_trackpoint sample_env false sample_plain_point = body ++ [10] ∧
      10 ∉ body) ∧
    a_gpspoint_write_waypoint sample_env line_feed_comment_waypoint =
      [116, 121, 112, 101, 61, 34, 119, 97, 121, 112, 111, 105, 110, 116, 34, 32, 108, 97, 116,
        105, 116, 117, 100, 101, 61, 34, 49, 34, 32, 108, 111, 110, 103, 105, 116, 117, 100, 101,
        61, 34, 50, 34, 32, 110, 97, 109, 101, 61, 34, 87, 34, 32, 99, 111, 109, 109, 101, 110,
        116, 61, 34, 97, 32, 32, 98, 34, 10] :=
  ⟨(written_entity_is_one_line sample_env).1 line_feed_comment_waypoint [87] rfl
      (by unfold waypoint_numbers_no_lf; decide) (fun s hs => by cases hs)
      (fun img r hi => by cases hi),
    (written_entity_is_one_line sample_env).2.1 sample_roundtrip_track [84]
      (by unfold track_numbers_no_lf; decide),
    (written_entity_is_one_line sample_env).2.2 false sample_plain_point
      (by unfold trackpoint_numbers_no_lf; decide),
    by decide⟩

/-- C31, counterexample: the symbol is written in lower case and not escaped.
The text written for the waypoint `W` whose symbol is `a`, line feed, `b`
holds two line feeds, the first of them inside the symbol token, and is read
back as two lines. A waypoint without a name is not written: its text holds no
line feed. -/
theorem symbol_line_feed_splits_line :
    a_gpspoint_write_waypoint sample_env line_feed_symbol_waypoint =
      [116, 121, 112, 101, 61, 34, 119, 97, 121, 112, 111, 105, 110, 116, 34, 32, 108, 97, 116,
        105, 116, 117, 100, 101, 61, 34, 49, 34, 32, 108, 111, 110, 103, 105, 116, 117, 100, 101,
        61, 34, 50, 34, 32, 110, 97, 109, 101, 61, 34, 87, 34, 32, 115, 121, 109, 98, 111, 108,
        61, 34, 97, 10, 98, 34, 10] ∧
    (a_gpspoint_write_waypoint sample_env line_feed_symbol_waypoint).count 10 = 2 ∧
    (fgets_chunks (a_gpspoint_write_waypoint sample_env line_feed_symbol_waypoint) []).length =
      2 ∧
    (¬ ∃ body, a_gpspoint_write_waypoint sample_env line_feed_symbol_waypoint = body ++ [10] ∧
      10 ∉ body) ∧
    a_gpspoint_write_waypoint sample_env sample_env.vik_waypoint_new = [] := by
  have e : a_gpspoint_write_waypoint sample_env line_feed_symbol_waypoint =
      [116, 121, 112, 101, 61, 34, 119, 97, 121, 112, 111, 105, 110, 116, 34, 32, 108, 97, 116,
        105, 116, 117, 100, 101, 61, 34, 49, 34, 32, 108, 111, 110, 103, 105, 116, 117, 100, 101,
        61, 34, 50, 34, 32, 110, 97, 109, 101, 61, 34, 87, 34, 32, 115, 121, 109, 98, 111, 108,
        61, 34, 97, 10, 98, 34] ++ [10] := by decide
  refine ⟨by decide, by decide, by decide, ?_, rfl⟩
  rintro ⟨body, hb, hn⟩
  rw [e] at hb
  have := List.append_inj_left' hb rfl
  rw [← this] at hn
  exact hn (by decide)

/-- C32: an input one of whose lines, as `fgets` cuts them and with the last
character removed, starts with `~EndLayerData` makes `a_gpspoint_read_file`
return TRUE, whatever was read before that line; when that line is the first
line of the input, nothing is read before it: the store is left as it was and
the result is TRUE all the same. -/
theorem sentinel_line_reads_true {D : Type} (env : Env D) (latlon : LatLon D)
    (waypoints : List (Waypoint D)) (tracks : List (Track D)) (input : List Nat)
    (h : ∃ buf ∈ fgets_chunks input [], STR_EndLayerData <+: chop buf) :
    (∃ st, a_gpspoint_read_file env latlon waypoints tracks input = some st ∧
      st.have_read_something = true) ∧
    ∀ tail post : List Nat, 0 ∉ tail → 10 ∉ tail →
      (STR_EndLayerData ++ tail).length + 1 ≤ VIKING_LINE_SIZE - 1 →
      input = STR_EndLayerData ++ tail ++ 10 :: post →
      a_gpspoint_read_file env latlon waypoints tracks input =
        some { init_state env latlon waypoints tracks with have_read_something := true } := by
  constructor
  · have hv0 : current_track_valid (init_state env latlon waypoints tracks) := by
      intro k hk
      simp [init_state] at hk
    obtain ⟨st1, h1, hv1, _, hiff1⟩ := read_lines_size env
      (store_size (init_state env latlon waypoints tracks)) (fgets_chunks input [])
      (init_state env latlon waypoints tracks)
      (fgets_chunks_length_le input [] (by simp [VIKING_LINE_SIZE])) hv0 (le_refl _)
      (by simp [init_state])
    obtain ⟨_, e2, _⟩ := trackpoints_end_size st1 hv1
    refine ⟨trackpoints_end st1, ?_, ?_⟩
    · unfold a_gpspoint_read_file
      rw [h1]
      rfl
    · rw [e2, hiff1]
      right
      obtain ⟨buf, hb, hp⟩ := h
      exact ⟨buf, hb, (is_sentinel_iff_starts_with _).2 hp⟩
  · intro tail post h0 h10 hfit hin
    have hline : fgets_chunks (STR_EndLayerData ++ tail ++ 10 :: post) [] =
        (STR_EndLayerData ++ tail ++ [10]) :: fgets_chunks post [] := by
      have := fgets_chunks_line (STR_EndLayerData ++ tail) post
        (by simp only [List.mem_append, not_or]; exact ⟨by decide, h10⟩) []
        (by simpa using hfit)
      simpa using this
    have hclean : clean (STR_EndLayerData ++ tail) :=
      ⟨by simp only [List.mem_append, not_or]; exact ⟨by decide, h0⟩,
        by simp only [List.mem_append, not_or]; exact ⟨by decide, h10⟩⟩
    have hs : is_sentinel (chop (STR_EndLayerData ++ tail ++ [10])) := by
      rw [chop_line _ hclean, is_sentinel_iff_starts_with]
      exact List.prefix_append _ _
    unfold a_gpspoint_read_file
    rw [hin, hline]
    have e1 : read_lines env ((STR_EndLayerData ++ tail ++ [10]) :: fgets_chunks post [])
        (init_state env latlon waypoints tracks) =
        some { init_state env latlon waypoints tracks with have_read_something := true } := by
      rw [read_lines]
      exact if_pos hs
    rw [e1]
    rfl

/-- C32, witness: the input of the line `~EndLayerData` and two more lines
behind it: no waypoint, no track and no point is registered, and the result is
TRUE. -/
theorem sentinel_line_reads_true_witness :
    (∃ buf ∈ fgets_chunks (STR_EndLayerData ++ [] ++ 10 :: lines_after_sentinel) [],
      STR_EndLayerData <+: chop buf) ∧
    (a_gpspoint_read_file sample_env ⟨none, none⟩ [] []
        (STR_EndLayerData ++ [] ++ 10 :: lines_after_sentinel)).map
      (fun st => (st.have_read_something, st.waypoints, st.tracks)) = some (true, [], []) := by
  have hyp : ∃ buf ∈ fgets_chunks (STR_EndLayerData ++ [] ++ 10 :: lines_after_sentinel) [],
      STR_EndLayerData <+: chop buf :=
    ⟨STR_EndLayerData ++ [10], by decide, by decide⟩
  refine ⟨hyp, ?_⟩
  rw [(sentinel_line_reads_true sample_env ⟨none, none⟩ [] [] _ hyp).2 [] lines_after_sentinel
    (by decide) (by decide) (by decide) rfl]
  rfl

/-- C33 fails on the code: the tokenizer loop hands every token of a line to
the tag parser, whatever the first token is, and the record branches run after
the last token. The line `name="A" type="waypoint"`, whose first tag is the
name and not the type, has the tokens `name="A"` and `type="waypoint"`, gets
the record type waypoint and registers the waypoint `A`; the reader returns
TRUE on the file of that line. -/
theorem line_with_later_type_tag_is_read :
    (tokens_of_line name_first_waypoint_line).map (fun t => t.1.take t.2) =
      [[110, 97, 109, 101, 61, 34, 65, 34],
        [116, 121, 112, 101, 61, 34, 119, 97, 121, 112, 111, 105, 110, 116, 34]] ∧
    line_type_of sample_env name_first_waypoint_line sample_init.acc =
      some GPSPOINT_TYPE_WAYPOINT ∧
    (process_line sample_env name_first_waypoint_line sample_init).map
        (fun st => (st.waypoints.map (fun w => w.name), st.have_read_something)) =
      some ([some [65]], true) ∧
    (a_gpspoint_read_file sample_env ⟨none, none⟩ [] [] name_first_waypoint_file).map
        (fun st => (st.waypoints.map (fun w => w.name), st.tracks.length,
          st.have_read_something)) =
      some ([some [65]], 0, true) := by
  exact ⟨by decide, by decide, by decide, by decide⟩

/-- C34 fails on the code: on a node that has a previous node the function
returns the angle from the previous point to the point of the node, and on the
only node of a list it returns NAN, but on a first node that has a next node
the `else if ( mytrkpt->next )` branch reads `mytrkpt->prev->data`, with
`mytrkpt->prev` NULL, in place of `mytrkpt->next->data`: the call dereferences
a NULL pointer and returns no angle. So it is on the first node of the points
of the sample track `T`, which holds two points, while on its second node the
result is the angle from the first point to the second. -/
theorem heading_of_first_point_dereferences_null {D : Type} (env : Env D)
    (vik_coord_angle : LatLon D → LatLon D → D) :
    (∀ (p : Trackpoint D) (before : List (Trackpoint D)) (data : Trackpoint D)
        (after : List (Trackpoint D)),
      get_heading_from_trackpoint env vik_coord_angle
          { before := p :: before, data := data, after := after } =
        some (vik_coord_angle p.coord data.coord)) ∧
    (∀ data : Trackpoint D,
      get_heading_from_trackpoint env vik_coord_angle
          { before := [], data := data, after := [] } = some env.NAN) ∧
    (∀ (data n : Trackpoint D) (after : List (Trackpoint D)),
      ({ before := [], data := data, after := n :: after } : GListNode D).prev = none ∧
      ({ before := [], data := data, after := n :: after } : GListNode D).next.isSome = true ∧
      get_heading_from_trackpoint env vik_coord_angle
          { before := [], data := data, after := n :: after } = none) ∧
    (node_at sample_roundtrip_track.trackpoints 0).map
        (get_heading_from_trackpoint sample_env sample_angle) = some none ∧
    (node_at sample_roundtrip_track.trackpoints 1).map
        (get_heading_from_trackpoint sample_env sample_angle) = some (some (some [49, 62, 52])) := by
  exact ⟨fun _ _ _ _ => rfl, fun _ => rfl, fun _ _ _ => ⟨rfl, rfl, rfl⟩, by decide, by decide⟩

/-- C35: an empty text is written as `key=""` and is not read back. The
serializer writes a text field that is the empty string as the token
`key=""`; the tag parser hands that token to the dispatcher with the value
NULL, and for every key of the table other than `type` the `line_*` variables
stay as they are; the decoder returns NULL for a slice of length 0. A waypoint
that is otherwise written and read back, with the empty string as its name, is
written as one line, and that line, read at the start of a line, registers
nothing: the store, the open track and the result are as before. So is the
header line of such a track or route. -/
theorem empty_text_not_read_back {D : Type} (env : Env D) :
    (∀ key : List Nat, opt_text key (some []) = some (key ++ [61, 34, 34])) ∧
    (∀ (acc : Acc D) (key rest : List Nat), key ≠ [] → 61 ∉ key →
      gpspoint_process_tag env acc (key ++ [61, 34, 34] ++ rest) (key.length + 3) =
        gpspoint_process_key_and_value env acc (key ++ [61, 34, 34] ++ rest) key.length none 0) ∧
    (∀ (acc : Acc D) (i n : Nat) (key rest : List Nat), key_table[i]? = some (n, key) → i ≠ 0 →
      gpspoint_process_tag env acc (key ++ [61, 34, 34] ++ rest) (key.length + 3) = some acc) ∧
    (∀ str : List Nat, deslashndup str 0 = some none) ∧
    (∀ (wp : Waypoint D) (st : RState D), waypoint_ok env wp →
      st.acc = Acc.reset env st.acc →
      ∃ line st1, a_gpspoint_write_waypoint env { wp with name := some [] } = line ++ [10] ∧
        (32 :: (STR_name ++ [61, 34, 34])) <:+: line ∧
        process_line env line st = some st1 ∧ st1.waypoints = st.waypoints ∧
        st1.tracks = st.tracks ∧ st1.current_track = st.current_track ∧
        st1.have_read_something = st.have_read_something) ∧
    (∀ (trk : Track D) (st : RState D), track_ok env trk →
      st.acc = Acc.reset env st.acc →
      ∃ line st1, write_track_header env { trk with name := some [] } [] = line ++ [10] ∧
        (32 :: (STR_name ++ [61, 34, 34])) <:+: line ∧
        process_line env line st = some st1 ∧ st1.waypoints = st.waypoints ∧
        st1.tracks = st.tracks ∧ st1.current_track = st.current_track ∧
        st1.have_read_something = st.have_read_something) := by
  refine ⟨fun _ => rfl, ?_, ?_, fun _ => rfl, ?_, ?_⟩
  · intro acc key rest hkne hk
    have := process_tag_empty_quoted_field env acc key rest hkne hk
    simpa [quoted_field] using this
  · intro acc i n key rest hi h0
    have := process_tag_table_field_empty env acc i n key rest hi h0
    simpa [quoted_field] using this
  · intro wp st h hreset
    obtain ⟨hwf, hfit⟩ := waypoint_fields_empty_name env wp h
    obtain ⟨acc1, hacc, hty, hnm⟩ := line_acc_empty_name env STR_waypoint GPSPOINT_TYPE_WAYPOINT
      (waypoint_fields env wp []) st.acc (by decide) (fun _ => rfl)
      (scannable_of_entry_wf _ hwf) (waypoint_fields_shape env wp) hfit
    rw [← hreset] at hacc
    refine ⟨quoted_field STR_type STR_waypoint ++ tail_text (waypoint_fields env wp []),
      { st with acc := Acc.reset env acc1 }, rfl, ?_, ?_, rfl, rfl, rfl, rfl⟩
    · refine ⟨quoted_field STR_type STR_waypoint ++
        tail_text ((waypoint_fields env wp []).take 2),
        tail_text ((waypoint_fields env wp []).drop 3), ?_⟩
      simp [waypoint_fields, tail_text, quoted_field, slashdup, strlen, STR_name]
    · rw [process_line_eq_map, hacc]
      simp only [Option.map_some']
      rw [process_record_waypoint_no_name env { st with acc := acc1 } hty hnm]
  · intro trk st h hreset
    obtain ⟨hwf, hfit⟩ := track_fields_empty_name env trk h
    have hlit : ∀ b : Bool, ((if b then STR_route else STR_track) ≠ [] ∧
        escaped (if b then STR_route else STR_track) = (if b then STR_route else STR_track) ∧
        0 ∉ (if b then STR_route else STR_track)) ∧
        ∀ rest, type_of_value ((if b then STR_route else STR_track) ++ 34 :: rest)
          (if b then STR_route else STR_track).length =
          (if b then GPSPOINT_TYPE_ROUTE else GPSPOINT_TYPE_TRACK) := by
      intro b
      cases b
      · exact ⟨by decide, fun _ => rfl⟩
      · exact ⟨by decide, fun _ => rfl⟩
    obtain ⟨acc1, hacc, hty, hnm⟩ := line_acc_empty_name env
      (if trk.is_route then STR_route else STR_track)
      (if trk.is_route then GPSPOINT_TYPE_ROUTE else GPSPOINT_TYPE_TRACK)
      (track_fields env trk []) st.acc (hlit trk.is_route).1 (hlit trk.is_route).2
      (scannable_of_entry_wf _ hwf) (track_fields_shape env trk) hfit
    rw [← hreset] at hacc
    refine ⟨quoted_field STR_type (if trk.is_route then STR_route else STR_track) ++
        tail_text (track_fields env trk []),
      { st with acc := Acc.reset env acc1 }, rfl, ?_, ?_, rfl, rfl, rfl, rfl⟩
    · refine ⟨quoted_field STR_type (if trk.is_route then STR_route else STR_track),
        tail_text ((track_fields env trk []).drop 1), ?_⟩
      simp [track_fields, tail_text, quoted_field, slashdup, strlen, STR_name]
    · rw [process_line_eq_map, hacc]
      simp only [Option.map_some']
      rw [process_record_track_no_name env { st with acc := acc1 }
        (by rw [hty]; cases trk.is_route <;> simp) hnm]

set_option maxRecDepth 8000 in
/-- C35, witness: the sample waypoint and the sample track with the empty
string as their names are written, with the token `name=""`, and the file
written for them is read back without any waypoint and any track; the result
is FALSE. The waypoint `W` whose comment is the empty string is written with
the token `comment=""` and read back without a comment. -/
theorem empty_text_not_read_back_witness :
    (∃ line st1, a_gpspoint_write_waypoint sample_env empty_name_waypoint = line ++ [10] ∧
      (32 :: (STR_name ++ [61, 34, 34])) <:+: line ∧
      process_line sample_env line sample_init = some st1 ∧ st1.waypoints = [] ∧
      st1.have_read_something = false) ∧
    (∃ line st1, write_track_header sample_env empty_name_track [] = line ++ [10] ∧
      (32 :: (STR_name ++ [61, 34, 34])) <:+: line ∧
      process_line sample_env line sample_init = some st1 ∧ st1.tracks = [] ∧
      st1.current_track = none) ∧
    (a_gpspoint_read_file sample_env ⟨none, none⟩ [] []
        (a_gpspoint_write_file sample_env [empty_name_waypoint] [empty_name_track] [])).map
      (fun st => (st.waypoints.length, st.tracks.length, st.have_read_something)) =
        some (0, 0, false) ∧
    (a_gpspoint_read_file sample_env ⟨none, none⟩ [] []
        (a_gpspoint_write_file sample_env [empty_comment_waypoint] [] [])).map
      (fun st => st.waypoints.map (fun w => (w.name, w.comment))) = some [(some [87], none)] :=
  ⟨(let ⟨line, st1, h1, h2, h3, h4, _, _, h7⟩ :=
      (empty_text_not_read_back sample_env).2.2.2.2.1 sample_roundtrip_waypoint sample_init
        sample_roundtrip_waypoint_ok rfl
    ⟨line, st1, h1, h2, h3, h4, h7⟩),
    (let ⟨line, st1, h1, h2, h3, _, h5, h6, _⟩ :=
      (empty_text_not_read_back sample_env).2.2.2.2.2 sample_roundtrip_track sample_init
        sample_roundtrip_track_ok rfl
    ⟨line, st1, h1, h2, h3, h5, h6⟩),
    by decide, by decide⟩

/-- C36: a line whose record type is track or route and that gives no name,
read at the start of a line, is processed to its end and changes nothing but
the `line_*` variables: the store holds the same waypoints and the same
tracks, the open track is the same (it is not closed), and the result is as
before. When a track is open, every point line read after that line, up to
the next line of another kind, still puts one point on it, in front of the
points it already holds. -/
theorem nameless_track_line_keeps_open_track {D : Type} (env : Env D) (st : RState D)
    (line : List Nat) (hreset : st.acc = Acc.reset env st.acc)
    (htype : line_type_of env line st.acc = some GPSPOINT_TYPE_TRACK ∨
      line_type_of env line st.acc = some GPSPOINT_TYPE_ROUTE)
    (hname : line_name_of env line st.acc = some none) :
    ∃ st1, process_line env line st = some st1 ∧
      st1.tracks = st.tracks ∧ st1.waypoints = st.waypoints ∧
      st1.current_track = st.current_track ∧
      st1.have_read_something = st.have_read_something ∧
      ∀ (pre : List (Track D)) (trk : Track D),
        st.current_track = some pre.length → st.tracks = pre ++ [trk] →
        ∀ points : List (List Nat),
          (∀ l ∈ points, l.length < VIKING_LINE_SIZE ∧
            (line_type_of env l st.acc = some GPSPOINT_TYPE_TRACKPOINT ∨
              line_type_of env l st.acc = some GPSPOINT_TYPE_ROUTEPOINT)) →
          ∃ st2 pts, points.foldlM (fun s l => process_line env l s) st1 = some st2 ∧
            pts.length = points.length ∧
            st2.tracks = pre ++ [{ trk with trackpoints := pts ++ trk.trackpoints }] ∧
            st2.current_track = st.current_track ∧ st2.waypoints = st.waypoints := by
  unfold line_type_of at htype
  unfold line_name_of at hname
  cases hacc : line_acc env line st.acc with
  | none => rw [hacc] at hname; simp at hname
  | some acc1 =>
    rw [hacc] at htype hname
    simp only [Option.map_some', Option.some.injEq] at htype hname
    have h0 : st.acc.line_type = GPSPOINT_TYPE_NONE := by
      rw [hreset]
      rfl
    have hpl : process_line env line st = some { st with acc := Acc.reset env acc1 } := by
      rw [process_line_eq_map, hacc]
      simp only [Option.map_some']
      rw [process_record_track_no_name env { st with acc := acc1 } htype hname]
    refine ⟨_, hpl, rfl, rfl, rfl, rfl, ?_⟩
    intro pre trk hcur htr points hpts
    obtain ⟨s2, pts, hf, hlen, ht2, hc2, hw2⟩ := point_lines_fold env st.acc h0 pre
      st.waypoints points hpts { st with acc := Acc.reset env acc1 } trk rfl hcur htr rfl
    exact ⟨s2, pts, hf, hlen, ht2, by rw [hc2, hcur], hw2⟩

/-- C36, witness: read while the track `T` is open, the line `type="track"`
leaves `T` the open track and registers nothing, and the point line that
follows it puts its point on `T`; in the file `type="track" name="T"`, point,
`type="track"`, point, the track `T` holds both points and is the only
track. -/
theorem nameless_track_line_keeps_open_track_witness :
    (sample_open_track_state.acc = Acc.reset sample_env sample_open_track_state.acc ∧
      line_type_of sample_env nameless_track_line sample_open_track_state.acc =
        some GPSPOINT_TYPE_TRACK ∧
      line_name_of sample_env nameless_track_line sample_open_track_state.acc = some none) ∧
    (∃ st1 st2 pts, process_line sample_env nameless_track_line sample_open_track_state =
        some st1 ∧
      st1.tracks = sample_open_track_state.tracks ∧ st1.current_track = some 0 ∧
      [sample_point_line].foldlM (fun s l => process_line sample_env l s) st1 = some st2 ∧
      pts.length = 1 ∧
      st2.tracks = [{ sample_env.vik_track_new with name := some [84], trackpoints := pts }] ∧
      st2.current_track = some 0) ∧
    (a_gpspoint_read_file sample_env ⟨none, none⟩ [] [] nameless_track_between_points_file).map
        (fun st => st.tracks.map (fun t => (t.name, t.trackpoints.map (fun p => p.coord.lat)))) =
      some [(some [84], [some [49], some [51]])] :=
  have h := nameless_track_line_keeps_open_track sample_env sample_open_track_state
    nameless_track_line rfl (Or.inl (by decide)) (by decide)
  ⟨⟨rfl, by decide, by decide⟩,
    (let ⟨st1, h1, h2, _, h4, _, h6⟩ := h
     let ⟨st2, pts, g1, g2, g3, g4, _⟩ := h6 []
       { sample_env.vik_track_new with name := some [84] } rfl rfl [sample_point_line]
       (fun l hl => by
         rw [List.mem_singleton.1 hl]
         exact ⟨by decide, Or.inl (by decide)⟩)
     ⟨st1, st2, pts, h1, h2, h4, g1, g2,
       g3.trans (by simp [show sample_env.vik_track_new.trackpoints = [] from rfl]), g4⟩),
    by decide⟩

/-- C37: `line_latlon` is kept from one line to the next. After any line
`first`, whatever record it produced or did not produce, `line_latlon` is what
the tokens of `first` left in it; lines `mid` read after it that have no
latitude key (no longitude key) leave the latitude (the longitude) as `first`
left it; and a waypoint line with a name, or a point line read while a track
is open, that has no latitude key (no longitude key) either, registers its
waypoint or its point with that latitude (that longitude). -/
theorem latlon_kept_between_lines {D : Type} (env : Env D) (first : List Nat)
    (mid : List (List Nat)) (line : List Nat) (st0 st1 st2 : RState D)
    (h1 : process_line env first st0 = some st1)
    (h2 : mid.foldlM (fun s l => process_line env l s) st1 = some st2) :
    ∃ acc1, line_acc env first st0.acc = some acc1 ∧ st1.acc.line_latlon = acc1.line_latlon ∧
      ((∀ l ∈ mid, line_lacks_key l 8 STR_latitude) →
        st2.acc.line_latlon.lat = acc1.line_latlon.lat) ∧
      ((∀ l ∈ mid, line_lacks_key l 9 STR_longitude) →
        st2.acc.line_latlon.lon = acc1.line_latlon.lon) ∧
      (∀ N, line_type_of env line st2.acc = some GPSPOINT_TYPE_WAYPOINT →
        line_name_of env line st2.acc = some (some N) →
        ∃ st3 wp, process_line env line st2 = some st3 ∧
          st3.waypoints = st2.waypoints ++ [wp] ∧ wp.name = some N ∧
          ((∀ l ∈ mid, line_lacks_key l 8 STR_latitude) → line_lacks_key line 8 STR_latitude →
            wp.coord.lat = acc1.line_latlon.lat) ∧
          ((∀ l ∈ mid, line_lacks_key l 9 STR_longitude) → line_lacks_key line 9 STR_longitude →
            wp.coord.lon = acc1.line_latlon.lon)) ∧
      (∀ k, st2.current_track = some k →
        (line_type_of env line st2.acc = some GPSPOINT_TYPE_TRACKPOINT ∨
          line_type_of env line st2.acc = some GPSPOINT_TYPE_ROUTEPOINT) →
        ∃ st3 tp, process_line env line st2 = some st3 ∧
          st3.tracks =
            update_at (fun t => { t with trackpoints := tp :: t.trackpoints }) k st2.tracks ∧
          ((∀ l ∈ mid, line_lacks_key l 8 STR_latitude) → line_lacks_key line 8 STR_latitude →
            tp.coord.lat = acc1.line_latlon.lat) ∧
          ((∀ l ∈ mid, line_lacks_key l 9 STR_longitude) → line_lacks_key line 9 STR_longitude →
            tp.coord.lon = acc1.line_latlon.lon)) := by
  obtain ⟨acc1, ha1, he1⟩ := process_line_latlon env first st0 st1 h1
  have hlat : (∀ l ∈ mid, line_lacks_key l 8 STR_latitude) →
      st2.acc.line_latlon.lat = acc1.line_latlon.lat := by
    intro hm
    rw [lines_keep_component env (fun c => c.lat) (fun l => line_lacks_key l 8 STR_latitude)
      (fun l a b hl h => line_acc_lat env l a b hl h) mid st1 st2 hm h2, he1]
  have hlon : (∀ l ∈ mid, line_lacks_key l 9 STR_longitude) →
      st2.acc.line_latlon.lon = acc1.line_latlon.lon := by
    intro hm
    rw [lines_keep_component env (fun c => c.lon) (fun l => line_lacks_key l 9 STR_longitude)
      (fun l a b hl h => line_acc_lon env l a b hl h) mid st1 st2 hm h2, he1]
  refine ⟨acc1, ha1, he1, hlat, hlon, ?_, ?_⟩
  · intro N htype hname
    unfold line_type_of at htype
    unfold line_name_of at hname
    cases hacc : line_acc env line st2.acc with
    | none => rw [hacc] at htype; simp at htype
    | some acc3 =>
      rw [hacc] at htype hname
      simp only [Option.map_some', Option.some.injEq] at htype hname
      have hrec := process_record_waypoint env { st2 with acc := acc3 } htype
        (by simp only [hname]; simp)
      have hpl : process_line env line st2 =
          some { process_record env { st2 with acc := acc3 } with
            acc := Acc.reset env (process_record env { st2 with acc := acc3 }).acc } := by
        rw [process_line_eq_map, hacc]
        rfl
      refine ⟨_, build_waypoint env acc3, hpl, ?_, hname, ?_, ?_⟩
      · show (process_record env { st2 with acc := acc3 }).waypoints = _
        rw [hrec]
      · intro hm hl
        rw [← hlat hm, ← line_acc_lat env line st2.acc acc3 hl hacc]
        rfl
      · intro hm hl
        rw [← hlon hm, ← line_acc_lon env line st2.acc acc3 hl hacc]
        rfl
  · intro k hcur htype
    unfold line_type_of at htype
    cases hacc : line_acc env line st2.acc with
    | none => rw [hacc] at htype; simp at htype
    | some acc3 =>
      rw [hacc] at htype
      simp only [Option.map_some', Option.some.injEq] at htype
      refine ⟨_, build_trackpoint env acc3, process_line_point env line st2 acc3 k hacc htype hcur,
        rfl, ?_, ?_⟩
      · intro hm hl
        rw [← hlat hm, ← line_acc_lat env line st2.acc acc3 hl hacc]
        rfl
      · intro hm hl
        rw [← hlon hm, ← line_acc_lon env line st2.acc acc3 hl hacc]
        rfl

/-- C37, witness: the line `latitude="7" longitude="8"` registers nothing;
behind it and the line `# note`, the line `type="waypoint" name="B"`, which
has no coordinate, registers the waypoint `B` at latitude 7 and longitude 8.
In the file of the lines `type="waypoint" latitude="1" longitude="2" name="A"`
and `type="waypoint" name="B"`, whose first line registers a waypoint, `B` is
registered at latitude 1 and longitude 2. -/
theorem latlon_kept_between_lines_witness :
    (∃ st1 st2 st3 wp, process_line sample_env latlon_only_line sample_init = some st1 ∧
      st1.waypoints = [] ∧ st1.tracks = [] ∧
      [note_line].foldlM (fun s l => process_line sample_env l s) st1 = some st2 ∧
      process_line sample_env waypoint_without_latlon_line st2 = some st3 ∧
      st3.waypoints = st2.waypoints ++ [wp] ∧ wp.name = some [66] ∧
      wp.coord.lat = some [55] ∧ wp.coord.lon = some [56]) ∧
    (a_gpspoint_read_file sample_env ⟨none, none⟩ [] [] latlon_then_waypoint_file).map
        (fun st => st.waypoints.map (fun w => (w.name, w.coord))) =
      some [(some [66], ⟨some [55], some [56]⟩)] ∧
    (a_gpspoint_read_file sample_env ⟨none, none⟩ [] [] stale_latlon_file).map
        (fun st => st.waypoints.map (fun w => (w.name, w.coord))) =
      some [(some [65], ⟨some [49], some [50]⟩), (some [66], ⟨some [49], some [50]⟩)] := by
  have e1 : process_line sample_env latlon_only_line sample_init =
      some { sample_init with
        acc := { sample_init.acc with line_latlon := ⟨some [55], some [56]⟩ } } := by decide
  have e2 : [note_line].foldlM (fun s l => process_line sample_env l s)
      { sample_init with
        acc := { sample_init.acc with line_latlon := ⟨some [55], some [56]⟩ } } =
      some { sample_init with
        acc := { sample_init.acc with line_latlon := ⟨some [55], some [56]⟩ } } := by decide
  obtain ⟨acc1, ha1, _, _, _, hw, _⟩ := latlon_kept_between_lines sample_env latlon_only_line
    [note_line] waypoint_without_latlon_line sample_init _ _ e1 e2
  obtain ⟨st3, wp, g1, g2, g3, g4, g5⟩ := hw [66] (by decide) (by decide)
  have hacc : acc1 = { sample_init.acc with line_latlon := ⟨some [55], some [56]⟩ } := by
    have e : line_acc sample_env latlon_only_line sample_init.acc =
      some { sample_init.acc with line_latlon := ⟨some [55], some [56]⟩ } := by decide
    rw [e] at ha1
    exact (Option.some.inj ha1).symm
  have hm8 : ∀ l ∈ [note_line], line_lacks_key l 8 STR_latitude := by
    intro l hl
    rw [List.mem_singleton.1 hl]
    unfold line_lacks_key
    decide
  have hm9 : ∀ l ∈ [note_line], line_lacks_key l 9 STR_longitude := by
    intro l hl
    rw [List.mem_singleton.1 hl]
    unfold line_lacks_key
    decide
  refine ⟨⟨_, _, st3, wp, e1, rfl, rfl, e2, g1, g2, g3, ?_, ?_⟩, by decide, by decide⟩
  · rw [g4 hm8 (by unfold line_lacks_key; decide), hacc]
  · rw [g5 hm9 (by unfold line_lacks_key; decide), hacc]

/-- C38: the reader takes each result of `fgets`, as a string, without its last
character, whatever that character is. When whole lines `pre` are followed by
a final line `body` with a last character `c` that is not a line feed (the
input does not end with a line feed), `fgets` hands the final line over as it
is, the line that is tokenized is `body` (the character `c`, which may be the
closing double quote of the final token, is removed), and the reader returns
what it returns on the input in which `c` is replaced by a line feed. -/
theorem last_character_removed_unchecked {D : Type} (env : Env D) (latlon : LatLon D)
    (waypoints : List (Waypoint D)) (tracks : List (Track D)) (pre body : List Nat) (c : Nat)
    (hpre : pre = [] ∨ ∃ p, pre = p ++ [10]) (h0 : 0 ∉ body) (h10 : 10 ∉ body)
    (hc0 : c ≠ 0) (hc10 : c ≠ 10) (hfit : body.length + 1 ≤ VIKING_LINE_SIZE - 1) :
    (∀ buf : List Nat, 0 ∉ buf → chop buf = buf.dropLast) ∧
    fgets_chunks (pre ++ (body ++ [c])) [] = fgets_chunks pre [] ++ [body ++ [c]] ∧
    chop (body ++ [c]) = body ∧
    a_gpspoint_read_file env latlon waypoints tracks (pre ++ (body ++ [c])) =
      a_gpspoint_read_file env latlon waypoints tracks (pre ++ (body ++ [10])) := by
  have hlast : fgets_chunks (body ++ [c]) [] = [body ++ [c]] := by
    have := fgets_chunks_last (body ++ [c])
      (by simp only [List.mem_append, List.mem_singleton, not_or]; exact ⟨h10, fun h => hc10 h.symm⟩)
      [] (by simp) (by simpa using hfit)
    simpa using this
  have hline : fgets_chunks (body ++ [10]) [] = [body ++ [10]] := by
    have := fgets_chunks_line body [] h10 [] (by simpa using hfit)
    simpa [fgets_chunks] using this
  have hc1 : fgets_chunks (pre ++ (body ++ [c])) [] = fgets_chunks pre [] ++ [body ++ [c]] := by
    rcases hpre with rfl | ⟨p, rfl⟩
    · rw [List.nil_append, hlast]
      rfl
    · rw [List.append_assoc, List.singleton_append, fgets_chunks_append_line, hlast]
  have hc2 : fgets_chunks (pre ++ (body ++ [10])) [] = fgets_chunks pre [] ++ [body ++ [10]] := by
    rcases hpre with rfl | ⟨p, rfl⟩
    · rw [List.nil_append, hline]
      rfl
    · rw [List.append_assoc, List.singleton_append, fgets_chunks_append_line, hline]
  refine ⟨?_, hc1, chop_snoc body c h0 hc0, ?_⟩
  · intro buf hb
    unfold chop
    have : buf.takeWhile (fun x => x != 0) = buf := by
      rw [List.takeWhile_eq_self_iff]
      intro x hx
      have : x ≠ 0 := fun e => hb (e ▸ hx)
      simpa using this
    rw [this]
  · unfold a_gpspoint_read_file
    rw [hc1, hc2]
    rw [read_lines_congr_chop env (fgets_chunks pre [] ++ [body ++ [c]])
      (fgets_chunks pre [] ++ [body ++ [10]]) _
      (by simp only [List.map_append, List.map_cons, List.map_nil,
        chop_snoc body c h0 hc0, chop_snoc body 10 h0 (by decide)])]

/-- C38, witness: the input `type="waypoint" name="A"` without a line feed at
its end is read as the line `type="waypoint" name="A`: the name token has lost
its closing quote and is dropped, so no waypoint is registered and the result
is FALSE, whereas the same line followed by a line feed registers the waypoint
`A`. -/
theorem last_character_removed_unchecked_witness :
    chop unterminated_waypoint_file = unterminated_waypoint_file.dropLast ∧
    fgets_chunks unterminated_waypoint_file [] = [unterminated_waypoint_file] ∧
    (a_gpspoint_read_file sample_env ⟨none, none⟩ [] [] unterminated_waypoint_file).map
        (fun st => (st.waypoints.map (fun w => w.name), st.have_read_something)) =
      some ([], false) ∧
    (a_gpspoint_read_file sample_env ⟨none, none⟩ [] []
        (unterminated_waypoint_file ++ [10])).map
        (fun st => (st.waypoints.map (fun w => w.name), st.have_read_something)) =
      some ([some [65]], true) := by
  obtain ⟨g1, g2, _, g4⟩ := last_character_removed_unchecked sample_env ⟨none, none⟩ [] [] []
    unterminated_waypoint_file.dropLast 34 (Or.inl rfl) (by decide) (by decide) (by decide)
    (by decide) (by decide)
  refine ⟨g1 _ (by decide), g2, ?_, by decide⟩
  have e : ([] : List Nat) ++ (unterminated_waypoint_file.dropLast ++ [34]) =
      unterminated_waypoint_file := by decide
  rw [e] at g4
  rw [g4]
  decide

/-- C39: a token that begins with `#` ends the processing of its line,
wherever it stands. At every turn of the tokenizer loop, a token start that is
`#` ends the loop with the `line_*` variables as the tokens before it left
them, and no further token is cut. On a line of written tokens followed by
whitespace and a token that begins with `#`, the tag parser is applied to the
written tokens, in order, and to nothing behind them. A `#` inside a token does
not end the line: a token of plain characters that holds a `#` behind its first
character is cut out as one token and the loop goes on behind it; so is the
token `color=#rrggbb` of a written track header, which sets `line_color` to
`#rrggbb`, and the label modes and the visibility written behind it are
read. -/
theorem hash_token_ends_line {D : Type} (env : Env D) :
    (∀ (fuel : Nat) (ts : List Nat) (iq bs : Bool) (acc : Acc D),
      cget (skip_space ts) 0 = 35 →
      tag_loop env (fuel + 1) ts iq bs acc = some acc ∧ line_tokens (fuel + 1) ts iq bs = []) ∧
    (∀ (first : List Nat) (l : List (Option (List Nat))) (w : Nat) (ws junk : List Nat)
        (acc : Acc D),
      scannable first → (∀ tok, some tok ∈ l → scannable tok) → isspace w = true →
      (∀ c ∈ ws, isspace c = true) →
      line_acc env (first ++ (tail_text l ++ w :: (ws ++ 35 :: junk))) acc =
        (gpspoint_process_tag env acc (first ++ (tail_text l ++ w :: (ws ++ 35 :: junk)))
          first.length).bind (fold_tail_before env l (w :: (ws ++ 35 :: junk)))) ∧
    (∀ a b : List Nat, a ≠ [] → (∀ c ∈ a, plain_char c = true) →
      (∀ c ∈ b, plain_char c = true) → cget a 0 ≠ 35 → scannable (a ++ 35 :: b)) ∧
    (∀ (trk : Track D) (n : List Nat) (a : Acc D), trk.name = some n → track_ok env trk →
      trk.has_color = true →
      scannable (color_token trk.color) ∧
      cget ((color_token trk.color).drop 6) 0 = 35 ∧
      ((color_token trk.color).drop 6).length = 7 ∧
      ∃ line acc1, write_track_header env trk n = line ++ [10] ∧
        line_acc env line (Acc.reset env a) = some acc1 ∧
        acc1.line_color = some ((color_token trk.color).drop 6) ∧
        acc1.line_name_label = trk.draw_name_mode ∧
        acc1.line_dist_label = trk.max_number_dist_labels ∧
        acc1.line_visible = trk.visible) := by
  refine ⟨fun fuel ts iq bs acc h =>
      ⟨tag_loop_hash env fuel ts iq bs acc h, line_tokens_hash fuel ts iq bs h⟩, ?_, ?_, ?_⟩
  · intro first l w ws junk acc hfirst hl hw hws
    unfold line_acc
    rw [hfirst D env acc _ _ (token_boundary_tail_text_append l w _ hw)]
    congr 1
    funext x
    exact tag_loop_after_tail_text_hash env w ws junk hw hws l x _ hl (by simp; omega)
  · intro a b hne ha hb h35
    refine scannable_plain_token (a ++ 35 :: b) (by simp [hne]) ?_ ?_
    · intro c hc
      simp only [List.mem_append, List.mem_cons] at hc
      rcases hc with hc | rfl | hc
      · exact ha c hc
      · decide
      · exact hb c hc
    · obtain ⟨x, xs, rfl⟩ : ∃ x xs, a = x :: xs := by
        cases a with
        | nil => exact absurd rfl hne
        | cons x xs => exact ⟨x, xs, rfl⟩
      exact h35
  · intro trk n a hn h hcol
    obtain ⟨h1, h2, h3, h4, h5, h6, he, _⟩ := color_token_eq trk.color
    have hlit : ∀ b : Bool, ((if b then STR_route else STR_track) ≠ [] ∧
        escaped (if b then STR_route else STR_track) = (if b then STR_route else STR_track) ∧
        0 ∉ (if b then STR_route else STR_track)) ∧
        ∀ rest, type_of_value ((if b then STR_route else STR_track) ++ 34 :: rest)
          (if b then STR_route else STR_track).length =
          (if b then GPSPOINT_TYPE_ROUTE else GPSPOINT_TYPE_TRACK) := by
      intro b
      cases b
      · exact ⟨by decide, fun _ => rfl⟩
      · exact ⟨by decide, fun _ => rfl⟩
    refine ⟨scannable_color_token trk.color, by rw [he]; rfl, by rw [he]; rfl,
      quoted_field STR_type (if trk.is_route then STR_route else STR_track) ++
        tail_text (track_fields env trk n), _, rfl,
      track_line_acc_color env _ _ (hlit trk.is_route).1 (hlit trk.is_route).2 trk n hn h hcol a,
      rfl, rfl, rfl, rfl⟩

/-- C39, witness: on the line `type="waypoint" name="A" # name="B" latitude="5"`
the tokens `type="waypoint"` and `name="A"` count and the tokens behind the `#`
do not: the waypoint `A` is registered, without a latitude. On the line
`type="waypoint" #name="A"` the token that begins with `#` is not read and
nothing is registered. The header of the sample track, written with the token
`color=#ff0012`, is read with the colour text `#ff0012` and the label mode 1
that is written behind it. -/
theorem hash_token_ends_line_witness :
    line_acc sample_env comment_behind_tokens_line sample_init.acc =
      (gpspoint_process_tag sample_env sample_init.acc comment_behind_tokens_line 15).bind
        (fold_tail_before sample_env [some [110, 97, 109, 101, 61, 34, 65, 34]]
          [32, 35, 32, 110, 97, 109, 101, 61, 34, 66, 34, 32, 108, 97, 116, 105, 116, 117, 100,
            101, 61, 34, 53, 34]) ∧
    (process_line sample_env comment_behind_tokens_line sample_init).map
        (fun st => st.waypoints.map (fun wp => (wp.name, wp.coord.lat))) =
      some [(some [65], none)] ∧
    (process_line sample_env hash_token_line sample_init).map
        (fun st => (st.waypoints.length, st.have_read_something)) = some (0, false) ∧
    (∃ line acc1, write_track_header sample_env sample_roundtrip_track [84] = line ++ [10] ∧
      line_acc sample_env line (Acc.reset sample_env sample_init.acc) = some acc1 ∧
      acc1.line_color = some [35, 102, 102, 48, 48, 49, 50] ∧ acc1.line_name_label = 1) :=
  ⟨(hash_token_ends_line sample_env).2.1
      [116, 121, 112, 101, 61, 34, 119, 97, 121, 112, 111, 105, 110, 116, 34]
      [some [110, 97, 109, 101, 61, 34, 65, 34]] 32 []
      [32, 110, 97, 109, 101, 61, 34, 66, 34, 32, 108, 97, 116, 105, 116, 117, 100, 101, 61, 34,
        53, 34] sample_init.acc
      (scannable_quoted_field STR_type STR_waypoint 4 (by decide) (by decide))
      (fun tok ht => by
        rw [Option.some.inj (List.mem_singleton.1 ht)]
        exact scannable_quoted_field STR_name [65] 4 (by decide) (by decide))
      (by decide) (fun c hc => by cases hc),
    by decide, by decide,
    (let ⟨_, _, _, line, acc1, g1, g2, g3, g4, _, _⟩ :=
      (hash_token_ends_line sample_env).2.2.2 sample_roundtrip_track [84]
        sample_init.acc rfl sample_roundtrip_track_ok rfl
    ⟨line, acc1, g1, g2, g3, g4⟩)⟩

/-- C40 (amended). On a line of tokens with one space between two tokens, each
of which stands for itself (the tokenizer cuts it out as it is, whatever
follows it, and the tag parser does with it what it does with the token
alone) and is shorter than the line buffer, the order of the tokens does not
matter when their keys are pairwise different, compared without regard to
case: every reordering of the tokens leaves the same `line_*` variables behind
the tokenizer loop, hence the same record and the same reader state after the
line; the type token need not come first. Every written token `key="value"`
with a key of the table and an escaped value stands for itself, when the
number parsers stop at the closing quote. -/
theorem token_order_irrelevant {D : Type} (env : Env D) :
    (∀ (toks toks2 : List (List Nat)) (st : RState D), toks2.Perm toks →
      (∀ t ∈ toks, self_contained env t ∧ t.length < VIKING_LINE_SIZE) →
      toks.Pairwise keys_differ →
      line_acc env (join_tokens toks2) st.acc = line_acc env (join_tokens toks) st.acc ∧
      process_line env (join_tokens toks2) st = process_line env (join_tokens toks) st) ∧
    (stops_at_quote env → ∀ (i n : Nat) (key s : List Nat), key_table[i]? = some (n, key) →
      0 ∉ s → (escaped s).length < 65536 →
      self_contained env (quoted_field key (escaped s))) := by
  refine ⟨?_, fun hstop i n key s hi h0 hlen =>
    self_contained_quoted_field env hstop i n key s hi h0 hlen⟩
  intro toks toks2 st hperm hself hkeys
  have hself2 : ∀ t ∈ toks2, self_contained env t ∧ t.length < VIKING_LINE_SIZE :=
    fun t ht => hself t (hperm.mem_iff.1 ht)
  have hacc : line_acc env (join_tokens toks2) st.acc = line_acc env (join_tokens toks) st.acc := by
    rw [line_acc_join_tokens env toks2 st.acc hself2, line_acc_join_tokens env toks st.acc hself,
      fold_token_apply_perm env toks toks2 hperm hkeys]
  refine ⟨hacc, ?_⟩
  rw [process_line_eq_map, process_line_eq_map, hacc]

/-- C40, witness: the tokens `type="waypoint"`, `name="A"`, `latitude="5"` and
`visible="n"` in the reverse order, `visible="n" latitude="5" name="A"
type="waypoint"`, register the same waypoint as in the written order: the
hidden waypoint `A` at latitude 5. -/
theorem token_order_irrelevant_witness :
    (sample_line_tokens.reverse.Perm sample_line_tokens ∧
      sample_line_tokens.Pairwise keys_differ) ∧
    join_tokens sample_line_tokens.reverse =
      [118, 105, 115, 105, 98, 108, 101, 61, 34, 110, 34, 32, 108, 97, 116, 105, 116, 117, 100,
        101, 61, 34, 53, 34, 32, 110, 97, 109, 101, 61, 34, 65, 34, 32, 116, 121, 112, 101, 61,
        34, 119, 97, 121, 112, 111, 105, 110, 116, 34] ∧
    process_line sample_env (join_tokens sample_line_tokens.reverse) sample_init =
      process_line sample_env (join_tokens sample_line_tokens) sample_init ∧
    (process_line sample_env (join_tokens sample_line_tokens.reverse) sample_init).map
        (fun st => st.waypoints.map (fun w => (w.name, w.coord.lat, w.visible))) =
      some [(some [65], some [53], false)] := by
  have hself : ∀ t ∈ sample_line_tokens,
      self_contained sample_env t ∧ t.length < VIKING_LINE_SIZE := by
    have h2 := (token_order_irrelevant sample_env).2 sample_env_stops_at_quote
    intro t ht
    simp only [sample_line_tokens, List.mem_cons, List.mem_singleton, List.not_mem_nil,
      or_false] at ht
    rcases ht with rfl | rfl | rfl | rfl
    · exact ⟨h2 0 4 STR_type STR_waypoint rfl (by decide) (by decide), by decide⟩
    · exact ⟨h2 1 4 STR_name [65] rfl (by decide) (by decide), by decide⟩
    · exact ⟨h2 12 8 STR_latitude [53] rfl (by decide) (by decide), by decide⟩
    · exact ⟨h2 15 7 STR_visible [110] rfl (by decide) (by decide), by decide⟩
  have hperm : sample_line_tokens.reverse.Perm sample_line_tokens :=
    List.reverse_perm sample_line_tokens
  have hkeys : sample_line_tokens.Pairwise keys_differ := by decide
  exact ⟨⟨hperm, hkeys⟩, by decide,
    ((token_order_irrelevant sample_env).1 sample_line_tokens sample_line_tokens.reverse
      sample_init hperm hself hkeys).2,
    by decide⟩

/-- C40, counterexample: the line `type="waypoint" name="A" x="b` has the
tokens `type="waypoint"`, `name="A"` and `x="b`, whose keys are pairwise
different and none of which begins with `#`, and it registers the waypoint
`A`. With its last token put first, `x="b type="waypoint" name="A"`, the quote
that `x="b` opens swallows the tokens behind it: the line is one token,
nothing is registered and the result is FALSE. -/
theorem unclosed_quote_token_order_matters :
    (tokens_of_line open_last_token_line).map (fun t => t.1.take t.2) =
      [[116, 121, 112, 101, 61, 34, 119, 97, 121, 112, 111, 105, 110, 116, 34],
        [110, 97, 109, 101, 61, 34, 65, 34], [120, 61, 34, 98]] ∧
    (∀ t ∈ tokens_of_line open_last_token_line, cget t.1 0 ≠ 35) ∧
    List.Pairwise keys_differ
      [[116, 121, 112, 101, 61, 34, 119, 97, 121, 112, 111, 105, 110, 116, 34],
        [110, 97, 109, 101, 61, 34, 65, 34], [120, 61, 34, 98]] ∧
    open_last_token_line =
      join_tokens [[116, 121, 112, 101, 61, 34, 119, 97, 121, 112, 111, 105, 110, 116, 34],
        [110, 97, 109, 101, 61, 34, 65, 34], [120, 61, 34, 98]] ∧
    open_first_token_line =
      join_tokens [[120, 61, 34, 98],
        [116, 121, 112, 101, 61, 34, 119, 97, 121, 112, 111, 105, 110, 116, 34],
        [110, 97, 109, 101, 61, 34, 65, 34]] ∧
    (tokens_of_line open_first_token_line).map (fun t => t.2) = [29] ∧
    (process_line sample_env open_last_token_line sample_init).map
        (fun st => (st.waypoints.map (fun w => w.name), st.have_read_something)) =
      some ([some [65]], true) ∧
    (process_line sample_env open_first_token_line sample_init).map
        (fun st => (st.waypoints.map (fun w => w.name), st.have_read_something)) =
      some ([], false) := by
  exact ⟨by decide, by decide, by decide, by decide, by decide, by decide, by decide, by decide⟩

end Gpspoint
